import Mathlib

/-!
# DancherLink: host registry, codec negotiation and frame pacing

A shallow embedding of parts of the DancherLink streaming client
(`app/backend/autoupdatechecker.cpp`, `app/streaming/session.h`,
`app/streaming/session.cpp`,
`app/streaming/video/ffmpeg-renderers/pacer/pacer.cpp`,
`app/backend/computermanager.cpp`, `app/backend/computermanager.h`,
`app/backend/nvpairingmanager.cpp`) together with theorems about them.

C++ `int` values are modelled as `Int`; comparisons and the bitwise operators
`&`, `|` and `~` are applied to them, and on two's complement integers these
agree with `Int.land`, `Int.lor` and `Int.lnot`. Where a counter is incremented
(`pollsSinceLastAppListFetch`, `s_ResolutionDialogGeneration`) the result is
wrapped to 32 bits, and the theorems about it assume that the run is short
enough for the counter to stay in range.

Pairing is modelled as a function of the list of results the host gives to the
successive requests; the cryptographic primitives and the random bytes are
parameters. The negotiation of the video format takes the constants of
`Limelight.h` as a parameter.

The pacer is modelled as a state and a sequence of events, each event being one
call that runs to its end before the next one starts; the only thing another
thread does inside a call is the `submitFrame` that ends the wait of
`handleVsync`. The mDNS resolution, the host monitor thread, the add task and
the resolution dialog of the session loop are modelled the same way, with what
the network, the host or SDL answer carried by the events or given as a
parameter.
-/

namespace DancherLink

/-! ## AutoUpdateChecker -/

namespace AutoUpdateChecker

/-- The body of the `for (int i = 0;; i++)` loop of
`AutoUpdateChecker::compareVersion`, started at index `i`. -/
def compareVersionFrom (version1 version2 : List Int) (i : Nat) : Int :=
  -- Treat missing decimal places as 0
  let v1Val : Int := if i < version1.length then version1.getD i 0 else 0
  let v2Val : Int := if i < version2.length then version2.getD i 0 else 0
  if version1.length ≤ i ∧ version2.length ≤ i then
    -- Equal versions
    0
  else if v1Val < v2Val then
    -1
  else if v1Val > v2Val then
    1
  else
    compareVersionFrom version1 version2 (i + 1)
termination_by max version1.length version2.length - i
decreasing_by omega

/-- `AutoUpdateChecker::compareVersion(version1, version2)`. -/
def compareVersion (version1 version2 : List Int) : Int :=
  compareVersionFrom version1 version2 0

/-- The words of the specification: a version padded with trailing zeros up to
length `n` ("comparing missing components as 0"). -/
def padZeros (n : Nat) (v : List Int) : List Int :=
  v ++ List.replicate (n - v.length) 0

/-- Lexicographic three-way comparison of two versions in which a component
missing from one of them reads as 0; the recursion follows the components
instead of an index. -/
def cmpZeroPadded : List Int → List Int → Int
  | [], [] => 0
  | a :: l₁, [] => if a < 0 then -1 else if a > 0 then 1 else cmpZeroPadded l₁ []
  | [], b :: l₂ => if 0 < b then -1 else if 0 > b then 1 else cmpZeroPadded [] l₂
  | a :: l₁, b :: l₂ => if a < b then -1 else if a > b then 1 else cmpZeroPadded l₁ l₂

/-- The three possible outcomes of a zero-padded comparison, each with the
lexicographic fact it stands for. -/
def CmpOutcome (r : Int) (p₁ p₂ : List Int) : Prop :=
  (r = -1 ∧ List.Lex (· < ·) p₁ p₂) ∨ (r = 0 ∧ p₁ = p₂) ∨ (r = 1 ∧ List.Lex (· < ·) p₂ p₁)

end AutoUpdateChecker

/-! ## SupportedVideoFormatList -/

namespace SupportedVideoFormatList

/-- The `while (i < this->length())` loop of
`SupportedVideoFormatList::removeByMask`, on the list `l` at index `i`.
`QList::value(i)` is `l.getD i 0`, `QList::removeAt(i)` is `l.eraseIdx i`. -/
def removeByMaskLoop (mask : Int) (l : List Int) (i : Nat) : List Int :=
  if i < l.length then
    if Int.land (l.getD i 0) mask ≠ 0 then
      removeByMaskLoop mask (l.eraseIdx i) i
    else
      removeByMaskLoop mask l (i + 1)
  else
    l
termination_by l.length - i
decreasing_by
  · simp only [List.length_eraseIdx]
    split <;> omega
  · omega

/-- `SupportedVideoFormatList::removeByMask(mask)`. -/
def removeByMask (mask : Int) (l : List Int) : List Int :=
  removeByMaskLoop mask l 0

/-- The `while (i < this->length())` loop of
`SupportedVideoFormatList::deprioritizeByMask`: `l` is the list itself,
`deprioritizedList` the local list that `takeAt(i)` results are appended to. -/
def deprioritizeByMaskLoop (mask : Int) (l deprioritizedList : List Int) (i : Nat) :
    List Int × List Int :=
  if i < l.length then
    if Int.land (l.getD i 0) mask ≠ 0 then
      deprioritizeByMaskLoop mask (l.eraseIdx i) (deprioritizedList ++ [l.getD i 0]) i
    else
      deprioritizeByMaskLoop mask l deprioritizedList (i + 1)
  else
    (l, deprioritizedList)
termination_by l.length - i
decreasing_by
  · simp only [List.length_eraseIdx]
    split <;> omega
  · omega

/-- `SupportedVideoFormatList::deprioritizeByMask(mask)`: the loop followed by
`this->append(std::move(deprioritizedList))`. -/
def deprioritizeByMask (mask : Int) (l : List Int) : List Int :=
  let r := deprioritizeByMaskLoop mask l [] 0
  r.1 ++ r.2

end SupportedVideoFormatList

/-! ## Pacer -/

namespace Pacer

/-- `#define MAX_QUEUED_FRAMES 4`. -/
def MAX_QUEUED_FRAMES : Nat := 4

/-- A decoded frame handle (`AVFrame*` wrapped in a `ScopedAVFrame`); frames are
told apart by a number. -/
abbrev AVFrame := Nat

/-- The members of `class Pacer` that the queue logic reads or writes, the two
`VIDEO_STATS` counters it increments, and bookkeeping that the C++ code does
not store (marked ghost). Every queue is a list with its front first. -/
structure State where
  m_RenderQueue : List AVFrame
  m_PacingQueue : List AVFrame
  m_PacingQueueHistory : List Int
  m_RenderQueueHistory : List Int
  /-- `m_VsyncSource != nullptr` (fixed by `initialize`). -/
  hasVsyncSource : Bool
  m_MaxVideoFps : Int
  m_DisplayFps : Int
  /-- `m_RendererAttributes & RENDERER_ATTRIBUTE_NO_BUFFERING`. -/
  noBuffering : Bool
  /-- `m_VideoStats->renderedFrames`. -/
  renderedFrames : Nat
  /-- `m_VideoStats->pacerDroppedFrames`. -/
  pacerDroppedFrames : Nat
  /-- The frame popped from the render queue by `renderOnMainThread` or
  `renderThread` whose `renderFrame` call has not run yet. -/
  rendering : Option AVFrame
  /-- Ghost: every frame passed to `submitFrame`, oldest first. -/
  submitted : List AVFrame
  /-- Ghost: every frame passed to `m_VsyncRenderer->renderFrame`, oldest first. -/
  renderedTrace : List AVFrame
  /-- Ghost: number of frames evicted by `dropFrameForEnqueue`. -/
  capEvictions : Nat
  /-- Ghost: `SDL_assert(queue.size() <= MAX_QUEUED_FRAMES)` has failed. -/
  assertionFailed : Bool
deriving DecidableEq, Repr

/-- The pacer right after `Pacer::initialize`: both queues and both histories
empty, the statistics zeroed. -/
def init (hasVsyncSource noBuffering : Bool) (maxVideoFps displayFps : Int) : State :=
  { m_RenderQueue := [], m_PacingQueue := [], m_PacingQueueHistory := [],
    m_RenderQueueHistory := [], hasVsyncSource := hasVsyncSource,
    m_MaxVideoFps := maxVideoFps, m_DisplayFps := displayFps, noBuffering := noBuffering,
    renderedFrames := 0, pacerDroppedFrames := 0, rendering := none, submitted := [],
    renderedTrace := [], capEvictions := 0, assertionFailed := false }

/-- `Pacer::dropFrameForEnqueue(queue)`: the queue afterwards and the dropped
frame, if any. -/
def dropFrameForEnqueue (queue : List AVFrame) : List AVFrame × Option AVFrame :=
  if queue.length = MAX_QUEUED_FRAMES then
    -- Drop the oldest frame
    (queue.tail, queue.head?)
  else
    (queue, none)

/-- Whether the `SDL_assert` at the top of `dropFrameForEnqueue` fails. -/
def dropFrameAssertFails (queue : List AVFrame) : Bool :=
  decide (¬ queue.length ≤ MAX_QUEUED_FRAMES)

/-- `Pacer::enqueueFrameForRenderingAndUnlock(frame)`. -/
def enqueueFrameForRenderingAndUnlock (frame : AVFrame) (p : State) : State :=
  let r := dropFrameForEnqueue p.m_RenderQueue
  { p with
    m_RenderQueue := r.1 ++ [frame]
    capEvictions := p.capEvictions + (if r.2.isSome then 1 else 0)
    assertionFailed := p.assertionFailed || dropFrameAssertFails p.m_RenderQueue }

/-- `Pacer::submitFrame(frame)`. -/
def submitFrame (frame : AVFrame) (p : State) : State :=
  let p := { p with submitted := p.submitted ++ [frame] }
  if p.hasVsyncSource then
    let r := dropFrameForEnqueue p.m_PacingQueue
    { p with
      m_PacingQueue := r.1 ++ [frame]
      capEvictions := p.capEvictions + (if r.2.isSome then 1 else 0)
      assertionFailed := p.assertionFailed || dropFrameAssertFails p.m_PacingQueue }
  else
    enqueueFrameForRenderingAndUnlock frame p

/-- The loop `while (queue.size() > frameDropTarget) { pop_front; pacerDroppedFrames++ }`
of `handleVsync` and `renderFrame`: the queue afterwards and the number of
frames dropped. -/
def catchUp (frameDropTarget : Nat) : List AVFrame → List AVFrame × Nat
  | [] => ([], 0)
  | f :: q =>
    if (f :: q).length > frameDropTarget then
      let r := catchUp frameDropTarget q
      (r.1, r.2 + 1)
    else
      (f :: q, 0)

/-- The first part of `Pacer::handleVsync`, up to the end of the catch-up loop:
the choice of `frameDropTarget`, the update of the pacing queue history and the
drop of frames from the front of the pacing queue. `QQueue::dequeue` is only
reached here on a non-empty history unless `m_DisplayFps / 2` is 0. -/
def vsyncCatchUp (p : State) : State :=
  -- If the queue length history entries are large, be strict
  let useHistory : Bool := decide (p.m_MaxVideoFps ≥ p.m_DisplayFps)
  let frameDropTarget : Nat :=
    if useHistory && p.m_PacingQueueHistory.any (fun e => decide (e ≤ 1)) then 3 else 1
  let history : List Int :=
    if useHistory then
      -- Keep a rolling 500 ms window of pacing queue history
      (if (p.m_PacingQueueHistory.length : Int) = Int.tdiv p.m_DisplayFps 2
        then p.m_PacingQueueHistory.tail else p.m_PacingQueueHistory)
        ++ [(p.m_PacingQueue.length : Int)]
    else p.m_PacingQueueHistory
  -- Catch up if we're several frames ahead
  let r := catchUp frameDropTarget p.m_PacingQueue
  { p with
    m_PacingQueueHistory := history
    m_PacingQueue := r.1
    pacerDroppedFrames := p.pacerDroppedFrames + r.2 }

/-- The last part of `Pacer::handleVsync`: place the first frame of the pacing
queue on the render queue. The C++ code only gets here with a non-empty pacing
queue. -/
def placeFirstFrameOnRenderQueue (p : State) : State :=
  match p.m_PacingQueue with
  | [] => p
  | frame :: q => enqueueFrameForRenderingAndUnlock frame { p with m_PacingQueue := q }

/-- `Pacer::handleVsync`. `wait` is the outcome of
`m_PacingQueueNotEmpty.wait(...)`, consulted only when the pacing queue is
empty after catching up: `none` when the wait timed out or the pacer is
stopping, `some f` when `submitFrame(f)` ran on the decoder thread during the
wait and woke this thread. -/
def handleVsync (wait : Option AVFrame) (p : State) : State :=
  let p := vsyncCatchUp p
  if p.m_PacingQueue.isEmpty then
    -- Wait for a frame to arrive or our V-sync timeout to expire
    match wait with
    | none => p
    | some f => placeFirstFrameOnRenderQueue (submitFrame f p)
  else
    placeFirstFrameOnRenderQueue p

/-- The pop of `Pacer::renderOnMainThread` and of `Pacer::renderThread`: when the
render queue is not empty its front is taken off and handed to `renderFrame`.
One thread does the pop and the `renderFrame` call in sequence, so there is no
pop while a popped frame still waits for its `renderFrame`. -/
def popRenderQueue (p : State) : State :=
  match p.rendering, p.m_RenderQueue with
  | none, frame :: q => { p with m_RenderQueue := q, rendering := some frame }
  | _, _ => p

/-- `Pacer::renderFrame(frame)` for the frame taken by `popRenderQueue`: the
renderer draws it, `renderedFrames` is incremented, then excess frames are
dropped from the front of the render queue. -/
def renderFrame (p : State) : State :=
  match p.rendering with
  | none => p
  | some frame =>
    let frameDropTarget : Nat :=
      if p.noBuffering then 1
      else if p.m_RenderQueueHistory.any (fun e => decide (e = 0)) then 2 else 0
    let history : List Int :=
      if p.noBuffering then p.m_RenderQueueHistory
      else
        -- Keep a rolling 500 ms window of render queue history
        (if (p.m_RenderQueueHistory.length : Int) = Int.tdiv p.m_MaxVideoFps 2
          then p.m_RenderQueueHistory.tail else p.m_RenderQueueHistory)
          ++ [(p.m_RenderQueue.length : Int)]
    -- Catch up if we're several frames ahead
    let r := catchUp frameDropTarget p.m_RenderQueue
    { p with
      rendering := none
      renderedTrace := p.renderedTrace ++ [frame]
      renderedFrames := p.renderedFrames + 1
      m_RenderQueueHistory := history
      m_RenderQueue := r.1
      pacerDroppedFrames := p.pacerDroppedFrames + r.2 }

/-- What can happen to a pacer: a call of `submitFrame` by the decoder, a V-sync
tick, a pop of the render queue, the `renderFrame` call for the popped frame. -/
inductive Event where
  | submitFrame (frame : AVFrame)
  | handleVsync (wait : Option AVFrame)
  | popRenderQueue
  | renderFrame
deriving DecidableEq, Repr

/-- One event. `handleVsync` is only ever called by the V-sync thread, which
`initialize` creates only when there is a V-sync source. -/
def step (p : State) : Event → State
  | .submitFrame frame => submitFrame frame p
  | .handleVsync wait => if p.hasVsyncSource then handleVsync wait p else p
  | .popRenderQueue => popRenderQueue p
  | .renderFrame => renderFrame p

/-- A finite sequence of events, in order. -/
def run (p : State) (events : List Event) : State :=
  events.foldl step p

/-- The queue `submitFrame` pushes to: the pacing queue when a V-sync source
exists, the render queue otherwise. -/
def destinationQueue (p : State) : List AVFrame :=
  if p.hasVsyncSource then p.m_PacingQueue else p.m_RenderQueue

/-- The queue `submitFrame` does not push to. -/
def otherQueue (p : State) : List AVFrame :=
  if p.hasVsyncSource then p.m_RenderQueue else p.m_PacingQueue

/-- The queue bound of the pacer: neither queue holds more than
`MAX_QUEUED_FRAMES` frames and the assertion of `dropFrameForEnqueue` has not
failed. -/
structure QueueBound (p : State) : Prop where
  pacing : p.m_PacingQueue.length ≤ MAX_QUEUED_FRAMES
  render : p.m_RenderQueue.length ≤ MAX_QUEUED_FRAMES
  noAssert : p.assertionFailed = false

/-- The order invariant of the pacer: without a V-sync source the pacing queue
stays empty, and the frames rendered so far, then the frame being rendered,
then the render queue, then the pacing queue, read in this order, form a
subsequence of the submitted frames. -/
structure FifoOrder (p : State) : Prop where
  pacingUnused : p.hasVsyncSource = false → p.m_PacingQueue = []
  sublist : (p.renderedTrace ++ p.rendering.toList ++ p.m_RenderQueue ++ p.m_PacingQueue).Sublist
    p.submitted

/-- The frame accounting of the pacer: every submitted frame is rendered,
dropped by a catch-up loop, evicted by `dropFrameForEnqueue`, queued, or being
rendered. -/
def Accounted (p : State) : Prop :=
  p.submitted.length =
    p.renderedFrames + p.pacerDroppedFrames + p.capEvictions +
      p.m_PacingQueue.length + p.m_RenderQueue.length + p.rendering.toList.length

/-- Five frames submitted to a pacer without a V-sync source (a 60 FPS stream
on a 60 Hz display) and no render tick in between. -/
def fiveFramesNoRender : State :=
  run (init false false 60 60)
    [.submitFrame 0, .submitFrame 1, .submitFrame 2, .submitFrame 3, .submitFrame 4]

end Pacer

/-! ## ComputerManager persistence -/

namespace ComputerManager

/-- The two `QSettings` arrays the host list is kept in: `SER_HOSTS` ("hosts",
the primary slot) and `SER_HOSTS_BACKUP` ("hostsbackup"). An array is the list
of its entries, so `beginReadArray` returns its length and a removed array is
`[]`. `σ` is the stored form of one host. -/
structure Settings (σ : Type) where
  hosts : List σ
  hostsbackup : List σ
deriving DecidableEq, Repr

/-- First step of the flush in `DelayedFlushThread::run`: every known host is
written to the backup location with `computer->serialize(settings, false)`.
`serialize` stands for `NvComputer::serialize`, whose second argument says
whether the cached app list is written too. -/
def writeBackup {Host σ : Type} (serialize : Host → Bool → σ) (knownHosts : List Host)
    (s : Settings σ) : Settings σ :=
  { s with hostsbackup := knownHosts.map (fun computer => serialize computer false) }

/-- Second step: `settings.remove(SER_HOSTS)`. -/
def removePrimary {σ : Type} (s : Settings σ) : Settings σ :=
  { s with hosts := [] }

/-- Third step: every known host is written to the primary location with
`computer->serialize(settings, true)`. -/
def writePrimary {Host σ : Type} (serialize : Host → Bool → σ) (knownHosts : List Host)
    (s : Settings σ) : Settings σ :=
  { s with hosts := knownHosts.map (fun computer => serialize computer true) }

/-- Fourth step: `settings.remove(SER_HOSTS_BACKUP)`. -/
def removeBackup {σ : Type} (s : Settings σ) : Settings σ :=
  { s with hostsbackup := [] }

/-- The four steps of one flush, in the order `DelayedFlushThread::run` takes
them. -/
def flushSteps {Host σ : Type} (serialize : Host → Bool → σ) (knownHosts : List Host) :
    List (Settings σ → Settings σ) :=
  [writeBackup serialize knownHosts, removePrimary, writePrimary serialize knownHosts,
    removeBackup]

/-- A flush that is cut off by a crash after its first `n` steps (a whole flush
when `n ≥ 4`). -/
def flushUntilCrash {Host σ : Type} (n : Nat) (serialize : Host → Bool → σ)
    (knownHosts : List Host) (s : Settings σ) : Settings σ :=
  ((flushSteps serialize knownHosts).take n).foldl (fun s f => f s) s

/-- The startup loader of the `ComputerManager` constructor: the hosts it
inflates, in array order. `inflate` stands for the constructor
`NvComputer(settings)`. -/
def loadHosts {Host σ : Type} (inflate : σ → Host) (s : Settings σ) : List Host :=
  -- If there's a hosts backup copy, restore the backup
  let hosts := s.hostsbackup.length
  if hosts = 0 then
    -- If there's no host backup, read from the primary location.
    s.hosts.map inflate
  else
    s.hostsbackup.map inflate

/-- The settings before a flush: the previous host list in the primary slot,
written there by the flush before, and no backup. -/
def settledSettings {Host σ : Type} (serialize : Host → Bool → σ) (previous : List Host) :
    Settings σ :=
  { hosts := previous.map (fun computer => serialize computer true), hostsbackup := [] }

end ComputerManager

/-! ## NvPairingManager -/

namespace NvPairingManager

/-- A `QByteArray`: its bytes, each a number below 256. -/
abbrev Bytes := List Nat

/-- The values of `NvPairingManager::PairState` that `pair` returns. -/
inductive PairState where
  | PAIRED
  | PIN_WRONG
  | FAILED
  | ALREADY_IN_PROGRESS
deriving DecidableEq, Repr

/-- `QCryptographicHash::Algorithm`, as far as `pair` uses it. -/
inductive HashAlgo where
  | Sha1
  | Sha256
deriving DecidableEq, Repr

/-- What `pair` reads from one XML answer of the host: the `status_code` of
the root element and the leaves `paired`, `plaincert`, `challengeresponse` and
`pairingsecret` (the last three hex-decoded by `getXmlStringFromHex`). A leaf
that is absent reads as the empty string or the empty byte array. -/
structure XmlReply where
  status_code : Int
  paired : String
  plaincert : Bytes
  challengeresponse : Bytes
  pairingsecret : Bytes
deriving DecidableEq, Repr

/-- The outcome of one `openConnectionToString` call: the request fails in the
transport, or the host answers with an XML document. -/
inductive HttpResult where
  | networkError
  | reply (xml : XmlReply)
deriving DecidableEq, Repr

/-- The two exceptions that leave `pair`: `QtNetworkReplyException` and
`GfeHttpResponseException` (with its status code). -/
inductive PairError where
  | network
  | gfe (statusCode : Int)
deriving DecidableEq, Repr

/-- The requests `pair` sends, named by the query they carry. -/
inductive Request where
  | getservercert (salt : Bytes)
  | clientchallenge (encryptedChallenge : Bytes)
  | serverchallengeresp (encryptedChallengeResponseHash : Bytes)
  | clientpairingsecret (clientPairingSecret : Bytes)
  | pairchallenge
  | unpair
deriving DecidableEq, Repr

/-- The OpenSSL and Qt primitives `pair` calls, and the client certificate's
signature bytes (`asnSignature` of `m_Cert`). `certIsNull` is
`QSslCertificate(bytes).isNull()`. -/
structure Crypto where
  hash : HashAlgo → Bytes → Bytes
  encrypt : Bytes → Bytes → Bytes
  decrypt : Bytes → Bytes → Bytes
  verifySignature : Bytes → Bytes → Bytes → Bool
  getSignatureFromPemCert : Bytes → Bytes
  signMessage : Bytes → Bytes
  certIsNull : Bytes → Bool
  clientCertSignature : Bytes

/-- The three results of `generateRandomBytes(16)` in one run of `pair`. -/
structure Randoms where
  salt : Bytes
  randomChallenge : Bytes
  clientSecretData : Bytes

/-- The connection during one run of `pair`: the outcomes the coming requests
will have, in order, and the requests sent so far. -/
structure Http where
  pending : List HttpResult
  sent : List Request

/-- Modelled from the spec: `NvHTTP::openConnectionToString`, whose body is in
nvhttp.cpp. The request is sent and its outcome is the next pending one; a
host that has stopped answering is a transport failure ("Transport failure
(timeout, reset, DNS, TLS): raises `TransportError`"). -/
def Http.openConnectionToString (http : Http) (request : Request) : HttpResult × Http :=
  match http.pending with
  | [] => (.networkError, { pending := [], sent := http.sent ++ [request] })
  | r :: rest => (r, { pending := rest, sent := http.sent ++ [request] })

/-- Modelled from the spec: `NvHTTP::verifyResponseStatus`, whose body is in
nvhttp.cpp ("XML `<root status_code="!=200">`: raises
`HostProtocolError{status, message}`"). -/
def verifyResponseStatus (xml : XmlReply) : Except PairError Unit :=
  if xml.status_code = 200 then .ok () else .error (.gfe xml.status_code)

/-- A pairing request as every stage of `pair` makes it:
`openConnectionToString` followed by `verifyResponseStatus`, either of which
can throw. -/
def Http.request (http : Http) (request : Request) : Except PairError XmlReply × Http :=
  match http.openConnectionToString request with
  | (.networkError, http) => (.error .network, http)
  | (.reply xml, http) =>
    match verifyResponseStatus xml with
    | .error e => (.error e, http)
    | .ok _ => (.ok xml, http)

/-- How one run of `pair` ends: the returned state or the exception thrown, the
value assigned to the caller's `serverCert` (`none` when `pair` never assigns
it) and the requests that were sent, in order. -/
structure PairRun where
  result : Except PairError PairState
  serverCert : Option Bytes
  sent : List Request

/-- The failure exits of `pair`: `openConnectionToString(..., "unpair", ...)`
followed by `return state`. The answer to `unpair` is not looked at, but the
call throws when the transport fails. -/
def unpairAndReturn (http : Http) (state : PairState) : PairRun :=
  match http.openConnectionToString .unpair with
  | (.networkError, http) => { result := .error .network, serverCert := none, sent := http.sent }
  | (.reply _, http) => { result := .ok state, serverCert := none, sent := http.sent }

/-- An exception leaving `pair`. -/
def throwFrom (http : Http) (e : PairError) : PairRun :=
  { result := .error e, serverCert := none, sent := http.sent }

/-- `NvPairingManager::saltPin(salt, pin)`, `pin` being `pin.toLatin1()`. -/
def saltPin (salt pin : Bytes) : Bytes :=
  [] ++ salt ++ pin

/-- The `QByteArray` built from a `const char*`: the bytes before the first
zero byte. -/
def fromCString (data : Bytes) : Bytes :=
  data.takeWhile (fun b => b != 0)

/-- `QByteArray::resize(size)` on a shorter or longer array, new bytes read as
0. -/
def resize (size : Nat) (data : Bytes) : Bytes :=
  (data ++ List.replicate (size - data.length) 0).take size

/-- The hash algorithm `pair` chooses for a server generation. -/
def hashAlgoFor (serverMajorVersion : Int) : HashAlgo :=
  if serverMajorVersion ≥ 7 then .Sha256 else .Sha1

/-- The `hashLength` that goes with it. -/
def hashLengthFor (serverMajorVersion : Int) : Nat :=
  if serverMajorVersion ≥ 7 then 32 else 20

/-- The AES key of `pair`:
`QByteArray aesKey = QCryptographicHash::hash(saltedPin, hashAlgo).constData();`
followed by `aesKey.truncate(16)`. -/
def aesKeyOf (c : Crypto) (serverMajorVersion : Int) (salt pin : Bytes) : Bytes :=
  (fromCString (c.hash (hashAlgoFor serverMajorVersion) (saltPin salt pin))).take 16

/-- Stage 5 of `pair` (the `pairchallenge` request over HTTPS) and the success
exit. -/
def stage5 (http : Http) (unverifiedServerCert : Bytes) : PairRun :=
  match http.request .pairchallenge with
  | (.error e, http) => throwFrom http e
  | (.ok pairChallengeXml, http) =>
    if pairChallengeXml.paired ≠ "1" then
      unpairAndReturn http .FAILED
    else
      { result := .ok .PAIRED, serverCert := some unverifiedServerCert, sent := http.sent }

/-- Stage 4 of `pair`: the client pairing secret is sent. -/
def stage4 (c : Crypto) (http : Http) (unverifiedServerCert clientSecretData : Bytes) :
    PairRun :=
  let clientPairingSecret := clientSecretData ++ c.signMessage clientSecretData
  match http.request (.clientpairingsecret clientPairingSecret) with
  | (.error e, http) => throwFrom http e
  | (.ok secretRespXml, http) =>
    if secretRespXml.paired ≠ "1" then
      unpairAndReturn http .FAILED
    else
      stage5 http unverifiedServerCert

/-- The two checks of stage 3 on the host's pairing secret, in the order `pair`
makes them, and what follows each. -/
def checkPairingSecret (c : Crypto) (hashAlgo : HashAlgo) (http : Http)
    (serverCertStr randomChallenge serverResponse clientSecretData pairingSecret : Bytes) :
    PairRun :=
  let serverSecret := pairingSecret.take 16
  let serverSignature := pairingSecret.drop 16
  if !c.verifySignature serverSecret serverSignature serverCertStr then
    -- MITM detected
    unpairAndReturn http .FAILED
  else
    let expectedResponseData :=
      randomChallenge ++ c.getSignatureFromPemCert serverCertStr ++ serverSecret
    if c.hash hashAlgo expectedResponseData ≠ serverResponse then
      -- Incorrect PIN
      unpairAndReturn http .PIN_WRONG
    else
      stage4 c http serverCertStr clientSecretData

/-- Stage 3 of `pair`: the challenge response hash is sent and the host's
pairing secret is checked. `challengeResponseData` is the decrypted
`challengeresponse` of stage 2; reading `hashLength` or 16 bytes from it stops
at its end here. -/
def stage3 (c : Crypto) (rnd : Randoms) (hashAlgo : HashAlgo) (hashLength : Nat)
    (aesKey : Bytes) (http : Http) (serverCertStr challengeResponseData : Bytes) : PairRun :=
  let clientSecretData := rnd.clientSecretData
  let serverResponse := challengeResponseData.take hashLength
  let challengeResponse :=
    (challengeResponseData.drop hashLength).take 16 ++ c.clientCertSignature ++ clientSecretData
  let paddedHash := resize 32 (c.hash hashAlgo challengeResponse)
  let encryptedChallengeResponseHash := c.encrypt paddedHash aesKey
  match http.request (.serverchallengeresp encryptedChallengeResponseHash) with
  | (.error e, http) => throwFrom http e
  | (.ok respXml, http) =>
    if respXml.paired ≠ "1" then
      unpairAndReturn http .FAILED
    else
      checkPairingSecret c hashAlgo http serverCertStr rnd.randomChallenge serverResponse
        clientSecretData respXml.pairingsecret

/-- Stage 2 of `pair`: the encrypted random challenge is sent. -/
def stage2 (c : Crypto) (rnd : Randoms) (hashAlgo : HashAlgo) (hashLength : Nat)
    (aesKey : Bytes) (http : Http) (serverCertStr : Bytes) : PairRun :=
  let encryptedChallenge := c.encrypt rnd.randomChallenge aesKey
  match http.request (.clientchallenge encryptedChallenge) with
  | (.error e, http) => throwFrom http e
  | (.ok challengeXml, http) =>
    if challengeXml.paired ≠ "1" then
      unpairAndReturn http .FAILED
    else
      stage3 c rnd hashAlgo hashLength aesKey http serverCertStr
        (c.decrypt challengeXml.challengeresponse aesKey)

/-- `NvPairingManager::pair(appVersion, pin, serverCert)`. `serverMajorVersion`
is `NvHTTP::parseQuad(appVersion).at(0)`, `pin` is `pin.toLatin1()` and
`responses` are the outcomes of the requests in the order they are made. -/
def pair (c : Crypto) (rnd : Randoms) (serverMajorVersion : Int) (pin : Bytes)
    (responses : List HttpResult) : PairRun :=
  let hashAlgo := hashAlgoFor serverMajorVersion
  let hashLength := hashLengthFor serverMajorVersion
  let aesKey := aesKeyOf c serverMajorVersion rnd.salt pin
  let http : Http := { pending := responses, sent := [] }
  match http.request (.getservercert rnd.salt) with
  | (.error e, http) => throwFrom http e
  | (.ok getCert, http) =>
    if getCert.paired ≠ "1" then
      -- Failed pairing at stage #1
      { result := .ok .FAILED, serverCert := none, sent := http.sent }
    else
      let serverCertStr := getCert.plaincert
      if serverCertStr = [] then
        -- Server likely already pairing
        unpairAndReturn http .ALREADY_IN_PROGRESS
      else if c.certIsNull serverCertStr then
        -- Failed to parse plaincert
        unpairAndReturn http .FAILED
      else
        stage2 c rnd hashAlgo hashLength aesKey http serverCertStr

/-- What `pair` does to the caller's `serverCert`: assigned `cert` together
with the result `PAIRED`, or not assigned together with any other ending. -/
def CertOutcome (r : PairRun) (cert : Bytes) : Prop :=
  (r.result = .ok .PAIRED ∧ r.serverCert = some cert) ∨
  (r.result ≠ .ok .PAIRED ∧ r.serverCert = none)

/-- The unpair discipline `pair` keeps once stage 1 has sent its request: a
failure that `pair` returns as a state comes right after an `unpair` request,
success and host-status errors come without any, and a transport error comes
without any or from the `unpair` request itself. -/
def UnpairDiscipline (r : PairRun) : Prop :=
  match r.result with
  | .ok .PAIRED => Request.unpair ∉ r.sent
  | .ok _ => r.sent.getLast? = some Request.unpair
  | .error (.gfe _) => Request.unpair ∉ r.sent
  | .error .network => Request.unpair ∉ r.sent ∨ r.sent.getLast? = some Request.unpair

/-- Stand-ins for the cryptographic primitives in concrete runs: the hash of
every input is `digest`, encryption and decryption leave the data as it is,
every certificate parses and the signature check answers `signatureOk`. -/
def stubCrypto (digest : Bytes) (signatureOk : Bool) : Crypto :=
  { hash := fun _ _ => digest
    encrypt := fun plaintext _ => plaintext
    decrypt := fun ciphertext _ => ciphertext
    verifySignature := fun _ _ _ => signatureOk
    getSignatureFromPemCert := fun _ => []
    signMessage := fun _ => []
    certIsNull := fun _ => false
    clientCertSignature := [] }

/-- Random values for concrete runs: the salt `00 .. 00 04` and two all-zero
16-byte arrays. -/
def fixedRandoms : Randoms :=
  { salt := [0, 0, 0, 0, 0, 0, 0, 0, 0, 0, 0, 0, 0, 0, 0, 4]
    randomChallenge := List.replicate 16 0
    clientSecretData := List.replicate 16 0 }

/-- The PIN "1234" in Latin-1. -/
def pin1234 : Bytes := [49, 50, 51, 52]

/-- SHA-256 of the salt `00 .. 00 04` followed by "1234":
`f4b8571c3339f352690015b6399fec3a9172df688b788a6c03d80ab23552ae27`. Its tenth
byte is 0. -/
def digestWithZeroByte : Bytes :=
  [244, 184, 87, 28, 51, 57, 243, 82, 105, 0, 21, 182, 57, 159, 236, 58,
   145, 114, 223, 104, 139, 120, 138, 108, 3, 216, 10, 178, 53, 82, 174, 39]

/-- An answer of the host with status 200, `<paired>1</paired>`, a one-byte
`plaincert` and the given `pairingsecret`. -/
def okReply (pairingsecret : Bytes) : XmlReply :=
  { status_code := 200, paired := "1", plaincert := [45], challengeresponse := [],
    pairingsecret := pairingsecret }

/-- What a failure exit of `pair` hands back, depending on the outcome of its
`unpair` request (the first of `rest`): the state when the host answers, the
transport exception otherwise. -/
def afterUnpair (rest : List HttpResult) (state : PairState) : Except PairError PairState :=
  match rest with
  | .reply _ :: _ => .ok state
  | _ => .error .network

end NvPairingManager

/-! ## ComputerManager address selection -/

namespace ComputerManager

/-- `QAbstractSocket::NetworkLayerProtocol`, as far as it is told apart here. -/
inductive NetworkLayerProtocol where
  | IPv4Protocol
  | IPv6Protocol
  | UnknownNetworkLayerProtocol
deriving DecidableEq, Repr

/-- A `QHostAddress`: the null address, an IPv4 address (a 32-bit number) or an
IPv6 address (a 128-bit number, the first byte of the address being the most
significant). -/
inductive QHostAddress where
  | null
  | ipv4 (a : Nat)
  | ipv6 (a : Nat)
deriving DecidableEq, Repr

/-- `QHostAddress::protocol()`. -/
def QHostAddress.protocol : QHostAddress → NetworkLayerProtocol
  | .null => .UnknownNetworkLayerProtocol
  | .ipv4 _ => .IPv4Protocol
  | .ipv6 _ => .IPv6Protocol

/-- `QHostAddress::isInSubnet(subnet, netmask)`: both addresses have the same
protocol and agree in their first `netmask` bits. -/
def QHostAddress.isInSubnet (address subnet : QHostAddress) (netmask : Nat) : Bool :=
  match address, subnet with
  | .ipv4 a, .ipv4 s => decide (netmask ≤ 32) && (a >>> (32 - netmask) == s >>> (32 - netmask))
  | .ipv6 a, .ipv6 s =>
    decide (netmask ≤ 128) && (a >>> (128 - netmask) == s >>> (128 - netmask))
  | _, _ => false

/-- `QHostAddress("fe80::")`. -/
def addr_fe80 : QHostAddress := .ipv6 (0xfe80 <<< 112)

/-- `QHostAddress("fec0::")`. -/
def addr_fec0 : QHostAddress := .ipv6 (0xfec0 <<< 112)

/-- `QHostAddress("fc00::")`. -/
def addr_fc00 : QHostAddress := .ipv6 (0xfc00 <<< 112)

/-- `QHostAddress("2002::")`. -/
def addr_2002 : QHostAddress := .ipv6 (0x2002 <<< 112)

/-- `QHostAddress("2001::")`. -/
def addr_2001 : QHostAddress := .ipv6 (0x2001 <<< 112)

/-- `ComputerManager::getBestGlobalAddressV6(addresses)`. -/
def getBestGlobalAddressV6 : List QHostAddress → QHostAddress
  | [] => .null
  | address :: rest =>
    if address.protocol = .IPv6Protocol then
      if address.isInSubnet addr_fe80 10 then
        -- Link-local
        getBestGlobalAddressV6 rest
      else if address.isInSubnet addr_fec0 10 then
        -- site-local
        getBestGlobalAddressV6 rest
      else if address.isInSubnet addr_fc00 7 then
        -- ULA
        getBestGlobalAddressV6 rest
      else if address.isInSubnet addr_2002 16 then
        -- 6to4
        getBestGlobalAddressV6 rest
      else if address.isInSubnet addr_2001 32 then
        -- Teredo
        getBestGlobalAddressV6 rest
      else
        address
    else
      getBestGlobalAddressV6 rest

/-- The words of the specification: an IPv6 address that lies in none of
fe80::/10 (fe80:: up to febf:ffff:...), fec0::/10 (fec0:: up to feff:ffff:...),
fc00::/7 (fc00:: up to fdff:ffff:...), 2002::/16 and 2001::/32
(2001:0:: up to 2001:0:ffff:...), each range given by its first address and
the first address after it. -/
def isGlobalV6 : QHostAddress → Bool
  | .ipv6 a =>
    !(decide (0xfe80 <<< 112 ≤ a ∧ a < 0xfec0 <<< 112)) &&
    !(decide (0xfec0 <<< 112 ≤ a ∧ a < 0xff00 <<< 112)) &&
    !(decide (0xfc00 <<< 112 ≤ a ∧ a < 0xfe00 <<< 112)) &&
    !(decide (0x2002 <<< 112 ≤ a ∧ a < 0x2003 <<< 112)) &&
    !(decide (0x20010000 <<< 96 ≤ a ∧ a < 0x20010001 <<< 96))
  | _ => false

end ComputerManager

/-! ## AutoUpdateChecker manifest -/

namespace AutoUpdateChecker

/-- A `QJsonValue` as the manifest loop tells values apart: a string, or any
other JSON value. -/
inductive QJsonValue where
  | string (s : String)
  | other
deriving DecidableEq, Repr

/-- One element of the manifest array: a JSON object (its members by key) or
something that is not an object. -/
inductive ManifestEntry where
  | object (members : List (String × QJsonValue))
  | notObject
deriving DecidableEq, Repr

/-- The signal `onUpdateManifestReceived` ends with. -/
inductive Outcome where
  | updateAvailable (newVersion url : String)
  | noUpdateAvailable
  | updateCheckFailed (errorMessage : String)
deriving DecidableEq, Repr

/-- What the checker knows about the client: `QSysInfo::buildCpuArchitecture()`,
`getPlatform()`, `QSysInfo::kernelVersion()`, `m_CurrentVersionQuad`, and
`QString::toInt` (0 for a string that is no number). -/
structure Client where
  buildCpuArchitecture : String
  platform : String
  kernelVersion : String
  m_CurrentVersionQuad : List Int
  toInt : String → Int

/-- `AutoUpdateChecker::parseStringToVersionQuad` on an empty `version`. -/
def parseStringToVersionQuad (client : Client) (string : String) : List Int :=
  (string.splitOn ".").map client.toInt

/-- `QJsonObject::contains(key)`. -/
def contains (updateObj : List (String × QJsonValue)) (key : String) : Bool :=
  (updateObj.lookup key).isSome

/-- `updateObj[key].isString()`. -/
def isString (updateObj : List (String × QJsonValue)) (key : String) : Bool :=
  match updateObj.lookup key with
  | some (.string _) => true
  | _ => false

/-- `updateObj[key].toString()`. -/
def toString (updateObj : List (String × QJsonValue)) (key : String) : String :=
  match updateObj.lookup key with
  | some (.string s) => s
  | _ => ""

/-- The end of the loop body of `onUpdateManifestReceived` for the matching
entry: the comparison of the current version with the entry's version and the
signal that follows. -/
def reportEntry (client : Client) (updateObj : List (String × QJsonValue)) : Outcome :=
  let latestVersionQuad := parseStringToVersionQuad client (toString updateObj "version")
  let res := compareVersion client.m_CurrentVersionQuad latestVersionQuad
  if res < 0 then
    .updateAvailable (toString updateObj "version") (toString updateObj "browser_url")
  else if res > 0 then
    .noUpdateAvailable
  else
    .noUpdateAvailable

/-- The `for (QJsonValueRef updateEntry : array)` loop of
`onUpdateManifestReceived` and the failure after it. -/
def manifestLoop (client : Client) : List ManifestEntry → Outcome
  | [] => .updateCheckFailed "No update entry found for this platform"
  | .notObject :: rest => manifestLoop client rest
  | .object updateObj :: rest =>
    if !contains updateObj "platform" || !contains updateObj "arch" ||
        !contains updateObj "version" || !contains updateObj "browser_url" then
      -- Update manifest entry missing vital field
      manifestLoop client rest
    else if !isString updateObj "platform" || !isString updateObj "arch" ||
        !isString updateObj "version" || !isString updateObj "browser_url" then
      -- Update manifest entry has unexpected vital field type
      manifestLoop client rest
    else if toString updateObj "arch" = client.buildCpuArchitecture ∧
        toString updateObj "platform" = client.platform then
      -- Check the kernel version minimum if one exists
      if contains updateObj "kernel_version_at_least" &&
          isString updateObj "kernel_version_at_least" then
        let requiredVersionQuad :=
          parseStringToVersionQuad client (toString updateObj "kernel_version_at_least")
        let actualVersionQuad := parseStringToVersionQuad client client.kernelVersion
        if compareVersion actualVersionQuad requiredVersionQuad < 0 then
          -- Skipping manifest entry due to kernel version
          manifestLoop client rest
        else
          reportEntry client updateObj
      else
        reportEntry client updateObj
    else
      manifestLoop client rest

/-- `AutoUpdateChecker::onUpdateManifestReceived` from the point where the
manifest has been parsed into `array`. -/
def onUpdateManifestReceived (client : Client) (array : List ManifestEntry) : Outcome :=
  if array.isEmpty then
    .updateCheckFailed "Update manifest is empty"
  else
    manifestLoop client array

/-- The words of the specification: an entry qualifies when it is an object
with string fields `platform`, `arch`, `version` and `browser_url`, its `arch`
and `platform` equal the client's, and its `kernel_version_at_least`, if it
has one (a string), is not greater than the running kernel version under
`compareVersion`. -/
def qualifies (client : Client) : ManifestEntry → Bool
  | .notObject => false
  | .object o =>
    isString o "platform" && isString o "arch" && isString o "version" &&
    isString o "browser_url" &&
    decide (toString o "arch" = client.buildCpuArchitecture) &&
    decide (toString o "platform" = client.platform) &&
    (if isString o "kernel_version_at_least" then
      decide (compareVersion
        (parseStringToVersionQuad client (toString o "kernel_version_at_least"))
        (parseStringToVersionQuad client client.kernelVersion) ≤ 0)
    else true)

/-- The words of the specification: `updateAvailable` exactly when the entry's
version is newer than the current version, `noUpdateAvailable` otherwise. -/
def verdict (client : Client) : ManifestEntry → Outcome
  | .notObject => .noUpdateAvailable
  | .object o =>
    if compareVersion (parseStringToVersionQuad client (toString o "version"))
        client.m_CurrentVersionQuad > 0 then
      .updateAvailable (toString o "version") (toString o "browser_url")
    else
      .noUpdateAvailable

end AutoUpdateChecker

/-! ## Session: negotiation of the video format -/

/-- The constants of `Limelight.h` (moonlight-common-c) that `session.h` and
`session.cpp` use: the video formats, the masks over them, the server codec
mode bits and the masks over those. The header is not part of the
application's sources, so the definitions below take the constants from a
value of this type. -/
structure Limelight where
  VIDEO_FORMAT_H264 : Int
  VIDEO_FORMAT_H264_HIGH8_444 : Int
  VIDEO_FORMAT_H265 : Int
  VIDEO_FORMAT_H265_MAIN10 : Int
  VIDEO_FORMAT_H265_REXT8_444 : Int
  VIDEO_FORMAT_H265_REXT10_444 : Int
  VIDEO_FORMAT_AV1_MAIN8 : Int
  VIDEO_FORMAT_AV1_MAIN10 : Int
  VIDEO_FORMAT_AV1_HIGH8_444 : Int
  VIDEO_FORMAT_AV1_HIGH10_444 : Int
  VIDEO_FORMAT_MASK_H264 : Int
  VIDEO_FORMAT_MASK_H265 : Int
  VIDEO_FORMAT_MASK_AV1 : Int
  VIDEO_FORMAT_MASK_10BIT : Int
  VIDEO_FORMAT_MASK_YUV444 : Int
  SCM_H264 : Int
  SCM_H264_HIGH8_444 : Int
  SCM_HEVC : Int
  SCM_HEVC_MAIN10 : Int
  SCM_HEVC_REXT8_444 : Int
  SCM_HEVC_REXT10_444 : Int
  SCM_AV1_MAIN8 : Int
  SCM_AV1_MAIN10 : Int
  SCM_AV1_HIGH8_444 : Int
  SCM_AV1_HIGH10_444 : Int
  SCM_MASK_AV1 : Int
  SCM_MASK_10BIT : Int
  SCM_MASK_YUV444 : Int

/-- The values `Limelight.h` of moonlight-common-c gives these constants; they
are used for the concrete runs only. -/
def limelight : Limelight :=
  { VIDEO_FORMAT_H264 := 0x0001
    VIDEO_FORMAT_H264_HIGH8_444 := 0x0004
    VIDEO_FORMAT_H265 := 0x0100
    VIDEO_FORMAT_H265_MAIN10 := 0x0200
    VIDEO_FORMAT_H265_REXT8_444 := 0x0400
    VIDEO_FORMAT_H265_REXT10_444 := 0x0800
    VIDEO_FORMAT_AV1_MAIN8 := 0x1000
    VIDEO_FORMAT_AV1_MAIN10 := 0x2000
    VIDEO_FORMAT_AV1_HIGH8_444 := 0x4000
    VIDEO_FORMAT_AV1_HIGH10_444 := 0x8000
    VIDEO_FORMAT_MASK_H264 := 0x000F
    VIDEO_FORMAT_MASK_H265 := 0x0F00
    VIDEO_FORMAT_MASK_AV1 := 0xF000
    VIDEO_FORMAT_MASK_10BIT := 0xAA00
    VIDEO_FORMAT_MASK_YUV444 := 0xCC04
    SCM_H264 := 0x00001
    SCM_H264_HIGH8_444 := 0x40000
    SCM_HEVC := 0x00100
    SCM_HEVC_MAIN10 := 0x00200
    SCM_HEVC_REXT8_444 := 0x80000
    SCM_HEVC_REXT10_444 := 0x100000
    SCM_AV1_MAIN8 := 0x10000
    SCM_AV1_MAIN10 := 0x20000
    SCM_AV1_HIGH8_444 := 0x200000
    SCM_AV1_HIGH10_444 := 0x400000
    SCM_MASK_AV1 := 0x630000
    SCM_MASK_10BIT := 0x520200
    SCM_MASK_YUV444 := 0x7C0000 }

namespace SupportedVideoFormatList

/-- `SupportedVideoFormatList::operator int()`: the bitwise or of all
candidates. -/
def toInt (l : List Int) : Int :=
  l.foldl (fun value v => Int.lor value v) 0

/-- Insertion into a `QMap<int, int>`, kept as the list of its entries in
ascending key order; an entry with the same key is replaced. -/
def qmapInsert (key value : Int) : List (Int × Int) → List (Int × Int)
  | [] => [(key, value)]
  | (k, v) :: rest =>
    if key < k then (key, value) :: (k, v) :: rest
    else if key = k then (key, value) :: rest
    else (k, v) :: qmapInsert key value rest

/-- The `mapping` of `maskByServerCodecModes`, in the order a `QMap` iterates
(ascending keys). -/
def mapping (K : Limelight) : List (Int × Int) :=
  [ (K.SCM_H264, K.VIDEO_FORMAT_H264),
    (K.SCM_H264_HIGH8_444, K.VIDEO_FORMAT_H264_HIGH8_444),
    (K.SCM_HEVC, K.VIDEO_FORMAT_H265),
    (K.SCM_HEVC_MAIN10, K.VIDEO_FORMAT_H265_MAIN10),
    (K.SCM_HEVC_REXT8_444, K.VIDEO_FORMAT_H265_REXT8_444),
    (K.SCM_HEVC_REXT10_444, K.VIDEO_FORMAT_H265_REXT10_444),
    (K.SCM_AV1_MAIN8, K.VIDEO_FORMAT_AV1_MAIN8),
    (K.SCM_AV1_MAIN10, K.VIDEO_FORMAT_AV1_MAIN10),
    (K.SCM_AV1_HIGH8_444, K.VIDEO_FORMAT_AV1_HIGH8_444),
    (K.SCM_AV1_HIGH10_444, K.VIDEO_FORMAT_AV1_HIGH10_444) ].foldl
    (fun m e => qmapInsert e.1 e.2 m) []

/-- One step of the loop of `maskByServerCodecModes` on the pair
`(mask, serverCodecModes)`. -/
def maskStep (acc : Int × Int) (it : Int × Int) : Int × Int :=
  if Int.land acc.2 it.1 ≠ 0 then
    (Int.lor acc.1 it.2, Int.land acc.2 (Int.lnot it.1))
  else
    acc

/-- `SupportedVideoFormatList::maskByServerCodecModes(serverCodecModes)` on the
list `l`. -/
def maskByServerCodecModes (K : Limelight) (l : List Int) (serverCodecModes : Int) : Int :=
  let mask := ((mapping K).foldl maskStep (0, serverCodecModes)).1
  Int.land (toInt l) mask

end SupportedVideoFormatList

namespace Session

open SupportedVideoFormatList

/-- `StreamingPreferences::VideoCodecConfig`. -/
inductive VideoCodecConfig where
  | VCC_AUTO
  | VCC_FORCE_H264
  | VCC_FORCE_HEVC
  | VCC_FORCE_HEVC_HDR_DEPRECATED
  | VCC_FORCE_AV1
deriving DecidableEq, Repr

/-- `StreamingPreferences::VideoDecoderSelection`. -/
inductive VideoDecoderSelection where
  | VDS_AUTO
  | VDS_FORCE_HARDWARE
  | VDS_FORCE_SOFTWARE
deriving DecidableEq, Repr

/-- `Session::DecoderAvailability`. -/
inductive DecoderAvailability where
  | None
  | Software
  | Hardware
deriving DecidableEq, Repr

/-- The preferences that `initialize` and `validateLaunch` read. -/
structure Preferences where
  videoCodecConfig : VideoCodecConfig
  videoDecoderSelection : VideoDecoderSelection
  enableHdr : Bool
  enableYUV444 : Bool
  configurationWarnings : Bool
  absoluteMouseMode : Bool
deriving DecidableEq, Repr

/-- The fields of the host record (`NvComputer`) that `validateLaunch` reads;
`gfeVersionBelow3` is `gfeVersion.isEmpty() || gfeVersion.startsWith("2.")`. -/
structure NvComputer where
  isSupportedServerVersion : Bool
  serverCodecModeSupport : Int
  maxLumaPixelsHEVC : Int
  gfeVersionBelow3 : Bool
  isNvidiaServerSoftware : Bool
deriving DecidableEq, Repr

/-- What negotiation asks of its surroundings: the decoder probe
`getDecoderAvailability(testWindow, videoDecoderSelection, videoFormat, width,
height, fps)` as a function of the format and the stream size, the frame rate,
whether the app is a collector game, the outcomes of `testAudio`, whether a
gamepad is unmapped, whether `populateDecoderProperties` succeeds, and the two
build conditions that change the codec policy. -/
structure Environment where
  getDecoderAvailability : Int → Int → Int → Int → DecoderAvailability
  fps : Int
  isAppCollectorGame : Bool
  audioTestPassed : Bool
  surroundRequested : Bool
  stereoTestPassed : Bool
  hasUnmappedGamepads : Bool
  populateDecoderProperties : Bool
  /-- The condition of the `#if` that adds `|| !enableHdr` to the AV1 test
  (not Windows, and macOS, not UNIX, or an x86 processor). -/
  av1DeprioritizedWithoutHdr : Bool
  /-- macOS with a GFE version below 3.11. -/
  darwinOldGfe : Bool

/-- The texts passed to `emitLaunchWarning`, one name per text. -/
inductive LaunchWarning where
  | remoteDesktopMouseMode
  | forcedSoftwareDecoding
  | hostCannotEncodeAv1
  | softwareDecodingForcedAv1
  | hostCannotEncodeHevc
  | softwareDecodingForcedHevc
  | softwareDecodingForcedH264
  | hostAndClientCodecsDiffer
  | clientCannotDecodeH264
  | hdrNotSupportedWithH264
  | clientCannotDecode10Bit
  | hostCannotStreamHdr
  | clientCannotDecodeAv1Main10
  | softwareDecodingForcedHdr
  | clientCannotDecodeHevcMain10
  | hostAndClientHdrCodecsDiffer
  | hostCannotStreamYuv444
  | hostCannotStreamYuv444ForCodec
  | softwareDecodingForcedYuv444
  | clientCannotDecodeYuv444ForCodec
  | gfe3RequiredFor4K
  | surroundNotSupported
  | audioUnavailable
  | unmappedGamepad
deriving DecidableEq, Repr

/-- The texts passed to `displayLaunchError`. -/
inductive LaunchError where
  | unsupportedServerVersion
  | over4KUnsupportedByHost
  | over4KUnsupportedByH264
  | forcedHardwareDecodingAuto
  | forcedHardwareDecodingCodec
deriving DecidableEq, Repr

/-- The members of `Session` that negotiation changes. -/
structure Launch where
  m_SupportedVideoFormats : List Int
  m_LaunchWarnings : List LaunchWarning
  width : Int
  height : Int
deriving DecidableEq, Repr

/-- `Session::emitLaunchWarning(text)`. -/
def emitLaunchWarning (prefs : Preferences) (text : LaunchWarning) (st : Launch) : Launch :=
  if prefs.configurationWarnings then
    { st with m_LaunchWarnings := st.m_LaunchWarnings ++ [text] }
  else st

/-- `if (condition) emitLaunchWarning(text)`. -/
def warnIf (prefs : Preferences) (condition : Bool) (text : LaunchWarning) (st : Launch) :
    Launch :=
  if condition then emitLaunchWarning prefs text st else st

/-- The decoder probe at the current stream size. -/
def probe (env : Environment) (st : Launch) (videoFormat : Int) : DecoderAvailability :=
  env.getDecoderAvailability videoFormat st.width st.height env.fps

/-- The candidate list `initialize` starts from, highest priority first. -/
def initialFormats (K : Limelight) : List Int :=
  [K.VIDEO_FORMAT_AV1_HIGH10_444, K.VIDEO_FORMAT_AV1_MAIN10, K.VIDEO_FORMAT_H265_REXT10_444,
   K.VIDEO_FORMAT_H265_MAIN10, K.VIDEO_FORMAT_AV1_HIGH8_444, K.VIDEO_FORMAT_AV1_MAIN8,
   K.VIDEO_FORMAT_H265_REXT8_444, K.VIDEO_FORMAT_H265, K.VIDEO_FORMAT_H264_HIGH8_444,
   K.VIDEO_FORMAT_H264]

/-- The `VCC_AUTO` case of the codec switch in `Session::initialize`. -/
def applyAutoCodecPolicy (K : Limelight) (prefs : Preferences) (env : Environment)
    (st : Launch) : Launch :=
  let hevcDA₀ := probe env st
    (if prefs.enableYUV444 then
      (if prefs.enableHdr then K.VIDEO_FORMAT_H265_REXT10_444 else K.VIDEO_FORMAT_H265_REXT8_444)
    else
      (if prefs.enableHdr then K.VIDEO_FORMAT_H265_MAIN10 else K.VIDEO_FORMAT_H265))
  let av1DA := probe env st
    (if prefs.enableYUV444 then K.VIDEO_FORMAT_AV1_HIGH10_444 else K.VIDEO_FORMAT_AV1_MAIN10)
  let no10BitHevc : Bool := hevcDA₀ == .None && prefs.enableHdr
  let no10BitAv1 : Bool := no10BitHevc && av1DA == .None
  -- Remove all 10-bit HEVC profiles
  let l := if no10BitHevc then
      removeByMask (Int.land K.VIDEO_FORMAT_MASK_H265 K.VIDEO_FORMAT_MASK_10BIT)
        st.m_SupportedVideoFormats
    else st.m_SupportedVideoFormats
  -- Remove all 10-bit AV1 profiles
  let l := if no10BitAv1 then
      removeByMask (Int.land K.VIDEO_FORMAT_MASK_AV1 K.VIDEO_FORMAT_MASK_10BIT) l
    else l
  -- There are no available 10-bit profiles, so reprobe for 8-bit HEVC
  let hevcDA := if no10BitAv1 then
      probe env st
        (if prefs.enableYUV444 then K.VIDEO_FORMAT_H265_REXT8_444 else K.VIDEO_FORMAT_H265)
    else hevcDA₀
  -- Deprioritize HEVC unless the user forced software decoding and enabled HDR
  let l := if hevcDA != .Hardware &&
        (prefs.videoDecoderSelection != .VDS_FORCE_SOFTWARE || !prefs.enableHdr) then
      deprioritizeByMask K.VIDEO_FORMAT_MASK_H265 l
    else l
  -- Deprioritize AV1 unless we can't hardware decode HEVC, and have HDR enabled
  let l := if hevcDA == .Hardware || (env.av1DeprioritizedWithoutHdr && !prefs.enableHdr) then
      deprioritizeByMask K.VIDEO_FORMAT_MASK_AV1 l
    else l
  -- Disabling HEVC on macOS due to old GFE version
  let l := if env.darwinOldGfe then removeByMask K.VIDEO_FORMAT_MASK_H265 l else l
  { st with m_SupportedVideoFormats := l }

/-- The `switch (m_Preferences->videoCodecConfig)` of `Session::initialize`. -/
def applyCodecPolicy (K : Limelight) (prefs : Preferences) (env : Environment)
    (st : Launch) : Launch :=
  match prefs.videoCodecConfig with
  | .VCC_AUTO => applyAutoCodecPolicy K prefs env st
  | .VCC_FORCE_H264 =>
    { st with m_SupportedVideoFormats :=
        removeByMask (Int.lnot K.VIDEO_FORMAT_MASK_H264) st.m_SupportedVideoFormats }
  | .VCC_FORCE_HEVC | .VCC_FORCE_HEVC_HDR_DEPRECATED =>
    { st with m_SupportedVideoFormats :=
        removeByMask (Int.lnot K.VIDEO_FORMAT_MASK_H265) st.m_SupportedVideoFormats }
  | .VCC_FORCE_AV1 =>
    { st with m_SupportedVideoFormats :=
        (removeByMask (Int.lnot (Int.lor K.VIDEO_FORMAT_MASK_AV1 K.VIDEO_FORMAT_MASK_H265))
          st.m_SupportedVideoFormats) }

/-- The YUV 4:4:4 step of `Session::initialize`: mask off the 4:4:4 codecs if
the option is not enabled, deprioritize the 4:2:0 codecs otherwise. -/
def applyYuv444Preference (K : Limelight) (prefs : Preferences) (st : Launch) : Launch :=
  if !prefs.enableYUV444 then
    { st with m_SupportedVideoFormats :=
        removeByMask K.VIDEO_FORMAT_MASK_YUV444 st.m_SupportedVideoFormats }
  else
    { st with m_SupportedVideoFormats :=
        deprioritizeByMask (Int.lnot K.VIDEO_FORMAT_MASK_YUV444) st.m_SupportedVideoFormats }

/-- The HDR step of `Session::initialize`: mask off the 10-bit codecs if HDR is
not enabled, deprioritize the 8-bit codecs otherwise. -/
def applyHdrPreference (K : Limelight) (prefs : Preferences) (st : Launch) : Launch :=
  if !prefs.enableHdr then
    { st with m_SupportedVideoFormats :=
        removeByMask K.VIDEO_FORMAT_MASK_10BIT st.m_SupportedVideoFormats }
  else
    { st with m_SupportedVideoFormats :=
        deprioritizeByMask (Int.lnot K.VIDEO_FORMAT_MASK_10BIT) st.m_SupportedVideoFormats }

/-- The candidate list with which `initialize` calls `validateLaunch`. -/
def candidatesBeforeValidation (K : Limelight) (prefs : Preferences) (env : Environment)
    (width height : Int) : Launch :=
  applyHdrPreference K prefs
    (applyYuv444Preference K prefs
      (applyCodecPolicy K prefs env
        { m_SupportedVideoFormats := initialFormats K, m_LaunchWarnings := [],
          width := width, height := height }))

/-- The AV1 check of `Session::validateLaunch`. -/
def checkAv1 (K : Limelight) (prefs : Preferences) (computer : NvComputer) (env : Environment)
    (st : Launch) : Launch :=
  if Int.land (toInt st.m_SupportedVideoFormats) K.VIDEO_FORMAT_MASK_AV1 ≠ 0 then
    if maskByServerCodecModes K st.m_SupportedVideoFormats
        (Int.land computer.serverCodecModeSupport K.SCM_MASK_AV1) = 0 then
      let st := warnIf prefs (prefs.videoCodecConfig == .VCC_FORCE_AV1) .hostCannotEncodeAv1 st
      { st with m_SupportedVideoFormats :=
          removeByMask K.VIDEO_FORMAT_MASK_AV1 st.m_SupportedVideoFormats }
    else
      let st := warnIf prefs
        (!prefs.enableHdr && prefs.videoDecoderSelection == .VDS_AUTO &&
          prefs.videoCodecConfig != .VCC_AUTO &&
          probe env st K.VIDEO_FORMAT_AV1_MAIN8 != .Hardware)
        .softwareDecodingForcedAv1 st
      if prefs.videoCodecConfig = .VCC_FORCE_AV1 then
        { st with m_SupportedVideoFormats :=
            removeByMask (Int.lnot K.VIDEO_FORMAT_MASK_AV1) st.m_SupportedVideoFormats }
      else st
  else st

/-- The HEVC check of `Session::validateLaunch`. -/
def checkHevc (K : Limelight) (prefs : Preferences) (computer : NvComputer) (env : Environment)
    (st : Launch) : Launch :=
  if Int.land (toInt st.m_SupportedVideoFormats) K.VIDEO_FORMAT_MASK_H265 ≠ 0 then
    if computer.maxLumaPixelsHEVC = 0 then
      let st := warnIf prefs (prefs.videoCodecConfig == .VCC_FORCE_HEVC) .hostCannotEncodeHevc st
      { st with m_SupportedVideoFormats :=
          removeByMask K.VIDEO_FORMAT_MASK_H265 st.m_SupportedVideoFormats }
    else
      let st := warnIf prefs
        (!prefs.enableHdr && prefs.videoDecoderSelection == .VDS_AUTO &&
          prefs.videoCodecConfig != .VCC_AUTO &&
          probe env st K.VIDEO_FORMAT_H265 != .Hardware)
        .softwareDecodingForcedHevc st
      if prefs.videoCodecConfig = .VCC_FORCE_HEVC then
        { st with m_SupportedVideoFormats :=
            removeByMask (Int.lnot K.VIDEO_FORMAT_MASK_H265) st.m_SupportedVideoFormats }
      else st
  else st

/-- The H.264 software decoding warnings of `Session::validateLaunch`. -/
def checkH264 (K : Limelight) (prefs : Preferences) (computer : NvComputer) (env : Environment)
    (st : Launch) : Launch :=
  if Int.land (toInt st.m_SupportedVideoFormats) (Int.lnot K.VIDEO_FORMAT_MASK_H264) = 0 ∧
      prefs.videoDecoderSelection = .VDS_AUTO ∧
      probe env st K.VIDEO_FORMAT_H264 ≠ .Hardware then
    if prefs.videoCodecConfig = .VCC_FORCE_H264 then
      emitLaunchWarning prefs .softwareDecodingForcedH264 st
    else if computer.maxLumaPixelsHEVC = 0 ∧ probe env st K.VIDEO_FORMAT_H265 = .Hardware then
      emitLaunchWarning prefs .hostAndClientCodecsDiffer st
    else
      emitLaunchWarning prefs .clientCannotDecodeH264 st
  else st

/-- One of the two probes for an HDR-capable codec in `Session::validateLaunch`
(AV1 Main10, then HEVC Main10), with the flag
`displayedHdrSoftwareDecodeWarning` carried along. -/
def checkHdrCodec (K : Limelight) (prefs : Preferences) (computer : NvComputer)
    (env : Environment) (scmBit videoFormat : Int) (missing : LaunchWarning)
    (acc : Launch × Bool) : Launch × Bool :=
  let st := acc.1
  if maskByServerCodecModes K st.m_SupportedVideoFormats
      (Int.land computer.serverCodecModeSupport scmBit) ≠ 0 then
    let da := probe env st videoFormat
    if da = .None then
      let st := emitLaunchWarning prefs missing st
      ({ st with m_SupportedVideoFormats := removeByMask videoFormat st.m_SupportedVideoFormats },
        acc.2)
    else if da = .Software ∧ prefs.videoDecoderSelection ≠ .VDS_FORCE_SOFTWARE ∧
        acc.2 = false then
      (emitLaunchWarning prefs .softwareDecodingForcedHdr st, true)
    else acc
  else acc

/-- The first part of the HDR checks of `Session::validateLaunch`: the
`if ... else if ...` chain on the codec policy, the client's 10-bit candidates
and the host's 10-bit modes. -/
def checkHdrSupport (K : Limelight) (prefs : Preferences) (computer : NvComputer)
    (env : Environment) (st : Launch) : Launch :=
  if prefs.videoCodecConfig = .VCC_FORCE_H264 then
    let st := emitLaunchWarning prefs .hdrNotSupportedWithH264 st
    { st with m_SupportedVideoFormats :=
        removeByMask K.VIDEO_FORMAT_MASK_10BIT st.m_SupportedVideoFormats }
  else if Int.land (toInt st.m_SupportedVideoFormats) K.VIDEO_FORMAT_MASK_10BIT = 0 then
    emitLaunchWarning prefs .clientCannotDecode10Bit st
  -- Check that the server GPU supports HDR
  else if maskByServerCodecModes K st.m_SupportedVideoFormats
      (Int.land computer.serverCodecModeSupport K.SCM_MASK_10BIT) = 0 then
    let st := emitLaunchWarning prefs .hostCannotStreamHdr st
    { st with m_SupportedVideoFormats :=
        removeByMask K.VIDEO_FORMAT_MASK_10BIT st.m_SupportedVideoFormats }
  else if prefs.videoCodecConfig ≠ .VCC_AUTO then
    (checkHdrCodec K prefs computer env K.SCM_HEVC_MAIN10 K.VIDEO_FORMAT_H265_MAIN10
      .clientCannotDecodeHevcMain10
      (checkHdrCodec K prefs computer env K.SCM_AV1_MAIN10 K.VIDEO_FORMAT_AV1_MAIN10
        .clientCannotDecodeAv1Main10 (st, false))).1
  else st

/-- The second part of the HDR checks: the check for compatibility between
server and client codecs. -/
def checkHdrCompatibility (K : Limelight) (prefs : Preferences) (computer : NvComputer)
    (st : Launch) : Launch :=
  if Int.land (toInt st.m_SupportedVideoFormats) K.VIDEO_FORMAT_MASK_10BIT ≠ 0 ∧
      Int.land (maskByServerCodecModes K st.m_SupportedVideoFormats
        computer.serverCodecModeSupport) K.VIDEO_FORMAT_MASK_10BIT = 0 then
    let st := emitLaunchWarning prefs .hostAndClientHdrCodecsDiffer st
    { st with m_SupportedVideoFormats :=
        removeByMask K.VIDEO_FORMAT_MASK_10BIT st.m_SupportedVideoFormats }
  else st

/-- The HDR checks of `Session::validateLaunch`. -/
def checkHdr (K : Limelight) (prefs : Preferences) (computer : NvComputer) (env : Environment)
    (st : Launch) : Launch :=
  if prefs.enableHdr then
    checkHdrCompatibility K prefs computer (checkHdrSupport K prefs computer env st)
  else st

/-- The `while` loop of the YUV 4:4:4 check under `VDS_FORCE_HARDWARE`: the
first candidate is removed as long as it is a 4:4:4 format without hardware
decoding. -/
def removeUndecodableYuv444 (K : Limelight) (env : Environment) (st : Launch) :
    List Int → List Int
  | [] => []
  | front :: rest =>
    if Int.land front K.VIDEO_FORMAT_MASK_YUV444 ≠ 0 ∧ probe env st front ≠ .Hardware then
      removeUndecodableYuv444 K env st rest
    else front :: rest

/-- Whether the first candidate exists and is no 4:4:4 format:
`!isEmpty() && !(front() & VIDEO_FORMAT_MASK_YUV444)`. -/
def frontIsNotYuv444 (K : Limelight) (l : List Int) : Bool :=
  match l with
  | [] => false
  | front :: _ => decide (Int.land front K.VIDEO_FORMAT_MASK_YUV444 = 0)

/-- Whether the `while` condition holds: the first candidate exists, is a 4:4:4
format and has no hardware decoder. -/
def frontIsUndecodableYuv444 (K : Limelight) (env : Environment) (st : Launch) (l : List Int) :
    Bool :=
  match l with
  | [] => false
  | front :: _ =>
    decide (Int.land front K.VIDEO_FORMAT_MASK_YUV444 ≠ 0) &&
      decide (probe env st front ≠ .Hardware)

/-- The YUV 4:4:4 checks of `Session::validateLaunch`. -/
def checkYuv444 (K : Limelight) (prefs : Preferences) (computer : NvComputer)
    (env : Environment) (st : Launch) : Launch :=
  if prefs.enableYUV444 then
    if Int.land computer.serverCodecModeSupport K.SCM_MASK_YUV444 = 0 then
      let st := emitLaunchWarning prefs .hostCannotStreamYuv444 st
      { st with m_SupportedVideoFormats :=
          removeByMask K.VIDEO_FORMAT_MASK_YUV444 st.m_SupportedVideoFormats }
    else
      let st := { st with m_SupportedVideoFormats :=
        (removeByMask
          (Int.lnot (maskByServerCodecModes K st.m_SupportedVideoFormats
            computer.serverCodecModeSupport))
          st.m_SupportedVideoFormats) }
      if frontIsNotYuv444 K st.m_SupportedVideoFormats then
        emitLaunchWarning prefs .hostCannotStreamYuv444ForCodec st
      else if prefs.videoDecoderSelection ≠ .VDS_FORCE_SOFTWARE then
        let st :=
          if prefs.videoDecoderSelection = .VDS_FORCE_HARDWARE then
            { st with m_SupportedVideoFormats :=
                removeUndecodableYuv444 K env st st.m_SupportedVideoFormats }
          else
            warnIf prefs (frontIsUndecodableYuv444 K env st st.m_SupportedVideoFormats)
              .softwareDecodingForcedYuv444 st
        warnIf prefs (frontIsNotYuv444 K st.m_SupportedVideoFormats)
          .clientCannotDecodeYuv444ForCodec st
      else st
  else st

/-- The 4K check of `Session::validateLaunch`: only allow 4K on GFE 3.x+. -/
def check4K (prefs : Preferences) (computer : NvComputer) (st : Launch) : Launch :=
  if st.width ≥ 3840 ∧ computer.gfeVersionBelow3 then
    let st := emitLaunchWarning prefs .gfe3RequiredFor4K st
    { st with width := 1920, height := 1080 }
  else st

/-- The audio test and the gamepad check of `Session::validateLaunch`. -/
def checkAudioAndGamepads (prefs : Preferences) (env : Environment) (st : Launch) : Launch :=
  let retryStereo : Bool := !env.audioTestPassed && env.surroundRequested
  let audioTestPassed : Bool := if retryStereo then env.stereoTestPassed else env.audioTestPassed
  let st := warnIf prefs (retryStereo && env.stereoTestPassed) .surroundNotSupported st
  let st := warnIf prefs (!audioTestPassed) .audioUnavailable st
  warnIf prefs env.hasUnmappedGamepads .unmappedGamepad st

/-- The checks of `Session::validateLaunch` between the server version test and
the codec of last resort. -/
def validationChecks (K : Limelight) (prefs : Preferences) (computer : NvComputer)
    (env : Environment) (st : Launch) : Launch :=
  let st := warnIf prefs (prefs.absoluteMouseMode && !env.isAppCollectorGame)
    .remoteDesktopMouseMode st
  let st := warnIf prefs (prefs.videoDecoderSelection == .VDS_FORCE_SOFTWARE)
    .forcedSoftwareDecoding st
  let st := checkAv1 K prefs computer env st
  let st := checkHevc K prefs computer env st
  let st := checkH264 K prefs computer env st
  let st := checkHdr K prefs computer env st
  let st := checkYuv444 K prefs computer env st
  let st := check4K prefs computer st
  checkAudioAndGamepads prefs env st

/-- The codec of last resort: if the checks removed all codecs, H.264 is
appended. -/
def useLastResort (K : Limelight) (st : Launch) : Launch :=
  if st.m_SupportedVideoFormats.isEmpty then
    { st with m_SupportedVideoFormats := st.m_SupportedVideoFormats ++ [K.VIDEO_FORMAT_H264] }
  else st

/-- The two tests that end `Session::validateLaunch`: resolutions over 4K and
forced hardware decoding. `none` is `return true`. -/
def finalChecks (K : Limelight) (prefs : Preferences) (computer : NvComputer)
    (env : Environment) (st : Launch) : Option LaunchError :=
  if (st.width > 4096 ∨ st.height > 4096) ∧ computer.isNvidiaServerSoftware ∧
      (computer.maxLumaPixelsHEVC = 0 ∨
        Int.land computer.serverCodecModeSupport K.SCM_HEVC_MAIN10 = 0) then
    some .over4KUnsupportedByHost
  else if (st.width > 4096 ∨ st.height > 4096) ∧ computer.isNvidiaServerSoftware ∧
      Int.land (toInt st.m_SupportedVideoFormats) (Int.lnot K.VIDEO_FORMAT_MASK_H264) = 0 then
    some .over4KUnsupportedByH264
  else if prefs.videoDecoderSelection = .VDS_FORCE_HARDWARE ∧
      Int.land (toInt st.m_SupportedVideoFormats) K.VIDEO_FORMAT_MASK_10BIT = 0 ∧
      probe env st (st.m_SupportedVideoFormats.headD 0) ≠ .Hardware then
    if prefs.videoCodecConfig = .VCC_AUTO then some .forcedHardwareDecodingAuto
    else some .forcedHardwareDecodingCodec
  else none

/-- How `Session::validateLaunch` ends: its return value, the launch error it
displayed when that is `false`, and the session members it leaves. -/
structure Validation where
  ret : Bool
  launchError : Option LaunchError
  session : Launch

/-- `Session::validateLaunch(testWindow)`. -/
def validateLaunch (K : Limelight) (prefs : Preferences) (computer : NvComputer)
    (env : Environment) (st : Launch) : Validation :=
  if !computer.isSupportedServerVersion then
    { ret := false, launchError := some .unsupportedServerVersion, session := st }
  else
    let st := useLastResort K (validationChecks K prefs computer env st)
    match finalChecks K prefs computer env st with
    | some e => { ret := false, launchError := some e, session := st }
    | none => { ret := true, launchError := none, session := st }

/-- How the negotiation in `Session::initialize` ends: its return value, the
outcome of `validateLaunch`, and `m_StreamConfig.supportedVideoFormats`
(`none` as long as it is not assigned). -/
structure Negotiation where
  ret : Bool
  validation : Validation
  supportedVideoFormats : Option Int

/-- `Session::initialize` from the point where the candidate list is filled to
its end. `supportedVideoFormats` is assigned `m_SupportedVideoFormats.front()`
when `validateLaunch` returns `true`. -/
def initializeNegotiation (K : Limelight) (prefs : Preferences) (computer : NvComputer)
    (env : Environment) (width height : Int) : Negotiation :=
  let v := validateLaunch K prefs computer env
    (candidatesBeforeValidation K prefs env width height)
  if v.ret then
    { ret := env.populateDecoderProperties, validation := v,
      supportedVideoFormats := v.session.m_SupportedVideoFormats.head? }
  else
    { ret := false, validation := v, supportedVideoFormats := none }

/-- A later state of validation narrows an earlier one: its candidates are a
subsequence of the earlier candidates and its warnings extend the earlier
warnings. -/
def Narrows (before after : Launch) : Prop :=
  after.m_SupportedVideoFormats.Sublist before.m_SupportedVideoFormats ∧
  before.m_LaunchWarnings <+: after.m_LaunchWarnings

/-- Preferences for concrete runs: automatic codec and decoder selection, HDR
and YUV 4:4:4 as given, configuration warnings on. -/
def autoPreferences (enableHdr enableYUV444 : Bool) : Preferences :=
  { videoCodecConfig := .VCC_AUTO, videoDecoderSelection := .VDS_AUTO, enableHdr := enableHdr,
    enableYUV444 := enableYUV444, configurationWarnings := true, absoluteMouseMode := false }

/-- A host for concrete runs: a supported server version, HEVC encoding
available (`maxLumaPixelsHEVC` not 0), a GFE version of 3 or above, and the
given `serverCodecModeSupport`. -/
def hostWithModes (serverCodecModeSupport : Int) : NvComputer :=
  { isSupportedServerVersion := true, serverCodecModeSupport := serverCodecModeSupport,
    maxLumaPixelsHEVC := 1869449984, gfeVersionBelow3 := false, isNvidiaServerSoftware := true }

/-- Surroundings for concrete runs: the decoder probe answers `availability`
for every format, 60 FPS, audio works, no unmapped gamepad, and the build is
one in which AV1 is deprioritized without HDR. -/
def uniformEnvironment (availability : DecoderAvailability) : Environment :=
  { getDecoderAvailability := fun _ _ _ _ => availability, fps := 60,
    isAppCollectorGame := false, audioTestPassed := true, surroundRequested := false,
    stereoTestPassed := true, hasUnmappedGamepads := false, populateDecoderProperties := true,
    av1DeprioritizedWithoutHdr := true, darwinOldGfe := false }

end Session

namespace SupportedVideoFormatList

/-- Every bit set in `x` is set in `y`. -/
def BitsWithin (x y : Int) : Prop :=
  ∀ i : Nat, Int.testBit x i = true → Int.testBit y i = true

/-- The formats the host can encode, by the spec's words: the bitwise or of
the video formats whose corresponding server codec mode bit is set in
`serverCodecModes`. -/
def hostEncodable (K : Limelight) (serverCodecModes : Int) : Int :=
  (mapping K).foldl
    (fun mask it => if Int.land serverCodecModes it.1 ≠ 0 then Int.lor mask it.2 else mask) 0

/-- The value of `Int.land`, written with the operations on `Nat` that
evaluate on numerals. -/
def landEval : Int → Int → Int
  | .ofNat m, .ofNat n => Int.ofNat (m &&& n)
  | .ofNat m, .negSucc n => Int.ofNat (m ^^^ (m &&& n))
  | .negSucc m, .ofNat n => Int.ofNat (n ^^^ (n &&& m))
  | .negSucc m, .negSucc n => Int.negSucc (m ||| n)

/-- The value of `Int.lor`, written with the operations on `Nat` that evaluate
on numerals. -/
def lorEval : Int → Int → Int
  | .ofNat m, .ofNat n => Int.ofNat (m ||| n)
  | .ofNat m, .negSucc n => Int.negSucc (n ^^^ (n &&& m))
  | .negSucc m, .ofNat n => Int.negSucc (m ^^^ (m &&& n))
  | .negSucc m, .negSucc n => Int.negSucc (m &&& n)

end SupportedVideoFormatList

namespace Session

open SupportedVideoFormatList in
/-- The facts about the constants of `Limelight.h` that the force-AV1 fallback
relies on: where `VIDEO_FORMAT_AV1_MAIN8`, `VIDEO_FORMAT_H265` and
`VIDEO_FORMAT_H264` lie with respect to the format masks, that no format
constant is 0, and that the server codec mode bits in the `mapping` of
`maskByServerCodecModes` are pairwise disjoint, the HEVC entry among them. -/
structure FormatLayout (K : Limelight) : Prop where
  av1Main8_in_av1_or_h265 :
    Int.land K.VIDEO_FORMAT_AV1_MAIN8
      (Int.lnot (Int.lor K.VIDEO_FORMAT_MASK_AV1 K.VIDEO_FORMAT_MASK_H265)) = 0
  av1Main8_not_yuv444 : Int.land K.VIDEO_FORMAT_AV1_MAIN8 K.VIDEO_FORMAT_MASK_YUV444 = 0
  av1Main8_not_10bit : Int.land K.VIDEO_FORMAT_AV1_MAIN8 K.VIDEO_FORMAT_MASK_10BIT = 0
  av1Main8_is_av1 : Int.land K.VIDEO_FORMAT_AV1_MAIN8 K.VIDEO_FORMAT_MASK_AV1 ≠ 0
  h264_not_av1 : Int.land K.VIDEO_FORMAT_H264 K.VIDEO_FORMAT_MASK_AV1 = 0
  h265_in_av1_or_h265 :
    Int.land K.VIDEO_FORMAT_H265
      (Int.lnot (Int.lor K.VIDEO_FORMAT_MASK_AV1 K.VIDEO_FORMAT_MASK_H265)) = 0
  h265_not_yuv444 : Int.land K.VIDEO_FORMAT_H265 K.VIDEO_FORMAT_MASK_YUV444 = 0
  h265_not_10bit : Int.land K.VIDEO_FORMAT_H265 K.VIDEO_FORMAT_MASK_10BIT = 0
  h265_not_av1 : Int.land K.VIDEO_FORMAT_H265 K.VIDEO_FORMAT_MASK_AV1 = 0
  h265_not_h265Main10 : Int.land K.VIDEO_FORMAT_H265 K.VIDEO_FORMAT_H265_MAIN10 = 0
  h265_not_av1Main10 : Int.land K.VIDEO_FORMAT_H265 K.VIDEO_FORMAT_AV1_MAIN10 = 0
  formats_nonzero : ∀ v ∈ initialFormats K, v ≠ 0
  hevc_mode_mapped : (K.SCM_HEVC, K.VIDEO_FORMAT_H265) ∈ mapping K
  modes_disjoint : (mapping K).Pairwise (fun x y => Int.land x.1 y.1 = 0)

end Session

namespace Session

/-- The candidates of a client that decodes everything in hardware, with
automatic codec selection, HDR enabled and YUV 4:4:4 not enabled, at 1080p:
the 10-bit formats first, AV1 behind HEVC. -/
def hdrCandidates : Launch :=
  { m_SupportedVideoFormats :=
      [limelight.VIDEO_FORMAT_H265_MAIN10, limelight.VIDEO_FORMAT_AV1_MAIN10,
       limelight.VIDEO_FORMAT_H265, limelight.VIDEO_FORMAT_H264,
       limelight.VIDEO_FORMAT_AV1_MAIN8],
    m_LaunchWarnings := [], width := 1920, height := 1080 }

/-- The `serverCodecModeSupport` of a host that encodes H.264, HEVC, HEVC
Main10 and AV1 Main8, and no other mode (so not AV1 Main10). -/
def modesWithoutAv1Main10 : Int :=
  Int.lor (Int.lor (Int.lor limelight.SCM_H264 limelight.SCM_HEVC) limelight.SCM_HEVC_MAIN10)
    limelight.SCM_AV1_MAIN8

end Session

namespace Session

/-- Preferences for concrete runs with the codec policy set to force AV1: HDR
not enabled, configuration warnings on, decoder selection and YUV 4:4:4 as
given. -/
def forceAv1Preferences (videoDecoderSelection : VideoDecoderSelection) (enableYUV444 : Bool) :
    Preferences :=
  { videoCodecConfig := .VCC_FORCE_AV1, videoDecoderSelection := videoDecoderSelection,
    enableHdr := false, enableYUV444 := enableYUV444, configurationWarnings := true,
    absoluteMouseMode := false }

/-- Surroundings for concrete runs in which only H.264 is decoded in hardware
and no other format is decoded at all. -/
def h264OnlyEnvironment : Environment :=
  { getDecoderAvailability := fun videoFormat _ _ _ =>
      if videoFormat = limelight.VIDEO_FORMAT_H264 then .Hardware else .None,
    fps := 60, isAppCollectorGame := false, audioTestPassed := true,
    surroundRequested := false, stereoTestPassed := true, hasUnmappedGamepads := false,
    populateDecoderProperties := true, av1DeprioritizedWithoutHdr := true,
    darwinOldGfe := false }

/-- The `serverCodecModeSupport` of a host that encodes H.264 and HEVC 4:4:4
(`SCM_HEVC_REXT8_444`), and no other mode. -/
def modesH264AndHevc444 : Int :=
  Int.lor limelight.SCM_H264 limelight.SCM_HEVC_REXT8_444

/-- The host of `hostWithModes` with a server version that is not supported. -/
def unsupportedHost (serverCodecModeSupport : Int) : NvComputer :=
  { hostWithModes serverCodecModeSupport with isSupportedServerVersion := false }

end Session

namespace Session

/-- The `serverCodecModeSupport` of a host that encodes H.264 and HEVC, and no
other mode. -/
def modesH264AndHevc : Int :=
  Int.lor limelight.SCM_H264 limelight.SCM_HEVC

/-- The session members at 1080p with the given candidates and warnings. -/
def launchWith (formats : List Int) (warnings : List LaunchWarning) : Launch :=
  { m_SupportedVideoFormats := formats, m_LaunchWarnings := warnings, width := 1920,
    height := 1080 }

end Session

namespace Pacer

/-- The value `frameDropTarget` has in `Pacer::handleVsync` when the catch-up
loop starts: 1, raised to 3 by the loop over `m_PacingQueueHistory` that is
entered when `m_MaxVideoFps >= m_DisplayFps` and stops at the first entry that
is `<= 1`. -/
def frameDropTarget (p : State) : Nat :=
  if decide (p.m_MaxVideoFps ≥ p.m_DisplayFps) &&
      p.m_PacingQueueHistory.any (fun e => decide (e ≤ 1)) then 3 else 1

/-- A pacer with a V-sync source that holds the frames 10, 11 and 12 in its
pacing queue, with the given frame rates and pacing queue history. -/
def withThreeQueuedFrames (maxVideoFps displayFps : Int) (history : List Int) : State :=
  { init true false maxVideoFps displayFps with
    m_PacingQueue := [10, 11, 12], m_PacingQueueHistory := history,
    submitted := [10, 11, 12] }

end Pacer

/-! ## ComputerManager: host list and mDNS discovery -/

namespace ComputerManager

/-- A `QString`, as the list of its UTF-16 code units. `operator<` on `QString`
compares the code units lexicographically, as `<` on lists does. -/
abbrev QString := List Nat

/-- The members of `NvComputer` that `getComputers` reads, and the key under
which the record is kept in `m_KnownHosts`. -/
structure NvComputer where
  uuid : QString
  name : QString
deriving DecidableEq, Repr

/-- `QMap::values()` on `m_KnownHosts`, the map being the list of its entries in
ascending key order. -/
def values (m_KnownHosts : List (QString × NvComputer)) : List NvComputer :=
  m_KnownHosts.map Prod.snd

/-- `std::stable_sort(first, last, comp)`: every element is inserted in front of
the first element of the sorted rest that it does not come after, so elements
that `comp` does not order keep their order. -/
def stable_sort {α : Type} (comp : α → α → Bool) (hosts : List α) : List α :=
  hosts.insertionSort (fun a b => comp b a = false)

/-- `ComputerManager::getComputers()`. `toLower` stands for `QString::toLower`. -/
def getComputers (toLower : QString → QString) (m_KnownHosts : List (QString × NvComputer)) :
    List NvComputer :=
  -- Return a sorted host list
  stable_sort (fun host1 host2 => decide (toLower host1.name < toLower host2.name))
    (values m_KnownHosts)

/-- An `NvAddress`: a host address and a port. -/
structure NvAddress where
  address : QHostAddress
  port : Nat
deriving DecidableEq, Repr

/-- One call `addNewHost(address, mdns, mdnsIpv6Address)`. -/
structure AddNewHost where
  address : NvAddress
  mdns : Bool
  mdnsIpv6Address : NvAddress
deriving DecidableEq, Repr

/-- The first loop of `handleMdnsServiceResolved`: the first address of the
list whose protocol is IPv4, if there is one. -/
def firstIPv4 : List QHostAddress → Option QHostAddress
  | [] => none
  | address :: rest =>
    if address.protocol = .IPv4Protocol then some address else firstIPv4 rest

/-- The second loop of `handleMdnsServiceResolved`: the first IPv6 address of
the list that is link-local, site-local or a ULA, if there is one. -/
def firstLocalIPv6 : List QHostAddress → Option QHostAddress
  | [] => none
  | address :: rest =>
    if address.protocol = .IPv6Protocol then
      -- Use a link-local or site-local address for the "local address"
      if address.isInSubnet addr_fe80 10 || address.isInSubnet addr_fec0 10 ||
          address.isInSubnet addr_fc00 7 then
        some address
      else firstLocalIPv6 rest
    else firstLocalIPv6 rest

/-- The `std::find_if` and `erase` at the end of `handleMdnsServiceResolved`:
the first entry of `m_PendingResolution` that is `computer` is taken out.
Pending computers are told apart by a number (their address). -/
def erasePending (computer : Nat) : List Nat → List Nat
  | [] => []
  | ptr :: rest => if ptr = computer then rest else ptr :: erasePending computer rest

/-- What `handleMdnsServiceResolved` does: the `addNewHost` calls it makes, in
order, and `m_PendingResolution` afterwards. -/
structure MdnsResolved where
  addNewHost : List AddNewHost
  m_PendingResolution : List Nat
deriving DecidableEq, Repr

/-- `ComputerManager::handleMdnsServiceResolved(computer, addresses)`; `port` is
`computer->port()`. -/
def handleMdnsServiceResolved (computer : Nat) (port : Nat) (addresses : List QHostAddress)
    (m_PendingResolution : List Nat) : MdnsResolved :=
  let v6Global := getBestGlobalAddressV6 addresses
  let calls : List AddNewHost :=
    -- Add the host using the IPv4 address
    match firstIPv4 addresses with
    | some address => [⟨⟨address, port⟩, true, ⟨v6Global, port⟩⟩]
    | none =>
      -- If we get here, there wasn't an IPv4 address so we'll do it v6-only
      match firstLocalIPv6 addresses with
      | some address => [⟨⟨address, port⟩, true, ⟨v6Global, port⟩⟩]
      | none => []
  { addNewHost := calls, m_PendingResolution := erasePending computer m_PendingResolution }

/-- The members of `MdnsPendingComputer` and what it has done so far. -/
structure MdnsPendingComputer where
  m_Addresses : List QHostAddress
  m_Retries : Int
  /-- `m_Resolver` holds a resolver. -/
  hasResolver : Bool
  /-- `m_Server` holds a strong reference. -/
  hasServer : Bool
  /-- A `QTimer::singleShot` for `handleResolvedTimeout` is pending. -/
  timerPending : Bool
  /-- The arguments of the `resolvedHost` signals emitted, oldest first. -/
  resolvedHost : List (List QHostAddress)
  /-- Ghost: the number of resolvers created. -/
  attempts : Nat
deriving DecidableEq, Repr

/-- `MdnsPendingComputer::cleanup()`. -/
def MdnsPendingComputer.cleanup (c : MdnsPendingComputer) : MdnsPendingComputer :=
  { c with hasResolver := false, hasServer := false }

/-- `MdnsPendingComputer::resolve()`; `serverExists` says whether
`m_ServerWeak.toStrongRef()` gives a server. -/
def MdnsPendingComputer.resolve (serverExists : Bool) (c : MdnsPendingComputer) :
    MdnsPendingComputer :=
  -- Clean up any existing resolver object and server references
  let c := c.cleanup
  -- Re-acquire a strong reference if the server still exists.
  if !serverExists then c
  else
    { c with hasServer := true, hasResolver := true, timerPending := true,
             attempts := c.attempts + 1 }

/-- The constructor of `MdnsPendingComputer`. -/
def MdnsPendingComputer.create (serverExists : Bool) : MdnsPendingComputer :=
  MdnsPendingComputer.resolve serverExists
    { m_Addresses := [], m_Retries := 10, hasResolver := false, hasServer := false,
      timerPending := false, resolvedHost := [], attempts := 0 }

/-- `MdnsPendingComputer::handleResolvedTimeout()`, run when the pending timer
fires. -/
def MdnsPendingComputer.handleResolvedTimeout (serverExists : Bool)
    (c : MdnsPendingComputer) : MdnsPendingComputer :=
  let c := { c with timerPending := false }
  if c.m_Addresses.isEmpty then
    let retries := c.m_Retries
    let c := { c with m_Retries := c.m_Retries - 1 }
    if retries > 0 then
      -- Try again
      c.resolve serverExists
    else
      c.cleanup
  else
    { c with resolvedHost := c.resolvedHost ++ [c.m_Addresses] }

/-- `MdnsPendingComputer::handleResolvedAddress(address)`. -/
def MdnsPendingComputer.handleResolvedAddress (address : QHostAddress)
    (c : MdnsPendingComputer) : MdnsPendingComputer :=
  { c with m_Addresses := c.m_Addresses ++ [address] }

/-- What happens to a pending computer: its timer fires (the server existing or
not at that moment), or its resolver reports an address. -/
inductive MdnsEvent where
  | timeout (serverExists : Bool)
  | resolved (address : QHostAddress)
deriving DecidableEq, Repr

/-- One event. The timer fires only when one is pending, and only an existing
resolver reports an address. -/
def MdnsPendingComputer.step (c : MdnsPendingComputer) : MdnsEvent → MdnsPendingComputer
  | .timeout serverExists => if c.timerPending then c.handleResolvedTimeout serverExists else c
  | .resolved address => if c.hasResolver then c.handleResolvedAddress address else c

/-- A sequence of events. -/
def MdnsPendingComputer.run (c : MdnsPendingComputer) (events : List MdnsEvent) :
    MdnsPendingComputer :=
  events.foldl MdnsPendingComputer.step c

end ComputerManager

namespace ComputerManager

/-- A pending computer that has seen `k` timeouts without any address and is
waiting for the next one: it holds its resolver number `k + 1`, a timer is
pending and `10 - k` retries are left. -/
def MdnsPendingComputer.Resolving (k : Nat) (c : MdnsPendingComputer) : Prop :=
  c.m_Addresses = [] ∧ c.timerPending = true ∧ c.hasResolver = true ∧
  c.m_Retries = 10 - (k : Int) ∧ c.resolvedHost = [] ∧ c.attempts = k + 1

/-- A pending computer that has stopped resolving without any address: no
resolver, no server reference, no pending timer, nothing emitted. -/
def MdnsPendingComputer.Stopped (c : MdnsPendingComputer) : Prop :=
  c.m_Addresses = [] ∧ c.timerPending = false ∧ c.hasResolver = false ∧
  c.hasServer = false ∧ c.resolvedHost = [] ∧ c.attempts ≤ 11

end ComputerManager

/-! ## PcMonitorThread: host polling -/

namespace PcMonitorThread

/-- `#define TRIES_BEFORE_OFFLINING 2`. -/
def TRIES_BEFORE_OFFLINING : Nat := 2

/-- `#define POLLS_PER_APPLIST_FETCH 10`. -/
def POLLS_PER_APPLIST_FETCH : Int := 10

/-- A C++ `int` after an arithmetic step whose exact result is `x`: the value
is kept in 32 bits, two's complement. (C++ leaves signed overflow undefined;
this is what the hardware does.) -/
def wrapInt32 (x : Int) : Int :=
  (x + 2147483648) % 4294967296 - 2147483648

/-- Modelled from the spec: the reachability state of a host record, one of
online, offline and unknown (`NvComputer::ComputerState`; the code here names
`CS_ONLINE` and `CS_OFFLINE`). -/
inductive ComputerState where
  | CS_UNKNOWN
  | CS_ONLINE
  | CS_OFFLINE
deriving DecidableEq, Repr

/-- Modelled from the spec: the pair state of a host record, unpaired or paired
(`NvComputer::PairState`; the code here names `PS_PAIRED`). -/
inductive PairState where
  | PS_NOT_PAIRED
  | PS_PAIRED
deriving DecidableEq, Repr

/-- An application of a host's list (`NvApp`), told apart by a number. -/
abbrev NvApp := Nat

/-- An address of a host (`NvAddress`), told apart by a number. -/
abbrev NvAddress := Nat

/-- The members of `NvComputer` that the polling thread reads or writes.
`uniqueAddresses` is what `uniqueAddresses()` returns for the record. -/
structure NvComputer where
  uuid : Nat
  state : ComputerState
  pairState : PairState
  appList : List NvApp
  uniqueAddresses : List NvAddress
deriving DecidableEq, Repr

/-- The two member functions of `NvComputer` the thread calls to fold new
information into the record; both return the record afterwards and whether it
changed. -/
structure NvComputerOps where
  /-- `m_Computer->update(newState)`. -/
  update : NvComputer → NvComputer → NvComputer × Bool
  /-- `m_Computer->updateAppList(appList)`. -/
  updateAppList : NvComputer → List NvApp → NvComputer × Bool

/-- What the surroundings do during one polling cycle. -/
structure Cycle where
  /-- `isInterruptionRequested()` when it is asked before the probe of an
  address in the pass with the given number. -/
  isInterruptionRequested : Nat → NvAddress → Bool
  /-- `http.getServerInfo(...)` for an address in the pass with the given
  number: `none` when it throws, otherwise the `NvComputer` built from the
  reply. -/
  getServerInfo : Nat → NvAddress → Option NvComputer
  /-- `http.getAppList()`: `none` when it throws. -/
  getAppList : Option (List NvApp)

/-- The local variables of the probe loops of `run`, the host record, and
bookkeeping the C++ code does not store (marked ghost). -/
structure Probing where
  m_Computer : NvComputer
  stateChanged : Bool
  online : Bool
  /-- `run` has returned because an interruption was requested. -/
  returned : Bool
  /-- Ghost: the `tryPollComputer` calls made, as pass number and address. -/
  polled : List (Nat × NvAddress)
  /-- Ghost: the number of passes over the addresses begun. -/
  passes : Nat
deriving DecidableEq, Repr

/-- `PcMonitorThread::tryPollComputer(nam, address, changed)` for the given
outcome of `getServerInfo`: the return value, the record afterwards and
`changed`. -/
def tryPollComputer (ops : NvComputerOps) (serverInfo : Option NvComputer) (s : Probing) :
    Bool × Probing :=
  match serverInfo with
  | none => (false, s)
  | some newState =>
    -- Ensure the machine that responded is the one we intended to contact
    if s.m_Computer.uuid ≠ newState.uuid then (false, s)
    else
      let r := ops.update s.m_Computer newState
      (true, { s with m_Computer := r.1, stateChanged := r.2 })

/-- The inner loop of `run`: one pass over the addresses, cut short by an
interruption request or by the first probe that succeeds. -/
def pollAddresses (ops : NvComputerOps) (cycle : Cycle) (i : Nat) :
    List NvAddress → Probing → Probing
  | [], s => s
  | address :: rest, s =>
    if cycle.isInterruptionRequested i address then
      { s with returned := true }
    else
      let r := tryPollComputer ops (cycle.getServerInfo i address)
        { s with polled := s.polled ++ [(i, address)] }
      if r.1 then { r.2 with online := true }
      else pollAddresses ops cycle i rest r.2

/-- The outer loop of `run`,
`for (i = 0; i < tries && !online; i++)`, from pass `i` on with `remaining`
passes to go. -/
def pollPasses (ops : NvComputerOps) (cycle : Cycle) :
    (remaining : Nat) → (i : Nat) → Probing → Probing
  | 0, _, s => s
  | remaining + 1, i, s =>
    if s.online || s.returned then s
    else
      pollPasses ops cycle remaining (i + 1)
        (pollAddresses ops cycle i s.m_Computer.uniqueAddresses
          { s with passes := s.passes + 1 })

/-- `PcMonitorThread::updateAppList(nam, changed)` for the given outcome of
`getAppList`: the return value, the record afterwards and `changed`. -/
def updateAppList (ops : NvComputerOps) (appList : Option (List NvApp)) (m_Computer : NvComputer)
    (changed : Bool) : Bool × NvComputer × Bool :=
  match appList with
  | none => (false, m_Computer, changed)
  | some appList =>
    if appList.isEmpty then (false, m_Computer, changed)
    else
      let r := ops.updateAppList m_Computer appList
      (true, r.1, r.2)

/-- One iteration of the `while` loop of `run`, and what it did. -/
structure CycleResult where
  /-- `run` returned in this iteration because an interruption was requested. -/
  returned : Bool
  /-- The host record at the end of the iteration. -/
  m_Computer : NvComputer
  pollsSinceLastAppListFetch : Int
  /-- Ghost: `online` after the probe loops. -/
  online : Bool
  /-- Ghost: the assignment `m_Computer->state = NvComputer::CS_OFFLINE` ran. -/
  markedOffline : Bool
  /-- Ghost: the `tryPollComputer` calls made, as pass number and address. -/
  polled : List (Nat × NvAddress)
  /-- Ghost: the number of passes over the addresses begun. -/
  passes : Nat
  /-- Ghost: the host record when the condition for the application list fetch
  is evaluated. -/
  hostAtCheck : NvComputer
  /-- Ghost: `updateAppList` was called. -/
  appListFetchAttempted : Bool
  /-- Ghost: `updateAppList` returned `true`. -/
  appListFetched : Bool
  /-- Ghost: the number of `computerStateChanged` signals emitted. -/
  computerStateChanged : Nat
deriving DecidableEq, Repr

/-- The probe loops at the start of an iteration of the `while` loop of
`run`. -/
def probeLoops (ops : NvComputerOps) (cycle : Cycle) (m_Computer : NvComputer) : Probing :=
  let wasOnline : Bool := m_Computer.state == .CS_ONLINE
  pollPasses ops cycle (if wasOnline then TRIES_BEFORE_OFFLINING else 1) 0
    { m_Computer := m_Computer, stateChanged := false, online := false, returned := false,
      polled := [], passes := 0 }

/-- The test after the probe loops, "check if we failed after all retry
attempts": `!online && m_Computer->state != NvComputer::CS_OFFLINE`. -/
def markOffline (s : Probing) : Bool :=
  !s.online && s.m_Computer.state != .CS_OFFLINE

/-- The host record after that test: its state is `CS_OFFLINE` when the test
holds. -/
def hostAfterProbes (s : Probing) : NvComputer :=
  if markOffline s then { s.m_Computer with state := .CS_OFFLINE } else s.m_Computer

/-- The condition under which `run` calls `updateAppList`; `polls` is
`pollsSinceLastAppListFetch` after its increment. -/
def appListDue (computer : NvComputer) (polls : Int) : Bool :=
  computer.state == .CS_ONLINE && computer.pairState == .PS_PAIRED &&
    (computer.appList.isEmpty || decide (polls ≥ POLLS_PER_APPLIST_FETCH))

/-- One iteration of the `while` loop of `PcMonitorThread::run`, started with
the given value of `pollsSinceLastAppListFetch` and host record. -/
def runCycle (ops : NvComputerOps) (cycle : Cycle) (pollsSinceLastAppListFetch : Int)
    (m_Computer : NvComputer) : CycleResult :=
  let s := probeLoops ops cycle m_Computer
  if s.returned then
    { returned := true, m_Computer := s.m_Computer,
      pollsSinceLastAppListFetch := pollsSinceLastAppListFetch, online := s.online,
      markedOffline := false, polled := s.polled, passes := s.passes,
      hostAtCheck := s.m_Computer, appListFetchAttempted := false, appListFetched := false,
      computerStateChanged := 0 }
  else
    -- Check if we failed after all retry attempts
    let computer := hostAfterProbes s
    let stateChanged : Bool := if markOffline s then true else s.stateChanged
    -- Grab the applist if it's empty or it's been long enough that we need to refresh
    let polls := wrapInt32 (pollsSinceLastAppListFetch + 1)
    if appListDue computer polls then
      -- Notify prior to the app list poll since it may take a while
      let early : Nat := if stateChanged then 1 else 0
      let r := updateAppList ops cycle.getAppList computer false
      { returned := false, m_Computer := r.2.1,
        pollsSinceLastAppListFetch := if r.1 then 0 else polls, online := s.online,
        markedOffline := markOffline s, polled := s.polled, passes := s.passes,
        hostAtCheck := computer, appListFetchAttempted := true, appListFetched := r.1,
        computerStateChanged := early + (if r.2.2 then 1 else 0) }
    else
      { returned := false, m_Computer := computer, pollsSinceLastAppListFetch := polls,
        online := s.online, markedOffline := markOffline s, polled := s.polled,
        passes := s.passes, hostAtCheck := computer, appListFetchAttempted := false,
        appListFetched := false, computerStateChanged := if stateChanged then 1 else 0 }

/-- The iterations of the `while` loop of `PcMonitorThread::run` from a given
value of `pollsSinceLastAppListFetch` on. Each iteration comes with what the
surroundings do during it and with the host record as the iteration finds it
(other threads write to the record too). The loop ends with the iteration in
which `run` returns. -/
def runCycles (ops : NvComputerOps) :
    Int → List (Cycle × NvComputer) → List CycleResult
  | _, [] => []
  | polls, (cycle, m_Computer) :: rest =>
    let r := runCycle ops cycle polls m_Computer
    if r.returned then [r] else r :: runCycles ops r.pollsSinceLastAppListFetch rest

/-- `PcMonitorThread::run`: the loop started with
`pollsSinceLastAppListFetch = POLLS_PER_APPLIST_FETCH` (always fetch the
applist the first time). -/
def run (ops : NvComputerOps) (cycles : List (Cycle × NvComputer)) : List CycleResult :=
  runCycles ops POLLS_PER_APPLIST_FETCH cycles

/-- Whether the probe of `address` in pass `i` fails for the host with the
given UUID: `getServerInfo` throws or another machine answers. -/
def probeFails (cycle : Cycle) (uuid : Nat) (i : Nat) (address : NvAddress) : Bool :=
  match cycle.getServerInfo i address with
  | none => true
  | some newState => decide (uuid ≠ newState.uuid)

/-- The words of the specification: no application list fetch succeeded in the
last nine of the iterations given (oldest first), so that at least 10 cycles
have passed since the last successful fetch, the current one included; with
no iteration before it the first cycle counts as due. -/
def fetchDue (earlier : List CycleResult) : Bool :=
  (earlier.reverse.take 9).all (fun r => !r.appListFetched)

/-- The counter tells how many iterations went by since a fetch succeeded:
for every `k` up to 10 it is at least `k` exactly when none of the last `k`
iterations had a fetch that succeeded. -/
def CounterTracks (polls : Int) (earlier : List CycleResult) : Prop :=
  0 ≤ polls ∧ polls ≤ 10 + earlier.length ∧
  ∀ k : Nat, k ≤ 10 →
    ((k : Int) ≤ polls ↔ (earlier.reverse.take k).all (fun r => !r.appListFetched) = true)

/-- For concrete runs: an `update` that takes over the pair state of the reply
and sets the host online, and an `updateAppList` that stores the list; both
report whether the record changed. -/
def storingOps : NvComputerOps :=
  { update := fun computer newState =>
      ({ computer with state := .CS_ONLINE, pairState := newState.pairState },
        decide (computer.state ≠ .CS_ONLINE ∨ computer.pairState ≠ newState.pairState))
    updateAppList := fun computer appList =>
      ({ computer with appList := appList }, decide (computer.appList ≠ appList)) }

/-- For concrete runs: a paired host with the addresses 1 and 2, no cached
application list and the given state. -/
def pairedHost (state : ComputerState) : NvComputer :=
  { uuid := 7, state := state, pairState := .PS_PAIRED, appList := [],
    uniqueAddresses := [1, 2] }

/-- For concrete runs: a cycle without interruption request in which the host
answers on address 2 only and its application list has two entries. -/
def answeringCycle : Cycle :=
  { isInterruptionRequested := fun _ _ => false
    getServerInfo := fun _ address =>
      if address = 2 then some (pairedHost .CS_ONLINE) else none
    getAppList := some [100, 101] }

end PcMonitorThread

/-! ## PendingAddTask: adding a host -/

namespace PendingAddTask

/-- An address with its port (`NvAddress`), told apart by a number. -/
abbrev NvAddress := Nat

/-- How one call of `http.getServerInfo(NvHTTP::NVLL_VERBOSE)` ends: with a
document, with a `QtNetworkReplyException` whose error is
`ServiceUnavailableError`, or with any other exception. -/
inductive GetServerInfo where
  | document (serverInfo : String)
  | serviceUnavailable
  | otherException
deriving DecidableEq, Repr

/-- The signals of `PendingAddTask`; a computer is named by its UUID. -/
inductive Signal where
  | computerAddCompleted (success detectedPortBlocking : Bool)
  | computerStateChanged (computer : Nat)
deriving DecidableEq, Repr

/-- What `run` does to `m_KnownHosts`. -/
inductive RegistryChange where
  | untouched
  | folded (existingComputer : Nat)
  | inserted (newComputer : Nat)
deriving DecidableEq, Repr

/-- The members of `PendingAddTask` set by its constructor;
`m_MdnsIpv6Address` is `none` for a null address. -/
structure Task where
  m_Address : NvAddress
  m_MdnsIpv6Address : Option NvAddress
  m_Mdns : Bool
deriving DecidableEq, Repr

/-- `ComputerManager::addNewHost(address, mdns, mdnsIpv6Address)`: the task it
hands to the thread pool. -/
def addNewHost (address : NvAddress) (mdns : Bool) (mdnsIpv6Address : Option NvAddress) :
    Task :=
  { m_Address := address, m_MdnsIpv6Address := mdnsIpv6Address, m_Mdns := mdns }

/-- The task `ComputerManager::addNewHostManually` starts for an address it
accepts: `addNewHost(address, false)`, the third argument being the default
`NvAddress()`. -/
def addNewHostManually (address : NvAddress) : Task :=
  addNewHost address false none

/-- What the surroundings of one `run` do. -/
structure Surroundings where
  /-- The value of `m_AboutToQuit` when `fetchServerInfo` is entered for the
  time with the given number (from 0). -/
  m_AboutToQuit : Nat → Bool
  /-- How the successive calls of `http.getServerInfo` end; a call beyond the
  end of the list ends with an exception. -/
  getServerInfo : List GetServerInfo
  /-- The value of `portTestResult != 0 && portTestResult !=
  ML_TEST_RESULT_INCONCLUSIVE` in `fetchServerInfo`. -/
  detectedPortBlocking : Bool
  /-- The UUID of the `NvComputer` built from a server-info document. -/
  uuid : String → Nat
  /-- Whether `m_KnownHosts.value(uuid)` is not null at the look-up with the
  given number (from 0); other threads write to the map between look-ups. -/
  known : Nat → Nat → Bool
  /-- The return value of `existingComputer->update(*newComputer)`. -/
  changed : Bool

/-- The state of one `run`: the outcomes of `getServerInfo` not yet consumed,
the number of `fetchServerInfo` calls made, the signals emitted (oldest first)
and, as a ghost, whether a `fetchServerInfo` call ended in its `catch (...)`. -/
structure Progress where
  getServerInfo : List GetServerInfo
  fetches : Nat
  signals : List Signal
  fetchFailed : Bool
deriving DecidableEq, Repr

/-- One call of `http.getServerInfo`: its outcome and the outcomes left. -/
def nextServerInfo : List GetServerInfo → GetServerInfo × List GetServerInfo
  | [] => (.otherException, [])
  | outcome :: rest => (outcome, rest)

/-- The `catch (...)` of `fetchServerInfo`: for a task that does not come from
mDNS `computerAddCompleted(false, ...)` is emitted; an empty string is
returned. -/
def fetchFailure (task : Task) (env : Surroundings) (p : Progress) : String × Progress :=
  let p := { p with fetchFailed := true }
  if !task.m_Mdns then
    ("", { p with signals := p.signals ++
      [.computerAddCompleted false env.detectedPortBlocking] })
  else ("", p)

/-- `PendingAddTask::fetchServerInfo(http)`. -/
def fetchServerInfo (task : Task) (env : Surroundings) (p : Progress) : String × Progress :=
  let quitting := env.m_AboutToQuit p.fetches
  let p := { p with fetches := p.fetches + 1 }
  -- Do nothing if we're quitting
  if quitting then ("", p)
  else
    let first := nextServerInfo p.getServerInfo
    let p := { p with getServerInfo := first.2 }
    match first.1 with
    | .document serverInfo => (serverInfo, p)
    | .serviceUnavailable =>
      -- Retrying request in 5 seconds after ServiceUnavailableError
      let second := nextServerInfo p.getServerInfo
      let p := { p with getServerInfo := second.2 }
      match second.1 with
      | .document serverInfo => (serverInfo, p)
      | _ => fetchFailure task env p
    | .otherException => fetchFailure task env p

/-- How one `run` ends. -/
structure AddRun where
  signals : List Signal
  registry : RegistryChange
  /-- Ghost: a `fetchServerInfo` call ended in its `catch (...)`. -/
  fetchFailed : Bool
  /-- The number of `fetchServerInfo` calls made. -/
  fetches : Nat
deriving DecidableEq, Repr

/-- The end of `run` reached by a `return` after an empty server info. -/
def giveUp (p : Progress) : AddRun :=
  { signals := p.signals, registry := .untouched, fetchFailed := p.fetchFailed,
    fetches := p.fetches }

/-- The last block of `run`: the host is folded into the existing record or
stored as a new one, and the signals are emitted. -/
def store (task : Task) (env : Surroundings) (newComputer : Nat) (p : Progress) : AddRun :=
  -- Check if this PC already exists using opportunistic read lock; if it
  -- doesn't, check again under the write lock
  let existing : Bool := env.known 1 newComputer || env.known 2 newComputer
  if existing then
    -- Fold it into the existing PC
    let signals := p.signals ++
      (if !task.m_Mdns then [Signal.computerAddCompleted true false] else []) ++
      (if env.changed then [Signal.computerStateChanged newComputer] else [])
    { signals := signals, registry := .folded newComputer, fetchFailed := p.fetchFailed,
      fetches := p.fetches }
  else
    -- Store this in our active sets
    let signals := p.signals ++
      (if !task.m_Mdns then [Signal.computerAddCompleted true false] else []) ++
      [Signal.computerStateChanged newComputer]
    { signals := signals, registry := .inserted newComputer, fetchFailed := p.fetchFailed,
      fetches := p.fetches }

/-- `PendingAddTask::run()`. -/
def run (task : Task) (env : Surroundings) : AddRun :=
  let p : Progress :=
    { getServerInfo := env.getServerInfo, fetches := 0, signals := [], fetchFailed := false }
  -- Perform initial serverinfo fetch over HTTP since we don't know which cert to use
  let r := fetchServerInfo task env p
  let r :=
    if r.1.isEmpty && task.m_MdnsIpv6Address.isSome then
      -- Retry using the global IPv6 address if the IPv4 or link-local IPv6 address fails
      fetchServerInfo task env r.2
    else r
  if r.1.isEmpty then giveUp r.2
  else
    -- Create initial newComputer using HTTP serverinfo with no pinned cert
    let newComputer := env.uuid r.1
    -- Check if we have a record of this host UUID to pull the pinned cert
    if env.known 0 newComputer then
      -- Fetch serverinfo again over HTTPS with the pinned cert
      let r := fetchServerInfo task env r.2
      if r.1.isEmpty then giveUp r.2
      else store task env newComputer r.2
    else store task env newComputer r.2

/-- Whether a signal is `computerAddCompleted`. -/
def Signal.isAddCompleted : Signal → Bool
  | .computerAddCompleted _ _ => true
  | .computerStateChanged _ => false

/-- A host that answers the first request with ServiceUnavailableError and the
retry with a document, and that the registry does not know yet. -/
def answeringAfterRetry : Surroundings :=
  { m_AboutToQuit := fun _ => false,
    getServerInfo := [.serviceUnavailable, .document "serverinfo"],
    detectedPortBlocking := false,
    uuid := String.length,
    known := fun _ _ => false,
    changed := false }

end PendingAddTask

/-! ## Session::exec: the resolution dialog (session.cpp)

The part of the event loop of `Session::exec` that handles a window event with
resolution-change detection and the user event
`SDL_CODE_RESOLUTION_DIALOG_RESULT`. The file-static `int`
`s_ResolutionDialogGeneration` is kept in the state; `++` on it is modelled
with `PcMonitorThread.wrapInt32`. What the loop asks of SDL (the display index
and the desktop display mode) is carried by the event. -/

namespace SessionExec

/-- `ResolutionDialogContext`: the fields the event loop reads back. -/
structure ResolutionDialogContext where
  generation : Int
  width : Int
  height : Int
deriving DecidableEq, Repr

/-- `SDL_DisplayMode`: the fields read by the loop. -/
structure SDL_DisplayMode where
  w : Int
  h : Int
deriving DecidableEq, Repr

/-- `event.window.event`, as far as the resolution-change detection
distinguishes it. -/
inductive SDL_WindowEventID
  | SDL_WINDOWEVENT_SIZE_CHANGED
  | SDL_WINDOWEVENT_DISPLAY_CHANGED
  | other
deriving DecidableEq, Repr

/-- What stays fixed while the loop runs: `m_Preferences->detectResolutionChange`,
`m_SessionOptions.isAutoResolution`, `m_StreamConfig.width` and
`m_StreamConfig.height`. -/
structure Config where
  detectResolutionChange : Bool
  isAutoResolution : Bool
  width : Int
  height : Int
deriving DecidableEq, Repr

/-- The variables of the loop that the dialog handling reads or writes.
`interrupts` counts the calls of `interrupt()`; `dialogs` lists the contexts
handed to `SDL_CreateThread(ResolutionDialogThread, ...)`, oldest first. -/
structure State where
  s_ResolutionDialogGeneration : Int
  m_RestartRequest : Bool
  m_ResolutionDialogPending : Bool
  m_SuppressResolutionChangePrompt : Bool
  m_InitialDesktopWidth : Int
  m_InitialDesktopHeight : Int
  interrupts : Nat
  dialogs : List ResolutionDialogContext
deriving DecidableEq, Repr

/-- The two kinds of event: `SDL_WINDOWEVENT` with the answers of
`SDL_GetWindowDisplayIndex` and `SDL_GetDesktopDisplayMode` (`none` when the
latter does not return 0), and the user event
`SDL_CODE_RESOLUTION_DIALOG_RESULT` with `data2` (`none` for a null pointer)
and `data1`. -/
inductive Event
  | window (event : SDL_WindowEventID) (displayIndex : Int)
      (desktopDisplayMode : Option SDL_DisplayMode)
  | dialogResult (ctxReceived : Option ResolutionDialogContext) (buttonid : Int)
deriving DecidableEq, Repr

/-- `Session::isAutoResolutionMode`. -/
def isAutoResolutionMode (cfg : Config) : Bool :=
  cfg.isAutoResolution

/-- The block that creates a `ResolutionDialogContext` with
`ctx->generation = ++s_ResolutionDialogGeneration` and starts the dialog
thread. -/
def openDialog (s : State) (currentMode : SDL_DisplayMode) : State :=
  let generation := PcMonitorThread.wrapInt32 (s.s_ResolutionDialogGeneration + 1)
  { s with
    s_ResolutionDialogGeneration := generation,
    dialogs := s.dialogs ++
      [{ generation := generation, width := currentMode.w, height := currentMode.h }] }

/-- `case SDL_WINDOWEVENT:` up to the end of the resolution-change detection. -/
def handleWindowEvent (cfg : Config) (s : State) (event : SDL_WindowEventID)
    (displayIndex : Int) (desktopDisplayMode : Option SDL_DisplayMode) : State :=
  if cfg.detectResolutionChange && !s.m_SuppressResolutionChangePrompt &&
      (event == .SDL_WINDOWEVENT_SIZE_CHANGED ||
        event == .SDL_WINDOWEVENT_DISPLAY_CHANGED) then
    -- If we can't get the display index, we can't check the resolution
    match (if displayIndex ≥ 0 then desktopDisplayMode else none) with
    | some currentMode =>
      if currentMode.w != s.m_InitialDesktopWidth ||
          currentMode.h != s.m_InitialDesktopHeight then
        let s := { s with
          m_InitialDesktopWidth := currentMode.w,
          m_InitialDesktopHeight := currentMode.h }
        -- Check if the new resolution matches our stream config
        if currentMode.w == cfg.width && currentMode.h == cfg.height then
          -- Reset pending flag; increment generation to invalidate any in-flight threads
          { s with
            m_ResolutionDialogPending := false,
            s_ResolutionDialogGeneration :=
              PcMonitorThread.wrapInt32 (s.s_ResolutionDialogGeneration + 1) }
        else if isAutoResolutionMode cfg then
          if !s.m_ResolutionDialogPending then
            openDialog { s with m_ResolutionDialogPending := true } currentMode
          else
            openDialog s currentMode
        else s
      else s
    | none => s
  else s

/-- `case SDL_CODE_RESOLUTION_DIALOG_RESULT:`. -/
def handleDialogResult (s : State) (ctxReceived : Option ResolutionDialogContext)
    (buttonid : Int) : State :=
  match ctxReceived with
  | some ctxReceived =>
    if ctxReceived.generation == s.s_ResolutionDialogGeneration then
      let s := { s with m_ResolutionDialogPending := false }
      -- Only handle the button action if it's the latest generation
      if buttonid == 1 then
        { s with m_RestartRequest := true, interrupts := s.interrupts + 1 }
      else s
    else s
  | none => { s with m_ResolutionDialogPending := false }

/-- One iteration of the loop on a window or dialog-result event. -/
def step (cfg : Config) (s : State) : Event → State
  | .window event displayIndex desktopDisplayMode =>
    handleWindowEvent cfg s event displayIndex desktopDisplayMode
  | .dialogResult ctxReceived buttonid => handleDialogResult s ctxReceived buttonid

/-- The loop over a sequence of events. -/
def run (cfg : Config) (s : State) : List Event → State
  | [] => s
  | e :: es => run cfg (step cfg s e) es

/-- The dialogs opened since the loop was in state `s`. -/
def openedSince (s t : State) : List ResolutionDialogContext :=
  t.dialogs.drop s.dialogs.length

/-- The state on entry of the loop, as the constructor and `exec` leave it. -/
def start (generation initialDesktopWidth initialDesktopHeight : Int) : State :=
  { s_ResolutionDialogGeneration := generation,
    m_RestartRequest := false,
    m_ResolutionDialogPending := false,
    m_SuppressResolutionChangePrompt := false,
    m_InitialDesktopWidth := initialDesktopWidth,
    m_InitialDesktopHeight := initialDesktopHeight,
    interrupts := 0,
    dialogs := [] }

/-- A stream of 1920x1080 in automatic resolution mode with detection on. -/
def autoConfig : Config :=
  { detectResolutionChange := true, isAutoResolution := true, width := 1920, height := 1080 }

/-- Two resolution changes, the answer to the first dialog arriving after the
second change, then the answer to the second dialog. -/
def twoChanges : List Event :=
  [.window .SDL_WINDOWEVENT_SIZE_CHANGED 0 (some { w := 1280, h := 720 }),
   .window .SDL_WINDOWEVENT_DISPLAY_CHANGED 0 (some { w := 2560, h := 1440 }),
   .dialogResult (some { generation := 1, width := 1280, height := 720 }) 1,
   .dialogResult (some { generation := 2, width := 2560, height := 1440 }) 1]

end SessionExec

namespace Session

open SupportedVideoFormatList

/-- The candidate list as the codec switch of `Session::initialize` leaves it,
before the YUV 4:4:4 and HDR steps. -/
def candidatesAfterCodecPolicy (K : Limelight) (prefs : Preferences) (env : Environment)
    (width height : Int) : List Int :=
  (applyCodecPolicy K prefs env
    { m_SupportedVideoFormats := initialFormats K, m_LaunchWarnings := [],
      width := width, height := height }).m_SupportedVideoFormats

/-- The facts about the constants of `Limelight.h` that the choice between a
YUV 4:4:4 and a 10-bit profile relies on: no format constant is 0; a format with
a bit in `VIDEO_FORMAT_MASK_YUV444` has no bit outside it; where
`VIDEO_FORMAT_AV1_HIGH10_444` and `VIDEO_FORMAT_H265_REXT10_444` lie with
respect to the masks; `VIDEO_FORMAT_MASK_H264` has no 10-bit format; every bit
of `VIDEO_FORMAT_MASK_10BIT` is an HEVC or an AV1 bit. -/
structure Yuv444HdrLayout (K : Limelight) : Prop where
  formats_nonzero : ∀ v ∈ initialFormats K, v ≠ 0
  yuv444_within_mask : ∀ v ∈ initialFormats K,
    Int.land v K.VIDEO_FORMAT_MASK_YUV444 ≠ 0 →
      Int.land v (Int.lnot K.VIDEO_FORMAT_MASK_YUV444) = 0
  av1High10_is_yuv444 :
    Int.land K.VIDEO_FORMAT_AV1_HIGH10_444 K.VIDEO_FORMAT_MASK_YUV444 ≠ 0
  av1High10_is_10bit :
    Int.land K.VIDEO_FORMAT_AV1_HIGH10_444 K.VIDEO_FORMAT_MASK_10BIT ≠ 0
  av1High10_not_h265 :
    Int.land K.VIDEO_FORMAT_AV1_HIGH10_444 K.VIDEO_FORMAT_MASK_H265 = 0
  av1High10_in_av1_or_h265 :
    Int.land K.VIDEO_FORMAT_AV1_HIGH10_444
      (Int.lnot (Int.lor K.VIDEO_FORMAT_MASK_AV1 K.VIDEO_FORMAT_MASK_H265)) = 0
  h265Rext10_is_yuv444 :
    Int.land K.VIDEO_FORMAT_H265_REXT10_444 K.VIDEO_FORMAT_MASK_YUV444 ≠ 0
  h265Rext10_is_10bit :
    Int.land K.VIDEO_FORMAT_H265_REXT10_444 K.VIDEO_FORMAT_MASK_10BIT ≠ 0
  h265Rext10_in_h265 :
    Int.land K.VIDEO_FORMAT_H265_REXT10_444 (Int.lnot K.VIDEO_FORMAT_MASK_H265) = 0
  h264_mask_not_10bit : Int.land K.VIDEO_FORMAT_MASK_H264 K.VIDEO_FORMAT_MASK_10BIT = 0
  mask10bit_in_h265_or_av1 :
    Int.land K.VIDEO_FORMAT_MASK_10BIT
      (Int.lnot (Int.lor K.VIDEO_FORMAT_MASK_H265 K.VIDEO_FORMAT_MASK_AV1)) = 0

end Session

namespace PendingAddTask

/-- The words of the claim, a server-info fetch fails: the `getServerInfo` call
of `fetchServerInfo` throws something other than ServiceUnavailableError, or it
throws ServiceUnavailableError and the one retry throws as well. `outcomes`
lists how the calls of `getServerInfo` from this fetch on end; a call beyond
the end of the list ends with an exception. -/
def fetchFails : List GetServerInfo → Bool
  | .document _ :: _ => false
  | .serviceUnavailable :: .document _ :: _ => false
  | _ => true

/-- The document that a fetch which does not fail returns. -/
def fetchedDocument : List GetServerInfo → String
  | .document serverInfo :: _ => serverInfo
  | .serviceUnavailable :: .document serverInfo :: _ => serverInfo
  | _ => ""

/-- The outcomes left for the calls of `getServerInfo` after one fetch: one
call is consumed, two when the first one threw ServiceUnavailableError. -/
def afterFetch : List GetServerInfo → List GetServerInfo
  | [] => []
  | .serviceUnavailable :: rest => rest.tail
  | _ :: rest => rest

/-- A host that answers the first request with a document and that the registry
knows already, whose pinned HTTPS re-fetch ends with an exception. -/
def failingOnRefetch : Surroundings :=
  { m_AboutToQuit := fun _ => false,
    getServerInfo := [.document "serverinfo", .otherException],
    detectedPortBlocking := true,
    uuid := String.length,
    known := fun _ _ => true,
    changed := false }

end PendingAddTask

namespace PcMonitorThread

/-- The number of passes the probe loops may make,
`wasOnline ? TRIES_BEFORE_OFFLINING : 1`. -/
def tries (m_Computer : NvComputer) : Nat :=
  if m_Computer.state = .CS_ONLINE then TRIES_BEFORE_OFFLINING else 1

/-- The words of the claim: the probes of the complete passes over all unique
addresses that come before pass `i`, in the order in which they are made. -/
def earlierPasses (m_Computer : NvComputer) (i : Nat) : List (Nat × NvAddress) :=
  (List.range i).flatMap (fun j => m_Computer.uniqueAddresses.map (fun a => (j, a)))

/-- For concrete runs: a cycle without interruption request in which no
address answers. -/
def silentCycle : Cycle :=
  { isInterruptionRequested := fun _ _ => false
    getServerInfo := fun _ _ => none
    getAppList := none }

/-- For concrete runs: a cycle without interruption request in which the host
answers on address 1 in the second pass only. -/
def answeringOnSecondPass : Cycle :=
  { isInterruptionRequested := fun _ _ => false
    getServerInfo := fun i address =>
      if i = 1 ∧ address = 1 then some (pairedHost .CS_ONLINE) else none
    getAppList := none }

end PcMonitorThread

/-! # Theorems -/

namespace AutoUpdateChecker

theorem lex_cons_cons_iff (a b : Int) (l₁ l₂ : List Int) :
    List.Lex (· < ·) (a :: l₁) (b :: l₂) ↔ a < b ∨ (a = b ∧ List.Lex (· < ·) l₁ l₂) := by
  constructor
  · intro h
    cases h with
    | cons h => exact Or.inr ⟨rfl, h⟩
    | rel h => exact Or.inl h
  · rintro (h | ⟨rfl, h⟩)
    · exact List.Lex.rel h
    · exact List.Lex.cons h

theorem padZeros_cons (n : Nat) (a : Int) (l : List Int) :
    padZeros (n + 1) (a :: l) = a :: padZeros n l := by
  simp [padZeros]

theorem padZeros_nil_succ (n : Nat) : padZeros (n + 1) [] = 0 :: padZeros n [] := by
  simp [padZeros, List.replicate_succ]

theorem compareVersionFrom_eq (v1 v2 : List Int) (i : Nat) :
    compareVersionFrom v1 v2 i = cmpZeroPadded (v1.drop i) (v2.drop i) := by
  generalize h : max v1.length v2.length - i = n
  induction n generalizing i with
  | zero =>
    have h1 : v1.length ≤ i := by omega
    have h2 : v2.length ≤ i := by omega
    rw [compareVersionFrom, List.drop_of_length_le h1, List.drop_of_length_le h2]
    simp [h1, h2, cmpZeroPadded]
  | succ n ih =>
    have hrec := ih (i + 1) (by omega)
    rw [compareVersionFrom, hrec]
    by_cases h1 : i < v1.length <;> by_cases h2 : i < v2.length
    · rw [List.drop_eq_getElem_cons h1, List.drop_eq_getElem_cons h2]
      have e1 : v1.getD i 0 = v1[i] := by simp [List.getD_eq_getElem?_getD, h1]
      have e2 : v2.getD i 0 = v2[i] := by simp [List.getD_eq_getElem?_getD, h2]
      simp only [h1, h2, if_true, e1, e2, cmpZeroPadded]
      rw [if_neg (by omega)]
    · have h2' : v2.length ≤ i := by omega
      rw [List.drop_eq_getElem_cons h1, List.drop_of_length_le h2',
        List.drop_of_length_le (by omega : v2.length ≤ i + 1)]
      have e1 : v1.getD i 0 = v1[i] := by simp [List.getD_eq_getElem?_getD, h1]
      simp only [h1, h2, if_true, if_false, e1, cmpZeroPadded]
      rw [if_neg (by omega)]
    · have h1' : v1.length ≤ i := by omega
      rw [List.drop_eq_getElem_cons h2, List.drop_of_length_le h1',
        List.drop_of_length_le (by omega : v1.length ≤ i + 1)]
      have e2 : v2.getD i 0 = v2[i] := by simp [List.getD_eq_getElem?_getD, h2]
      simp only [h1, h2, if_true, if_false, e2, cmpZeroPadded]
      rw [if_neg (by omega)]
    · omega

theorem cmpOutcome_cons (a b r : Int) (p₁ p₂ : List Int) (h : CmpOutcome r p₁ p₂) :
    CmpOutcome (if a < b then -1 else if a > b then 1 else r) (a :: p₁) (b :: p₂) := by
  rcases lt_trichotomy a b with hab | hab | hab
  · exact Or.inl ⟨by simp [hab], List.Lex.rel hab⟩
  · subst hab
    simp only [lt_irrefl, gt_iff_lt, if_false]
    rcases h with ⟨h1, h2⟩ | ⟨h1, h2⟩ | ⟨h1, h2⟩
    · exact Or.inl ⟨h1, List.Lex.cons h2⟩
    · exact Or.inr (Or.inl ⟨h1, by rw [h2]⟩)
    · exact Or.inr (Or.inr ⟨h1, List.Lex.cons h2⟩)
  · refine Or.inr (Or.inr ⟨?_, List.Lex.rel hab⟩)
    rw [if_neg (not_lt.mpr hab.le), if_pos hab]

theorem cmpZeroPadded_outcome (n : Nat) :
    ∀ l₁ l₂ : List Int, l₁.length ≤ n → l₂.length ≤ n →
      CmpOutcome (cmpZeroPadded l₁ l₂) (padZeros n l₁) (padZeros n l₂) := by
  induction n with
  | zero =>
    intro l₁ l₂ h1 h2
    have e1 : l₁ = [] := List.length_eq_zero.mp (by omega)
    have e2 : l₂ = [] := List.length_eq_zero.mp (by omega)
    subst e1 e2
    exact Or.inr (Or.inl ⟨by simp [cmpZeroPadded], rfl⟩)
  | succ n ih =>
    intro l₁ l₂ h1 h2
    match l₁, l₂, h1, h2 with
    | [], [], _, _ => exact Or.inr (Or.inl ⟨by simp [cmpZeroPadded], rfl⟩)
    | a :: l₁, [], h1, _ =>
      rw [padZeros_cons, padZeros_nil_succ, cmpZeroPadded]
      exact cmpOutcome_cons a 0 _ _ _
        (ih l₁ [] (by simpa using h1) (by simp))
    | [], b :: l₂, _, h2 =>
      rw [padZeros_cons, padZeros_nil_succ, cmpZeroPadded]
      exact cmpOutcome_cons 0 b _ _ _
        (ih [] l₂ (by simp) (by simpa using h2))
    | a :: l₁, b :: l₂, h1, h2 =>
      rw [padZeros_cons, padZeros_cons, cmpZeroPadded]
      exact cmpOutcome_cons a b _ _ _
        (ih l₁ l₂ (by simpa using h1) (by simpa using h2))

theorem lex_lt_irrefl (p : List Int) : ¬ List.Lex (· < ·) p p :=
  fun h => (asymm h h : False)

theorem cmpOutcome_iff {r : Int} {p₁ p₂ : List Int} (h : CmpOutcome r p₁ p₂) :
    (r = -1 ∨ r = 0 ∨ r = 1) ∧
    (r = -1 ↔ List.Lex (· < ·) p₁ p₂) ∧
    (r = 0 ↔ p₁ = p₂) ∧
    (r = 1 ↔ List.Lex (· < ·) p₂ p₁) := by
  rcases h with ⟨h1, h2⟩ | ⟨h1, h2⟩ | ⟨h1, h2⟩
  · subst h1
    refine ⟨Or.inl rfl, ⟨fun _ => h2, fun _ => rfl⟩, ⟨fun h => by omega, ?_⟩,
      ⟨fun h => by omega, ?_⟩⟩
    · intro e
      rw [e] at h2
      exact absurd h2 (lex_lt_irrefl _)
    · intro h3
      exact absurd h3 (asymm h2)
  · subst h1 h2
    refine ⟨Or.inr (Or.inl rfl), ⟨fun h => by omega, ?_⟩, ⟨fun _ => rfl, fun _ => rfl⟩,
      ⟨fun h => by omega, ?_⟩⟩
    · intro h3
      exact absurd h3 (lex_lt_irrefl _)
    · intro h3
      exact absurd h3 (lex_lt_irrefl _)
  · subst h1
    refine ⟨Or.inr (Or.inr rfl), ⟨fun h => by omega, ?_⟩, ⟨fun h => by omega, ?_⟩,
      ⟨fun _ => h2, fun _ => rfl⟩⟩
    · intro h3
      exact absurd h3 (asymm h2)
    · intro e
      rw [e] at h2
      exact absurd h2 (lex_lt_irrefl _)

/-- C1: `compareVersion v1 v2` is -1, 0 or 1, and it is -1 exactly when `v1`
is lexicographically smaller than `v2`, 0 exactly when they are equal and 1
exactly when `v1` is lexicographically greater, both versions being padded
with trailing zeros to their common length; `[1]` equals `[1,0,0]`,
`[1,2]` is below `[1,2,1]` and `[2]` is above `[1,99]`. A manifest version
`v2` is newer than the current `v1` (result below 0) exactly when the padded
`v1` is lexicographically smaller than the padded `v2`. -/
theorem compareVersion_lexicographic (v1 v2 : List Int) :
    (compareVersion v1 v2 = -1 ∨ compareVersion v1 v2 = 0 ∨ compareVersion v1 v2 = 1) ∧
    (compareVersion v1 v2 = -1 ↔
      List.Lex (· < ·) (padZeros (max v1.length v2.length) v1)
        (padZeros (max v1.length v2.length) v2)) ∧
    (compareVersion v1 v2 = 0 ↔
      padZeros (max v1.length v2.length) v1 = padZeros (max v1.length v2.length) v2) ∧
    (compareVersion v1 v2 = 1 ↔
      List.Lex (· < ·) (padZeros (max v1.length v2.length) v2)
        (padZeros (max v1.length v2.length) v1)) ∧
    (compareVersion v1 v2 < 0 ↔
      List.Lex (· < ·) (padZeros (max v1.length v2.length) v1)
        (padZeros (max v1.length v2.length) v2)) ∧
    compareVersion [1] [1, 0, 0] = 0 ∧
    compareVersion [1, 2] [1, 2, 1] = -1 ∧
    compareVersion [2] [1, 99] = 1 := by
  have key : ∀ a b : List Int, compareVersion a b = cmpZeroPadded a b := by
    intro a b
    simp [compareVersion, compareVersionFrom_eq]
  have h := cmpOutcome_iff (cmpZeroPadded_outcome (max v1.length v2.length) v1 v2
    (le_max_left _ _) (le_max_right _ _))
  rw [← key] at h
  obtain ⟨h0, h1, h2, h3⟩ := h
  refine ⟨h0, h1, h2, h3, ?_, ?_, ?_, ?_⟩
  · rw [← h1]
    rcases h0 with e | e | e <;> rw [e] <;> decide
  · simp [compareVersion, compareVersionFrom]
  · simp [compareVersion, compareVersionFrom]
  · simp [compareVersion, compareVersionFrom]

end AutoUpdateChecker

namespace SupportedVideoFormatList

theorem int_eq_zero_iff_testBit (x : Int) : x = 0 ↔ ∀ k, Int.testBit x k = false := by
  constructor
  · rintro rfl k
    simp [Int.testBit]
  · intro h
    cases x with
    | ofNat m =>
      have : m = 0 := by
        apply Nat.eq_of_testBit_eq
        intro k
        have := h k
        simpa [Int.testBit] using this
      simp [this]
    | negSucc m =>
      have h1 := h m
      simp only [Int.testBit, Bool.not_eq_false'] at h1
      have h2 : Nat.testBit m m = false := Nat.testBit_lt_two_pow (Nat.lt_two_pow m)
      rw [h1] at h2
      exact absurd h2 (by simp)

theorem land_lor_eq_zero_iff (v a b : Int) :
    Int.land v (Int.lor a b) = 0 ↔ Int.land v a = 0 ∧ Int.land v b = 0 := by
  simp only [int_eq_zero_iff_testBit, Int.testBit_land, Int.testBit_lor]
  constructor
  · intro h
    refine ⟨fun k => ?_, fun k => ?_⟩
    · have := h k
      revert this
      cases Int.testBit v k <;> cases Int.testBit a k <;> cases Int.testBit b k <;> simp
    · have := h k
      revert this
      cases Int.testBit v k <;> cases Int.testBit a k <;> cases Int.testBit b k <;> simp
  · rintro ⟨h1, h2⟩ k
    have := h1 k
    have := h2 k
    revert this
    revert this
    cases Int.testBit v k <;> cases Int.testBit a k <;> cases Int.testBit b k <;> simp

theorem removeByMaskLoop_append (mask : Int) (rest : List Int) :
    ∀ pre : List Int, removeByMaskLoop mask (pre ++ rest) pre.length =
      pre ++ rest.filter (fun v => decide (Int.land v mask = 0)) := by
  induction rest with
  | nil =>
    intro pre
    rw [removeByMaskLoop]
    simp
  | cons x r ih =>
    intro pre
    rw [removeByMaskLoop]
    have hlt : pre.length < (pre ++ x :: r).length := by simp
    have hget : (pre ++ x :: r).getD pre.length 0 = x := by
      rw [List.getD_eq_getElem _ _ hlt]
      exact List.getElem_of_append rfl rfl
    rw [if_pos hlt, hget]
    by_cases hx : Int.land x mask = 0
    · have e : pre ++ x :: r = (pre ++ [x]) ++ r := by simp
      have hl : pre.length + 1 = (pre ++ [x]).length := by simp
      rw [if_neg (by simpa using hx), e, hl, ih (pre ++ [x])]
      simp [hx]
    · have e : (pre ++ x :: r).eraseIdx pre.length = pre ++ r := by
        rw [List.eraseIdx_append_of_length_le (le_refl _)]
        simp
      rw [if_pos hx, e, ih pre]
      simp [hx]

theorem removeByMask_eq_filter (mask : Int) (l : List Int) :
    removeByMask mask l = l.filter (fun v => decide (Int.land v mask = 0)) := by
  have h := removeByMaskLoop_append mask l []
  simpa [removeByMask] using h

theorem deprioritizeByMaskLoop_append (mask : Int) (rest : List Int) :
    ∀ pre dep : List Int, deprioritizeByMaskLoop mask (pre ++ rest) dep pre.length =
      (pre ++ rest.filter (fun v => decide (Int.land v mask = 0)),
       dep ++ rest.filter (fun v => decide (Int.land v mask ≠ 0))) := by
  induction rest with
  | nil =>
    intro pre dep
    rw [deprioritizeByMaskLoop]
    simp
  | cons x r ih =>
    intro pre dep
    rw [deprioritizeByMaskLoop]
    have hlt : pre.length < (pre ++ x :: r).length := by simp
    have hget : (pre ++ x :: r).getD pre.length 0 = x := by
      rw [List.getD_eq_getElem _ _ hlt]
      exact List.getElem_of_append rfl rfl
    rw [if_pos hlt, hget]
    by_cases hx : Int.land x mask = 0
    · have e : pre ++ x :: r = (pre ++ [x]) ++ r := by simp
      have hl : pre.length + 1 = (pre ++ [x]).length := by simp
      rw [if_neg (by simpa using hx), e, hl, ih (pre ++ [x])]
      simp [hx]
    · have e : (pre ++ x :: r).eraseIdx pre.length = pre ++ r := by
        rw [List.eraseIdx_append_of_length_le (le_refl _)]
        simp
      rw [if_pos hx, e, ih pre]
      simp [hx]

theorem deprioritizeByMask_eq_filter (mask : Int) (l : List Int) :
    deprioritizeByMask mask l =
      l.filter (fun v => decide (Int.land v mask = 0)) ++
        l.filter (fun v => decide (Int.land v mask ≠ 0)) := by
  have h := deprioritizeByMaskLoop_append mask l [] []
  simp only [List.nil_append, List.length_nil] at h
  simp [deprioritizeByMask, h]

/-- C2: `removeByMask m` leaves exactly the elements `v` of `L` with
`(v & m) == 0`, in their original relative order, and removes every element
with `(v & m) != 0`. -/
theorem removeByMask_keeps_exactly_unmasked (m : Int) (L : List Int) :
    removeByMask m L = L.filter (fun v => decide (Int.land v m = 0)) ∧
    (∀ v, v ∈ removeByMask m L ↔ v ∈ L ∧ Int.land v m = 0) ∧
    (∀ v, Int.land v m ≠ 0 → v ∉ removeByMask m L) ∧
    List.Sublist (removeByMask m L) L := by
  rw [removeByMask_eq_filter]
  refine ⟨rfl, ?_, ?_, List.filter_sublist L⟩
  · intro v
    simp [List.mem_filter]
  · intro v hv
    simp [List.mem_filter, hv]

/-- C3: `deprioritizeByMask m` yields the elements of `L` with `(v & m) == 0`
in their original order followed by the elements with `(v & m) != 0` in their
original order, and the result is a permutation of `L`. -/
theorem deprioritizeByMask_moves_masked_last (m : Int) (L : List Int) :
    deprioritizeByMask m L =
      L.filter (fun v => decide (Int.land v m = 0)) ++
        L.filter (fun v => decide (Int.land v m ≠ 0)) ∧
    List.Perm (deprioritizeByMask m L) L := by
  rw [deprioritizeByMask_eq_filter]
  refine ⟨rfl, ?_⟩
  have h := List.filter_append_perm (fun v => decide (Int.land v m = 0)) L
  have e : (fun v : Int => decide (Int.land v m ≠ 0)) =
      (fun v => !decide (Int.land v m = 0)) := by
    funext v
    simp
  rw [e]
  exact h

/-- C4: `removeByMask B` followed by `removeByMask A` gives the same list as a
single `removeByMask (A | B)`. -/
theorem removeByMask_compose_eq_union (A B : Int) (L : List Int) :
    removeByMask A (removeByMask B L) = removeByMask (Int.lor A B) L := by
  rw [removeByMask_eq_filter, removeByMask_eq_filter, removeByMask_eq_filter,
    List.filter_filter]
  apply List.filter_congr
  intro v _
  have h := land_lor_eq_zero_iff v A B
  by_cases h1 : Int.land v A = 0 <;> by_cases h2 : Int.land v B = 0 <;>
    simp [h1, h2, h]

/-- C5: applying `deprioritizeByMask M` twice gives the same list, in the same
order, as applying it once. -/
theorem deprioritizeByMask_idempotent (M : Int) (L : List Int) :
    deprioritizeByMask M (deprioritizeByMask M L) = deprioritizeByMask M L := by
  rw [deprioritizeByMask_eq_filter M (deprioritizeByMask M L), deprioritizeByMask_eq_filter]
  simp only [List.filter_append, List.filter_filter]
  have e1 : L.filter (fun a => decide (Int.land a M = 0) && decide (Int.land a M = 0)) =
      L.filter (fun v => decide (Int.land v M = 0)) := by
    apply List.filter_congr
    intro v _
    simp
  have e2 : L.filter (fun a => decide (Int.land a M = 0) && decide (Int.land a M ≠ 0)) = [] := by
    rw [List.filter_eq_nil_iff]
    intro v _
    simp
  have e3 : L.filter (fun a => decide (Int.land a M ≠ 0) && decide (Int.land a M = 0)) = [] := by
    rw [List.filter_eq_nil_iff]
    intro v _
    simp
  have e4 : L.filter (fun a => decide (Int.land a M ≠ 0) && decide (Int.land a M ≠ 0)) =
      L.filter (fun v => decide (Int.land v M ≠ 0)) := by
    apply List.filter_congr
    intro v _
    simp
  rw [e1, e2, e3, e4]
  simp

end SupportedVideoFormatList

namespace Pacer

theorem catchUp_eq_drop (t : Nat) (q : List AVFrame) :
    catchUp t q = (q.drop (q.length - t), q.length - t) := by
  induction q with
  | nil => simp [catchUp]
  | cons f q ih =>
    by_cases h : (f :: q).length > t
    · have h' : q.length + 1 > t := by simpa using h
      have e : (f :: q).length - t = (q.length - t) + 1 := by
        simp only [List.length_cons]
        omega
      rw [catchUp, if_pos h, ih, e]
      rfl
    · have h' : ¬ q.length + 1 > t := by simpa using h
      have e : (f :: q).length - t = 0 := by
        simp only [List.length_cons]
        omega
      rw [catchUp, if_neg h, e]
      rfl

theorem catchUp_length_le (t : Nat) (q : List AVFrame) :
    (catchUp t q).1.length ≤ q.length := by
  rw [catchUp_eq_drop]
  simp

theorem dropFrameForEnqueue_push_length (q : List AVFrame) (f : AVFrame)
    (h : q.length ≤ MAX_QUEUED_FRAMES) :
    ((dropFrameForEnqueue q).1 ++ [f]).length ≤ MAX_QUEUED_FRAMES := by
  unfold dropFrameForEnqueue
  split
  · next h4 =>
    simp only [List.length_append, List.length_tail, List.length_singleton, h4]
    decide
  · next h4 =>
    simp only [List.length_append, List.length_singleton]
    omega

theorem dropFrameAssertFails_of_le (q : List AVFrame) (h : q.length ≤ MAX_QUEUED_FRAMES) :
    dropFrameAssertFails q = false := by
  simp [dropFrameAssertFails, h]

theorem enqueue_bound (p : State) (f : AVFrame)
    (h1 : p.m_PacingQueue.length ≤ MAX_QUEUED_FRAMES)
    (h2 : p.m_RenderQueue.length ≤ MAX_QUEUED_FRAMES)
    (h3 : p.assertionFailed = false) :
    QueueBound (enqueueFrameForRenderingAndUnlock f p) := by
  refine ⟨h1, ?_, ?_⟩
  · exact dropFrameForEnqueue_push_length _ _ h2
  · simp [enqueueFrameForRenderingAndUnlock, h3, dropFrameAssertFails_of_le _ h2]

theorem queueBound_submitFrame {p : State} (h : QueueBound p) (f : AVFrame) :
    QueueBound (submitFrame f p) := by
  unfold Pacer.submitFrame
  rcases Bool.eq_false_or_eq_true p.hasVsyncSource with hv | hv
  · simp only [hv, if_true]
    refine ⟨?_, h.render, ?_⟩
    · exact dropFrameForEnqueue_push_length _ _ h.pacing
    · simp [h.noAssert, dropFrameAssertFails_of_le _ h.pacing]
  · simp only [hv, Bool.false_eq_true, if_false]
    exact enqueue_bound _ f h.pacing h.render h.noAssert

theorem length_le_of_eq_cons {l q : List AVFrame} {f : AVFrame} {n : Nat}
    (h : l.length ≤ n) (hq : l = f :: q) : q.length ≤ n := by
  rw [hq] at h
  simp only [List.length_cons] at h
  omega

theorem queueBound_vsyncCatchUp {p : State} (h : QueueBound p) :
    QueueBound (vsyncCatchUp p) :=
  ⟨le_trans (catchUp_length_le _ _) h.pacing, h.render, h.noAssert⟩

theorem queueBound_placeFirstFrameOnRenderQueue {p : State} (h : QueueBound p) :
    QueueBound (placeFirstFrameOnRenderQueue p) := by
  unfold Pacer.placeFirstFrameOnRenderQueue
  split
  · exact h
  · next frame q hq =>
    exact enqueue_bound _ frame (length_le_of_eq_cons h.pacing hq) h.render h.noAssert

theorem queueBound_handleVsync {p : State} (h : QueueBound p) (wait : Option AVFrame) :
    QueueBound (handleVsync wait p) := by
  unfold Pacer.handleVsync
  have hb := queueBound_vsyncCatchUp h
  simp only
  split
  · split
    · exact hb
    · next f => exact queueBound_placeFirstFrameOnRenderQueue (queueBound_submitFrame hb f)
  · exact queueBound_placeFirstFrameOnRenderQueue hb

theorem queueBound_popRenderQueue {p : State} (h : QueueBound p) :
    QueueBound (popRenderQueue p) := by
  unfold Pacer.popRenderQueue
  split
  · next frame q hr hq =>
    refine ⟨h.pacing, ?_, h.noAssert⟩
    have := h.render
    rw [hq] at this
    simp only [List.length_cons] at this
    show q.length ≤ MAX_QUEUED_FRAMES
    omega
  · exact h

theorem queueBound_renderFrame {p : State} (h : QueueBound p) :
    QueueBound (renderFrame p) := by
  unfold Pacer.renderFrame
  split
  · exact h
  · refine ⟨h.pacing, ?_, h.noAssert⟩
    exact le_trans (catchUp_length_le _ _) h.render

theorem queueBound_step {p : State} (h : QueueBound p) (e : Event) :
    QueueBound (step p e) := by
  cases e with
  | submitFrame f => exact queueBound_submitFrame h f
  | handleVsync w =>
    simp only [Pacer.step]
    split
    · exact queueBound_handleVsync h w
    · exact h
  | popRenderQueue => exact queueBound_popRenderQueue h
  | renderFrame => exact queueBound_renderFrame h

theorem queueBound_run (events : List Event) :
    ∀ {p : State}, QueueBound p → QueueBound (run p events) := by
  induction events with
  | nil => intro p h; exact h
  | cons e es ih => intro p h; exact ih (queueBound_step h e)

theorem queueBound_init (hasVsyncSource noBuffering : Bool) (maxVideoFps displayFps : Int) :
    QueueBound (init hasVsyncSource noBuffering maxVideoFps displayFps) :=
  ⟨by simp [Pacer.init], by simp [Pacer.init], rfl⟩

/-- C6: starting from an initialised pacer with empty queues, after every
finite sequence of `submitFrame`, `handleVsync`, render-queue pop and
`renderFrame` steps, the pacing queue and the render queue each hold at most
`MAX_QUEUED_FRAMES = 4` frames, their sizes sum to at most 8, and the assertion
in `dropFrameForEnqueue` has never failed. -/
theorem queues_never_exceed_MAX_QUEUED_FRAMES (hasVsyncSource noBuffering : Bool)
    (maxVideoFps displayFps : Int) (events : List Event) :
    (run (init hasVsyncSource noBuffering maxVideoFps displayFps) events).m_PacingQueue.length
      ≤ 4 ∧
    (run (init hasVsyncSource noBuffering maxVideoFps displayFps) events).m_RenderQueue.length
      ≤ 4 ∧
    (run (init hasVsyncSource noBuffering maxVideoFps displayFps) events).m_PacingQueue.length +
      (run (init hasVsyncSource noBuffering maxVideoFps displayFps) events).m_RenderQueue.length
      ≤ 8 ∧
    (run (init hasVsyncSource noBuffering maxVideoFps displayFps) events).assertionFailed
      = false := by
  have h := queueBound_run events
    (queueBound_init hasVsyncSource noBuffering maxVideoFps displayFps)
  have h1 := h.pacing
  have h2 := h.render
  simp only [MAX_QUEUED_FRAMES] at h1 h2
  exact ⟨h1, h2, by omega, h.noAssert⟩

theorem dropFrameForEnqueue_eq_drop (q : List AVFrame) :
    dropFrameForEnqueue q =
      (q.drop (if q.length = MAX_QUEUED_FRAMES then 1 else 0),
       if q.length = MAX_QUEUED_FRAMES then q.head? else none) := by
  unfold dropFrameForEnqueue
  split <;> simp

theorem dropFrameForEnqueue_suffix (q : List AVFrame) : (dropFrameForEnqueue q).1 <:+ q := by
  rw [dropFrameForEnqueue_eq_drop]
  exact List.drop_suffix _ _

theorem catchUp_suffix (t : Nat) (q : List AVFrame) : (catchUp t q).1 <:+ q := by
  rw [catchUp_eq_drop]
  exact List.drop_suffix _ _

/-- C7: after `submitFrame f` the destination queue (the pacing queue when a
V-sync source exists, the render queue otherwise) ends with `f`; if it held
exactly 4 frames before the call its new contents are the old contents without
their first element followed by `f`, otherwise the old contents followed by
`f`. The other queue is left as it was. -/
theorem submitFrame_keeps_new_frame_drops_oldest (p : State) (f : AVFrame) :
    destinationQueue (submitFrame f p) =
      (if (destinationQueue p).length = 4 then (destinationQueue p).tail
        else destinationQueue p) ++ [f] ∧
    (destinationQueue (submitFrame f p)).getLast? = some f ∧
    otherQueue (submitFrame f p) = otherQueue p := by
  rcases Bool.eq_false_or_eq_true p.hasVsyncSource with hv | hv
  · have e : destinationQueue (submitFrame f p) =
        (if (destinationQueue p).length = 4 then (destinationQueue p).tail
          else destinationQueue p) ++ [f] := by
      simp only [destinationQueue, Pacer.submitFrame, hv, if_true, dropFrameForEnqueue,
        MAX_QUEUED_FRAMES]
      split <;> rfl
    refine ⟨e, ?_, ?_⟩
    · rw [e]
      simp
    · simp [otherQueue, Pacer.submitFrame, hv]
  · have e : destinationQueue (submitFrame f p) =
        (if (destinationQueue p).length = 4 then (destinationQueue p).tail
          else destinationQueue p) ++ [f] := by
      simp only [destinationQueue, Pacer.submitFrame, hv, Bool.false_eq_true, if_false,
        enqueueFrameForRenderingAndUnlock, dropFrameForEnqueue, MAX_QUEUED_FRAMES]
      split <;> rfl
    refine ⟨e, ?_, ?_⟩
    · rw [e]
      simp
    · simp [otherQueue, Pacer.submitFrame, hv, enqueueFrameForRenderingAndUnlock]

/-- C8: five frames submitted to a pacer without a V-sync source and never
rendered: the fifth `submitFrame` evicts the oldest frame from the full render
queue, `pacerDroppedFrames` stays 0, and the number of submitted frames (5)
differs from `renderedFrames + pacerDroppedFrames + size(pacingQueue) +
size(renderQueue)` (4) although no frame is being rendered. -/
theorem cap_eviction_skips_pacerDroppedFrames :
    fiveFramesNoRender.submitted = [0, 1, 2, 3, 4] ∧
    fiveFramesNoRender.m_RenderQueue = [1, 2, 3, 4] ∧
    fiveFramesNoRender.m_PacingQueue = [] ∧
    fiveFramesNoRender.rendering = none ∧
    fiveFramesNoRender.renderedFrames = 0 ∧
    fiveFramesNoRender.capEvictions = 1 ∧
    fiveFramesNoRender.pacerDroppedFrames = 0 ∧
    fiveFramesNoRender.submitted.length ≠
      fiveFramesNoRender.renderedFrames + fiveFramesNoRender.pacerDroppedFrames +
        fiveFramesNoRender.m_PacingQueue.length + fiveFramesNoRender.m_RenderQueue.length := by
  decide

theorem sublist_shrink_middle {A X Y B S : List AVFrame} (hX : X.Sublist Y)
    (h : (A ++ Y ++ B).Sublist S) : (A ++ X ++ B).Sublist S :=
  List.Sublist.trans
    (List.Sublist.append (List.Sublist.append (List.Sublist.refl A) hX) (List.Sublist.refl B)) h

theorem fifo_enqueue (p : State) (f : AVFrame) (q : List AVFrame)
    (hv : p.hasVsyncSource = false → q = [])
    (h : (p.renderedTrace ++ p.rendering.toList ++ p.m_RenderQueue ++ (f :: q)).Sublist
      p.submitted) :
    FifoOrder (enqueueFrameForRenderingAndUnlock f { p with m_PacingQueue := q }) := by
  refine ⟨hv, ?_⟩
  show (p.renderedTrace ++ p.rendering.toList ++
    ((dropFrameForEnqueue p.m_RenderQueue).1 ++ [f]) ++ q).Sublist p.submitted
  have e : p.renderedTrace ++ p.rendering.toList ++ p.m_RenderQueue ++ (f :: q) =
      (p.renderedTrace ++ p.rendering.toList) ++ p.m_RenderQueue ++ ([f] ++ q) := by simp
  rw [e] at h
  have h' := sublist_shrink_middle (dropFrameForEnqueue_suffix p.m_RenderQueue).sublist h
  have e' : p.renderedTrace ++ p.rendering.toList ++
      ((dropFrameForEnqueue p.m_RenderQueue).1 ++ [f]) ++ q =
      (p.renderedTrace ++ p.rendering.toList) ++ (dropFrameForEnqueue p.m_RenderQueue).1 ++
        ([f] ++ q) := by simp
  rw [e']
  exact h'

theorem fifoOrder_submitFrame {p : State} (h : FifoOrder p) (f : AVFrame) :
    FifoOrder (submitFrame f p) := by
  unfold Pacer.submitFrame
  rcases Bool.eq_false_or_eq_true p.hasVsyncSource with hv | hv
  · simp only [hv, if_true]
    refine ⟨fun hf => by simp [hv] at hf, ?_⟩
    show (p.renderedTrace ++ p.rendering.toList ++ p.m_RenderQueue ++
      ((dropFrameForEnqueue p.m_PacingQueue).1 ++ [f])).Sublist (p.submitted ++ [f])
    have h1 : (p.renderedTrace ++ p.rendering.toList ++ p.m_RenderQueue ++
        (dropFrameForEnqueue p.m_PacingQueue).1).Sublist p.submitted :=
      List.Sublist.trans
        (List.Sublist.append (List.Sublist.refl _)
          (dropFrameForEnqueue_suffix p.m_PacingQueue).sublist) h.sublist
    have h2 := List.Sublist.append h1 (List.Sublist.refl [f])
    simpa [List.append_assoc] using h2
  · simp only [hv, Bool.false_eq_true, if_false]
    have hp := h.pacingUnused hv
    have hs := h.sublist
    rw [hp, List.append_nil] at hs
    have h2 := List.Sublist.append hs (List.Sublist.refl [f])
    have key := fifo_enqueue { p with submitted := p.submitted ++ [f] } f []
      (fun _ => rfl) (by simpa [List.append_assoc] using h2)
    have e : ({ p with submitted := p.submitted ++ [f], m_PacingQueue := [] } : State) =
        { p with submitted := p.submitted ++ [f] } := by
      cases p
      simp only [State.mk.injEq, true_and, and_true]
      simp only at hp
      simp [hp]
    have e' : ({ p with submitted := p.submitted ++ [f] } : State).hasVsyncSource = false := hv
    rw [e] at key
    simpa [hv] using key

theorem fifoOrder_vsyncCatchUp {p : State} (h : FifoOrder p) : FifoOrder (vsyncCatchUp p) := by
  refine ⟨fun hv => ?_, ?_⟩
  · have hp := h.pacingUnused hv
    show (catchUp _ p.m_PacingQueue).1 = []
    rw [hp]
    simp [catchUp]
  · exact List.Sublist.trans
      (List.Sublist.append (List.Sublist.refl _) (catchUp_suffix _ p.m_PacingQueue).sublist)
      h.sublist

theorem fifoOrder_placeFirstFrameOnRenderQueue {p : State} (h : FifoOrder p) :
    FifoOrder (placeFirstFrameOnRenderQueue p) := by
  unfold Pacer.placeFirstFrameOnRenderQueue
  split
  · exact h
  · next frame q hq =>
    apply fifo_enqueue
    · intro hv
      have := h.pacingUnused hv
      rw [hq] at this
      exact absurd this (by simp)
    · have := h.sublist
      rw [hq] at this
      exact this

theorem fifoOrder_handleVsync {p : State} (h : FifoOrder p) (wait : Option AVFrame) :
    FifoOrder (handleVsync wait p) := by
  unfold Pacer.handleVsync
  have hb := fifoOrder_vsyncCatchUp h
  simp only
  split
  · split
    · exact hb
    · next f => exact fifoOrder_placeFirstFrameOnRenderQueue (fifoOrder_submitFrame hb f)
  · exact fifoOrder_placeFirstFrameOnRenderQueue hb

theorem fifoOrder_popRenderQueue {p : State} (h : FifoOrder p) :
    FifoOrder (popRenderQueue p) := by
  unfold Pacer.popRenderQueue
  split
  · next frame q hr hq =>
    refine ⟨h.pacingUnused, ?_⟩
    have := h.sublist
    rw [hr, hq] at this
    simpa using this
  · exact h

theorem fifoOrder_renderFrame {p : State} (h : FifoOrder p) : FifoOrder (renderFrame p) := by
  unfold Pacer.renderFrame
  split
  · exact h
  · next frame hr =>
    refine ⟨h.pacingUnused, ?_⟩
    have hs := h.sublist
    rw [hr] at hs
    show (p.renderedTrace ++ [frame] ++ [] ++ (catchUp _ p.m_RenderQueue).1 ++
      p.m_PacingQueue).Sublist p.submitted
    rw [List.append_nil]
    exact sublist_shrink_middle (catchUp_suffix _ p.m_RenderQueue).sublist hs

theorem fifoOrder_step {p : State} (h : FifoOrder p) (e : Event) : FifoOrder (step p e) := by
  cases e with
  | submitFrame f => exact fifoOrder_submitFrame h f
  | handleVsync w =>
    simp only [Pacer.step]
    split
    · exact fifoOrder_handleVsync h w
    · exact h
  | popRenderQueue => exact fifoOrder_popRenderQueue h
  | renderFrame => exact fifoOrder_renderFrame h

theorem fifoOrder_run (events : List Event) :
    ∀ {p : State}, FifoOrder p → FifoOrder (run p events) := by
  induction events with
  | nil => intro p h; exact h
  | cons e es ih => intro p h; exact ih (fifoOrder_step h e)

theorem fifoOrder_init (hasVsyncSource noBuffering : Bool) (maxVideoFps displayFps : Int) :
    FifoOrder (init hasVsyncSource noBuffering maxVideoFps displayFps) :=
  ⟨fun _ => rfl, by simp [Pacer.init]⟩

/-- C9: whenever the pacer drops frames, what stays in the queue is a suffix of
what was there, so the dropped frames are the oldest ones; and in every run
from an initialised pacer the rendered frames, the frame being rendered, the
render queue and the pacing queue, read one after the other, form a subsequence
of the submitted frames, so each queue lists its frames in submission order and
the frames handed to the renderer are a subsequence of the submitted frames. -/
theorem rendered_frames_subsequence_of_submitted (hasVsyncSource noBuffering : Bool)
    (maxVideoFps displayFps : Int) (events : List Event) :
    (∀ q : List AVFrame, (dropFrameForEnqueue q).1 <:+ q) ∧
    (∀ (t : Nat) (q : List AVFrame), (catchUp t q).1 <:+ q) ∧
    ((run (init hasVsyncSource noBuffering maxVideoFps displayFps) events).renderedTrace ++
      (run (init hasVsyncSource noBuffering maxVideoFps displayFps) events).rendering.toList ++
      (run (init hasVsyncSource noBuffering maxVideoFps displayFps) events).m_RenderQueue ++
      (run (init hasVsyncSource noBuffering maxVideoFps displayFps) events).m_PacingQueue).Sublist
      (run (init hasVsyncSource noBuffering maxVideoFps displayFps) events).submitted ∧
    (run (init hasVsyncSource noBuffering maxVideoFps displayFps) events).renderedTrace.Sublist
      (run (init hasVsyncSource noBuffering maxVideoFps displayFps) events).submitted ∧
    (run (init hasVsyncSource noBuffering maxVideoFps displayFps) events).m_RenderQueue.Sublist
      (run (init hasVsyncSource noBuffering maxVideoFps displayFps) events).submitted ∧
    (run (init hasVsyncSource noBuffering maxVideoFps displayFps) events).m_PacingQueue.Sublist
      (run (init hasVsyncSource noBuffering maxVideoFps displayFps) events).submitted := by
  have h := (fifoOrder_run events
    (fifoOrder_init hasVsyncSource noBuffering maxVideoFps displayFps)).sublist
  refine ⟨dropFrameForEnqueue_suffix, catchUp_suffix, h, ?_, ?_, ?_⟩
  · refine List.Sublist.trans ?_ h
    simp only [List.append_assoc]
    exact List.sublist_append_left _ _
  · refine List.Sublist.trans ?_ h
    exact List.Sublist.trans (List.sublist_append_right _ _) (List.sublist_append_left _ _)
  · refine List.Sublist.trans ?_ h
    exact List.sublist_append_right _ _

theorem dropFrameForEnqueue_count (q : List AVFrame) :
    (dropFrameForEnqueue q).1.length + (if (dropFrameForEnqueue q).2.isSome then 1 else 0) =
      q.length := by
  unfold dropFrameForEnqueue
  split
  · next h4 =>
    cases q with
    | nil => simp [MAX_QUEUED_FRAMES] at h4
    | cons a t => simp
  · simp

theorem catchUp_count (t : Nat) (q : List AVFrame) :
    (catchUp t q).1.length + (catchUp t q).2 = q.length := by
  rw [catchUp_eq_drop]
  simp only [List.length_drop]
  omega

theorem accounted_enqueue (p : State) (f : AVFrame) (q : List AVFrame) (n : Nat)
    (h : n = p.renderedFrames + p.pacerDroppedFrames + p.capEvictions +
      q.length + (p.m_RenderQueue.length + 1) + p.rendering.toList.length)
    (hs : p.submitted.length = n) :
    Accounted (enqueueFrameForRenderingAndUnlock f { p with m_PacingQueue := q }) := by
  have hc := dropFrameForEnqueue_count p.m_RenderQueue
  show p.submitted.length = p.renderedFrames + p.pacerDroppedFrames +
    (p.capEvictions + (if (dropFrameForEnqueue p.m_RenderQueue).2.isSome then 1 else 0)) +
    q.length + ((dropFrameForEnqueue p.m_RenderQueue).1 ++ [f]).length +
    p.rendering.toList.length
  rw [List.length_append, List.length_singleton]
  omega

theorem accounted_submitFrame {p : State} (h : Accounted p) (f : AVFrame) :
    Accounted (submitFrame f p) := by
  unfold Accounted at h
  unfold Pacer.submitFrame
  rcases Bool.eq_false_or_eq_true p.hasVsyncSource with hv | hv
  · simp only [hv, if_true]
    have hc := dropFrameForEnqueue_count p.m_PacingQueue
    show (p.submitted ++ [f]).length = p.renderedFrames + p.pacerDroppedFrames +
      (p.capEvictions + (if (dropFrameForEnqueue p.m_PacingQueue).2.isSome then 1 else 0)) +
      ((dropFrameForEnqueue p.m_PacingQueue).1 ++ [f]).length + p.m_RenderQueue.length +
      p.rendering.toList.length
    simp only [List.length_append, List.length_singleton]
    omega
  · simp only [hv, Bool.false_eq_true, if_false]
    have key := accounted_enqueue { p with submitted := p.submitted ++ [f] } f p.m_PacingQueue
      (p.submitted.length + 1)
      (by
        show p.submitted.length + 1 = p.renderedFrames + p.pacerDroppedFrames + p.capEvictions +
          p.m_PacingQueue.length + (p.m_RenderQueue.length + 1) + p.rendering.toList.length
        omega)
      (by simp)
    simpa [hv] using key

theorem accounted_vsyncCatchUp {p : State} (h : Accounted p) : Accounted (vsyncCatchUp p) := by
  unfold Accounted at h
  have hc := catchUp_count
    (if (decide (p.m_MaxVideoFps ≥ p.m_DisplayFps) &&
      p.m_PacingQueueHistory.any (fun e => decide (e ≤ 1))) then 3 else 1) p.m_PacingQueue
  show p.submitted.length = p.renderedFrames + (p.pacerDroppedFrames + (catchUp _ _).2) +
    p.capEvictions + (catchUp _ p.m_PacingQueue).1.length + p.m_RenderQueue.length +
    p.rendering.toList.length
  omega

theorem accounted_placeFirstFrameOnRenderQueue {p : State} (h : Accounted p) :
    Accounted (placeFirstFrameOnRenderQueue p) := by
  unfold Pacer.placeFirstFrameOnRenderQueue
  split
  · exact h
  · next frame q hq =>
    unfold Accounted at h
    rw [hq, List.length_cons] at h
    exact accounted_enqueue p frame q p.submitted.length (by omega) rfl

theorem accounted_handleVsync {p : State} (h : Accounted p) (wait : Option AVFrame) :
    Accounted (handleVsync wait p) := by
  unfold Pacer.handleVsync
  have hb := accounted_vsyncCatchUp h
  simp only
  split
  · split
    · exact hb
    · next f => exact accounted_placeFirstFrameOnRenderQueue (accounted_submitFrame hb f)
  · exact accounted_placeFirstFrameOnRenderQueue hb

theorem accounted_popRenderQueue {p : State} (h : Accounted p) :
    Accounted (popRenderQueue p) := by
  unfold Pacer.popRenderQueue
  split
  · next frame q hr hq =>
    unfold Accounted at h
    rw [hr, hq] at h
    simp only [List.length_cons, Option.toList, List.length_nil] at h
    show p.submitted.length = p.renderedFrames + p.pacerDroppedFrames + p.capEvictions +
      p.m_PacingQueue.length + q.length + [frame].length
    simp only [List.length_singleton]
    omega
  · exact h

theorem accounted_renderFrame {p : State} (h : Accounted p) : Accounted (renderFrame p) := by
  unfold Pacer.renderFrame
  split
  · exact h
  · next frame hr =>
    unfold Accounted at h
    rw [hr] at h
    simp only [Option.toList, List.length_singleton] at h
    have hc := catchUp_count
      (if p.noBuffering then 1
        else if p.m_RenderQueueHistory.any (fun e => decide (e = 0)) then 2 else 0)
      p.m_RenderQueue
    show p.submitted.length = (p.renderedFrames + 1) + (p.pacerDroppedFrames + (catchUp _ _).2) +
      p.capEvictions + p.m_PacingQueue.length + (catchUp _ p.m_RenderQueue).1.length +
      ([] : List AVFrame).length
    simp only [List.length_nil]
    omega

theorem accounted_step {p : State} (h : Accounted p) (e : Event) : Accounted (step p e) := by
  cases e with
  | submitFrame f => exact accounted_submitFrame h f
  | handleVsync w =>
    simp only [Pacer.step]
    split
    · exact accounted_handleVsync h w
    · exact h
  | popRenderQueue => exact accounted_popRenderQueue h
  | renderFrame => exact accounted_renderFrame h

/-- What the code does keep: in every run from an initialised pacer the number
of submitted frames equals `renderedFrames + pacerDroppedFrames` plus the
frames evicted by `dropFrameForEnqueue` (which no statistic counts) plus the
frames in the two queues plus the frame being rendered. -/
theorem frames_accounted_with_cap_evictions (hasVsyncSource noBuffering : Bool)
    (maxVideoFps displayFps : Int) (events : List Event) :
    Accounted (run (init hasVsyncSource noBuffering maxVideoFps displayFps) events) := by
  have hrun : ∀ (es : List Event) (p : State), Accounted p → Accounted (run p es) := by
    intro es
    induction es with
    | nil => intro p h; exact h
    | cons e es ih => intro p h; exact ih _ (accounted_step h e)
  exact hrun events _ (by simp [Accounted, Pacer.init])

end Pacer

namespace ComputerManager

/-- C10: a flush of the host list `new` over settings that hold the list
`previous` in the primary slot and no backup is cut off by a crash after any
number `n` of its four steps. The startup loader then inflates every host of
`previous` (as serialised with its app list) or every host of `new` (as
serialised without or with its app list), in order and none missing; so it
returns as many hosts as `previous` or as `new` has, and no empty list unless
`previous` or `new` is empty. -/
theorem crash_during_flush_loads_complete_list {Host σ : Type}
    (serialize : Host → Bool → σ) (inflate : σ → Host) (previous new : List Host) (n : Nat) :
    (loadHosts inflate (flushUntilCrash n serialize new (settledSettings serialize previous)) =
        previous.map (fun c => inflate (serialize c true)) ∨
      loadHosts inflate (flushUntilCrash n serialize new (settledSettings serialize previous)) =
        new.map (fun c => inflate (serialize c false)) ∨
      loadHosts inflate (flushUntilCrash n serialize new (settledSettings serialize previous)) =
        new.map (fun c => inflate (serialize c true))) ∧
    ((loadHosts inflate
        (flushUntilCrash n serialize new (settledSettings serialize previous))).length =
        previous.length ∨
      (loadHosts inflate
        (flushUntilCrash n serialize new (settledSettings serialize previous))).length =
        new.length) ∧
    (previous = [] ∨ new = [] ∨
      loadHosts inflate (flushUntilCrash n serialize new (settledSettings serialize previous))
        ≠ []) := by
  have key :
      loadHosts inflate (flushUntilCrash n serialize new (settledSettings serialize previous)) =
        previous.map (fun c => inflate (serialize c true)) ∨
      loadHosts inflate (flushUntilCrash n serialize new (settledSettings serialize previous)) =
        new.map (fun c => inflate (serialize c false)) ∨
      loadHosts inflate (flushUntilCrash n serialize new (settledSettings serialize previous)) =
        new.map (fun c => inflate (serialize c true)) := by
    match n with
    | 0 =>
      left
      simp [flushUntilCrash, flushSteps, settledSettings, loadHosts]
    | 1 =>
      cases new with
      | nil =>
        left
        simp [flushUntilCrash, flushSteps, settledSettings, loadHosts, writeBackup]
      | cons a t =>
        right; left
        simp [flushUntilCrash, flushSteps, settledSettings, loadHosts, writeBackup]
    | 2 =>
      right; left
      cases new with
      | nil =>
        simp [flushUntilCrash, flushSteps, settledSettings, loadHosts, writeBackup,
          removePrimary]
      | cons a t =>
        simp [flushUntilCrash, flushSteps, settledSettings, loadHosts, writeBackup,
          removePrimary]
    | 3 =>
      cases new with
      | nil =>
        right; left
        simp [flushUntilCrash, flushSteps, settledSettings, loadHosts, writeBackup,
          removePrimary, writePrimary]
      | cons a t =>
        right; left
        simp [flushUntilCrash, flushSteps, settledSettings, loadHosts, writeBackup,
          removePrimary, writePrimary]
    | k + 4 =>
      right; right
      simp [flushUntilCrash, flushSteps, settledSettings, loadHosts, writeBackup,
        removePrimary, writePrimary, removeBackup]
  refine ⟨key, ?_, ?_⟩
  · rcases key with h | h | h <;> rw [h] <;> simp
  · by_cases hp : previous = []
    · exact Or.inl hp
    · by_cases hn : new = []
      · exact Or.inr (Or.inl hn)
      · refine Or.inr (Or.inr ?_)
        rcases key with h | h | h <;> rw [h] <;> simpa using (by assumption)

end ComputerManager

namespace NvPairingManager

theorem certOutcome_unpairAndReturn (http : Http) (state : PairState) (cert : Bytes)
    (h : state ≠ .PAIRED) : CertOutcome (unpairAndReturn http state) cert := by
  unfold unpairAndReturn
  split
  · exact Or.inr ⟨by simp, rfl⟩
  · refine Or.inr ⟨?_, rfl⟩
    intro e
    simp only [Except.ok.injEq] at e
    exact h e

theorem certOutcome_throwFrom (http : Http) (e : PairError) (cert : Bytes) :
    CertOutcome (throwFrom http e) cert :=
  Or.inr ⟨by simp [throwFrom], rfl⟩

theorem certOutcome_stage5 (http : Http) (cert : Bytes) : CertOutcome (stage5 http cert) cert := by
  unfold stage5
  split
  · exact certOutcome_throwFrom _ _ _
  · split
    · exact certOutcome_unpairAndReturn _ _ _ (by decide)
    · exact Or.inl ⟨rfl, rfl⟩

theorem certOutcome_stage4 (c : Crypto) (http : Http) (cert secret : Bytes) :
    CertOutcome (stage4 c http cert secret) cert := by
  unfold stage4
  simp only
  split
  · exact certOutcome_throwFrom _ _ _
  · split
    · exact certOutcome_unpairAndReturn _ _ _ (by decide)
    · exact certOutcome_stage5 _ _

theorem certOutcome_checkPairingSecret (c : Crypto) (algo : HashAlgo) (http : Http)
    (cert ch sr cs ps : Bytes) :
    CertOutcome (checkPairingSecret c algo http cert ch sr cs ps) cert := by
  unfold checkPairingSecret
  simp only
  split
  · exact certOutcome_unpairAndReturn _ _ _ (by decide)
  · split
    · exact certOutcome_unpairAndReturn _ _ _ (by decide)
    · exact certOutcome_stage4 _ _ _ _

theorem certOutcome_stage3 (c : Crypto) (rnd : Randoms) (algo : HashAlgo) (n : Nat)
    (key : Bytes) (http : Http) (cert crd : Bytes) :
    CertOutcome (stage3 c rnd algo n key http cert crd) cert := by
  unfold stage3
  simp only
  split
  · exact certOutcome_throwFrom _ _ _
  · split
    · exact certOutcome_unpairAndReturn _ _ _ (by decide)
    · exact certOutcome_checkPairingSecret _ _ _ _ _ _ _ _

theorem certOutcome_stage2 (c : Crypto) (rnd : Randoms) (algo : HashAlgo) (n : Nat)
    (key : Bytes) (http : Http) (cert : Bytes) :
    CertOutcome (stage2 c rnd algo n key http cert) cert := by
  unfold stage2
  simp only
  split
  · exact certOutcome_throwFrom _ _ _
  · split
    · exact certOutcome_unpairAndReturn _ _ _ (by decide)
    · exact certOutcome_stage3 _ _ _ _ _ _ _ _

theorem request_ok_first {responses : List HttpResult} {req : Request} {xml : XmlReply}
    {http : Http}
    (h : Http.request { pending := responses, sent := [] } req = (.ok xml, http)) :
    ∃ rest, responses = .reply xml :: rest ∧ xml.status_code = 200 ∧
      http = { pending := rest, sent := [req] } := by
  unfold Http.request Http.openConnectionToString at h
  cases responses with
  | nil => simp at h
  | cons r rest =>
    cases r with
    | networkError => simp at h
    | reply x =>
      simp only [List.nil_append] at h
      unfold verifyResponseStatus at h
      by_cases hs : x.status_code = 200
      · simp only [hs, if_true, Prod.mk.injEq, Except.ok.injEq] at h
        obtain ⟨h1, h2⟩ := h
        subst h1
        exact ⟨rest, rfl, hs, h2.symm⟩
      · simp [hs] at h

/-- C11: `pair` assigns the caller's `serverCert` exactly when it returns
`PAIRED`, and then to the certificate parsed from the `plaincert` of the
first answer, which is not null; with every other ending (`PIN_WRONG`,
`ALREADY_IN_PROGRESS`, `FAILED`, a transport or host-status exception) the
output is not assigned. -/
theorem pair_assigns_serverCert_iff_PAIRED (c : Crypto) (rnd : Randoms)
    (serverMajorVersion : Int) (pin : Bytes) (responses : List HttpResult) :
    ((pair c rnd serverMajorVersion pin responses).result = .ok .PAIRED ∧
      ∃ getCert rest, responses = .reply getCert :: rest ∧ getCert.plaincert ≠ [] ∧
        c.certIsNull getCert.plaincert = false ∧
        (pair c rnd serverMajorVersion pin responses).serverCert = some getCert.plaincert) ∨
    ((pair c rnd serverMajorVersion pin responses).result ≠ .ok .PAIRED ∧
      (pair c rnd serverMajorVersion pin responses).serverCert = none) := by
  unfold pair
  simp only
  split
  · exact Or.inr ⟨by simp [throwFrom], rfl⟩
  · next getCert http hreq =>
    obtain ⟨rest, hresp, -, -⟩ := request_ok_first hreq
    split
    · exact Or.inr ⟨by simp, rfl⟩
    · split
      · exact Or.inr (by
          have := certOutcome_unpairAndReturn http .ALREADY_IN_PROGRESS [] (by decide)
          rcases this with ⟨h1, -⟩ | h
          · exact absurd h1 (by
              unfold unpairAndReturn
              split <;> simp)
          · exact h)
      · next hne =>
        split
        · exact Or.inr (by
            have := certOutcome_unpairAndReturn http .FAILED [] (by decide)
            rcases this with ⟨h1, -⟩ | h
            · exact absurd h1 (by
                unfold unpairAndReturn
                split <;> simp)
            · exact h)
        · next hnull =>
          rcases certOutcome_stage2 c rnd (hashAlgoFor serverMajorVersion)
            (hashLengthFor serverMajorVersion) (aesKeyOf c serverMajorVersion rnd.salt pin)
            http getCert.plaincert with ⟨h1, h2⟩ | h
          · exact Or.inl ⟨h1, getCert, rest, hresp, hne, by simpa using hnull, h2⟩
          · exact Or.inr h

theorem request_sent (http http' : Http) (req : Request) (x : Except PairError XmlReply)
    (h : http.request req = (x, http')) : http'.sent = http.sent ++ [req] := by
  unfold Http.request Http.openConnectionToString at h
  cases hp : http.pending with
  | nil =>
    simp only [hp, Prod.mk.injEq] at h
    rw [← h.2]
  | cons r rest =>
    cases r with
    | networkError =>
      simp only [hp, Prod.mk.injEq] at h
      rw [← h.2]
    | reply xml =>
      simp only [hp] at h
      cases hv : verifyResponseStatus xml with
      | error e =>
        simp only [hv, Prod.mk.injEq] at h
        rw [← h.2]
      | ok u =>
        simp only [hv, Prod.mk.injEq] at h
        rw [← h.2]

theorem not_unpair_after_request {http http' : Http} {req : Request}
    {x : Except PairError XmlReply} (h : http.request req = (x, http'))
    (hreq : req ≠ .unpair) (hs : Request.unpair ∉ http.sent) : Request.unpair ∉ http'.sent := by
  rw [request_sent http http' req x h]
  simp only [List.mem_append, List.mem_singleton, not_or]
  exact ⟨hs, fun e => hreq e.symm⟩

theorem discipline_unpairAndReturn (http : Http) (state : PairState) (h : state ≠ .PAIRED) :
    UnpairDiscipline (unpairAndReturn http state) := by
  unfold unpairAndReturn Http.openConnectionToString
  cases hp : http.pending with
  | nil => simp [UnpairDiscipline]
  | cons r rest =>
    cases r with
    | networkError => simp [UnpairDiscipline]
    | reply xml =>
      cases state with
      | PAIRED => exact absurd rfl h
      | PIN_WRONG => simp [UnpairDiscipline]
      | FAILED => simp [UnpairDiscipline]
      | ALREADY_IN_PROGRESS => simp [UnpairDiscipline]

theorem discipline_throwFrom (http : Http) (e : PairError) (hs : Request.unpair ∉ http.sent) :
    UnpairDiscipline (throwFrom http e) := by
  cases e with
  | network => exact Or.inl hs
  | gfe code => exact hs

theorem discipline_stage5 (http : Http) (cert : Bytes) (hs : Request.unpair ∉ http.sent) :
    UnpairDiscipline (stage5 http cert) := by
  unfold stage5
  split
  · next e http' hreq =>
    exact discipline_throwFrom _ _ (not_unpair_after_request hreq (by simp) hs)
  · next xml http' hreq =>
    split
    · exact discipline_unpairAndReturn _ _ (by decide)
    · exact not_unpair_after_request hreq (by simp) hs

theorem discipline_stage4 (c : Crypto) (http : Http) (cert secret : Bytes)
    (hs : Request.unpair ∉ http.sent) : UnpairDiscipline (stage4 c http cert secret) := by
  unfold stage4
  simp only
  split
  · next e http' hreq =>
    exact discipline_throwFrom _ _ (not_unpair_after_request hreq (by simp) hs)
  · next xml http' hreq =>
    split
    · exact discipline_unpairAndReturn _ _ (by decide)
    · exact discipline_stage5 _ _ (not_unpair_after_request hreq (by simp) hs)

theorem discipline_checkPairingSecret (c : Crypto) (algo : HashAlgo) (http : Http)
    (cert ch sr cs ps : Bytes) (hs : Request.unpair ∉ http.sent) :
    UnpairDiscipline (checkPairingSecret c algo http cert ch sr cs ps) := by
  unfold checkPairingSecret
  simp only
  split
  · exact discipline_unpairAndReturn _ _ (by decide)
  · split
    · exact discipline_unpairAndReturn _ _ (by decide)
    · exact discipline_stage4 _ _ _ _ hs

theorem discipline_stage3 (c : Crypto) (rnd : Randoms) (algo : HashAlgo) (n : Nat)
    (key : Bytes) (http : Http) (cert crd : Bytes) (hs : Request.unpair ∉ http.sent) :
    UnpairDiscipline (stage3 c rnd algo n key http cert crd) := by
  unfold stage3
  simp only
  split
  · next e http' hreq =>
    exact discipline_throwFrom _ _ (not_unpair_after_request hreq (by simp) hs)
  · next xml http' hreq =>
    split
    · exact discipline_unpairAndReturn _ _ (by decide)
    · exact discipline_checkPairingSecret _ _ _ _ _ _ _ _
        (not_unpair_after_request hreq (by simp) hs)

theorem discipline_stage2 (c : Crypto) (rnd : Randoms) (algo : HashAlgo) (n : Nat)
    (key : Bytes) (http : Http) (cert : Bytes) (hs : Request.unpair ∉ http.sent) :
    UnpairDiscipline (stage2 c rnd algo n key http cert) := by
  unfold stage2
  simp only
  split
  · next e http' hreq =>
    exact discipline_throwFrom _ _ (not_unpair_after_request hreq (by simp) hs)
  · next xml http' hreq =>
    split
    · exact discipline_unpairAndReturn _ _ (by decide)
    · exact discipline_stage3 _ _ _ _ _ _ _ _ (not_unpair_after_request hreq (by simp) hs)

/-- C12 (as stated, refuted): the first answer passes stage 1 and the request
of stage 2 fails in the transport. `pair` ends with the transport exception
after two requests, neither of them `unpair`. -/
theorem transport_error_in_stage2_sends_no_unpair :
    (pair (stubCrypto [] true) fixedRandoms 7 pin1234
      [.reply (okReply []), .networkError]).result = .error .network ∧
    (pair (stubCrypto [] true) fixedRandoms 7 pin1234
      [.reply (okReply []), .networkError]).sent =
      [.getservercert fixedRandoms.salt, .clientchallenge fixedRandoms.randomChallenge] ∧
    Request.unpair ∉ (pair (stubCrypto [] true) fixedRandoms 7 pin1234
      [.reply (okReply []), .networkError]).sent := by
  refine ⟨rfl, rfl, ?_⟩
  decide

/-- C12 (amended): apart from a refusal at the first check of stage 1 (status
200 with a `paired` value other than "1", which returns `FAILED` after the
single `getservercert` request), every run of `pair` keeps the unpair
discipline: a failure returned as `FAILED`, `PIN_WRONG` or
`ALREADY_IN_PROGRESS` comes right after an `unpair` request; a host-status
exception comes with no `unpair` request sent; a transport exception comes
with no `unpair` request sent or from the `unpair` request itself; `PAIRED`
comes with none. -/
theorem pair_unpair_discipline (c : Crypto) (rnd : Randoms) (serverMajorVersion : Int)
    (pin : Bytes) (responses : List HttpResult) :
    (∃ getCert rest, responses = .reply getCert :: rest ∧ getCert.status_code = 200 ∧
      getCert.paired ≠ "1" ∧
      (pair c rnd serverMajorVersion pin responses).result = .ok .FAILED ∧
      (pair c rnd serverMajorVersion pin responses).sent = [.getservercert rnd.salt]) ∨
    UnpairDiscipline (pair c rnd serverMajorVersion pin responses) := by
  unfold pair
  simp only
  split
  · next e http hreq =>
    exact Or.inr (discipline_throwFrom _ _
      (not_unpair_after_request hreq (by simp) (by simp)))
  · next getCert http hreq =>
    have hs : Request.unpair ∉ http.sent :=
      not_unpair_after_request hreq (by simp) (by simp)
    obtain ⟨rest, hresp, hstatus, hhttp⟩ := request_ok_first hreq
    split
    · next hp =>
      refine Or.inl ⟨getCert, rest, hresp, hstatus, hp, rfl, ?_⟩
      rw [hhttp]
    · split
      · exact Or.inr (discipline_unpairAndReturn _ _ (by decide))
      · split
        · exact Or.inr (discipline_unpairAndReturn _ _ (by decide))
        · exact Or.inr (discipline_stage2 _ _ _ _ _ _ _ hs)

theorem unpairAndReturn_result (pending : List HttpResult) (sent : List Request)
    (state : PairState) :
    (unpairAndReturn { pending := pending, sent := sent } state).result =
      afterUnpair pending state ∧
    (unpairAndReturn { pending := pending, sent := sent } state).sent = sent ++ [.unpair] := by
  unfold unpairAndReturn Http.openConnectionToString afterUnpair
  cases pending with
  | nil => exact ⟨rfl, rfl⟩
  | cons r rest =>
    cases r with
    | networkError => exact ⟨rfl, rfl⟩
    | reply xml => exact ⟨rfl, rfl⟩

theorem unpairAndReturn_sent (http : Http) (state : PairState) :
    (unpairAndReturn http state).sent = http.sent ++ [.unpair] := by
  unfold unpairAndReturn Http.openConnectionToString
  cases http.pending with
  | nil => rfl
  | cons r rest =>
    cases r with
    | networkError => rfl
    | reply xml => rfl

theorem stage5_sent (http : Http) (cert : Bytes) :
    ∃ more, (stage5 http cert).sent = http.sent ++ .pairchallenge :: more := by
  unfold stage5
  split
  · next e http' hreq => exact ⟨[], by rw [← request_sent _ _ _ _ hreq]; rfl⟩
  · next xml http' hreq =>
    split
    · exact ⟨[.unpair], by
        rw [unpairAndReturn_sent, request_sent _ _ _ _ hreq, List.append_assoc]
        rfl⟩
    · exact ⟨[], by rw [← request_sent _ _ _ _ hreq]⟩

theorem stage4_sent (c : Crypto) (http : Http) (cert secret : Bytes) :
    ∃ more, (stage4 c http cert secret).sent =
      http.sent ++ .clientpairingsecret (secret ++ c.signMessage secret) :: more := by
  unfold stage4
  simp only
  split
  · next e http' hreq => exact ⟨[], by rw [← request_sent _ _ _ _ hreq]; rfl⟩
  · next xml http' hreq =>
    split
    · exact ⟨[.unpair], by
        rw [unpairAndReturn_sent, request_sent _ _ _ _ hreq, List.append_assoc]
        rfl⟩
    · obtain ⟨more, hm⟩ := stage5_sent http' cert
      exact ⟨.pairchallenge :: more, by
        rw [hm, request_sent _ _ _ _ hreq, List.append_assoc]
        rfl⟩

/-- C13 (as stated, refuted): stages 1 and 2 pass, the answer of stage 3 has
`<paired>1</paired>`, the server signature does not verify and the `unpair`
request that follows fails in the transport. `pair` ends with the transport
exception, not with `FAILED`. -/
theorem bad_signature_can_end_in_exception :
    (stubCrypto [] false).verifySignature (([] : Bytes).take 16) (([] : Bytes).drop 16) [45]
      = false ∧
    (pair (stubCrypto [] false) fixedRandoms 7 pin1234
      [.reply (okReply []), .reply (okReply []), .reply (okReply []), .networkError]).result
      = .error .network ∧
    (pair (stubCrypto [] false) fixedRandoms 7 pin1234
      [.reply (okReply []), .reply (okReply []), .reply (okReply []), .networkError]).result
      ≠ .ok .FAILED := by
  refine ⟨rfl, rfl, ?_⟩
  intro h
  have e : (pair (stubCrypto [] false) fixedRandoms 7 pin1234
      [.reply (okReply []), .reply (okReply []), .reply (okReply []), .networkError]).result
      = .error .network := rfl
  rw [e] at h
  exact absurd h (by simp)

/-- C13 (amended): stages 1 and 2 pass and the answer of stage 3 has status 200
and `<paired>1</paired>`. If the server signature over `serverSecret` does not
verify under the stage-1 certificate, `pair` sends `unpair` and returns
`FAILED`, whatever the challenge hash is; if it verifies and
`hash(C ++ serverCert.signatureBytes ++ serverSecret)` differs from
`serverResponse`, `pair` sends `unpair` and returns `PIN_WRONG`; in both cases
the result is the transport exception instead when the `unpair` request fails
in the transport, and stage 4 is not entered. Only when both checks pass is
the client pairing secret of stage 4 sent. -/
theorem stage3_signature_check_precedes_pin_check (c : Crypto) (rnd : Randoms)
    (serverMajorVersion : Int) (pin : Bytes) (r1 r2 r3 : XmlReply) (rest : List HttpResult)
    (h1 : r1.status_code = 200) (h1p : r1.paired = "1") (h1c : r1.plaincert ≠ [])
    (h1n : c.certIsNull r1.plaincert = false)
    (h2 : r2.status_code = 200) (h2p : r2.paired = "1")
    (h3 : r3.status_code = 200) (h3p : r3.paired = "1") :
    (c.verifySignature (r3.pairingsecret.take 16) (r3.pairingsecret.drop 16) r1.plaincert
        = false →
      (pair c rnd serverMajorVersion pin (.reply r1 :: .reply r2 :: .reply r3 :: rest)).result
        = afterUnpair rest .FAILED ∧
      (pair c rnd serverMajorVersion pin (.reply r1 :: .reply r2 :: .reply r3 :: rest)).sent.length
        = 4 ∧
      (pair c rnd serverMajorVersion pin
        (.reply r1 :: .reply r2 :: .reply r3 :: rest)).sent.getLast? = some .unpair) ∧
    (c.verifySignature (r3.pairingsecret.take 16) (r3.pairingsecret.drop 16) r1.plaincert
        = true →
      c.hash (hashAlgoFor serverMajorVersion)
        (rnd.randomChallenge ++ c.getSignatureFromPemCert r1.plaincert ++
          r3.pairingsecret.take 16) ≠
        (c.decrypt r2.challengeresponse (aesKeyOf c serverMajorVersion rnd.salt pin)).take
          (hashLengthFor serverMajorVersion) →
      (pair c rnd serverMajorVersion pin (.reply r1 :: .reply r2 :: .reply r3 :: rest)).result
        = afterUnpair rest .PIN_WRONG ∧
      (pair c rnd serverMajorVersion pin (.reply r1 :: .reply r2 :: .reply r3 :: rest)).sent.length
        = 4 ∧
      (pair c rnd serverMajorVersion pin
        (.reply r1 :: .reply r2 :: .reply r3 :: rest)).sent.getLast? = some .unpair) ∧
    (c.verifySignature (r3.pairingsecret.take 16) (r3.pairingsecret.drop 16) r1.plaincert
        = true →
      c.hash (hashAlgoFor serverMajorVersion)
        (rnd.randomChallenge ++ c.getSignatureFromPemCert r1.plaincert ++
          r3.pairingsecret.take 16) =
        (c.decrypt r2.challengeresponse (aesKeyOf c serverMajorVersion rnd.salt pin)).take
          (hashLengthFor serverMajorVersion) →
      (pair c rnd serverMajorVersion pin
        (.reply r1 :: .reply r2 :: .reply r3 :: rest)).sent.get? 3 =
        some (.clientpairingsecret (rnd.clientSecretData ++ c.signMessage rnd.clientSecretData)))
    := by
  have hrun : pair c rnd serverMajorVersion pin (.reply r1 :: .reply r2 :: .reply r3 :: rest) =
      checkPairingSecret c (hashAlgoFor serverMajorVersion)
        { pending := rest,
          sent := [.getservercert rnd.salt,
            .clientchallenge (c.encrypt rnd.randomChallenge
              (aesKeyOf c serverMajorVersion rnd.salt pin)),
            .serverchallengeresp (c.encrypt (resize 32 (c.hash (hashAlgoFor serverMajorVersion)
              (((c.decrypt r2.challengeresponse
                  (aesKeyOf c serverMajorVersion rnd.salt pin)).drop
                  (hashLengthFor serverMajorVersion)).take 16 ++ c.clientCertSignature ++
                rnd.clientSecretData)))
              (aesKeyOf c serverMajorVersion rnd.salt pin))] }
        r1.plaincert rnd.randomChallenge
        ((c.decrypt r2.challengeresponse (aesKeyOf c serverMajorVersion rnd.salt pin)).take
          (hashLengthFor serverMajorVersion))
        rnd.clientSecretData r3.pairingsecret := by
    simp [pair, stage2, stage3, Http.request, Http.openConnectionToString, verifyResponseStatus,
      h1, h1p, h1c, h1n, h2, h2p, h3, h3p]
  rw [hrun]
  refine ⟨fun hv => ?_, fun hv hh => ?_, fun hv hh => ?_⟩
  · unfold checkPairingSecret
    simp only [hv, Bool.not_false, if_true]
    refine ⟨(unpairAndReturn_result _ _ _).1, ?_, ?_⟩
    · rw [(unpairAndReturn_result _ _ _).2]
      rfl
    · rw [(unpairAndReturn_result _ _ _).2]
      rfl
  · unfold checkPairingSecret
    simp only [hv, Bool.not_true, Bool.false_eq_true, if_false, hh, ne_eq, not_false_eq_true,
      if_true]
    refine ⟨(unpairAndReturn_result _ _ _).1, ?_, ?_⟩
    · rw [(unpairAndReturn_result _ _ _).2]
      rfl
    · rw [(unpairAndReturn_result _ _ _).2]
      rfl
  · unfold checkPairingSecret
    simp only [hv, Bool.not_true, Bool.false_eq_true, if_false, hh, ne_eq, not_true_eq_false]
    obtain ⟨more, hm⟩ := stage4_sent c
      { pending := rest,
        sent := [.getservercert rnd.salt,
          .clientchallenge (c.encrypt rnd.randomChallenge
            (aesKeyOf c serverMajorVersion rnd.salt pin)),
          .serverchallengeresp (c.encrypt (resize 32 (c.hash (hashAlgoFor serverMajorVersion)
            (((c.decrypt r2.challengeresponse
                (aesKeyOf c serverMajorVersion rnd.salt pin)).drop
                (hashLengthFor serverMajorVersion)).take 16 ++ c.clientCertSignature ++
              rnd.clientSecretData)))
            (aesKeyOf c serverMajorVersion rnd.salt pin))] }
      r1.plaincert rnd.clientSecretData
    rw [hm]
    rfl

theorem stage3_signature_check_precedes_pin_check_witness :
    (okReply []).status_code = 200 ∧ (okReply []).paired = "1" ∧
    (okReply []).plaincert ≠ [] ∧
    (stubCrypto [] false).certIsNull (okReply []).plaincert = false ∧
    (pair (stubCrypto [] false) fixedRandoms 7 pin1234
      [.reply (okReply []), .reply (okReply []), .reply (okReply []),
        .reply (okReply [])]).result = .ok .FAILED :=
  ⟨rfl, rfl, by decide, rfl,
    ((stage3_signature_check_precedes_pin_check (stubCrypto [] false) fixedRandoms 7 pin1234
      (okReply []) (okReply []) (okReply []) [.reply (okReply [])]
      rfl rfl (by decide) rfl rfl rfl rfl rfl).1 rfl).1⟩

theorem take_takeWhile_of_all (p : Nat → Bool) (n : Nat) :
    ∀ l : List Nat, (∀ b ∈ l.take n, p b = true) → (l.takeWhile p).take n = l.take n := by
  induction n with
  | zero => intro l _; simp
  | succ n ih =>
    intro l h
    cases l with
    | nil => simp
    | cons a t =>
      have ha : p a = true := h a (by simp)
      have ht : ∀ b ∈ t.take n, p b = true := fun b hb => h b (by simp [hb])
      simp [List.takeWhile_cons, ha, ih t ht]

/-- What the key derivation does get right: when none of the first 16 bytes of
the digest is zero, the AES key is the first 16 bytes of
`hash(salt ++ latin1(pin))`. -/
theorem aesKeyOf_eq_take_of_no_zero_byte (c : Crypto) (serverMajorVersion : Int)
    (salt pin : Bytes)
    (h : ∀ b ∈ (c.hash (hashAlgoFor serverMajorVersion) (salt ++ pin)).take 16, b ≠ 0) :
    aesKeyOf c serverMajorVersion salt pin =
      (c.hash (hashAlgoFor serverMajorVersion) (salt ++ pin)).take 16 := by
  unfold aesKeyOf fromCString saltPin
  simp only [List.nil_append]
  apply take_takeWhile_of_all
  intro b hb
  simpa using h b hb

/-- C14: for a server of generation 7, the salt `00 .. 00 04` and the PIN
"1234", the SHA-256 digest
`f4b8571c3339f352690015b6399fec3a9172df688b788a6c03d80ab23552ae27` has a zero
tenth byte; the AES key `pair` computes is the 9 bytes before it, not the
first 16 bytes of the digest. -/
theorem aesKey_cut_at_first_zero_byte :
    hashAlgoFor 7 = .Sha256 ∧
    digestWithZeroByte.length = 32 ∧
    aesKeyOf (stubCrypto digestWithZeroByte true) 7 fixedRandoms.salt pin1234 =
      [244, 184, 87, 28, 51, 57, 243, 82, 105] ∧
    (aesKeyOf (stubCrypto digestWithZeroByte true) 7 fixedRandoms.salt pin1234).length = 9 ∧
    aesKeyOf (stubCrypto digestWithZeroByte true) 7 fixedRandoms.salt pin1234 ≠
      ((stubCrypto digestWithZeroByte true).hash (hashAlgoFor 7)
        (fixedRandoms.salt ++ pin1234)).take 16 := by
  decide

end NvPairingManager

namespace ComputerManager

theorem isGlobalV6_eq_not_in_subnets (a : Nat) :
    isGlobalV6 (.ipv6 a) =
      (!(QHostAddress.ipv6 a).isInSubnet addr_fe80 10 &&
       !(QHostAddress.ipv6 a).isInSubnet addr_fec0 10 &&
       !(QHostAddress.ipv6 a).isInSubnet addr_fc00 7 &&
       !(QHostAddress.ipv6 a).isInSubnet addr_2002 16 &&
       !(QHostAddress.ipv6 a).isInSubnet addr_2001 32) := by
  have h1 : (QHostAddress.ipv6 a).isInSubnet addr_fe80 10 =
      decide (0xfe80 <<< 112 ≤ a ∧ a < 0xfec0 <<< 112) := by
    simp only [QHostAddress.isInSubnet, addr_fe80, Nat.shiftRight_eq_div_pow, Nat.shiftLeft_eq]
    norm_num
    rw [Bool.eq_iff_iff]
    simp only [beq_iff_eq, decide_eq_true_eq, Bool.and_eq_true]
    omega
  have h2 : (QHostAddress.ipv6 a).isInSubnet addr_fec0 10 =
      decide (0xfec0 <<< 112 ≤ a ∧ a < 0xff00 <<< 112) := by
    simp only [QHostAddress.isInSubnet, addr_fec0, Nat.shiftRight_eq_div_pow, Nat.shiftLeft_eq]
    norm_num
    rw [Bool.eq_iff_iff]
    simp only [beq_iff_eq, decide_eq_true_eq, Bool.and_eq_true]
    omega
  have h3 : (QHostAddress.ipv6 a).isInSubnet addr_fc00 7 =
      decide (0xfc00 <<< 112 ≤ a ∧ a < 0xfe00 <<< 112) := by
    simp only [QHostAddress.isInSubnet, addr_fc00, Nat.shiftRight_eq_div_pow, Nat.shiftLeft_eq]
    norm_num
    rw [Bool.eq_iff_iff]
    simp only [beq_iff_eq, decide_eq_true_eq, Bool.and_eq_true]
    omega
  have h4 : (QHostAddress.ipv6 a).isInSubnet addr_2002 16 =
      decide (0x2002 <<< 112 ≤ a ∧ a < 0x2003 <<< 112) := by
    simp only [QHostAddress.isInSubnet, addr_2002, Nat.shiftRight_eq_div_pow, Nat.shiftLeft_eq]
    norm_num
    rw [Bool.eq_iff_iff]
    simp only [beq_iff_eq, decide_eq_true_eq, Bool.and_eq_true]
    omega
  have h5 : (QHostAddress.ipv6 a).isInSubnet addr_2001 32 =
      decide (0x20010000 <<< 96 ≤ a ∧ a < 0x20010001 <<< 96) := by
    simp only [QHostAddress.isInSubnet, addr_2001, Nat.shiftRight_eq_div_pow, Nat.shiftLeft_eq]
    norm_num
    rw [Bool.eq_iff_iff]
    simp only [beq_iff_eq, decide_eq_true_eq, Bool.and_eq_true]
    omega
  rw [h1, h2, h3, h4, h5]
  rfl

theorem getBestGlobalAddressV6_eq_find (addresses : List QHostAddress) :
    getBestGlobalAddressV6 addresses = (addresses.find? isGlobalV6).getD .null := by
  induction addresses with
  | nil => rfl
  | cons address rest ih =>
    cases address with
    | null => simp [getBestGlobalAddressV6, QHostAddress.protocol, isGlobalV6, ih]
    | ipv4 a => simp [getBestGlobalAddressV6, QHostAddress.protocol, isGlobalV6, ih]
    | ipv6 a =>
      rw [List.find?_cons, isGlobalV6_eq_not_in_subnets]
      simp only [getBestGlobalAddressV6, QHostAddress.protocol, if_true, ih]
      cases (QHostAddress.ipv6 a).isInSubnet addr_fe80 10 <;>
        cases (QHostAddress.ipv6 a).isInSubnet addr_fec0 10 <;>
        cases (QHostAddress.ipv6 a).isInSubnet addr_fc00 7 <;>
        cases (QHostAddress.ipv6 a).isInSubnet addr_2002 16 <;>
        cases (QHostAddress.ipv6 a).isInSubnet addr_2001 32 <;> simp

/-- C19: `getBestGlobalAddressV6` returns the first IPv6 address of the list
that lies in none of fe80::/10, fec0::/10, fc00::/7, 2002::/16 and 2001::/32,
and the null address exactly when the list has no such address; fe80::1,
fec0::1, fd00::1, 2002::1 and 2001:0:1::1 are each rejected. -/
theorem getBestGlobalAddressV6_first_global (addresses : List QHostAddress) :
    getBestGlobalAddressV6 addresses = (addresses.find? isGlobalV6).getD .null ∧
    (getBestGlobalAddressV6 addresses = .null ↔ ∀ a ∈ addresses, isGlobalV6 a = false) ∧
    getBestGlobalAddressV6 [.ipv6 (0xfe80 <<< 112 + 1)] = .null ∧
    getBestGlobalAddressV6 [.ipv6 (0xfec0 <<< 112 + 1)] = .null ∧
    getBestGlobalAddressV6 [.ipv6 (0xfd00 <<< 112 + 1)] = .null ∧
    getBestGlobalAddressV6 [.ipv6 (0x2002 <<< 112 + 1)] = .null ∧
    getBestGlobalAddressV6 [.ipv6 (0x2001 <<< 112 + 0x1 <<< 80 + 1)] = .null ∧
    getBestGlobalAddressV6 [.ipv4 0xc0a80001, .ipv6 (0xfe80 <<< 112 + 1),
      .ipv6 (0x2a00 <<< 112 + 1), .ipv6 (0x2a00 <<< 112 + 2)] = .ipv6 (0x2a00 <<< 112 + 1) := by
  refine ⟨getBestGlobalAddressV6_eq_find addresses, ?_, by decide, by decide, by decide,
    by decide, by decide, by decide⟩
  rw [getBestGlobalAddressV6_eq_find]
  constructor
  · intro h a ha
    cases hf : addresses.find? isGlobalV6 with
    | none =>
      rw [List.find?_eq_none] at hf
      simpa using hf a ha
    | some b =>
      rw [hf] at h
      simp only [Option.getD_some] at h
      have hb := List.find?_some hf
      rw [h] at hb
      simp [isGlobalV6] at hb
  · intro h
    have : addresses.find? isGlobalV6 = none := by
      rw [List.find?_eq_none]
      intro a ha
      simp [h a ha]
    rw [this]
    rfl

end ComputerManager

namespace AutoUpdateChecker

theorem compareVersion_outcome (a b : List Int) :
    CmpOutcome (compareVersion a b) (padZeros (max a.length b.length) a)
      (padZeros (max a.length b.length) b) := by
  have h := cmpZeroPadded_outcome (max a.length b.length) a b (le_max_left _ _) (le_max_right _ _)
  have key : compareVersion a b = cmpZeroPadded a b := by
    simp [compareVersion, compareVersionFrom_eq]
  rw [key]
  exact h

theorem compareVersion_neg_iff_swap_pos (a b : List Int) :
    compareVersion a b < 0 ↔ compareVersion b a > 0 := by
  have hab := cmpOutcome_iff (compareVersion_outcome a b)
  have hba := cmpOutcome_iff (compareVersion_outcome b a)
  rw [max_comm b.length a.length] at hba
  obtain ⟨ha0, ha1, -, -⟩ := hab
  obtain ⟨hb0, -, -, hb3⟩ := hba
  have e : compareVersion a b = -1 ↔ compareVersion b a = 1 := ha1.trans hb3.symm
  constructor
  · intro h
    have : compareVersion a b = -1 := by
      rcases ha0 with h' | h' | h' <;> omega
    rw [e.mp this]
    decide
  · intro h
    have : compareVersion b a = 1 := by
      rcases hb0 with h' | h' | h' <;> omega
    rw [e.mpr this]
    decide

theorem reportEntry_eq_verdict (client : Client) (o : List (String × QJsonValue)) :
    reportEntry client o = verdict client (.object o) := by
  unfold reportEntry verdict
  simp only
  have h := compareVersion_neg_iff_swap_pos client.m_CurrentVersionQuad
    (parseStringToVersionQuad client (toString o "version"))
  by_cases hlt : compareVersion client.m_CurrentVersionQuad
      (parseStringToVersionQuad client (toString o "version")) < 0
  · rw [if_pos hlt, if_pos (h.mp hlt)]
  · rw [if_neg hlt, if_neg (fun hgt => hlt (h.mpr hgt))]
    split <;> rfl

theorem contains_of_isString (o : List (String × QJsonValue)) (key : String)
    (h : isString o key = true) : contains o key = true := by
  unfold isString at h
  unfold contains
  cases hl : o.lookup key with
  | none => simp [hl] at h
  | some v => rfl

theorem manifestLoop_cons_object (client : Client) (o : List (String × QJsonValue))
    (rest : List ManifestEntry) :
    manifestLoop client (.object o :: rest) =
      if qualifies client (.object o) then verdict client (.object o)
      else manifestLoop client rest := by
  rw [manifestLoop, reportEntry_eq_verdict]
  unfold qualifies
  by_cases hp : isString o "platform" = true
  · by_cases ha : isString o "arch" = true
    · by_cases hv : isString o "version" = true
      · by_cases hb : isString o "browser_url" = true
        · have cp := contains_of_isString o _ hp
          have ca := contains_of_isString o _ ha
          have cv := contains_of_isString o _ hv
          have cb := contains_of_isString o _ hb
          by_cases harch : toString o "arch" = client.buildCpuArchitecture
          · by_cases hplat : toString o "platform" = client.platform
            · by_cases hk : isString o "kernel_version_at_least" = true
              · have ck := contains_of_isString o _ hk
                have h := compareVersion_neg_iff_swap_pos
                  (parseStringToVersionQuad client client.kernelVersion)
                  (parseStringToVersionQuad client (toString o "kernel_version_at_least"))
                by_cases hlt : compareVersion
                    (parseStringToVersionQuad client client.kernelVersion)
                    (parseStringToVersionQuad client (toString o "kernel_version_at_least")) < 0
                · have hgt := h.mp hlt
                  simp [hp, ha, hv, hb, cp, ca, cv, cb, harch, hplat, hk, ck, hlt,
                    not_le.mpr hgt]
                · have hle : compareVersion
                      (parseStringToVersionQuad client (toString o "kernel_version_at_least"))
                      (parseStringToVersionQuad client client.kernelVersion) ≤ 0 :=
                    not_lt.mp (fun hgt => hlt (h.mpr hgt))
                  simp [hp, ha, hv, hb, cp, ca, cv, cb, harch, hplat, hk, ck, hlt, hle]
              · simp [hp, ha, hv, hb, cp, ca, cv, cb, harch, hplat, hk]
            · simp [hp, ha, hv, hb, cp, ca, cv, cb, harch, hplat]
          · simp [hp, ha, hv, hb, cp, ca, cv, cb, harch]
        · simp [hb]
      · simp [hv]
    · simp [ha]
  · simp [hp]

theorem manifestLoop_eq_find (client : Client) (array : List ManifestEntry) :
    manifestLoop client array =
      match array.find? (qualifies client) with
      | some e => verdict client e
      | none => .updateCheckFailed "No update entry found for this platform" := by
  induction array with
  | nil => rfl
  | cons e rest ih =>
    cases e with
    | notObject =>
      rw [manifestLoop, ih, List.find?_cons]
      simp [qualifies]
    | object o =>
      rw [manifestLoop_cons_object, List.find?_cons, ih]
      cases hq : qualifies client (.object o) <;> simp

/-- C20: the outcome of `onUpdateManifestReceived` is the verdict on the first
entry of the array that qualifies (an object with string fields `platform`,
`arch`, `version`, `browser_url`, the client's `arch` and `platform`, and a
`kernel_version_at_least` that, if present as a string, is not greater than
the running kernel version): `updateAvailable` exactly when that entry's
version is newer than the current one, `noUpdateAvailable` otherwise; what
comes after that entry does not matter; with no qualifying entry the check
fails. -/
theorem manifest_first_qualifying_entry_decides (client : Client)
    (array : List ManifestEntry) :
    (onUpdateManifestReceived client array =
      match array.find? (qualifies client) with
      | some e => verdict client e
      | none => .updateCheckFailed
          (if array.isEmpty then "Update manifest is empty"
            else "No update entry found for this platform")) ∧
    (∀ (pre post : List ManifestEntry) (o : List (String × QJsonValue)),
      (∀ x ∈ pre, qualifies client x = false) → qualifies client (.object o) = true →
      onUpdateManifestReceived client (pre ++ .object o :: post) =
        (if compareVersion (parseStringToVersionQuad client (toString o "version"))
            client.m_CurrentVersionQuad > 0 then
          .updateAvailable (toString o "version") (toString o "browser_url")
        else .noUpdateAvailable)) ∧
    ((∀ x ∈ array, qualifies client x = false) →
      ∃ errorMessage, onUpdateManifestReceived client array =
        .updateCheckFailed errorMessage) := by
  have main : onUpdateManifestReceived client array =
      match array.find? (qualifies client) with
      | some e => verdict client e
      | none => .updateCheckFailed
          (if array.isEmpty then "Update manifest is empty"
            else "No update entry found for this platform") := by
    unfold onUpdateManifestReceived
    cases array with
    | nil => rfl
    | cons e rest =>
      simp only [List.isEmpty_cons, Bool.false_eq_true, if_false]
      rw [manifestLoop_eq_find]
  refine ⟨main, ?_, ?_⟩
  · intro pre post o hpre ho
    unfold onUpdateManifestReceived
    have hne : (pre ++ ManifestEntry.object o :: post).isEmpty = false := by
      cases pre <;> rfl
    rw [hne]
    simp only [Bool.false_eq_true, if_false]
    rw [manifestLoop_eq_find]
    have hfind : (pre ++ ManifestEntry.object o :: post).find? (qualifies client) =
        some (.object o) := by
      rw [List.find?_append]
      have : pre.find? (qualifies client) = none := by
        rw [List.find?_eq_none]
        intro x hx
        simp [hpre x hx]
      rw [this, List.find?_cons, ho]
      rfl
    rw [hfind]
    rfl
  · intro hnone
    rw [main]
    have : array.find? (qualifies client) = none := by
      rw [List.find?_eq_none]
      intro x hx
      simp [hnone x hx]
    rw [this]
    exact ⟨_, rfl⟩

end AutoUpdateChecker

namespace SupportedVideoFormatList

theorem ldiff_eq_xor_and (a b : Nat) : Nat.ldiff a b = a ^^^ (a &&& b) := by
  apply Nat.eq_of_testBit_eq
  intro i
  simp only [Nat.testBit_ldiff, Nat.testBit_xor, Nat.testBit_and]
  cases Nat.testBit a i <;> cases Nat.testBit b i <;> rfl

theorem land_eq_landEval : Int.land = landEval := by
  funext a b
  cases a <;> cases b <;> simp [Int.land, landEval, ldiff_eq_xor_and]

theorem lor_eq_lorEval : Int.lor = lorEval := by
  funext a b
  cases a <;> cases b <;> simp [Int.lor, lorEval, ldiff_eq_xor_and]

theorem maskStep_eq_eval :
    maskStep = fun acc it =>
      if landEval acc.2 it.1 ≠ 0 then (lorEval acc.1 it.2, landEval acc.2 (Int.lnot it.1))
      else acc := by
  funext acc it
  simp only [maskStep, land_eq_landEval, lor_eq_lorEval]

theorem land_lnot_eq_zero_iff (x y : Int) : Int.land x (Int.lnot y) = 0 ↔ BitsWithin x y := by
  simp only [int_eq_zero_iff_testBit, Int.testBit_land, Int.testBit_lnot, BitsWithin]
  constructor
  · intro h i hx
    have := h i
    rw [hx] at this
    simpa using this
  · intro h i
    cases hx : Int.testBit x i
    · simp
    · simp [h i hx]

theorem land_ne_zero_iff (x m : Int) :
    Int.land x m ≠ 0 ↔ ∃ i, Int.testBit x i = true ∧ Int.testBit m i = true := by
  rw [Ne, int_eq_zero_iff_testBit]
  simp only [Int.testBit_land, not_forall, Bool.not_eq_false, Bool.and_eq_true]

theorem bitsWithin_refl (x : Int) : BitsWithin x x := fun _ h => h

theorem bitsWithin_trans {x y z : Int} (h1 : BitsWithin x y) (h2 : BitsWithin y z) :
    BitsWithin x z := fun i h => h2 i (h1 i h)

theorem bitsWithin_lor_left (x y : Int) : BitsWithin x (Int.lor x y) := by
  intro i h
  rw [Int.testBit_lor, h, Bool.true_or]

theorem bitsWithin_lor_right (x y : Int) : BitsWithin y (Int.lor x y) := by
  intro i h
  rw [Int.testBit_lor, h, Bool.or_true]

theorem bitsWithin_land_left (x y : Int) : BitsWithin (Int.land x y) x := by
  intro i h
  rw [Int.testBit_land, Bool.and_eq_true] at h
  exact h.1

theorem bitsWithin_land_right (x y : Int) : BitsWithin (Int.land x y) y := by
  intro i h
  rw [Int.testBit_land, Bool.and_eq_true] at h
  exact h.2

theorem bitsWithin_land {x y z : Int} (h1 : BitsWithin x y) (h2 : BitsWithin x z) :
    BitsWithin x (Int.land y z) := by
  intro i h
  rw [Int.testBit_land, h1 i h, h2 i h, Bool.and_self]

theorem bitsWithin_lor {x y z : Int} (h1 : BitsWithin x z) (h2 : BitsWithin y z) :
    BitsWithin (Int.lor x y) z := by
  intro i h
  rw [Int.testBit_lor, Bool.or_eq_true] at h
  rcases h with h | h
  · exact h1 i h
  · exact h2 i h

theorem land_ne_zero_of_bitsWithin {x y m : Int} (h : BitsWithin x y) (hx : Int.land x m ≠ 0) :
    Int.land y m ≠ 0 := by
  rw [land_ne_zero_iff] at hx ⊢
  obtain ⟨i, h1, h2⟩ := hx
  exact ⟨i, h i h1, h2⟩

theorem testBit_foldl_lor (l : List Int) (a : Int) (i : Nat) :
    Int.testBit (l.foldl (fun value v => Int.lor value v) a) i =
      (Int.testBit a i || l.any (fun v => Int.testBit v i)) := by
  induction l generalizing a with
  | nil => simp
  | cons v t ih => rw [List.foldl_cons, ih, Int.testBit_lor, List.any_cons, Bool.or_assoc]

theorem bitsWithin_toInt {v : Int} {l : List Int} (h : v ∈ l) : BitsWithin v (toInt l) := by
  intro i hv
  unfold toInt
  rw [testBit_foldl_lor, Bool.or_eq_true, List.any_eq_true]
  exact Or.inr ⟨v, h, hv⟩

theorem land_toInt_ne_zero {v m : Int} {l : List Int} (h : v ∈ l) (hv : Int.land v m ≠ 0) :
    Int.land (toInt l) m ≠ 0 :=
  land_ne_zero_of_bitsWithin (bitsWithin_toInt h) hv

theorem toInt_nil : toInt [] = 0 := rfl

theorem zero_land (k : Int) : Int.land 0 k = 0 := by
  rw [int_eq_zero_iff_testBit]
  intro i
  rw [Int.testBit_land]
  simp [Int.testBit]

theorem land_zero (k : Int) : Int.land k 0 = 0 := by
  rw [int_eq_zero_iff_testBit]
  intro i
  rw [Int.testBit_land]
  simp [Int.testBit]

theorem foldl_maskStep_zero (m : List (Int × Int)) (a : Int) :
    m.foldl maskStep (a, 0) = (a, 0) := by
  induction m with
  | nil => rfl
  | cons it rest ih =>
    rw [List.foldl_cons]
    have : maskStep (a, 0) it = (a, 0) := by
      unfold maskStep
      simp [zero_land]
    rw [this, ih]

theorem maskByServerCodecModes_zero (K : Limelight) (l : List Int) :
    maskByServerCodecModes K l 0 = 0 := by
  unfold maskByServerCodecModes
  simp only [foldl_maskStep_zero, land_zero]

theorem foldl_maskStep_within (m : List (Int × Int)) (s₀ : Int) :
    ∀ a s a' : Int, BitsWithin a a' → BitsWithin s s₀ →
      BitsWithin (m.foldl maskStep (a, s)).1
        (m.foldl (fun mask it => if Int.land s₀ it.1 ≠ 0 then Int.lor mask it.2 else mask)
          a') := by
  induction m with
  | nil => intro a s a' ha _; exact ha
  | cons it rest ih =>
    intro a s a' ha hs
    rw [List.foldl_cons, List.foldl_cons]
    unfold maskStep
    by_cases hk : Int.land s it.1 ≠ 0
    · have hk' : Int.land s₀ it.1 ≠ 0 := land_ne_zero_of_bitsWithin hs hk
      rw [if_pos hk, if_pos hk']
      apply ih
      · exact bitsWithin_lor (bitsWithin_trans ha (bitsWithin_lor_left _ _))
          (bitsWithin_lor_right _ _)
      · exact bitsWithin_trans (bitsWithin_land_left _ _) hs
    · rw [if_neg hk]
      apply ih
      · split
        · exact bitsWithin_trans ha (bitsWithin_lor_left _ _)
        · exact ha
      · exact hs

theorem maskByServerCodecModes_within (K : Limelight) (l : List Int) (scm : Int) :
    BitsWithin (maskByServerCodecModes K l scm) (hostEncodable K scm) := by
  unfold maskByServerCodecModes hostEncodable
  exact bitsWithin_trans (bitsWithin_land_right _ _)
    (foldl_maskStep_within (mapping K) scm 0 scm 0 (bitsWithin_refl _) (bitsWithin_refl _))

theorem foldl_maskStep_mono (m : List (Int × Int)) :
    ∀ a s : Int, BitsWithin a (m.foldl maskStep (a, s)).1 := by
  induction m with
  | nil => intro a s; exact bitsWithin_refl _
  | cons it rest ih =>
    intro a s
    rw [List.foldl_cons]
    unfold maskStep
    split
    · exact bitsWithin_trans (bitsWithin_lor_left _ _) (ih _ _)
    · exact ih _ _

theorem land_land_lnot_ne_zero {s k k' : Int} (hd : Int.land k k' = 0)
    (hs : Int.land s k' ≠ 0) : Int.land (Int.land s (Int.lnot k)) k' ≠ 0 := by
  rw [land_ne_zero_iff] at hs ⊢
  obtain ⟨i, h1, h2⟩ := hs
  refine ⟨i, ?_, h2⟩
  have hk : Int.testBit k i = false := by
    have := (int_eq_zero_iff_testBit _).mp hd i
    rw [Int.testBit_land, h2, Bool.and_true] at this
    exact this
  rw [Int.testBit_land, Int.testBit_lnot, h1, hk]
  rfl

theorem foldl_maskStep_contains (m : List (Int × Int))
    (hp : m.Pairwise (fun x y => Int.land x.1 y.1 = 0)) (k val : Int) (hm : (k, val) ∈ m) :
    ∀ a s : Int, Int.land s k ≠ 0 → BitsWithin val (m.foldl maskStep (a, s)).1 := by
  induction m with
  | nil => simp at hm
  | cons it rest ih =>
    intro a s hs
    rw [List.pairwise_cons] at hp
    rw [List.foldl_cons]
    rcases List.mem_cons.mp hm with h | h
    · subst h
      unfold maskStep
      rw [if_pos hs]
      exact bitsWithin_trans (bitsWithin_lor_right _ _) (foldl_maskStep_mono rest _ _)
    · have hd : Int.land it.1 k = 0 := hp.1 (k, val) h
      unfold maskStep
      split
      · exact ih hp.2 h _ _ (land_land_lnot_ne_zero hd hs)
      · exact ih hp.2 h _ _ hs

theorem maskByServerCodecModes_contains (K : Limelight)
    (hp : (mapping K).Pairwise (fun x y => Int.land x.1 y.1 = 0)) (k val : Int)
    (hm : (k, val) ∈ mapping K) (l : List Int) (hv : val ∈ l) (scm : Int)
    (hs : Int.land scm k ≠ 0) : BitsWithin val (maskByServerCodecModes K l scm) := by
  unfold maskByServerCodecModes
  exact bitsWithin_land (bitsWithin_toInt hv) (foldl_maskStep_contains _ hp k val hm 0 scm hs)

end SupportedVideoFormatList

namespace Session

open SupportedVideoFormatList

theorem narrows_refl (st : Launch) : Narrows st st :=
  ⟨List.Sublist.refl _, List.prefix_refl _⟩

theorem narrows_trans {a b c : Launch} (h1 : Narrows a b) (h2 : Narrows b c) : Narrows a c :=
  ⟨h2.1.trans h1.1, h1.2.trans h2.2⟩

theorem narrows_emit (prefs : Preferences) (text : LaunchWarning) (st : Launch) :
    Narrows st (emitLaunchWarning prefs text st) := by
  unfold emitLaunchWarning
  split
  · exact ⟨List.Sublist.refl _, List.prefix_append _ _⟩
  · exact narrows_refl st

theorem narrows_warnIf (prefs : Preferences) (c : Bool) (text : LaunchWarning) (st : Launch) :
    Narrows st (warnIf prefs c text st) := by
  unfold warnIf
  split
  · exact narrows_emit _ _ _
  · exact narrows_refl st

theorem narrows_formats (st : Launch) (l : List Int)
    (h : l.Sublist st.m_SupportedVideoFormats) :
    Narrows st { st with m_SupportedVideoFormats := l } :=
  ⟨h, List.prefix_refl _⟩

theorem removeByMask_sublist (mask : Int) (l : List Int) : (removeByMask mask l).Sublist l := by
  rw [removeByMask_eq_filter]
  exact List.filter_sublist l

theorem narrows_remove (st : Launch) (mask : Int) :
    Narrows st
      { st with m_SupportedVideoFormats := removeByMask mask st.m_SupportedVideoFormats } :=
  narrows_formats st _ (removeByMask_sublist _ _)

theorem emit_formats (prefs : Preferences) (text : LaunchWarning) (st : Launch) :
    (emitLaunchWarning prefs text st).m_SupportedVideoFormats = st.m_SupportedVideoFormats := by
  unfold emitLaunchWarning
  split <;> rfl

theorem warnIf_formats (prefs : Preferences) (c : Bool) (text : LaunchWarning) (st : Launch) :
    (warnIf prefs c text st).m_SupportedVideoFormats = st.m_SupportedVideoFormats := by
  unfold warnIf
  split
  · exact emit_formats _ _ _
  · rfl

theorem narrows_checkAv1 (K : Limelight) (prefs : Preferences) (computer : NvComputer)
    (env : Environment) (st : Launch) : Narrows st (checkAv1 K prefs computer env st) := by
  unfold checkAv1
  split
  · split
    · exact narrows_trans (narrows_warnIf _ _ _ _) (narrows_remove _ _)
    · simp only
      split
      · exact narrows_trans (narrows_warnIf _ _ _ _) (narrows_remove _ _)
      · exact narrows_warnIf _ _ _ _
  · exact narrows_refl st

theorem narrows_checkHevc (K : Limelight) (prefs : Preferences) (computer : NvComputer)
    (env : Environment) (st : Launch) : Narrows st (checkHevc K prefs computer env st) := by
  unfold checkHevc
  split
  · split
    · exact narrows_trans (narrows_warnIf _ _ _ _) (narrows_remove _ _)
    · simp only
      split
      · exact narrows_trans (narrows_warnIf _ _ _ _) (narrows_remove _ _)
      · exact narrows_warnIf _ _ _ _
  · exact narrows_refl st

theorem narrows_checkH264 (K : Limelight) (prefs : Preferences) (computer : NvComputer)
    (env : Environment) (st : Launch) : Narrows st (checkH264 K prefs computer env st) := by
  unfold checkH264
  split
  · split
    · exact narrows_emit _ _ _
    · split
      · exact narrows_emit _ _ _
      · exact narrows_emit _ _ _
  · exact narrows_refl st

theorem narrows_checkHdrCodec (K : Limelight) (prefs : Preferences) (computer : NvComputer)
    (env : Environment) (scmBit videoFormat : Int) (missing : LaunchWarning)
    (acc : Launch × Bool) :
    Narrows acc.1 (checkHdrCodec K prefs computer env scmBit videoFormat missing acc).1 := by
  unfold checkHdrCodec
  simp only
  split
  · split
    · exact narrows_trans (narrows_emit _ _ _) (narrows_remove _ _)
    · split
      · exact narrows_emit _ _ _
      · exact narrows_refl _
  · exact narrows_refl _

theorem narrows_checkHdrSupport (K : Limelight) (prefs : Preferences) (computer : NvComputer)
    (env : Environment) (st : Launch) :
    Narrows st (checkHdrSupport K prefs computer env st) := by
  unfold checkHdrSupport
  split
  · exact narrows_trans (narrows_emit _ _ _) (narrows_remove _ _)
  · split
    · exact narrows_emit _ _ _
    · split
      · exact narrows_trans (narrows_emit _ _ _) (narrows_remove _ _)
      · split
        · exact narrows_trans
            (narrows_checkHdrCodec K prefs computer env K.SCM_AV1_MAIN10
              K.VIDEO_FORMAT_AV1_MAIN10 .clientCannotDecodeAv1Main10 (st, false))
            (narrows_checkHdrCodec K prefs computer env K.SCM_HEVC_MAIN10
              K.VIDEO_FORMAT_H265_MAIN10 .clientCannotDecodeHevcMain10 _)
        · exact narrows_refl st

theorem narrows_checkHdrCompatibility (K : Limelight) (prefs : Preferences)
    (computer : NvComputer) (st : Launch) :
    Narrows st (checkHdrCompatibility K prefs computer st) := by
  unfold checkHdrCompatibility
  split
  · exact narrows_trans (narrows_emit _ _ _) (narrows_remove _ _)
  · exact narrows_refl st

theorem narrows_checkHdr (K : Limelight) (prefs : Preferences) (computer : NvComputer)
    (env : Environment) (st : Launch) : Narrows st (checkHdr K prefs computer env st) := by
  unfold checkHdr
  split
  · exact narrows_trans (narrows_checkHdrSupport K prefs computer env st)
      (narrows_checkHdrCompatibility K prefs computer _)
  · exact narrows_refl st

theorem removeUndecodableYuv444_suffix (K : Limelight) (env : Environment) (st : Launch)
    (l : List Int) : removeUndecodableYuv444 K env st l <:+ l := by
  induction l with
  | nil => exact List.suffix_refl _
  | cons front rest ih =>
    unfold removeUndecodableYuv444
    split
    · exact ih.trans (List.suffix_cons _ _)
    · exact List.suffix_refl _

theorem narrows_checkYuv444 (K : Limelight) (prefs : Preferences) (computer : NvComputer)
    (env : Environment) (st : Launch) : Narrows st (checkYuv444 K prefs computer env st) := by
  unfold checkYuv444
  split
  · split
    · exact narrows_trans (narrows_emit _ _ _) (narrows_remove _ _)
    · simp only
      have h0 := narrows_remove st
        (Int.lnot (maskByServerCodecModes K st.m_SupportedVideoFormats
          computer.serverCodecModeSupport))
      split
      · exact narrows_trans h0 (narrows_emit _ _ _)
      · split
        · split
          · exact narrows_trans h0
              (narrows_trans
                (narrows_formats _ _ (removeUndecodableYuv444_suffix K env _ _).sublist)
                (narrows_warnIf _ _ _ _))
          · exact narrows_trans h0
              (narrows_trans (narrows_warnIf _ _ _ _) (narrows_warnIf _ _ _ _))
        · exact h0
  · exact narrows_refl st

theorem narrows_check4K (prefs : Preferences) (computer : NvComputer) (st : Launch) :
    Narrows st (check4K prefs computer st) := by
  unfold check4K
  split
  · exact narrows_trans (narrows_emit _ _ _) ⟨List.Sublist.refl _, List.prefix_refl _⟩
  · exact narrows_refl st

theorem narrows_checkAudioAndGamepads (prefs : Preferences) (env : Environment) (st : Launch) :
    Narrows st (checkAudioAndGamepads prefs env st) := by
  unfold checkAudioAndGamepads
  exact narrows_trans (narrows_warnIf _ _ _ _)
    (narrows_trans (narrows_warnIf _ _ _ _) (narrows_warnIf _ _ _ _))

theorem narrows_validationChecks (K : Limelight) (prefs : Preferences) (computer : NvComputer)
    (env : Environment) (st : Launch) :
    Narrows st (validationChecks K prefs computer env st) := by
  unfold validationChecks
  exact narrows_trans (narrows_warnIf _ _ _ _)
    (narrows_trans (narrows_warnIf _ _ _ _)
      (narrows_trans (narrows_checkAv1 K prefs computer env _)
        (narrows_trans (narrows_checkHevc K prefs computer env _)
          (narrows_trans (narrows_checkH264 K prefs computer env _)
            (narrows_trans (narrows_checkHdr K prefs computer env _)
              (narrows_trans (narrows_checkYuv444 K prefs computer env _)
                (narrows_trans (narrows_check4K prefs computer _)
                  (narrows_checkAudioAndGamepads prefs env _))))))))

theorem useLastResort_formats (K : Limelight) (st : Launch) :
    (useLastResort K st).m_SupportedVideoFormats =
      if st.m_SupportedVideoFormats = [] then [K.VIDEO_FORMAT_H264]
      else st.m_SupportedVideoFormats := by
  unfold useLastResort
  cases h : st.m_SupportedVideoFormats with
  | nil => simp [h]
  | cons a t => simp [h]

theorem useLastResort_ne_nil (K : Limelight) (st : Launch) :
    (useLastResort K st).m_SupportedVideoFormats ≠ [] := by
  rw [useLastResort_formats]
  split
  · simp
  · assumption

theorem validateLaunch_session (K : Limelight) (prefs : Preferences) (computer : NvComputer)
    (env : Environment) (st : Launch) :
    (validateLaunch K prefs computer env st).session =
      if computer.isSupportedServerVersion then
        useLastResort K (validationChecks K prefs computer env st)
      else st := by
  unfold validateLaunch
  cases computer.isSupportedServerVersion with
  | false => rfl
  | true =>
    simp only [Bool.not_true, Bool.false_eq_true, if_false, if_true]
    split <;> rfl

theorem validateLaunch_ret_true (K : Limelight) (prefs : Preferences) (computer : NvComputer)
    (env : Environment) (st : Launch)
    (h : (validateLaunch K prefs computer env st).ret = true) :
    computer.isSupportedServerVersion = true := by
  unfold validateLaunch at h
  cases hs : computer.isSupportedServerVersion with
  | false => simp [hs] at h
  | true => rfl

/-- C15: whenever `validateLaunch` returns true the candidate list is not
empty (it is not empty from the last-resort step on, so the first element
taken for the forced-hardware probe exists too); when the checks have struck
every candidate the list is exactly `[VIDEO_FORMAT_H264]`; and after
`initialize` the stream configuration's `supportedVideoFormats` is the first
element of the list. -/
theorem validated_launch_has_first_format (K : Limelight) (prefs : Preferences)
    (computer : NvComputer) (env : Environment) (width height : Int) :
    (∀ st, (validateLaunch K prefs computer env st).ret = true →
      (validateLaunch K prefs computer env st).session.m_SupportedVideoFormats ≠ []) ∧
    (∀ st, (useLastResort K st).m_SupportedVideoFormats ≠ []) ∧
    (∀ st, computer.isSupportedServerVersion = true →
      (validationChecks K prefs computer env st).m_SupportedVideoFormats = [] →
      (validateLaunch K prefs computer env st).session.m_SupportedVideoFormats =
        [K.VIDEO_FORMAT_H264]) ∧
    ((initializeNegotiation K prefs computer env width height).validation.ret = false ∨
      ∃ front rest,
        (initializeNegotiation K prefs computer env width height).validation.session.m_SupportedVideoFormats
          = front :: rest ∧
        (initializeNegotiation K prefs computer env width height).supportedVideoFormats = some front) := by
  have h1 : ∀ st, (validateLaunch K prefs computer env st).ret = true →
      (validateLaunch K prefs computer env st).session.m_SupportedVideoFormats ≠ [] := by
    intro st h
    rw [validateLaunch_session, validateLaunch_ret_true K prefs computer env st h]
    exact useLastResort_ne_nil K _
  refine ⟨h1, useLastResort_ne_nil K, ?_, ?_⟩
  · intro st hs he
    rw [validateLaunch_session, hs]
    simp only [if_true]
    rw [useLastResort_formats, if_pos he]
  · unfold initializeNegotiation
    simp only
    cases hr : (validateLaunch K prefs computer env
        (candidatesBeforeValidation K prefs env width height)).ret with
    | false =>
      left
      simp [hr]
    | true =>
      right
      simp only [if_true]
      have hne := h1 _ hr
      cases hl : (validateLaunch K prefs computer env
          (candidatesBeforeValidation K prefs env width height)).session.m_SupportedVideoFormats
        with
      | nil => exact absurd hl hne
      | cons front rest => exact ⟨front, rest, rfl, by simp⟩

theorem initializeNegotiation_validation (K : Limelight) (prefs : Preferences)
    (computer : NvComputer) (env : Environment) (width height : Int) :
    (initializeNegotiation K prefs computer env width height).validation =
      validateLaunch K prefs computer env (candidatesBeforeValidation K prefs env width height)
    := by
  unfold initializeNegotiation
  simp only
  split <;> rfl

theorem mem_removeByMask {mask v : Int} {l : List Int} (h : v ∈ removeByMask mask l) :
    v ∈ l ∧ Int.land v mask = 0 := by
  rw [removeByMask_eq_filter, List.mem_filter] at h
  exact ⟨h.1, by simpa using h.2⟩

theorem mem_deprioritizeByMask {mask v : Int} {l : List Int} :
    v ∈ deprioritizeByMask mask l ↔ v ∈ l := by
  rw [deprioritizeByMask_eq_filter, List.mem_append, List.mem_filter, List.mem_filter]
  constructor
  · rintro (h | h) <;> exact h.1
  · intro h
    by_cases hv : Int.land v mask = 0
    · exact Or.inl ⟨h, by simpa using hv⟩
    · exact Or.inr ⟨h, by simpa using hv⟩

theorem applyHdrPreference_mem (K : Limelight) (prefs : Preferences) (st : Launch) (v : Int)
    (h : v ∈ (applyHdrPreference K prefs st).m_SupportedVideoFormats) :
    v ∈ st.m_SupportedVideoFormats := by
  unfold applyHdrPreference at h
  split at h
  · exact (mem_removeByMask h).1
  · exact mem_deprioritizeByMask.mp h

theorem applyYuv444Preference_mem (K : Limelight) (prefs : Preferences) (st : Launch) (v : Int)
    (h : v ∈ (applyYuv444Preference K prefs st).m_SupportedVideoFormats) :
    v ∈ st.m_SupportedVideoFormats := by
  unfold applyYuv444Preference at h
  split at h
  · exact (mem_removeByMask h).1
  · exact mem_deprioritizeByMask.mp h

theorem validateLaunch_formats (K : Limelight) (prefs : Preferences) (computer : NvComputer)
    (env : Environment) (st : Launch) :
    (validateLaunch K prefs computer env st).session.m_SupportedVideoFormats =
      if computer.isSupportedServerVersion = true then
        if (validationChecks K prefs computer env st).m_SupportedVideoFormats = [] then
          [K.VIDEO_FORMAT_H264]
        else (validationChecks K prefs computer env st).m_SupportedVideoFormats
      else st.m_SupportedVideoFormats := by
  rw [validateLaunch_session]
  by_cases hs : computer.isSupportedServerVersion = true
  · rw [if_pos hs, if_pos hs, useLastResort_formats]
  · rw [if_neg hs, if_neg hs]

theorem validateLaunch_mem (K : Limelight) (prefs : Preferences) (computer : NvComputer)
    (env : Environment) (st : Launch) (v : Int)
    (h : v ∈ (validateLaunch K prefs computer env st).session.m_SupportedVideoFormats) :
    v ∈ st.m_SupportedVideoFormats ∨
      (v = K.VIDEO_FORMAT_H264 ∧
        (validateLaunch K prefs computer env st).session.m_SupportedVideoFormats =
          [K.VIDEO_FORMAT_H264]) := by
  rw [validateLaunch_formats] at h ⊢
  by_cases hs : computer.isSupportedServerVersion = true
  · rw [if_pos hs] at h ⊢
    by_cases he : (validationChecks K prefs computer env st).m_SupportedVideoFormats = []
    · rw [if_pos he] at h ⊢
      exact Or.inr ⟨by simpa using h, rfl⟩
    · rw [if_neg he] at h
      exact Or.inl ((narrows_validationChecks K prefs computer env st).1.subset h)
  · rw [if_neg hs] at h
    exact Or.inl h

/-- C17: the final candidate list (the reinstated H.264 included) offers no
option the user left disabled: without YUV 4:4:4 enabled no candidate is a
4:4:4 format, and without HDR enabled no candidate is a 10-bit format. H.264
itself is neither a 4:4:4 nor a 10-bit format. -/
theorem disabled_options_never_offered (K : Limelight) (prefs : Preferences)
    (computer : NvComputer) (env : Environment) (width height : Int)
    (h444 : Int.land K.VIDEO_FORMAT_H264 K.VIDEO_FORMAT_MASK_YUV444 = 0)
    (h10 : Int.land K.VIDEO_FORMAT_H264 K.VIDEO_FORMAT_MASK_10BIT = 0) :
    (prefs.enableYUV444 = false →
      ∀ v ∈ (initializeNegotiation K prefs computer env width
          height).validation.session.m_SupportedVideoFormats,
        Int.land v K.VIDEO_FORMAT_MASK_YUV444 = 0) ∧
    (prefs.enableHdr = false →
      ∀ v ∈ (initializeNegotiation K prefs computer env width
          height).validation.session.m_SupportedVideoFormats,
        Int.land v K.VIDEO_FORMAT_MASK_10BIT = 0) := by
  rw [initializeNegotiation_validation]
  constructor
  · intro hoff v hv
    rcases validateLaunch_mem K prefs computer env _ v hv with h | ⟨h, -⟩
    · unfold candidatesBeforeValidation at h
      have h1 := applyHdrPreference_mem K prefs _ v h
      unfold applyYuv444Preference at h1
      simp only [hoff, Bool.not_false, if_true] at h1
      exact (mem_removeByMask h1).2
    · rw [h]
      exact h444
  · intro hoff v hv
    rcases validateLaunch_mem K prefs computer env _ v hv with h | ⟨h, -⟩
    · unfold candidatesBeforeValidation applyHdrPreference at h
      simp only [hoff, Bool.not_false, if_true] at h
      exact (mem_removeByMask h).2
    · rw [h]
      exact h10

theorem disabled_options_never_offered_witness :
    Int.land limelight.VIDEO_FORMAT_H264 limelight.VIDEO_FORMAT_MASK_YUV444 = 0 ∧
    Int.land limelight.VIDEO_FORMAT_H264 limelight.VIDEO_FORMAT_MASK_10BIT = 0 ∧
    ∀ v ∈ (initializeNegotiation limelight (autoPreferences false false) (hostWithModes 0x101)
        (uniformEnvironment .Hardware) 1920 1080).validation.session.m_SupportedVideoFormats,
      Int.land v limelight.VIDEO_FORMAT_MASK_YUV444 = 0 :=
  ⟨by decide, by decide,
    (disabled_options_never_offered limelight (autoPreferences false false) (hostWithModes 0x101)
      (uniformEnvironment .Hardware) 1920 1080 (by decide) (by decide)).1 rfl⟩

theorem formatLayout_limelight : FormatLayout limelight where
  av1Main8_in_av1_or_h265 := by rw [land_eq_landEval, lor_eq_lorEval]; decide
  av1Main8_not_yuv444 := by decide
  av1Main8_not_10bit := by decide
  av1Main8_is_av1 := by decide
  h264_not_av1 := by decide
  h265_in_av1_or_h265 := by rw [land_eq_landEval, lor_eq_lorEval]; decide
  h265_not_yuv444 := by decide
  h265_not_10bit := by decide
  h265_not_av1 := by decide
  h265_not_h265Main10 := by decide
  h265_not_av1Main10 := by decide
  formats_nonzero := by decide
  hevc_mode_mapped := by decide
  modes_disjoint := by decide

theorem validationChecks_eq (K : Limelight) (prefs : Preferences) (computer : NvComputer)
    (env : Environment) (st : Launch) :
    validationChecks K prefs computer env st =
      checkAudioAndGamepads prefs env (check4K prefs computer
        (checkYuv444 K prefs computer env (checkHdr K prefs computer env
          (checkH264 K prefs computer env (checkHevc K prefs computer env
            (checkAv1 K prefs computer env
              (warnIf prefs (prefs.videoDecoderSelection == .VDS_FORCE_SOFTWARE)
                .forcedSoftwareDecoding
                (warnIf prefs (prefs.absoluteMouseMode && !env.isAppCollectorGame)
                  .remoteDesktopMouseMode st)))))))) := rfl

theorem check4K_formats (prefs : Preferences) (computer : NvComputer) (st : Launch) :
    (check4K prefs computer st).m_SupportedVideoFormats = st.m_SupportedVideoFormats := by
  unfold check4K
  split
  · exact emit_formats _ _ _
  · rfl

theorem checkAudioAndGamepads_formats (prefs : Preferences) (env : Environment) (st : Launch) :
    (checkAudioAndGamepads prefs env st).m_SupportedVideoFormats =
      st.m_SupportedVideoFormats := by
  unfold checkAudioAndGamepads
  simp only [warnIf_formats]

theorem checkH264_formats (K : Limelight) (prefs : Preferences) (computer : NvComputer)
    (env : Environment) (st : Launch) :
    (checkH264 K prefs computer env st).m_SupportedVideoFormats =
      st.m_SupportedVideoFormats := by
  unfold checkH264
  split
  · split
    · exact emit_formats _ _ _
    · split <;> exact emit_formats _ _ _
  · rfl

theorem mem_removeByMask_iff {mask v : Int} {l : List Int} :
    v ∈ removeByMask mask l ↔ v ∈ l ∧ Int.land v mask = 0 := by
  rw [removeByMask_eq_filter, List.mem_filter]
  simp

theorem checkYuv444_subset_masked (K : Limelight) (prefs : Preferences) (computer : NvComputer)
    (env : Environment) (st : Launch) (h444 : prefs.enableYUV444 = true)
    (hhost : Int.land computer.serverCodecModeSupport K.SCM_MASK_YUV444 ≠ 0) (v : Int)
    (hv : v ∈ (checkYuv444 K prefs computer env st).m_SupportedVideoFormats) :
    v ∈ removeByMask
      (Int.lnot (maskByServerCodecModes K st.m_SupportedVideoFormats
        computer.serverCodecModeSupport)) st.m_SupportedVideoFormats := by
  unfold checkYuv444 at hv
  rw [if_pos h444, if_neg hhost] at hv
  simp only at hv
  split at hv
  · rwa [emit_formats] at hv
  · split at hv
    · rw [warnIf_formats] at hv
      split at hv
      · exact (removeUndecodableYuv444_suffix K env _ _).subset hv
      · rwa [warnIf_formats] at hv
    · exact hv

theorem validationChecks_of_steps (K : Limelight) (prefs : Preferences) (computer : NvComputer)
    (env : Environment) (s0 s1 s2 s3 s4 s5 s6 s7 s8 s9 : Launch)
    (h1 : warnIf prefs (prefs.absoluteMouseMode && !env.isAppCollectorGame)
      .remoteDesktopMouseMode s0 = s1)
    (h2 : warnIf prefs (prefs.videoDecoderSelection == .VDS_FORCE_SOFTWARE)
      .forcedSoftwareDecoding s1 = s2)
    (h3 : checkAv1 K prefs computer env s2 = s3)
    (h4 : checkHevc K prefs computer env s3 = s4)
    (h5 : checkH264 K prefs computer env s4 = s5)
    (h6 : checkHdr K prefs computer env s5 = s6)
    (h7 : checkYuv444 K prefs computer env s6 = s7)
    (h8 : check4K prefs computer s7 = s8)
    (h9 : checkAudioAndGamepads prefs env s8 = s9) :
    validationChecks K prefs computer env s0 = s9 := by
  subst h1 h2 h3 h4 h5 h6 h7 h8 h9
  rfl

theorem validateLaunch_of_steps (K : Limelight) (prefs : Preferences) (computer : NvComputer)
    (env : Environment) (s0 s9 s10 : Launch) (hs : computer.isSupportedServerVersion = true)
    (hc : validationChecks K prefs computer env s0 = s9) (hl : useLastResort K s9 = s10)
    (hf : finalChecks K prefs computer env s10 = none) :
    validateLaunch K prefs computer env s0 =
      { ret := true, launchError := none, session := s10 } := by
  unfold validateLaunch
  simp only [hs, hc, hl, hf, Bool.not_true, Bool.false_eq_true, if_false]

theorem initializeNegotiation_of_validation (K : Limelight) (prefs : Preferences)
    (computer : NvComputer) (env : Environment) (width height : Int) (s0 s10 : Launch)
    (h0 : candidatesBeforeValidation K prefs env width height = s0)
    (hv : validateLaunch K prefs computer env s0 =
      { ret := true, launchError := none, session := s10 }) :
    initializeNegotiation K prefs computer env width height =
      { ret := env.populateDecoderProperties,
        validation := { ret := true, launchError := none, session := s10 },
        supportedVideoFormats := s10.m_SupportedVideoFormats.head? } := by
  unfold initializeNegotiation
  simp only [h0, hv, if_true]

/-- C16, amended: when YUV 4:4:4 is enabled and the host has a 4:4:4 mode (and
its server version is supported, as it is whenever negotiation succeeds), every
format left in the candidate list is one the host can encode, that is, all its
bits belong to formats whose server codec mode bit is set in
`serverCodecModeSupport`, unless the list is the reinstated H.264 last
resort. -/
theorem capability_mask_applied_when_yuv444_negotiated (K : Limelight) (prefs : Preferences)
    (computer : NvComputer) (env : Environment) (width height : Int)
    (h444 : prefs.enableYUV444 = true)
    (hhost : Int.land computer.serverCodecModeSupport K.SCM_MASK_YUV444 ≠ 0)
    (hs : computer.isSupportedServerVersion = true) :
    (initializeNegotiation K prefs computer env width
        height).validation.session.m_SupportedVideoFormats = [K.VIDEO_FORMAT_H264] ∨
    ∀ v ∈ (initializeNegotiation K prefs computer env width
        height).validation.session.m_SupportedVideoFormats,
      Int.land v (Int.lnot (hostEncodable K computer.serverCodecModeSupport)) = 0 := by
  rw [initializeNegotiation_validation, validateLaunch_formats, if_pos hs]
  split
  · exact Or.inl rfl
  · right
    intro v hv
    rw [validationChecks_eq, checkAudioAndGamepads_formats, check4K_formats] at hv
    have h := checkYuv444_subset_masked K prefs computer env _ h444 hhost v hv
    have h2 := (mem_removeByMask_iff.mp h).2
    rw [land_lnot_eq_zero_iff] at h2 ⊢
    exact bitsWithin_trans h2 (maskByServerCodecModes_within K _ _)

theorem capability_mask_applied_when_yuv444_negotiated_witness :
    (autoPreferences false true).enableYUV444 = true ∧
    Int.land (hostWithModes 0xC0101).serverCodecModeSupport limelight.SCM_MASK_YUV444 ≠ 0 ∧
    (hostWithModes 0xC0101).isSupportedServerVersion = true ∧
    ((initializeNegotiation limelight (autoPreferences false true) (hostWithModes 0xC0101)
        (uniformEnvironment .Hardware) 1920
        1080).validation.session.m_SupportedVideoFormats = [limelight.VIDEO_FORMAT_H264] ∨
      ∀ v ∈ (initializeNegotiation limelight (autoPreferences false true)
          (hostWithModes 0xC0101) (uniformEnvironment .Hardware) 1920
          1080).validation.session.m_SupportedVideoFormats,
        Int.land v
          (Int.lnot (hostEncodable limelight (hostWithModes 0xC0101).serverCodecModeSupport))
          = 0) :=
  ⟨rfl, by decide, rfl,
    capability_mask_applied_when_yuv444_negotiated limelight (autoPreferences false true)
      (hostWithModes 0xC0101) (uniformEnvironment .Hardware) 1920 1080 rfl (by decide) rfl⟩

/-- C16, counterexample: automatic codec selection, HDR enabled, YUV 4:4:4 not
enabled, every format decoded in hardware, and a host whose
`serverCodecModeSupport` holds H.264, HEVC, HEVC Main10 and AV1 Main8.
Negotiation succeeds, and the candidate list still holds
`VIDEO_FORMAT_AV1_MAIN10`, whose mode bit `SCM_AV1_MAIN10` the host does not
have. -/
theorem host_without_av1_main10_is_offered_av1_main10 :
    Int.land (hostWithModes modesWithoutAv1Main10).serverCodecModeSupport
      limelight.SCM_AV1_MAIN10 = 0 ∧
    (initializeNegotiation limelight (autoPreferences true false)
      (hostWithModes modesWithoutAv1Main10) (uniformEnvironment .Hardware) 1920 1080).ret
      = true ∧
    (initializeNegotiation limelight (autoPreferences true false)
      (hostWithModes modesWithoutAv1Main10) (uniformEnvironment .Hardware) 1920
      1080).validation.session.m_SupportedVideoFormats =
      [limelight.VIDEO_FORMAT_H265_MAIN10, limelight.VIDEO_FORMAT_AV1_MAIN10,
       limelight.VIDEO_FORMAT_H265, limelight.VIDEO_FORMAT_H264,
       limelight.VIDEO_FORMAT_AV1_MAIN8] ∧
    Int.land limelight.VIDEO_FORMAT_AV1_MAIN10
      (Int.lnot (hostEncodable limelight modesWithoutAv1Main10)) ≠ 0 := by
  have h0 : candidatesBeforeValidation limelight (autoPreferences true false)
      (uniformEnvironment .Hardware) 1920 1080 = hdrCandidates := by
    simp only [candidatesBeforeValidation, applyHdrPreference, applyYuv444Preference,
      applyCodecPolicy, applyAutoCodecPolicy, removeByMask_eq_filter,
      deprioritizeByMask_eq_filter, land_eq_landEval, lor_eq_lorEval]
    decide
  have h3 : checkAv1 limelight (autoPreferences true false)
      (hostWithModes modesWithoutAv1Main10) (uniformEnvironment .Hardware) hdrCandidates =
      hdrCandidates := by
    simp only [checkAv1, maskByServerCodecModes, maskStep_eq_eval, removeByMask_eq_filter,
      land_eq_landEval, lor_eq_lorEval]
    decide
  have h4 : checkHevc limelight (autoPreferences true false)
      (hostWithModes modesWithoutAv1Main10) (uniformEnvironment .Hardware) hdrCandidates =
      hdrCandidates := by
    simp only [checkHevc, removeByMask_eq_filter, land_eq_landEval, lor_eq_lorEval]
    decide
  have h5 : checkH264 limelight (autoPreferences true false)
      (hostWithModes modesWithoutAv1Main10) (uniformEnvironment .Hardware) hdrCandidates =
      hdrCandidates := by
    simp only [checkH264, land_eq_landEval, lor_eq_lorEval]
    decide
  have h6 : checkHdr limelight (autoPreferences true false)
      (hostWithModes modesWithoutAv1Main10) (uniformEnvironment .Hardware) hdrCandidates =
      hdrCandidates := by
    simp only [checkHdr, checkHdrSupport, checkHdrCompatibility, checkHdrCodec,
      maskByServerCodecModes, maskStep_eq_eval, removeByMask_eq_filter, land_eq_landEval,
      lor_eq_lorEval]
    decide
  have h7 : checkYuv444 limelight (autoPreferences true false)
      (hostWithModes modesWithoutAv1Main10) (uniformEnvironment .Hardware) hdrCandidates =
      hdrCandidates := by
    simp only [checkYuv444, maskByServerCodecModes, maskStep_eq_eval, removeByMask_eq_filter,
      land_eq_landEval, lor_eq_lorEval]
    decide
  have hf : finalChecks limelight (autoPreferences true false)
      (hostWithModes modesWithoutAv1Main10) (uniformEnvironment .Hardware) hdrCandidates =
      none := by
    simp only [finalChecks, land_eq_landEval, lor_eq_lorEval]
    decide
  have hv := validateLaunch_of_steps limelight (autoPreferences true false)
    (hostWithModes modesWithoutAv1Main10) (uniformEnvironment .Hardware) hdrCandidates
    hdrCandidates hdrCandidates rfl
    (validationChecks_of_steps limelight (autoPreferences true false)
      (hostWithModes modesWithoutAv1Main10) (uniformEnvironment .Hardware) hdrCandidates
      hdrCandidates hdrCandidates hdrCandidates hdrCandidates hdrCandidates hdrCandidates
      hdrCandidates hdrCandidates hdrCandidates rfl rfl h3 h4 h5 h6 h7 (by decide)
      (by decide))
    (by decide) hf
  rw [initializeNegotiation_of_validation limelight (autoPreferences true false)
    (hostWithModes modesWithoutAv1Main10) (uniformEnvironment .Hardware) 1920 1080
    hdrCandidates hdrCandidates h0 hv]
  refine ⟨by decide, rfl, rfl, ?_⟩
  simp only [hostEncodable, land_eq_landEval, lor_eq_lorEval]
  decide

theorem land_eq_zero_of_toInt {l : List Int} {m : Int} (h : Int.land (toInt l) m = 0) :
    ∀ v ∈ l, Int.land v m = 0 := by
  intro v hv
  by_contra hne
  exact land_toInt_ne_zero hv hne h

theorem mem_emit_warnings (prefs : Preferences) (text : LaunchWarning) (st : Launch)
    (hw : prefs.configurationWarnings = true) :
    text ∈ (emitLaunchWarning prefs text st).m_LaunchWarnings := by
  unfold emitLaunchWarning
  rw [if_pos hw]
  simp

theorem useLastResort_warnings (K : Limelight) (st : Launch) :
    (useLastResort K st).m_LaunchWarnings = st.m_LaunchWarnings := by
  unfold useLastResort
  split <;> rfl

theorem checkAv1_no_av1_left (K : Limelight) (prefs : Preferences) (computer : NvComputer)
    (env : Environment) (st : Launch)
    (hav1 : Int.land computer.serverCodecModeSupport K.SCM_MASK_AV1 = 0) (v : Int)
    (hv : v ∈ (checkAv1 K prefs computer env st).m_SupportedVideoFormats) :
    Int.land v K.VIDEO_FORMAT_MASK_AV1 = 0 := by
  unfold checkAv1 at hv
  rw [hav1, maskByServerCodecModes_zero] at hv
  split at hv
  · rw [if_pos rfl] at hv
    exact (mem_removeByMask_iff.mp hv).2
  · next h =>
    exact land_eq_zero_of_toInt (not_not.mp h) v hv

theorem checkAv1_keeps (K : Limelight) (prefs : Preferences) (computer : NvComputer)
    (env : Environment) (st : Launch)
    (hav1 : Int.land computer.serverCodecModeSupport K.SCM_MASK_AV1 = 0) (v : Int)
    (hv : v ∈ st.m_SupportedVideoFormats) (h : Int.land v K.VIDEO_FORMAT_MASK_AV1 = 0) :
    v ∈ (checkAv1 K prefs computer env st).m_SupportedVideoFormats := by
  unfold checkAv1
  rw [hav1, maskByServerCodecModes_zero]
  split
  · rw [if_pos rfl]
    exact mem_removeByMask_iff.mpr ⟨by rwa [warnIf_formats], h⟩
  · exact hv

theorem checkAv1_warns (K : Limelight) (prefs : Preferences) (computer : NvComputer)
    (env : Environment) (st : Launch)
    (hav1 : Int.land computer.serverCodecModeSupport K.SCM_MASK_AV1 = 0)
    (hcfg : prefs.videoCodecConfig = .VCC_FORCE_AV1)
    (hw : prefs.configurationWarnings = true) (v : Int)
    (hv : v ∈ st.m_SupportedVideoFormats) (h : Int.land v K.VIDEO_FORMAT_MASK_AV1 ≠ 0) :
    LaunchWarning.hostCannotEncodeAv1 ∈
      (checkAv1 K prefs computer env st).m_LaunchWarnings := by
  unfold checkAv1
  rw [hav1, maskByServerCodecModes_zero, if_pos (land_toInt_ne_zero hv h), if_pos rfl, hcfg]
  exact mem_emit_warnings prefs _ st hw

theorem checkHevc_no_hevc_left (K : Limelight) (prefs : Preferences) (computer : NvComputer)
    (env : Environment) (st : Launch) (hml : computer.maxLumaPixelsHEVC = 0) (v : Int)
    (hv : v ∈ (checkHevc K prefs computer env st).m_SupportedVideoFormats) :
    Int.land v K.VIDEO_FORMAT_MASK_H265 = 0 := by
  unfold checkHevc at hv
  split at hv
  · exact (mem_removeByMask_iff.mp hv).2
  · next h =>
    exact land_eq_zero_of_toInt (not_not.mp h) v hv

theorem checkHevc_formats (K : Limelight) (prefs : Preferences) (computer : NvComputer)
    (env : Environment) (st : Launch) (hml : computer.maxLumaPixelsHEVC ≠ 0)
    (hcfg : prefs.videoCodecConfig ≠ .VCC_FORCE_HEVC) :
    (checkHevc K prefs computer env st).m_SupportedVideoFormats =
      st.m_SupportedVideoFormats := by
  unfold checkHevc
  split
  · exact warnIf_formats _ _ _ _
  · rfl

theorem checkHdrCodec_keeps (K : Limelight) (prefs : Preferences) (computer : NvComputer)
    (env : Environment) (scmBit videoFormat : Int) (missing : LaunchWarning)
    (acc : Launch × Bool) (v : Int) (hv : v ∈ acc.1.m_SupportedVideoFormats)
    (h : Int.land v videoFormat = 0) :
    v ∈ (checkHdrCodec K prefs computer env scmBit videoFormat missing
      acc).1.m_SupportedVideoFormats := by
  unfold checkHdrCodec
  simp only
  split
  · split
    · exact mem_removeByMask_iff.mpr ⟨by rwa [emit_formats], h⟩
    · split
      · rwa [emit_formats]
      · exact hv
  · exact hv

theorem checkHdrSupport_keeps (K : Limelight) (prefs : Preferences) (computer : NvComputer)
    (env : Environment) (st : Launch) (v : Int) (hv : v ∈ st.m_SupportedVideoFormats)
    (h10 : Int.land v K.VIDEO_FORMAT_MASK_10BIT = 0)
    (hh : Int.land v K.VIDEO_FORMAT_H265_MAIN10 = 0)
    (ha : Int.land v K.VIDEO_FORMAT_AV1_MAIN10 = 0) :
    v ∈ (checkHdrSupport K prefs computer env st).m_SupportedVideoFormats := by
  unfold checkHdrSupport
  split
  · exact mem_removeByMask_iff.mpr ⟨by rwa [emit_formats], h10⟩
  · split
    · rwa [emit_formats]
    · split
      · exact mem_removeByMask_iff.mpr ⟨by rwa [emit_formats], h10⟩
      · split
        · exact checkHdrCodec_keeps K prefs computer env _ _ _ _ v
            (checkHdrCodec_keeps K prefs computer env _ _ _ _ v hv ha) hh
        · exact hv

theorem checkHdrCompatibility_keeps (K : Limelight) (prefs : Preferences)
    (computer : NvComputer) (st : Launch) (v : Int) (hv : v ∈ st.m_SupportedVideoFormats)
    (h10 : Int.land v K.VIDEO_FORMAT_MASK_10BIT = 0) :
    v ∈ (checkHdrCompatibility K prefs computer st).m_SupportedVideoFormats := by
  unfold checkHdrCompatibility
  split
  · exact mem_removeByMask_iff.mpr ⟨by rwa [emit_formats], h10⟩
  · exact hv

theorem checkHdr_keeps (K : Limelight) (prefs : Preferences) (computer : NvComputer)
    (env : Environment) (st : Launch) (v : Int) (hv : v ∈ st.m_SupportedVideoFormats)
    (h10 : Int.land v K.VIDEO_FORMAT_MASK_10BIT = 0)
    (hh : Int.land v K.VIDEO_FORMAT_H265_MAIN10 = 0)
    (ha : Int.land v K.VIDEO_FORMAT_AV1_MAIN10 = 0) :
    v ∈ (checkHdr K prefs computer env st).m_SupportedVideoFormats := by
  unfold checkHdr
  split
  · exact checkHdrCompatibility_keeps K prefs computer _ v
      (checkHdrSupport_keeps K prefs computer env st v hv h10 hh ha) h10
  · exact hv

theorem removeUndecodableYuv444_keeps (K : Limelight) (env : Environment) (st : Launch)
    (v : Int) (h : Int.land v K.VIDEO_FORMAT_MASK_YUV444 = 0) :
    ∀ l : List Int, v ∈ l → v ∈ removeUndecodableYuv444 K env st l := by
  intro l
  induction l with
  | nil => intro hv; exact hv
  | cons front rest ih =>
    intro hv
    unfold removeUndecodableYuv444
    split
    · next hc =>
      rcases List.mem_cons.mp hv with e | e
      · exact absurd (e ▸ h) hc.1
      · exact ih e
    · exact hv

theorem checkYuv444_keeps (K : Limelight) (prefs : Preferences) (computer : NvComputer)
    (env : Environment) (st : Launch) (v : Int) (hv : v ∈ st.m_SupportedVideoFormats)
    (h444 : Int.land v K.VIDEO_FORMAT_MASK_YUV444 = 0)
    (hmask : prefs.enableYUV444 = true →
      Int.land computer.serverCodecModeSupport K.SCM_MASK_YUV444 ≠ 0 →
      Int.land v (Int.lnot (maskByServerCodecModes K st.m_SupportedVideoFormats
        computer.serverCodecModeSupport)) = 0) :
    v ∈ (checkYuv444 K prefs computer env st).m_SupportedVideoFormats := by
  unfold checkYuv444
  split
  · next he =>
    split
    · exact mem_removeByMask_iff.mpr ⟨by rwa [emit_formats], h444⟩
    · next hh =>
      have hv2 := mem_removeByMask_iff.mpr ⟨hv, hmask he hh⟩
      simp only
      split
      · rwa [emit_formats]
      · split
        · rw [warnIf_formats]
          split
          · exact removeUndecodableYuv444_keeps K env _ v h444 _ hv2
          · rwa [warnIf_formats]
        · exact hv2
  · exact hv

theorem applyYuv444Preference_keeps (K : Limelight) (prefs : Preferences) (st : Launch)
    (v : Int) (hv : v ∈ st.m_SupportedVideoFormats)
    (h : Int.land v K.VIDEO_FORMAT_MASK_YUV444 = 0) :
    v ∈ (applyYuv444Preference K prefs st).m_SupportedVideoFormats := by
  unfold applyYuv444Preference
  split
  · exact mem_removeByMask_iff.mpr ⟨hv, h⟩
  · exact mem_deprioritizeByMask.mpr hv

theorem applyHdrPreference_keeps (K : Limelight) (prefs : Preferences) (st : Launch)
    (v : Int) (hv : v ∈ st.m_SupportedVideoFormats)
    (h : Int.land v K.VIDEO_FORMAT_MASK_10BIT = 0) :
    v ∈ (applyHdrPreference K prefs st).m_SupportedVideoFormats := by
  unfold applyHdrPreference
  split
  · exact mem_removeByMask_iff.mpr ⟨hv, h⟩
  · exact mem_deprioritizeByMask.mpr hv

theorem applyCodecPolicy_force_av1 (K : Limelight) (prefs : Preferences) (env : Environment)
    (st : Launch) (hcfg : prefs.videoCodecConfig = .VCC_FORCE_AV1) :
    (applyCodecPolicy K prefs env st).m_SupportedVideoFormats =
      removeByMask (Int.lnot (Int.lor K.VIDEO_FORMAT_MASK_AV1 K.VIDEO_FORMAT_MASK_H265))
        st.m_SupportedVideoFormats := by
  unfold applyCodecPolicy
  rw [hcfg]

theorem candidates_force_av1_mem (K : Limelight) (prefs : Preferences) (env : Environment)
    (width height : Int) (hcfg : prefs.videoCodecConfig = .VCC_FORCE_AV1) (v : Int)
    (hv : v ∈ (candidatesBeforeValidation K prefs env width height).m_SupportedVideoFormats) :
    v ∈ initialFormats K ∧
      Int.land v (Int.lnot (Int.lor K.VIDEO_FORMAT_MASK_AV1 K.VIDEO_FORMAT_MASK_H265)) = 0 := by
  unfold candidatesBeforeValidation at hv
  have h1 := applyYuv444Preference_mem K prefs _ v (applyHdrPreference_mem K prefs _ v hv)
  rw [applyCodecPolicy_force_av1 K prefs env _ hcfg] at h1
  exact mem_removeByMask_iff.mp h1

theorem candidates_force_av1_keeps (K : Limelight) (prefs : Preferences) (env : Environment)
    (width height : Int) (hcfg : prefs.videoCodecConfig = .VCC_FORCE_AV1) (v : Int)
    (hv : v ∈ initialFormats K)
    (h1 : Int.land v (Int.lnot (Int.lor K.VIDEO_FORMAT_MASK_AV1 K.VIDEO_FORMAT_MASK_H265)) = 0)
    (h2 : Int.land v K.VIDEO_FORMAT_MASK_YUV444 = 0)
    (h3 : Int.land v K.VIDEO_FORMAT_MASK_10BIT = 0) :
    v ∈ (candidatesBeforeValidation K prefs env width height).m_SupportedVideoFormats := by
  unfold candidatesBeforeValidation
  apply applyHdrPreference_keeps K prefs _ v _ h3
  apply applyYuv444Preference_keeps K prefs _ v _ h2
  rw [applyCodecPolicy_force_av1 K prefs env _ hcfg]
  exact mem_removeByMask_iff.mpr ⟨hv, h1⟩

theorem is_hevc_of_not_av1 (K : Limelight) (v : Int) (hne : v ≠ 0)
    (h1 : Int.land v (Int.lnot (Int.lor K.VIDEO_FORMAT_MASK_AV1 K.VIDEO_FORMAT_MASK_H265)) = 0)
    (h2 : Int.land v K.VIDEO_FORMAT_MASK_AV1 = 0) :
    Int.land v K.VIDEO_FORMAT_MASK_H265 ≠ 0 := by
  rw [land_lnot_eq_zero_iff] at h1
  rw [Ne, int_eq_zero_iff_testBit, not_forall] at hne
  obtain ⟨i, hi⟩ := hne
  have hi : Int.testBit v i = true := by simpa using hi
  have hor := h1 i hi
  rw [Int.testBit_lor, Bool.or_eq_true] at hor
  have ha := (int_eq_zero_iff_testBit _).mp h2 i
  rw [Int.testBit_land, hi, Bool.true_and] at ha
  rw [land_ne_zero_iff]
  rcases hor with h | h
  · rw [ha] at h
    exact absurd h (by simp)
  · exact ⟨i, hi, h⟩

theorem force_av1_stages (K : Limelight) (prefs : Preferences) (computer : NvComputer)
    (env : Environment) (s0 s1 s2 s3 s4 s5 s6 s7 s8 s9 : Launch)
    (h1 : warnIf prefs (prefs.absoluteMouseMode && !env.isAppCollectorGame)
      .remoteDesktopMouseMode s0 = s1)
    (h2 : warnIf prefs (prefs.videoDecoderSelection == .VDS_FORCE_SOFTWARE)
      .forcedSoftwareDecoding s1 = s2)
    (h3 : checkAv1 K prefs computer env s2 = s3)
    (h4 : checkHevc K prefs computer env s3 = s4)
    (h5 : checkH264 K prefs computer env s4 = s5)
    (h6 : checkHdr K prefs computer env s5 = s6)
    (h7 : checkYuv444 K prefs computer env s6 = s7)
    (h8 : check4K prefs computer s7 = s8)
    (h9 : checkAudioAndGamepads prefs env s8 = s9)
    (hK : FormatLayout K)
    (hcfg : prefs.videoCodecConfig = .VCC_FORCE_AV1)
    (hav1 : Int.land computer.serverCodecModeSupport K.SCM_MASK_AV1 = 0)
    (p0 : ∀ v ∈ s0.m_SupportedVideoFormats, v ∈ initialFormats K ∧
      Int.land v (Int.lnot (Int.lor K.VIDEO_FORMAT_MASK_AV1 K.VIDEO_FORMAT_MASK_H265)) = 0)
    (pa : K.VIDEO_FORMAT_AV1_MAIN8 ∈ s0.m_SupportedVideoFormats)
    (ph : K.VIDEO_FORMAT_H265 ∈ s0.m_SupportedVideoFormats) :
    (prefs.configurationWarnings = true →
      LaunchWarning.hostCannotEncodeAv1 ∈ s9.m_LaunchWarnings) ∧
    (∀ v ∈ s9.m_SupportedVideoFormats, Int.land v K.VIDEO_FORMAT_MASK_AV1 = 0) ∧
    (∀ v ∈ s9.m_SupportedVideoFormats, Int.land v K.VIDEO_FORMAT_MASK_H265 ≠ 0) ∧
    (computer.maxLumaPixelsHEVC = 0 → s9.m_SupportedVideoFormats = []) ∧
    (computer.maxLumaPixelsHEVC ≠ 0 →
      (prefs.enableYUV444 = false ∨
        Int.land computer.serverCodecModeSupport K.SCM_MASK_YUV444 = 0 ∨
        Int.land computer.serverCodecModeSupport K.SCM_HEVC ≠ 0) →
      K.VIDEO_FORMAT_H265 ∈ s9.m_SupportedVideoFormats) := by
  have f2 : s2.m_SupportedVideoFormats = s0.m_SupportedVideoFormats := by
    rw [← h2, ← h1, warnIf_formats, warnIf_formats]
  have n34 : Narrows s3 s4 := h4 ▸ narrows_checkHevc K prefs computer env s3
  have n45 : Narrows s4 s5 := h5 ▸ narrows_checkH264 K prefs computer env s4
  have n56 : Narrows s5 s6 := h6 ▸ narrows_checkHdr K prefs computer env s5
  have n67 : Narrows s6 s7 := h7 ▸ narrows_checkYuv444 K prefs computer env s6
  have n78 : Narrows s7 s8 := h8 ▸ narrows_check4K prefs computer s7
  have n89 : Narrows s8 s9 := h9 ▸ narrows_checkAudioAndGamepads prefs env s8
  have n49 : Narrows s4 s9 :=
    narrows_trans n45 (narrows_trans n56 (narrows_trans n67 (narrows_trans n78 n89)))
  have n39 : Narrows s3 s9 := narrows_trans n34 n49
  have n23 : Narrows s2 s3 := h3 ▸ narrows_checkAv1 K prefs computer env s2
  have q3 : ∀ v ∈ s3.m_SupportedVideoFormats, Int.land v K.VIDEO_FORMAT_MASK_AV1 = 0 ∧
      Int.land v K.VIDEO_FORMAT_MASK_H265 ≠ 0 := by
    intro v hv
    have ha : Int.land v K.VIDEO_FORMAT_MASK_AV1 = 0 :=
      checkAv1_no_av1_left K prefs computer env s2 hav1 v (h3 ▸ hv)
    have h0 := p0 v (f2 ▸ n23.1.subset hv)
    exact ⟨ha, is_hevc_of_not_av1 K v (hK.formats_nonzero v h0.1) h0.2 ha⟩
  refine ⟨?_, ?_, ?_, ?_, ?_⟩
  · intro hw
    have : LaunchWarning.hostCannotEncodeAv1 ∈ s3.m_LaunchWarnings := by
      rw [← h3]
      exact checkAv1_warns K prefs computer env s2 hav1 hcfg hw K.VIDEO_FORMAT_AV1_MAIN8
        (f2 ▸ pa) hK.av1Main8_is_av1
    exact n39.2.subset this
  · intro v hv
    exact (q3 v (n39.1.subset hv)).1
  · intro v hv
    exact (q3 v (n39.1.subset hv)).2
  · intro hml
    apply List.eq_nil_iff_forall_not_mem.mpr
    intro v hv
    have hv4 := n49.1.subset hv
    have hz := checkHevc_no_hevc_left K prefs computer env s3 hml v (h4 ▸ hv4)
    exact (q3 v (n34.1.subset hv4)).2 hz
  · intro hml hcond
    have m3 : K.VIDEO_FORMAT_H265 ∈ s3.m_SupportedVideoFormats := by
      rw [← h3]
      exact checkAv1_keeps K prefs computer env s2 hav1 _ (f2 ▸ ph) hK.h265_not_av1
    have m4 : K.VIDEO_FORMAT_H265 ∈ s4.m_SupportedVideoFormats := by
      rw [← h4, checkHevc_formats K prefs computer env s3 hml (by rw [hcfg]; decide)]
      exact m3
    have m5 : K.VIDEO_FORMAT_H265 ∈ s5.m_SupportedVideoFormats := by
      rw [← h5, checkH264_formats]
      exact m4
    have m6 : K.VIDEO_FORMAT_H265 ∈ s6.m_SupportedVideoFormats := by
      rw [← h6]
      exact checkHdr_keeps K prefs computer env s5 _ m5 hK.h265_not_10bit
        hK.h265_not_h265Main10 hK.h265_not_av1Main10
    have m7 : K.VIDEO_FORMAT_H265 ∈ s7.m_SupportedVideoFormats := by
      rw [← h7]
      apply checkYuv444_keeps K prefs computer env s6 _ m6 hK.h265_not_yuv444
      intro he hh
      rcases hcond with hc | hc | hc
      · rw [hc] at he
        exact absurd he (by decide)
      · exact absurd hc hh
      · rw [land_lnot_eq_zero_iff]
        exact maskByServerCodecModes_contains K hK.modes_disjoint _ _ hK.hevc_mode_mapped _ m6
          _ hc
    rw [← h9, checkAudioAndGamepads_formats, ← h8, check4K_formats]
    exact m7

/-- C18, amended: with the codec policy set to force AV1 and a host of a
supported server version whose capability mask has no AV1 mode: the warning
that the host cannot encode AV1 is emitted when configuration warnings are
enabled; the final candidate list holds no AV1 format; it is the reinstated
`[VIDEO_FORMAT_H264]` or holds HEVC formats only; it is exactly
`[VIDEO_FORMAT_H264]` when `maxLumaPixelsHEVC` is 0; and when
`maxLumaPixelsHEVC` is not 0 it holds `VIDEO_FORMAT_H265` and HEVC formats
only, provided YUV 4:4:4 is not enabled, or the host has no 4:4:4 mode, or the
host's mask has `SCM_HEVC`. -/
theorem force_av1_falls_back_when_host_has_no_av1 (K : Limelight) (prefs : Preferences)
    (computer : NvComputer) (env : Environment) (width height : Int)
    (hK : FormatLayout K)
    (hcfg : prefs.videoCodecConfig = .VCC_FORCE_AV1)
    (hav1 : Int.land computer.serverCodecModeSupport K.SCM_MASK_AV1 = 0)
    (hs : computer.isSupportedServerVersion = true) :
    (prefs.configurationWarnings = true →
      LaunchWarning.hostCannotEncodeAv1 ∈
        (initializeNegotiation K prefs computer env width
          height).validation.session.m_LaunchWarnings) ∧
    (∀ v ∈ (initializeNegotiation K prefs computer env width
        height).validation.session.m_SupportedVideoFormats,
      Int.land v K.VIDEO_FORMAT_MASK_AV1 = 0) ∧
    ((initializeNegotiation K prefs computer env width
        height).validation.session.m_SupportedVideoFormats = [K.VIDEO_FORMAT_H264] ∨
      ∀ v ∈ (initializeNegotiation K prefs computer env width
          height).validation.session.m_SupportedVideoFormats,
        Int.land v K.VIDEO_FORMAT_MASK_H265 ≠ 0) ∧
    (computer.maxLumaPixelsHEVC = 0 →
      (initializeNegotiation K prefs computer env width
        height).validation.session.m_SupportedVideoFormats = [K.VIDEO_FORMAT_H264]) ∧
    (computer.maxLumaPixelsHEVC ≠ 0 →
      (prefs.enableYUV444 = false ∨
        Int.land computer.serverCodecModeSupport K.SCM_MASK_YUV444 = 0 ∨
        Int.land computer.serverCodecModeSupport K.SCM_HEVC ≠ 0) →
      K.VIDEO_FORMAT_H265 ∈ (initializeNegotiation K prefs computer env width
        height).validation.session.m_SupportedVideoFormats ∧
      ∀ v ∈ (initializeNegotiation K prefs computer env width
          height).validation.session.m_SupportedVideoFormats,
        Int.land v K.VIDEO_FORMAT_MASK_H265 ≠ 0) := by
  have hst := force_av1_stages K prefs computer env _ _ _ _ _ _ _ _ _ _ rfl rfl rfl rfl rfl rfl
    rfl rfl (validationChecks_eq K prefs computer env
      (candidatesBeforeValidation K prefs env width height)).symm hK hcfg hav1
    (candidates_force_av1_mem K prefs env width height hcfg)
    (candidates_force_av1_keeps K prefs env width height hcfg _ (by simp [initialFormats])
      hK.av1Main8_in_av1_or_h265 hK.av1Main8_not_yuv444 hK.av1Main8_not_10bit)
    (candidates_force_av1_keeps K prefs env width height hcfg _ (by simp [initialFormats])
      hK.h265_in_av1_or_h265 hK.h265_not_yuv444 hK.h265_not_10bit)
  obtain ⟨ha, hb, hc, hd, he⟩ := hst
  rw [initializeNegotiation_validation, validateLaunch_session, if_pos hs,
    useLastResort_warnings, useLastResort_formats]
  refine ⟨ha, ?_, ?_, ?_, ?_⟩
  · intro v hv
    split at hv
    · rw [List.mem_singleton.mp hv]
      exact hK.h264_not_av1
    · exact hb v hv
  · split
    · exact Or.inl rfl
    · exact Or.inr hc
  · intro hml
    rw [if_pos (hd hml)]
  · intro hml hcond
    have hm := he hml hcond
    rw [if_neg (List.ne_nil_of_mem hm)]
    exact ⟨hm, hc⟩

theorem force_av1_falls_back_when_host_has_no_av1_witness :
    FormatLayout limelight ∧
    (forceAv1Preferences .VDS_AUTO false).videoCodecConfig = .VCC_FORCE_AV1 ∧
    Int.land (hostWithModes modesH264AndHevc).serverCodecModeSupport limelight.SCM_MASK_AV1
      = 0 ∧
    (hostWithModes modesH264AndHevc).isSupportedServerVersion = true ∧
    LaunchWarning.hostCannotEncodeAv1 ∈
      (initializeNegotiation limelight (forceAv1Preferences .VDS_AUTO false)
        (hostWithModes modesH264AndHevc) (uniformEnvironment .Hardware) 1920
        1080).validation.session.m_LaunchWarnings ∧
    limelight.VIDEO_FORMAT_H265 ∈
      (initializeNegotiation limelight (forceAv1Preferences .VDS_AUTO false)
        (hostWithModes modesH264AndHevc) (uniformEnvironment .Hardware) 1920
        1080).validation.session.m_SupportedVideoFormats :=
  ⟨formatLayout_limelight, rfl, by decide, rfl,
    (force_av1_falls_back_when_host_has_no_av1 limelight (forceAv1Preferences .VDS_AUTO false)
      (hostWithModes modesH264AndHevc) (uniformEnvironment .Hardware) 1920 1080
      formatLayout_limelight rfl (by decide) rfl).1 rfl,
    ((force_av1_falls_back_when_host_has_no_av1 limelight (forceAv1Preferences .VDS_AUTO false)
      (hostWithModes modesH264AndHevc) (uniformEnvironment .Hardware) 1920 1080
      formatLayout_limelight rfl (by decide) rfl).2.2.2.2 (by decide)
        (Or.inl rfl)).1⟩

theorem force_av1_candidates_with_yuv444 (videoDecoderSelection : VideoDecoderSelection)
    (env : Environment) :
    candidatesBeforeValidation limelight (forceAv1Preferences videoDecoderSelection true) env
      1920 1080 =
      launchWith [limelight.VIDEO_FORMAT_AV1_HIGH8_444, limelight.VIDEO_FORMAT_H265_REXT8_444,
        limelight.VIDEO_FORMAT_AV1_MAIN8, limelight.VIDEO_FORMAT_H265] [] := by
  simp only [candidatesBeforeValidation, applyHdrPreference, applyYuv444Preference,
    applyCodecPolicy, forceAv1Preferences, removeByMask_eq_filter,
    deprioritizeByMask_eq_filter, land_eq_landEval, lor_eq_lorEval]
  decide

/-- C18, counterexample: the codec policy is force AV1, YUV 4:4:4 is enabled,
and the host has a supported server version, `maxLumaPixelsHEVC` not 0 and a
capability mask with the modes H.264 and HEVC 4:4:4 (`SCM_HEVC_REXT8_444`), so
no AV1 mode. With forced hardware decoding and a client that decodes only
H.264 in hardware the launch is validated with the candidate list
`[VIDEO_FORMAT_H264]`, which holds no HEVC format; with automatic decoder
selection and a client that decodes everything in hardware the same host gets
`[VIDEO_FORMAT_H265_REXT8_444]`, which is not `[VIDEO_FORMAT_H264]`. And for a
host with the modes H.264 and HEVC whose server version is not supported,
`validateLaunch` returns false with no warning emitted and
`VIDEO_FORMAT_AV1_MAIN8` still in the list. -/
theorem force_av1_fallback_not_decided_by_hevc_encoding :
    Int.land (hostWithModes modesH264AndHevc444).serverCodecModeSupport
      limelight.SCM_MASK_AV1 = 0 ∧
    (hostWithModes modesH264AndHevc444).maxLumaPixelsHEVC ≠ 0 ∧
    Int.land (hostWithModes modesH264AndHevc444).serverCodecModeSupport
      limelight.SCM_HEVC_REXT8_444 ≠ 0 ∧
    (initializeNegotiation limelight (forceAv1Preferences .VDS_FORCE_HARDWARE true)
      (hostWithModes modesH264AndHevc444) h264OnlyEnvironment 1920 1080).validation =
      { ret := true, launchError := none,
        session := launchWith [limelight.VIDEO_FORMAT_H264] [.hostCannotEncodeAv1] } ∧
    Int.land limelight.VIDEO_FORMAT_H264 limelight.VIDEO_FORMAT_MASK_H265 = 0 ∧
    (initializeNegotiation limelight (forceAv1Preferences .VDS_AUTO true)
      (hostWithModes modesH264AndHevc444) (uniformEnvironment .Hardware) 1920
      1080).validation =
      { ret := true, launchError := none,
        session := launchWith [limelight.VIDEO_FORMAT_H265_REXT8_444]
          [.hostCannotEncodeAv1] } ∧
    Int.land (unsupportedHost modesH264AndHevc).serverCodecModeSupport
      limelight.SCM_MASK_AV1 = 0 ∧
    (initializeNegotiation limelight (forceAv1Preferences .VDS_AUTO false)
      (unsupportedHost modesH264AndHevc) (uniformEnvironment .Hardware) 1920
      1080).validation =
      { ret := false, launchError := some .unsupportedServerVersion,
        session := launchWith [limelight.VIDEO_FORMAT_AV1_MAIN8, limelight.VIDEO_FORMAT_H265]
          [] } := by
  -- forced hardware decoding, only H.264 decoded in hardware
  have a3 : checkAv1 limelight (forceAv1Preferences .VDS_FORCE_HARDWARE true)
      (hostWithModes modesH264AndHevc444) h264OnlyEnvironment
      (launchWith [limelight.VIDEO_FORMAT_AV1_HIGH8_444, limelight.VIDEO_FORMAT_H265_REXT8_444,
        limelight.VIDEO_FORMAT_AV1_MAIN8, limelight.VIDEO_FORMAT_H265] []) =
      launchWith [limelight.VIDEO_FORMAT_H265_REXT8_444, limelight.VIDEO_FORMAT_H265]
        [.hostCannotEncodeAv1] := by
    simp only [checkAv1, maskByServerCodecModes, maskStep_eq_eval, removeByMask_eq_filter,
      land_eq_landEval, lor_eq_lorEval]
    decide
  have a4 : checkHevc limelight (forceAv1Preferences .VDS_FORCE_HARDWARE true)
      (hostWithModes modesH264AndHevc444) h264OnlyEnvironment
      (launchWith [limelight.VIDEO_FORMAT_H265_REXT8_444, limelight.VIDEO_FORMAT_H265]
        [.hostCannotEncodeAv1]) =
      launchWith [limelight.VIDEO_FORMAT_H265_REXT8_444, limelight.VIDEO_FORMAT_H265]
        [.hostCannotEncodeAv1] := by
    simp only [checkHevc, removeByMask_eq_filter, land_eq_landEval, lor_eq_lorEval]
    decide
  have a5 : checkH264 limelight (forceAv1Preferences .VDS_FORCE_HARDWARE true)
      (hostWithModes modesH264AndHevc444) h264OnlyEnvironment
      (launchWith [limelight.VIDEO_FORMAT_H265_REXT8_444, limelight.VIDEO_FORMAT_H265]
        [.hostCannotEncodeAv1]) =
      launchWith [limelight.VIDEO_FORMAT_H265_REXT8_444, limelight.VIDEO_FORMAT_H265]
        [.hostCannotEncodeAv1] := by
    simp only [checkH264, land_eq_landEval, lor_eq_lorEval]
    decide
  have a7 : checkYuv444 limelight (forceAv1Preferences .VDS_FORCE_HARDWARE true)
      (hostWithModes modesH264AndHevc444) h264OnlyEnvironment
      (launchWith [limelight.VIDEO_FORMAT_H265_REXT8_444, limelight.VIDEO_FORMAT_H265]
        [.hostCannotEncodeAv1]) =
      launchWith [] [.hostCannotEncodeAv1] := by
    simp only [checkYuv444, maskByServerCodecModes, maskStep_eq_eval, removeByMask_eq_filter,
      land_eq_landEval, lor_eq_lorEval]
    decide
  have af : finalChecks limelight (forceAv1Preferences .VDS_FORCE_HARDWARE true)
      (hostWithModes modesH264AndHevc444) h264OnlyEnvironment
      (launchWith [limelight.VIDEO_FORMAT_H264] [.hostCannotEncodeAv1]) = none := by
    simp only [finalChecks, land_eq_landEval, lor_eq_lorEval]
    decide
  have av := validateLaunch_of_steps limelight (forceAv1Preferences .VDS_FORCE_HARDWARE true)
    (hostWithModes modesH264AndHevc444) h264OnlyEnvironment _ _ _ rfl
    (validationChecks_of_steps limelight (forceAv1Preferences .VDS_FORCE_HARDWARE true)
      (hostWithModes modesH264AndHevc444) h264OnlyEnvironment _ _ _ _ _ _ _ _ _ _
      rfl rfl a3 a4 a5 rfl a7 rfl rfl)
    (show useLastResort limelight (launchWith [] [.hostCannotEncodeAv1]) =
      launchWith [limelight.VIDEO_FORMAT_H264] [.hostCannotEncodeAv1] from rfl) af
  -- automatic decoder selection, everything decoded in hardware
  have b3 : checkAv1 limelight (forceAv1Preferences .VDS_AUTO true)
      (hostWithModes modesH264AndHevc444) (uniformEnvironment .Hardware)
      (launchWith [limelight.VIDEO_FORMAT_AV1_HIGH8_444, limelight.VIDEO_FORMAT_H265_REXT8_444,
        limelight.VIDEO_FORMAT_AV1_MAIN8, limelight.VIDEO_FORMAT_H265] []) =
      launchWith [limelight.VIDEO_FORMAT_H265_REXT8_444, limelight.VIDEO_FORMAT_H265]
        [.hostCannotEncodeAv1] := by
    simp only [checkAv1, maskByServerCodecModes, maskStep_eq_eval, removeByMask_eq_filter,
      land_eq_landEval, lor_eq_lorEval]
    decide
  have b4 : checkHevc limelight (forceAv1Preferences .VDS_AUTO true)
      (hostWithModes modesH264AndHevc444) (uniformEnvironment .Hardware)
      (launchWith [limelight.VIDEO_FORMAT_H265_REXT8_444, limelight.VIDEO_FORMAT_H265]
        [.hostCannotEncodeAv1]) =
      launchWith [limelight.VIDEO_FORMAT_H265_REXT8_444, limelight.VIDEO_FORMAT_H265]
        [.hostCannotEncodeAv1] := by
    simp only [checkHevc, removeByMask_eq_filter, land_eq_landEval, lor_eq_lorEval]
    decide
  have b5 : checkH264 limelight (forceAv1Preferences .VDS_AUTO true)
      (hostWithModes modesH264AndHevc444) (uniformEnvironment .Hardware)
      (launchWith [limelight.VIDEO_FORMAT_H265_REXT8_444, limelight.VIDEO_FORMAT_H265]
        [.hostCannotEncodeAv1]) =
      launchWith [limelight.VIDEO_FORMAT_H265_REXT8_444, limelight.VIDEO_FORMAT_H265]
        [.hostCannotEncodeAv1] := by
    simp only [checkH264, land_eq_landEval, lor_eq_lorEval]
    decide
  have b7 : checkYuv444 limelight (forceAv1Preferences .VDS_AUTO true)
      (hostWithModes modesH264AndHevc444) (uniformEnvironment .Hardware)
      (launchWith [limelight.VIDEO_FORMAT_H265_REXT8_444, limelight.VIDEO_FORMAT_H265]
        [.hostCannotEncodeAv1]) =
      launchWith [limelight.VIDEO_FORMAT_H265_REXT8_444] [.hostCannotEncodeAv1] := by
    simp only [checkYuv444, maskByServerCodecModes, maskStep_eq_eval, removeByMask_eq_filter,
      land_eq_landEval, lor_eq_lorEval]
    decide
  have bf : finalChecks limelight (forceAv1Preferences .VDS_AUTO true)
      (hostWithModes modesH264AndHevc444) (uniformEnvironment .Hardware)
      (launchWith [limelight.VIDEO_FORMAT_H265_REXT8_444] [.hostCannotEncodeAv1]) = none := by
    simp only [finalChecks, land_eq_landEval, lor_eq_lorEval]
    decide
  have bv := validateLaunch_of_steps limelight (forceAv1Preferences .VDS_AUTO true)
    (hostWithModes modesH264AndHevc444) (uniformEnvironment .Hardware) _ _ _ rfl
    (validationChecks_of_steps limelight (forceAv1Preferences .VDS_AUTO true)
      (hostWithModes modesH264AndHevc444) (uniformEnvironment .Hardware) _ _ _ _ _ _ _ _ _ _
      rfl rfl b3 b4 b5 rfl b7 rfl rfl)
    (show useLastResort limelight
        (launchWith [limelight.VIDEO_FORMAT_H265_REXT8_444] [.hostCannotEncodeAv1]) =
      launchWith [limelight.VIDEO_FORMAT_H265_REXT8_444] [.hostCannotEncodeAv1] from rfl) bf
  -- server version not supported
  have c0 : candidatesBeforeValidation limelight (forceAv1Preferences .VDS_AUTO false)
      (uniformEnvironment .Hardware) 1920 1080 =
      launchWith [limelight.VIDEO_FORMAT_AV1_MAIN8, limelight.VIDEO_FORMAT_H265] [] := by
    simp only [candidatesBeforeValidation, applyHdrPreference, applyYuv444Preference,
      applyCodecPolicy, forceAv1Preferences, removeByMask_eq_filter,
      deprioritizeByMask_eq_filter, land_eq_landEval, lor_eq_lorEval]
    decide
  refine ⟨by decide, by decide, by decide, ?_, by decide, ?_, by decide, ?_⟩
  · rw [initializeNegotiation_validation, force_av1_candidates_with_yuv444]
    exact av
  · rw [initializeNegotiation_validation, force_av1_candidates_with_yuv444]
    exact bv
  · rw [initializeNegotiation_validation, c0]
    rfl

end Session

namespace Pacer

theorem vsyncCatchUp_queue (p : State) :
    (vsyncCatchUp p).m_PacingQueue =
      p.m_PacingQueue.drop (p.m_PacingQueue.length - frameDropTarget p) := by
  have h : (vsyncCatchUp p).m_PacingQueue = (catchUp (frameDropTarget p) p.m_PacingQueue).1 :=
    rfl
  rw [h, catchUp_eq_drop]

theorem vsyncCatchUp_dropped (p : State) :
    (vsyncCatchUp p).pacerDroppedFrames =
      p.pacerDroppedFrames + (p.m_PacingQueue.length - frameDropTarget p) := by
  have h : (vsyncCatchUp p).pacerDroppedFrames =
      p.pacerDroppedFrames + (catchUp (frameDropTarget p) p.m_PacingQueue).2 := rfl
  rw [h, catchUp_eq_drop]

theorem frameDropTarget_eq_three_iff (p : State) :
    frameDropTarget p = 3 ↔
      p.m_MaxVideoFps ≥ p.m_DisplayFps ∧ ∃ e ∈ p.m_PacingQueueHistory, e ≤ 1 := by
  unfold frameDropTarget
  split
  · next h =>
    simp only [Bool.and_eq_true, decide_eq_true_eq, List.any_eq_true] at h
    simp only [true_iff]
    exact h
  · next h =>
    simp only [Bool.and_eq_true, decide_eq_true_eq, List.any_eq_true] at h
    constructor
    · intro h3
      exact absurd h3 (by decide)
    · intro h3
      exact absurd h3 h

theorem frameDropTarget_cases (p : State) : frameDropTarget p = 3 ∨ frameDropTarget p = 1 := by
  unfold frameDropTarget
  split
  · exact Or.inl rfl
  · exact Or.inr rfl

/-- C24, counterexample: the stream runs at 120 frames per second on a 60 Hz
display, the pacing queue history is `[2, 0]` and three frames are queued. Not
every entry of the history is `<= 1`, yet `handleVsync` uses
`frameDropTarget = 3` and drops no frame. -/
theorem one_small_history_entry_makes_target_three :
    (withThreeQueuedFrames 120 60 [2, 0]).m_MaxVideoFps >
      (withThreeQueuedFrames 120 60 [2, 0]).m_DisplayFps ∧
    ¬ (∀ e ∈ (withThreeQueuedFrames 120 60 [2, 0]).m_PacingQueueHistory, e ≤ 1) ∧
    frameDropTarget (withThreeQueuedFrames 120 60 [2, 0]) = 3 ∧
    (vsyncCatchUp (withThreeQueuedFrames 120 60 [2, 0])).m_PacingQueue = [10, 11, 12] ∧
    (vsyncCatchUp (withThreeQueuedFrames 120 60 [2, 0])).pacerDroppedFrames = 0 := by
  decide

/-- C24, amended: for every V-sync tick in which the stream frame rate is at
least the display refresh rate and for every content of the pacing queue
history, `handleVsync` uses `frameDropTarget = 3` exactly when some entry of
the history is `<= 1`, and `frameDropTarget = 1` otherwise (so also for an
empty history); it then drops frames from the front of the pacing queue until
its size is `<=` that target, counting each in `pacerDroppedFrames`. -/
theorem frameDropTarget_three_iff_some_history_entry_small (p : State)
    (h : p.m_MaxVideoFps ≥ p.m_DisplayFps) :
    (frameDropTarget p = 3 ↔ ∃ e ∈ p.m_PacingQueueHistory, e ≤ 1) ∧
    (frameDropTarget p = 1 ↔ ∀ e ∈ p.m_PacingQueueHistory, 1 < e) ∧
    (vsyncCatchUp p).m_PacingQueue =
      p.m_PacingQueue.drop (p.m_PacingQueue.length - frameDropTarget p) ∧
    (vsyncCatchUp p).m_PacingQueue.length ≤ frameDropTarget p ∧
    (p.m_PacingQueue.length ≤ frameDropTarget p →
      (vsyncCatchUp p).m_PacingQueue = p.m_PacingQueue) ∧
    (vsyncCatchUp p).pacerDroppedFrames =
      p.pacerDroppedFrames + (p.m_PacingQueue.length - frameDropTarget p) := by
  have h3 : frameDropTarget p = 3 ↔ ∃ e ∈ p.m_PacingQueueHistory, e ≤ 1 := by
    rw [frameDropTarget_eq_three_iff]
    exact ⟨fun x => x.2, fun x => ⟨h, x⟩⟩
  refine ⟨h3, ?_, vsyncCatchUp_queue p, ?_, ?_, vsyncCatchUp_dropped p⟩
  · constructor
    · intro h1 e he
      by_contra hle
      have : frameDropTarget p = 3 := h3.mpr ⟨e, he, not_lt.mp hle⟩
      omega
    · intro hall
      rcases frameDropTarget_cases p with h' | h'
      · obtain ⟨e, he, hle⟩ := h3.mp h'
        have := hall e he
        omega
      · exact h'
  · rw [vsyncCatchUp_queue, List.length_drop]
    omega
  · intro hle
    rw [vsyncCatchUp_queue, Nat.sub_eq_zero_of_le hle, List.drop_zero]

theorem frameDropTarget_three_iff_some_history_entry_small_witness :
    (withThreeQueuedFrames 120 60 [2, 0]).m_MaxVideoFps ≥
      (withThreeQueuedFrames 120 60 [2, 0]).m_DisplayFps ∧
    (frameDropTarget (withThreeQueuedFrames 120 60 [2, 0]) = 3 ↔
      ∃ e ∈ (withThreeQueuedFrames 120 60 [2, 0]).m_PacingQueueHistory, e ≤ 1) :=
  ⟨by decide,
    (frameDropTarget_three_iff_some_history_entry_small (withThreeQueuedFrames 120 60 [2, 0])
      (by decide)).1⟩

/-- C25, counterexample: the stream frame rate equals the display refresh rate
(60 and 60), the pacing queue history is `[0]` and three frames are queued.
`handleVsync` uses `frameDropTarget = 3`, drops no frame, and moves one frame to
the render queue out of a pacing queue of three. -/
theorem equal_rates_use_the_history :
    (withThreeQueuedFrames 60 60 [0]).m_MaxVideoFps =
      (withThreeQueuedFrames 60 60 [0]).m_DisplayFps ∧
    frameDropTarget (withThreeQueuedFrames 60 60 [0]) = 3 ∧
    (vsyncCatchUp (withThreeQueuedFrames 60 60 [0])).m_PacingQueue = [10, 11, 12] ∧
    (vsyncCatchUp (withThreeQueuedFrames 60 60 [0])).m_PacingQueueHistory = [0, 3] ∧
    (handleVsync none (withThreeQueuedFrames 60 60 [0])).m_PacingQueue = [11, 12] ∧
    (handleVsync none (withThreeQueuedFrames 60 60 [0])).m_RenderQueue = [10] ∧
    (handleVsync none (withThreeQueuedFrames 60 60 [0])).pacerDroppedFrames = 0 := by
  decide

/-- C25, amended: for every V-sync tick in which the stream frame rate is less
than the display refresh rate, `handleVsync` uses `frameDropTarget = 1`
whatever the pacing queue history contains and leaves the history as it is, so
the pacing queue is trimmed to at most one frame before a frame is moved to
the render queue. (When the two rates are equal the history decides, as it
does when the stream frame rate is the greater one.) -/
theorem frameDropTarget_one_when_stream_slower (p : State)
    (h : p.m_MaxVideoFps < p.m_DisplayFps) :
    frameDropTarget p = 1 ∧
    (vsyncCatchUp p).m_PacingQueue.length ≤ 1 ∧
    (vsyncCatchUp p).m_PacingQueue = p.m_PacingQueue.drop (p.m_PacingQueue.length - 1) ∧
    (vsyncCatchUp p).m_PacingQueueHistory = p.m_PacingQueueHistory := by
  have h1 : frameDropTarget p = 1 := by
    rcases frameDropTarget_cases p with h' | h'
    · have := ((frameDropTarget_eq_three_iff p).mp h').1
      omega
    · exact h'
  have hq := vsyncCatchUp_queue p
  rw [h1] at hq
  refine ⟨h1, ?_, hq, ?_⟩
  · rw [hq, List.length_drop]
    omega
  · have hn : ¬ p.m_MaxVideoFps ≥ p.m_DisplayFps := by omega
    unfold vsyncCatchUp
    simp [hn]

theorem frameDropTarget_one_when_stream_slower_witness :
    (withThreeQueuedFrames 30 60 [0]).m_MaxVideoFps <
      (withThreeQueuedFrames 30 60 [0]).m_DisplayFps ∧
    frameDropTarget (withThreeQueuedFrames 30 60 [0]) = 1 ∧
    (vsyncCatchUp (withThreeQueuedFrames 30 60 [0])).m_PacingQueue.length ≤ 1 :=
  ⟨by decide,
    (frameDropTarget_one_when_stream_slower (withThreeQueuedFrames 30 60 [0]) (by decide)).1,
    (frameDropTarget_one_when_stream_slower (withThreeQueuedFrames 30 60 [0]) (by decide)).2.1⟩

end Pacer

namespace ComputerManager

theorem stable_sort_eq_insertionSort {α κ : Type} [LinearOrder κ] (key : α → κ)
    (l : List α) :
    stable_sort (fun a b => decide (key a < key b)) l =
      l.insertionSort (fun a b => key a ≤ key b) := by
  unfold stable_sort
  simp only [decide_eq_false_iff_not, not_lt]

theorem insertionSort_filter_key {α κ : Type} [LinearOrder κ] (key : α → κ) (l : List α)
    (k : κ) (p : α → Bool) (hp : ∀ h, p h = true ↔ key h = k) :
    (l.insertionSort (fun a b => key a ≤ key b)).filter p = l.filter p := by
  have hsub : List.Sublist (l.filter p) (l.insertionSort (fun a b => key a ≤ key b)) := by
    apply List.sublist_insertionSort
    · rw [List.pairwise_iff_forall_sublist]
      intro a b hab
      have ha : a ∈ l.filter p := hab.subset (by simp)
      have hb : b ∈ l.filter p := hab.subset (by simp)
      rw [List.mem_filter, hp] at ha hb
      rw [ha.2, hb.2]
    · exact List.filter_sublist l
  have hsub2 := hsub.filter p
  rw [List.filter_filter] at hsub2
  simp only [Bool.and_self] at hsub2
  have hlen : ((l.insertionSort (fun a b => key a ≤ key b)).filter p).length =
      (l.filter p).length :=
    ((List.perm_insertionSort _ l).filter _).length_eq
  exact (hsub2.eq_of_length hlen.symm).symm

/-- C21: for every registry content, `getComputers` returns a permutation of the
known host records that is non-decreasing in lower-cased name; for every
lower-cased name, the records with that name come in the order they have in
the registry map, which is ascending UUID as the map is ordered by its keys
and every record is kept under its UUID. -/
theorem getComputers_sorted_by_name_stable (toLower : QString → QString)
    (m_KnownHosts : List (QString × NvComputer)) :
    (getComputers toLower m_KnownHosts).Perm (values m_KnownHosts) ∧
    (getComputers toLower m_KnownHosts).Sorted
      (fun host1 host2 => toLower host1.name ≤ toLower host2.name) ∧
    (∀ lowerName : QString,
      (getComputers toLower m_KnownHosts).filter
          (fun host => decide (toLower host.name = lowerName)) =
        (values m_KnownHosts).filter (fun host => decide (toLower host.name = lowerName))) ∧
    ((∀ entry ∈ m_KnownHosts, entry.1 = entry.2.uuid) →
      (m_KnownHosts.map Prod.fst).Sorted (· < ·) →
      ∀ lowerName : QString,
        (((getComputers toLower m_KnownHosts).filter
          (fun host => decide (toLower host.name = lowerName))).map
            (fun host => host.uuid)).Sorted (· < ·)) := by
  have he : getComputers toLower m_KnownHosts =
      (values m_KnownHosts).insertionSort
        (fun host1 host2 => toLower host1.name ≤ toLower host2.name) :=
    stable_sort_eq_insertionSort (fun host : NvComputer => toLower host.name) _
  haveI : IsTotal NvComputer (fun host1 host2 => toLower host1.name ≤ toLower host2.name) :=
    ⟨fun a b => le_total _ _⟩
  haveI : IsTrans NvComputer (fun host1 host2 => toLower host1.name ≤ toLower host2.name) :=
    ⟨fun a b c => le_trans⟩
  rw [he]
  refine ⟨List.perm_insertionSort _ _, List.sorted_insertionSort _ _, ?_, ?_⟩
  · intro lowerName
    exact insertionSort_filter_key (fun host : NvComputer => toLower host.name) _ lowerName _
      (fun h => by simp)
  · intro hkey hmap lowerName
    rw [insertionSort_filter_key (fun host : NvComputer => toLower host.name) _ lowerName _
      (fun h => by simp)]
    have hu : (values m_KnownHosts).map (fun host => host.uuid) = m_KnownHosts.map Prod.fst := by
      unfold values
      rw [List.map_map]
      apply List.map_congr_left
      intro entry hentry
      exact (hkey entry hentry).symm
    have hs : ((values m_KnownHosts).map (fun host => host.uuid)).Sorted (· < ·) := by
      rw [hu]
      exact hmap
    exact hs.sublist ((List.filter_sublist _).map _)

theorem firstIPv4_eq_find (addresses : List QHostAddress) :
    firstIPv4 addresses = addresses.find? (fun a => decide (a.protocol = .IPv4Protocol)) := by
  induction addresses with
  | nil => rfl
  | cons a rest ih =>
    unfold firstIPv4
    by_cases h : a.protocol = .IPv4Protocol
    · simp [h]
    · simp [h, ih]

theorem firstLocalIPv6_eq_find (addresses : List QHostAddress) :
    firstLocalIPv6 addresses =
      addresses.find? (fun a => decide (a.protocol = .IPv6Protocol) &&
        (a.isInSubnet addr_fe80 10 || a.isInSubnet addr_fec0 10 ||
          a.isInSubnet addr_fc00 7)) := by
  induction addresses with
  | nil => rfl
  | cons a rest ih =>
    unfold firstLocalIPv6
    by_cases h : a.protocol = .IPv6Protocol
    · by_cases h2 : (a.isInSubnet addr_fe80 10 || a.isInSubnet addr_fec0 10 ||
          a.isInSubnet addr_fc00 7) = true
      · simp [h, h2]
      · simp [h, h2, ih]
    · simp [h, ih]

theorem erasePending_eq_erase (computer : Nat) (pending : List Nat) :
    erasePending computer pending = pending.erase computer := by
  induction pending with
  | nil => rfl
  | cons ptr rest ih =>
    unfold erasePending
    by_cases h : ptr = computer
    · simp [h]
    · rw [if_neg h, ih, List.erase_cons_tail]
      simpa using h

/-- C28, counterexample: the only address resolved for the host is the global
IPv6 address 2a00::1. The list is not empty, and `handleMdnsServiceResolved`
makes no `addNewHost` call at all; it only takes the entry out of the pending
list. -/
theorem global_ipv6_only_host_is_not_added :
    [QHostAddress.ipv6 (0x2a00 <<< 112 + 1)] ≠ [] ∧
    getBestGlobalAddressV6 [.ipv6 (0x2a00 <<< 112 + 1)] = .ipv6 (0x2a00 <<< 112 + 1) ∧
    (handleMdnsServiceResolved 1 47989 [.ipv6 (0x2a00 <<< 112 + 1)] [1]).addNewHost = [] ∧
    (handleMdnsServiceResolved 1 47989 [.ipv6 (0x2a00 <<< 112 + 1)] [1]).m_PendingResolution
      = [] := by
  decide

/-- C28, amended: for every list of addresses resolved for a discovered mDNS
host, `handleMdnsServiceResolved` issues at most one add-host request: with the
first IPv4 address as primary when the list has one; otherwise with the first
IPv6 address in fe80::/10, fec0::/10 or fc00::/7 as primary when the list has
one; otherwise none. The secondary address of the request is the best global
IPv6 address (the null address if there is none) and the request is marked as
coming from mDNS. In every case the first occurrence of the entry is taken out
of the pending-resolution list, so the entry is gone from it when it was
listed once. -/
theorem handleMdnsServiceResolved_adds_at_most_once (computer port : Nat)
    (addresses : List QHostAddress) (m_PendingResolution : List Nat) :
    (handleMdnsServiceResolved computer port addresses m_PendingResolution).addNewHost =
      (match addresses.find? (fun a => decide (a.protocol = .IPv4Protocol)) with
        | some address =>
          [⟨⟨address, port⟩, true, ⟨getBestGlobalAddressV6 addresses, port⟩⟩]
        | none =>
          match addresses.find? (fun a => decide (a.protocol = .IPv6Protocol) &&
              (a.isInSubnet addr_fe80 10 || a.isInSubnet addr_fec0 10 ||
                a.isInSubnet addr_fc00 7)) with
          | some address =>
            [⟨⟨address, port⟩, true, ⟨getBestGlobalAddressV6 addresses, port⟩⟩]
          | none => []) ∧
    (handleMdnsServiceResolved computer port addresses m_PendingResolution).addNewHost.length
      ≤ 1 ∧
    (handleMdnsServiceResolved computer port addresses
      m_PendingResolution).m_PendingResolution = m_PendingResolution.erase computer ∧
    (m_PendingResolution.Nodup →
      computer ∉ (handleMdnsServiceResolved computer port addresses
        m_PendingResolution).m_PendingResolution) := by
  have h1 : (handleMdnsServiceResolved computer port addresses
      m_PendingResolution).m_PendingResolution = m_PendingResolution.erase computer :=
    erasePending_eq_erase computer m_PendingResolution
  refine ⟨?_, ?_, h1, ?_⟩
  · unfold handleMdnsServiceResolved
    simp only [firstIPv4_eq_find, firstLocalIPv6_eq_find]
  · unfold handleMdnsServiceResolved
    simp only
    split
    · simp
    · split <;> simp
  · intro hnd
    rw [h1]
    exact fun h => (List.Nodup.mem_erase_iff hnd).mp h |>.1 rfl

theorem stopped_step_timeout (c : MdnsPendingComputer) (serverExists : Bool)
    (h : c.Stopped) : c.step (.timeout serverExists) = c := by
  unfold MdnsPendingComputer.step
  simp [h.2.1]

theorem stopped_run_timeouts (alive : List Bool) (c : MdnsPendingComputer) (h : c.Stopped) :
    c.run (alive.map MdnsEvent.timeout) = c := by
  induction alive with
  | nil => rfl
  | cons b rest ih =>
    unfold MdnsPendingComputer.run at ih ⊢
    rw [List.map_cons, List.foldl_cons, stopped_step_timeout c b h]
    exact ih

theorem resolving_step_timeout (k : Nat) (c : MdnsPendingComputer) (serverExists : Bool)
    (hk : k ≤ 10) (h : c.Resolving k) :
    (serverExists = true → k < 10 → (c.step (.timeout serverExists)).Resolving (k + 1)) ∧
    ((serverExists = false ∨ k = 10) → (c.step (.timeout serverExists)).Stopped) := by
  obtain ⟨ha, ht, hr, hn, he, hat⟩ := h
  constructor
  · intro hs hlt
    subst hs
    have hpos : c.m_Retries > 0 := by omega
    unfold MdnsPendingComputer.step MdnsPendingComputer.handleResolvedTimeout
      MdnsPendingComputer.resolve MdnsPendingComputer.cleanup
      MdnsPendingComputer.Resolving
    simp only [ht, ha, hpos, he, hat, if_true, List.isEmpty_nil, Bool.not_true,
      Bool.false_eq_true, if_false, true_and]
    refine ⟨?_, trivial⟩
    rw [hn]
    push_cast
    omega
  · intro hcase
    unfold MdnsPendingComputer.step MdnsPendingComputer.handleResolvedTimeout
      MdnsPendingComputer.resolve MdnsPendingComputer.cleanup
      MdnsPendingComputer.Stopped
    rcases hcase with hs | h10
    · subst hs
      simp only [ht, ha, if_true, List.isEmpty_nil, Bool.not_false]
      split <;> simp [he, hat] <;> omega
    · subst h10
      have hz : ¬ c.m_Retries > 0 := by
        rw [hn]
        decide
      simp only [ht, ha, hz, if_true, List.isEmpty_nil, if_false]
      simp [he, hat]

theorem resolving_run_timeouts (alive : List Bool) :
    ∀ (k : Nat) (c : MdnsPendingComputer), k ≤ 10 → c.Resolving k →
      ((∀ b ∈ alive, b = true) → k + alive.length ≤ 10 →
        (c.run (alive.map MdnsEvent.timeout)).Resolving (k + alive.length)) ∧
      (11 ≤ k + alive.length → (c.run (alive.map MdnsEvent.timeout)).Stopped) ∧
      ((c.run (alive.map MdnsEvent.timeout)).Stopped ∨
        ∃ j, j ≤ 10 ∧ (c.run (alive.map MdnsEvent.timeout)).Resolving j) := by
  induction alive with
  | nil =>
    intro k c hk h
    refine ⟨fun _ _ => h, fun h11 => ?_, Or.inr ⟨k, hk, h⟩⟩
    simp only [List.length_nil, Nat.add_zero] at h11
    omega
  | cons b rest ih =>
    intro k c hk h
    have hrun : c.run ((b :: rest).map MdnsEvent.timeout) =
        (c.step (.timeout b)).run (rest.map MdnsEvent.timeout) := rfl
    rw [hrun]
    have hstep := resolving_step_timeout k c b hk h
    by_cases hcont : b = true ∧ k < 10
    · have hres := hstep.1 hcont.1 hcont.2
      have hi := ih (k + 1) (c.step (.timeout b)) (by omega) hres
      refine ⟨fun hall hlen => ?_, fun h11 => ?_, hi.2.2⟩
      · have := hi.1 (fun x hx => hall x (List.mem_cons_of_mem _ hx))
          (by simp only [List.length_cons] at hlen; omega)
        simpa only [List.length_cons, Nat.add_assoc, Nat.add_comm 1] using this
      · exact hi.2.1 (by simp only [List.length_cons] at h11; omega)
    · have hst : (c.step (.timeout b)).Stopped := by
        apply hstep.2
        by_cases hb : b = true
        · right
          have : ¬ k < 10 := fun hlt => hcont ⟨hb, hlt⟩
          omega
        · left
          simpa using hb
      rw [stopped_run_timeouts rest _ hst]
      refine ⟨fun hall hlen => ?_, fun _ => hst, Or.inl hst⟩
      have hb : b = true := hall b (List.mem_cons_self _ _)
      simp only [List.length_cons] at hlen
      exact absurd ⟨hb, by omega⟩ hcont

theorem create_resolving : (MdnsPendingComputer.create true).Resolving 0 := by
  unfold MdnsPendingComputer.Resolving
  decide

theorem create_stopped : (MdnsPendingComputer.create false).Stopped := by
  unfold MdnsPendingComputer.Stopped
  decide

/-- C22, counterexample: the server exists throughout and no address is ever
reported. After 10 two-second timeouts the pending computer has not given up:
it holds its eleventh resolver, a timer is pending and nothing is released.
It gives up at the eleventh timeout. -/
theorem still_resolving_after_ten_timeouts :
    ((MdnsPendingComputer.create true).run
      (List.replicate 10 (MdnsEvent.timeout true))).hasResolver = true ∧
    ((MdnsPendingComputer.create true).run
      (List.replicate 10 (MdnsEvent.timeout true))).timerPending = true ∧
    ((MdnsPendingComputer.create true).run
      (List.replicate 10 (MdnsEvent.timeout true))).attempts = 11 ∧
    ((MdnsPendingComputer.create true).run
      (List.replicate 11 (MdnsEvent.timeout true))).hasResolver = false ∧
    ((MdnsPendingComputer.create true).run
      (List.replicate 11 (MdnsEvent.timeout true))).timerPending = false := by
  decide

/-- C22, amended: for a discovered mDNS service whose hostname never resolves
to any address, `MdnsPendingComputer` makes at most 11 resolution attempts (the
first one and 10 retries) and has given up and released its resolver by the
eleventh two-second timeout, that is within 11 x 2 s of its first attempt,
without emitting `resolvedHost`; as long as the server exists it is still
resolving after each of the first 10 timeouts. A resolver is also released,
with no further timer, when the server no longer exists at a retry. And at a
timeout at which at least one address has been collected it emits
`resolvedHost` with the collected addresses instead of retrying. -/
theorem mdns_resolution_gives_up_at_eleventh_timeout (serverExists : Bool)
    (alive : List Bool) :
    ((MdnsPendingComputer.create serverExists).run (alive.map MdnsEvent.timeout)).resolvedHost
      = [] ∧
    ((MdnsPendingComputer.create serverExists).run (alive.map MdnsEvent.timeout)).attempts
      ≤ 11 ∧
    (11 ≤ alive.length →
      ((MdnsPendingComputer.create serverExists).run
        (alive.map MdnsEvent.timeout)).hasResolver = false ∧
      ((MdnsPendingComputer.create serverExists).run
        (alive.map MdnsEvent.timeout)).timerPending = false) ∧
    (serverExists = true → (∀ b ∈ alive, b = true) → alive.length ≤ 10 →
      ((MdnsPendingComputer.create serverExists).run
        (alive.map MdnsEvent.timeout)).hasResolver = true ∧
      ((MdnsPendingComputer.create serverExists).run
        (alive.map MdnsEvent.timeout)).timerPending = true ∧
      ((MdnsPendingComputer.create serverExists).run
        (alive.map MdnsEvent.timeout)).attempts = alive.length + 1) ∧
    (((MdnsPendingComputer.create serverExists).run
        (alive.map MdnsEvent.timeout)).timerPending = false →
      ((MdnsPendingComputer.create serverExists).run
        (alive.map MdnsEvent.timeout)).hasResolver = false) ∧
    (∀ (c : MdnsPendingComputer) (b : Bool), c.timerPending = true → c.m_Addresses ≠ [] →
      (c.step (.timeout b)).resolvedHost = c.resolvedHost ++ [c.m_Addresses] ∧
      (c.step (.timeout b)).attempts = c.attempts ∧
      (c.step (.timeout b)).m_Retries = c.m_Retries ∧
      (c.step (.timeout b)).timerPending = false) := by
  have key : ((MdnsPendingComputer.create serverExists).run
        (alive.map MdnsEvent.timeout)).Stopped ∨
      ∃ j, j ≤ 10 ∧ ((MdnsPendingComputer.create serverExists).run
        (alive.map MdnsEvent.timeout)).Resolving j := by
    cases serverExists with
    | true => exact (resolving_run_timeouts alive 0 _ (by omega) create_resolving).2.2
    | false =>
      rw [stopped_run_timeouts alive _ create_stopped]
      exact Or.inl create_stopped
  refine ⟨?_, ?_, ?_, ?_, ?_, ?_⟩
  · rcases key with h | ⟨j, _, h⟩
    · exact h.2.2.2.2.1
    · exact h.2.2.2.2.1
  · rcases key with h | ⟨j, hj, h⟩
    · exact h.2.2.2.2.2
    · rw [h.2.2.2.2.2]
      omega
  · intro h11
    have hst : ((MdnsPendingComputer.create serverExists).run
        (alive.map MdnsEvent.timeout)).Stopped := by
      cases serverExists with
      | true =>
        exact (resolving_run_timeouts alive 0 _ (by omega) create_resolving).2.1 (by omega)
      | false =>
        rw [stopped_run_timeouts alive _ create_stopped]
        exact create_stopped
    exact ⟨hst.2.2.1, hst.2.1⟩
  · intro hs hall hlen
    subst hs
    have h := (resolving_run_timeouts alive 0 _ (by omega) create_resolving).1 hall
      (by omega)
    rw [Nat.zero_add] at h
    exact ⟨h.2.2.1, h.2.1, h.2.2.2.2.2⟩
  · intro hnt
    rcases key with h | ⟨j, _, h⟩
    · exact h.2.2.1
    · rw [h.2.1] at hnt
      exact absurd hnt (by decide)
  · intro c b ht hne
    have hne2 : c.m_Addresses.isEmpty = false := by
      cases hc : c.m_Addresses with
      | nil => exact absurd hc hne
      | cons a rest => rfl
    unfold MdnsPendingComputer.step MdnsPendingComputer.handleResolvedTimeout
    simp [ht, hne2]

end ComputerManager

namespace PcMonitorThread

theorem tryPollComputer_fails (ops : NvComputerOps) (cycle : Cycle) (i : Nat)
    (address : NvAddress) (s : Probing)
    (h : probeFails cycle s.m_Computer.uuid i address = true) :
    tryPollComputer ops (cycle.getServerInfo i address) s = (false, s) := by
  unfold probeFails at h
  unfold tryPollComputer
  cases hg : cycle.getServerInfo i address with
  | none => rfl
  | some newState =>
    rw [hg] at h
    simp only [decide_eq_true_eq] at h
    simp only [h, ne_eq, not_false_eq_true, if_true]

theorem tryPollComputer_succeeds (ops : NvComputerOps) (cycle : Cycle) (i : Nat)
    (address : NvAddress) (s : Probing)
    (h : probeFails cycle s.m_Computer.uuid i address = false) :
    (tryPollComputer ops (cycle.getServerInfo i address) s).1 = true ∧
    (tryPollComputer ops (cycle.getServerInfo i address) s).2.polled = s.polled ∧
    (tryPollComputer ops (cycle.getServerInfo i address) s).2.passes = s.passes ∧
    (tryPollComputer ops (cycle.getServerInfo i address) s).2.returned = s.returned := by
  unfold probeFails at h
  unfold tryPollComputer
  cases hg : cycle.getServerInfo i address with
  | none =>
    rw [hg] at h
    exact absurd h (by simp)
  | some newState =>
    rw [hg] at h
    simp only [decide_eq_false_iff_not, ne_eq, not_not] at h
    simp only [h, ne_eq, not_true_eq_false, if_false, and_self]

/-- How a pass over the addresses ends when it starts neither online nor
interrupted: every probe failed, or a probe succeeded after failures only, or
an interruption was requested after failures only. -/
theorem pollAddresses_outcome (ops : NvComputerOps) (cycle : Cycle) (i : Nat) :
    ∀ (l : List NvAddress) (s : Probing), s.online = false → s.returned = false →
      (pollAddresses ops cycle i l s).passes = s.passes ∧
      (((pollAddresses ops cycle i l s).online = false ∧
          (pollAddresses ops cycle i l s).returned = false ∧
          (pollAddresses ops cycle i l s).m_Computer = s.m_Computer ∧
          (pollAddresses ops cycle i l s).stateChanged = s.stateChanged ∧
          (pollAddresses ops cycle i l s).polled = s.polled ++ l.map (fun a => (i, a)) ∧
          ∀ a ∈ l, probeFails cycle s.m_Computer.uuid i a = true) ∨
        ((pollAddresses ops cycle i l s).online = true ∧
          (pollAddresses ops cycle i l s).returned = false ∧
          ∃ pre a post, l = pre ++ a :: post ∧
            (pollAddresses ops cycle i l s).polled =
              s.polled ++ pre.map (fun a => (i, a)) ++ [(i, a)] ∧
            (∀ b ∈ pre, probeFails cycle s.m_Computer.uuid i b = true) ∧
            probeFails cycle s.m_Computer.uuid i a = false) ∨
        ((pollAddresses ops cycle i l s).online = false ∧
          (pollAddresses ops cycle i l s).returned = true ∧
          (pollAddresses ops cycle i l s).m_Computer = s.m_Computer ∧
          ∃ pre a post, l = pre ++ a :: post ∧
            (pollAddresses ops cycle i l s).polled = s.polled ++ pre.map (fun a => (i, a)) ∧
            (∀ b ∈ pre, probeFails cycle s.m_Computer.uuid i b = true) ∧
            cycle.isInterruptionRequested i a = true)) := by
  intro l
  induction l with
  | nil =>
    intro s ho hr
    refine ⟨rfl, Or.inl ⟨ho, hr, rfl, rfl, by simp [pollAddresses], by simp⟩⟩
  | cons address rest ih =>
    intro s ho hr
    unfold pollAddresses
    by_cases hi : cycle.isInterruptionRequested i address = true
    · rw [if_pos hi]
      refine ⟨rfl, Or.inr (Or.inr ⟨ho, rfl, rfl, [], address, rest, rfl, by simp, by simp, hi⟩)⟩
    · rw [if_neg hi]
      simp only
      cases hf : probeFails cycle s.m_Computer.uuid i address with
      | true =>
        have ht := tryPollComputer_fails ops cycle i address
          { s with polled := s.polled ++ [(i, address)] } hf
        rw [ht]
        simp only [Bool.false_eq_true, if_false]
        obtain ⟨hp, hcases⟩ := ih { s with polled := s.polled ++ [(i, address)] } ho hr
        refine ⟨hp, ?_⟩
        rcases hcases with ⟨h1, h2, h3, h4, h5, h6⟩ | ⟨h1, h2, pre, a, post, h3, h4, h5, h6⟩ |
          ⟨h1, h2, h3, pre, a, post, h4, h5, h6, h7⟩
        · left
          refine ⟨h1, h2, h3, h4, ?_, ?_⟩
          · rw [h5]
            simp
          · intro a ha
            rcases List.mem_cons.mp ha with e | e
            · rw [e]
              exact hf
            · exact h6 a e
        · right
          left
          refine ⟨h1, h2, address :: pre, a, post, by rw [h3]; rfl, ?_, ?_, h6⟩
          · rw [h4]
            simp
          · intro b hb
            rcases List.mem_cons.mp hb with e | e
            · rw [e]
              exact hf
            · exact h5 b e
        · right
          right
          refine ⟨h1, h2, h3, address :: pre, a, post, by rw [h4]; rfl, ?_, ?_, h7⟩
          · rw [h5]
            simp
          · intro b hb
            rcases List.mem_cons.mp hb with e | e
            · rw [e]
              exact hf
            · exact h6 b e
      | false =>
        have ht := tryPollComputer_succeeds ops cycle i address
          { s with polled := s.polled ++ [(i, address)] } hf
        rw [if_pos ht.1]
        refine ⟨ht.2.2.1, Or.inr (Or.inl ⟨rfl, ?_, [], address, rest, rfl, ?_, by simp, hf⟩)⟩
        · exact ht.2.2.2.trans hr
        · simp only [List.map_nil, List.append_nil]
          exact ht.2.1

theorem runCycle_probe_fields (ops : NvComputerOps) (cycle : Cycle) (polls : Int)
    (m_Computer : NvComputer) :
    (runCycle ops cycle polls m_Computer).returned =
      (probeLoops ops cycle m_Computer).returned ∧
    (runCycle ops cycle polls m_Computer).online = (probeLoops ops cycle m_Computer).online ∧
    (runCycle ops cycle polls m_Computer).polled = (probeLoops ops cycle m_Computer).polled ∧
    (runCycle ops cycle polls m_Computer).passes = (probeLoops ops cycle m_Computer).passes ∧
    (runCycle ops cycle polls m_Computer).markedOffline =
      (!(probeLoops ops cycle m_Computer).returned &&
        markOffline (probeLoops ops cycle m_Computer)) := by
  unfold runCycle
  simp only
  split
  · next h => simp [h]
  · next h =>
    have h' : (probeLoops ops cycle m_Computer).returned = false := by simpa using h
    split <;> simp [h']

theorem probeLoops_not_online (ops : NvComputerOps) (cycle : Cycle) (m_Computer : NvComputer)
    (h : m_Computer.state ≠ .CS_ONLINE) :
    probeLoops ops cycle m_Computer =
      pollAddresses ops cycle 0 m_Computer.uniqueAddresses
        { m_Computer := m_Computer, stateChanged := false, online := false, returned := false,
          polled := [], passes := 1 } := by
  unfold probeLoops
  have hw : (m_Computer.state == ComputerState.CS_ONLINE) = false := by simpa using h
  simp only [hw, Bool.false_eq_true, if_false]
  unfold pollPasses
  simp only [Bool.or_self, Bool.false_eq_true, if_false, Nat.zero_add]
  unfold pollPasses
  rfl

theorem probeLoops_online (ops : NvComputerOps) (cycle : Cycle) (m_Computer : NvComputer)
    (h : m_Computer.state = .CS_ONLINE) :
    probeLoops ops cycle m_Computer =
      (if (pollAddresses ops cycle 0 m_Computer.uniqueAddresses
            { m_Computer := m_Computer, stateChanged := false, online := false,
              returned := false, polled := [], passes := 1 }).online ||
          (pollAddresses ops cycle 0 m_Computer.uniqueAddresses
            { m_Computer := m_Computer, stateChanged := false, online := false,
              returned := false, polled := [], passes := 1 }).returned then
        pollAddresses ops cycle 0 m_Computer.uniqueAddresses
          { m_Computer := m_Computer, stateChanged := false, online := false,
            returned := false, polled := [], passes := 1 }
      else
        pollAddresses ops cycle 1
          (pollAddresses ops cycle 0 m_Computer.uniqueAddresses
            { m_Computer := m_Computer, stateChanged := false, online := false,
              returned := false, polled := [], passes := 1 }).m_Computer.uniqueAddresses
          { pollAddresses ops cycle 0 m_Computer.uniqueAddresses
              { m_Computer := m_Computer, stateChanged := false, online := false,
                returned := false, polled := [], passes := 1 } with
            passes := (pollAddresses ops cycle 0 m_Computer.uniqueAddresses
              { m_Computer := m_Computer, stateChanged := false, online := false,
                returned := false, polled := [], passes := 1 }).passes + 1 }) := by
  unfold probeLoops
  have hw : (m_Computer.state == ComputerState.CS_ONLINE) = true := by simpa using h
  simp only [hw, if_true, TRIES_BEFORE_OFFLINING]
  unfold pollPasses
  simp only [Bool.or_self, Bool.false_eq_true, if_false, Nat.zero_add]
  unfold pollPasses
  split
  · rfl
  · unfold pollPasses
    rfl

/-- How the probe loops end: every probe of every pass failed (one pass, or
two for a host that was online), or a probe succeeded after failures only, or
an interruption was requested after failures only. -/
theorem probeLoops_outcome (ops : NvComputerOps) (cycle : Cycle) (m_Computer : NvComputer) :
    (1 ≤ (probeLoops ops cycle m_Computer).passes ∧
      (probeLoops ops cycle m_Computer).passes ≤
        (if m_Computer.state = .CS_ONLINE then TRIES_BEFORE_OFFLINING else 1)) ∧
    (m_Computer.state ≠ .CS_ONLINE →
      (probeLoops ops cycle m_Computer).polled <+:
        m_Computer.uniqueAddresses.map (fun a => (0, a))) ∧
    (((probeLoops ops cycle m_Computer).online = false ∧
        (probeLoops ops cycle m_Computer).returned = false ∧
        (probeLoops ops cycle m_Computer).m_Computer = m_Computer ∧
        (probeLoops ops cycle m_Computer).passes =
          (if m_Computer.state = .CS_ONLINE then TRIES_BEFORE_OFFLINING else 1) ∧
        (probeLoops ops cycle m_Computer).polled =
          (if m_Computer.state = .CS_ONLINE then
            m_Computer.uniqueAddresses.map (fun a => (0, a)) ++
              m_Computer.uniqueAddresses.map (fun a => (1, a))
          else m_Computer.uniqueAddresses.map (fun a => (0, a))) ∧
        ∀ p ∈ (probeLoops ops cycle m_Computer).polled,
          probeFails cycle m_Computer.uuid p.1 p.2 = true) ∨
      ((probeLoops ops cycle m_Computer).online = true ∧
        (probeLoops ops cycle m_Computer).returned = false ∧
        ∃ earlier i a, (probeLoops ops cycle m_Computer).polled = earlier ++ [(i, a)] ∧
          probeFails cycle m_Computer.uuid i a = false ∧
          ∀ p ∈ earlier, probeFails cycle m_Computer.uuid p.1 p.2 = true) ∨
      ((probeLoops ops cycle m_Computer).online = false ∧
        (probeLoops ops cycle m_Computer).returned = true ∧
        ∀ p ∈ (probeLoops ops cycle m_Computer).polled,
          probeFails cycle m_Computer.uuid p.1 p.2 = true)) := by
  have out1 := pollAddresses_outcome ops cycle 0 m_Computer.uniqueAddresses
    { m_Computer := m_Computer, stateChanged := false, online := false, returned := false,
      polled := [], passes := 1 } rfl rfl
  simp only [List.nil_append] at out1
  obtain ⟨hp1, hc1⟩ := out1
  by_cases hst : m_Computer.state = .CS_ONLINE
  · rw [probeLoops_online ops cycle m_Computer hst]
    simp only [hst, if_true, ne_eq, not_true_eq_false, false_implies, true_and,
      TRIES_BEFORE_OFFLINING]
    rcases hc1 with ⟨h1, h2, h3, h4, h5, h6⟩ | ⟨h1, h2, pre, a, post, h3, h4, h5, h6⟩ |
      ⟨h1, h2, h3, pre, a, post, h4, h5, h6, h7⟩
    · have e1 : pollAddresses ops cycle 0 m_Computer.uniqueAddresses
          { m_Computer := m_Computer, stateChanged := false, online := false,
            returned := false, polled := [], passes := 1 } =
          { m_Computer := m_Computer, stateChanged := false, online := false,
            returned := false,
            polled := m_Computer.uniqueAddresses.map (fun a => (0, a)), passes := 1 } := by
        generalize pollAddresses ops cycle 0 m_Computer.uniqueAddresses
          { m_Computer := m_Computer, stateChanged := false, online := false,
            returned := false, polled := [], passes := 1 } = s1 at h1 h2 h3 h4 h5 hp1
        cases s1
        simp only at h1 h2 h3 h4 h5 hp1
        subst h1 h2 h3 h4 h5 hp1
        rfl
      rw [e1]
      simp only [Bool.or_self, Bool.false_eq_true, if_false]
      have out2 := pollAddresses_outcome ops cycle 1 m_Computer.uniqueAddresses
        { m_Computer := m_Computer, stateChanged := false, online := false,
          returned := false,
          polled := m_Computer.uniqueAddresses.map (fun a => (0, a)), passes := 1 + 1 }
        rfl rfl
      simp only at out2
      obtain ⟨hp2, hc2⟩ := out2
      refine ⟨⟨by omega, by omega⟩, ?_⟩
      rcases hc2 with ⟨g1, g2, g3, g4, g5, g6⟩ | ⟨g1, g2, pre, a, post, g3, g4, g5, g6⟩ |
        ⟨g1, g2, g3, pre, a, post, g4, g5, g6, g7⟩
      · left
        refine ⟨g1, g2, g3, hp2, g5, ?_⟩
        intro p hp
        rw [g5, List.mem_append, List.mem_map, List.mem_map] at hp
        rcases hp with ⟨b, hb, rfl⟩ | ⟨b, hb, rfl⟩
        · exact h6 b hb
        · exact g6 b hb
      · right
        left
        refine ⟨g1, g2, m_Computer.uniqueAddresses.map (fun a => (0, a)) ++
          pre.map (fun a => (1, a)), 1, a, g4, g6, ?_⟩
        intro p hp
        rw [List.mem_append, List.mem_map, List.mem_map] at hp
        rcases hp with ⟨b, hb, rfl⟩ | ⟨b, hb, rfl⟩
        · exact h6 b hb
        · exact g5 b hb
      · right
        right
        refine ⟨g1, g2, ?_⟩
        intro p hp
        rw [g5, List.mem_append, List.mem_map, List.mem_map] at hp
        rcases hp with ⟨b, hb, rfl⟩ | ⟨b, hb, rfl⟩
        · exact h6 b hb
        · exact g6 b hb
    · rw [h1]
      simp only [Bool.true_or, if_true]
      refine ⟨⟨by omega, by omega⟩, Or.inr (Or.inl ⟨h1, h2, pre.map (fun a => (0, a)), 0, a,
        h4, h6, ?_⟩)⟩
      intro p hp
      rw [List.mem_map] at hp
      obtain ⟨b, hb, rfl⟩ := hp
      exact h5 b hb
    · rw [h2]
      simp only [Bool.or_true, if_true]
      refine ⟨⟨by omega, by omega⟩, Or.inr (Or.inr ⟨h1, h2, ?_⟩)⟩
      intro p hp
      rw [h5, List.mem_map] at hp
      obtain ⟨b, hb, rfl⟩ := hp
      exact h6 b hb
  · rw [probeLoops_not_online ops cycle m_Computer hst]
    simp only [hst, if_false, ne_eq, not_false_eq_true, true_implies]
    refine ⟨⟨by omega, by omega⟩, ?_, ?_⟩
    · rcases hc1 with ⟨h1, h2, h3, h4, h5, h6⟩ | ⟨h1, h2, pre, a, post, h3, h4, h5, h6⟩ |
        ⟨h1, h2, h3, pre, a, post, h4, h5, h6, h7⟩
      · rw [h5]
      · rw [h4, h3]
        simp only [List.map_append, List.map_cons]
        exact ⟨post.map (fun a => (0, a)), by simp⟩
      · rw [h5, h4]
        simp only [List.map_append, List.map_cons]
        exact List.prefix_append _ _
    · rcases hc1 with ⟨h1, h2, h3, h4, h5, h6⟩ | ⟨h1, h2, pre, a, post, h3, h4, h5, h6⟩ |
        ⟨h1, h2, h3, pre, a, post, h4, h5, h6, h7⟩
      · left
        refine ⟨h1, h2, h3, hp1, h5, ?_⟩
        intro p hp
        rw [h5, List.mem_map] at hp
        obtain ⟨b, hb, rfl⟩ := hp
        exact h6 b hb
      · right
        left
        refine ⟨h1, h2, pre.map (fun a => (0, a)), 0, a, h4, h6, ?_⟩
        intro p hp
        rw [List.mem_map] at hp
        obtain ⟨b, hb, rfl⟩ := hp
        exact h5 b hb
      · right
        right
        refine ⟨h1, h2, ?_⟩
        intro p hp
        rw [h5, List.mem_map] at hp
        obtain ⟨b, hb, rfl⟩ := hp
        exact h6 b hb

theorem wrapInt32_of_small (x : Int) (h0 : -2147483648 ≤ x) (h1 : x < 2147483648) :
    wrapInt32 x = x := by
  unfold wrapInt32
  omega

theorem updateAppList_true_of_fetched (ops : NvComputerOps) (appList : Option (List NvApp))
    (m_Computer : NvComputer) (changed : Bool)
    (h : (updateAppList ops appList m_Computer changed).1 = true) :
    ∃ l, appList = some l ∧ l ≠ [] := by
  unfold updateAppList at h
  cases appList with
  | none => simp at h
  | some l =>
    refine ⟨l, rfl, ?_⟩
    intro hl
    subst hl
    simp at h

/-- One iteration of the loop: when it does not return, `updateAppList` is
called exactly when the condition holds for the host record after the probes
and the incremented counter, and the counter is reset by a fetch that
succeeds. -/
theorem runCycle_appList (ops : NvComputerOps) (cycle : Cycle) (polls : Int)
    (m_Computer : NvComputer) :
    ((runCycle ops cycle polls m_Computer).returned = true →
      (runCycle ops cycle polls m_Computer).appListFetchAttempted = false ∧
      (runCycle ops cycle polls m_Computer).appListFetched = false) ∧
    ((runCycle ops cycle polls m_Computer).returned = false →
      (runCycle ops cycle polls m_Computer).appListFetchAttempted =
        appListDue (runCycle ops cycle polls m_Computer).hostAtCheck
          (wrapInt32 (polls + 1)) ∧
      (runCycle ops cycle polls m_Computer).pollsSinceLastAppListFetch =
        (if (runCycle ops cycle polls m_Computer).appListFetched then 0
          else wrapInt32 (polls + 1)) ∧
      ((runCycle ops cycle polls m_Computer).appListFetched = true →
        (runCycle ops cycle polls m_Computer).appListFetchAttempted = true)) := by
  unfold runCycle
  simp only
  split
  · simp
  · split
    · next h => simp [h]
    · next h => simp [h]

theorem appListDue_iff (computer : NvComputer) (polls : Int) :
    appListDue computer polls = true ↔
      computer.state = .CS_ONLINE ∧ computer.pairState = .PS_PAIRED ∧
        (computer.appList = [] ∨ 10 ≤ polls) := by
  unfold appListDue POLLS_PER_APPLIST_FETCH
  simp only [Bool.and_eq_true, beq_iff_eq, Bool.or_eq_true, List.isEmpty_iff,
    decide_eq_true_eq, ge_iff_le, and_assoc]

theorem counterTracks_start : CounterTracks POLLS_PER_APPLIST_FETCH [] := by
  unfold CounterTracks POLLS_PER_APPLIST_FETCH
  refine ⟨by decide, by decide, ?_⟩
  intro k hk
  simp only [List.reverse_nil, List.take_nil, List.all_nil, iff_true]
  omega

theorem counterTracks_step (polls : Int) (earlier : List CycleResult) (r : CycleResult)
    (h : CounterTracks polls earlier)
    (hr : r.pollsSinceLastAppListFetch = (if r.appListFetched then 0 else polls + 1)) :
    CounterTracks r.pollsSinceLastAppListFetch (earlier ++ [r]) := by
  obtain ⟨h0, hle, hk⟩ := h
  unfold CounterTracks
  rw [hr]
  refine ⟨?_, ?_, ?_⟩
  · split <;> omega
  · simp only [List.length_append, List.length_singleton]
    split <;> omega
  · intro k hk10
    rw [List.reverse_append, List.reverse_singleton, List.singleton_append]
    cases k with
    | zero =>
      simp only [List.take_zero, List.all_nil, iff_true]
      split <;> omega
    | succ j =>
      rw [List.take_succ_cons, List.all_cons]
      have hj := hk j (by omega)
      cases hf : r.appListFetched with
      | true =>
        simp only [if_true, Bool.not_true, Bool.false_and, Bool.false_eq_true, iff_false]
        omega
      | false =>
        simp only [Bool.false_eq_true, if_false, Bool.not_false, Bool.true_and]
        rw [← hj]
        omega

/-- In every iteration that does not return, `updateAppList` is called exactly
when the host record after the probes is online and paired and its
application list is empty or no fetch succeeded in the last nine
iterations. -/
theorem runCycles_fetch_due (ops : NvComputerOps) :
    ∀ (cycles : List (Cycle × NvComputer)) (polls : Int) (earlier : List CycleResult),
      CounterTracks polls earlier → polls + cycles.length < 2147483647 →
      ∀ (n : Nat) (r : CycleResult), (runCycles ops polls cycles)[n]? = some r →
        r.returned = false →
        (r.appListFetchAttempted = true ↔
          r.hostAtCheck.state = .CS_ONLINE ∧ r.hostAtCheck.pairState = .PS_PAIRED ∧
            (r.hostAtCheck.appList = [] ∨
              fetchDue (earlier ++ (runCycles ops polls cycles).take n) = true)) := by
  intro cycles
  induction cycles with
  | nil =>
    intro polls earlier _ _ n r hget
    simp [runCycles] at hget
  | cons x rest ih =>
    intro polls earlier hinv hb n r hget hret
    obtain ⟨cycle, host⟩ := x
    have hstep := runCycle_appList ops cycle polls host
    have hw : wrapInt32 (polls + 1) = polls + 1 := by
      simp only [List.length_cons] at hb
      exact wrapInt32_of_small _ (by have := hinv.1; omega) (by push_cast at hb; omega)
    rw [hw] at hstep
    unfold runCycles at hget ⊢
    simp only at hget ⊢
    by_cases hr0 : (runCycle ops cycle polls host).returned = true
    · rw [if_pos hr0] at hget
      cases n with
      | zero =>
        simp only [List.getElem?_cons_zero, Option.some.injEq] at hget
        rw [← hget, hr0] at hret
        exact absurd hret (by decide)
      | succ m => simp at hget
    · have hr0f : (runCycle ops cycle polls host).returned = false := by simpa using hr0
      rw [if_neg hr0] at hget ⊢
      obtain ⟨hatt, hpolls, _⟩ := hstep.2 hr0f
      cases n with
      | zero =>
        simp only [List.getElem?_cons_zero, Option.some.injEq] at hget
        subst hget
        rw [hatt, appListDue_iff, List.take_zero, List.append_nil]
        have h9 := hinv.2.2 9 (by omega)
        unfold fetchDue
        rw [← h9]
        constructor
        · rintro ⟨h1, h2, h3⟩
          refine ⟨h1, h2, ?_⟩
          rcases h3 with h3 | h3
          · exact Or.inl h3
          · exact Or.inr (by push_cast; omega)
        · rintro ⟨h1, h2, h3⟩
          refine ⟨h1, h2, ?_⟩
          rcases h3 with h3 | h3
          · exact Or.inl h3
          · exact Or.inr (by push_cast at h3; omega)
      | succ m =>
        simp only [List.getElem?_cons_succ] at hget
        have hinv2 := counterTracks_step polls earlier _ hinv hpolls
        have hb2 : (runCycle ops cycle polls host).pollsSinceLastAppListFetch +
            (rest.length : Int) < 2147483647 := by
          rw [hpolls]
          simp only [List.length_cons] at hb
          push_cast at hb
          have := hinv.1
          split <;> omega
        have := ih _ (earlier ++ [runCycle ops cycle polls host]) hinv2 hb2 m r hget hret
        rw [List.take_succ_cons]
        rw [List.append_assoc, List.singleton_append] at this
        exact this

theorem fetchDue_iff (l : List CycleResult) :
    fetchDue l = true ↔
      ∀ (i : Nat) (x : CycleResult), l[i]? = some x → l.length ≤ i + 9 →
        x.appListFetched = false := by
  unfold fetchDue
  rw [List.take_reverse, List.all_reverse, List.all_eq_true]
  constructor
  · intro h i x hget hlen
    have hx : x ∈ l.drop (l.length - 9) := by
      rw [List.mem_iff_getElem?]
      refine ⟨i - (l.length - 9), ?_⟩
      rw [List.getElem?_drop]
      have : l.length - 9 + (i - (l.length - 9)) = i := by omega
      rw [this]
      exact hget
    simpa using h x hx
  · intro h x hx
    rw [List.mem_iff_getElem?] at hx
    obtain ⟨j, hj⟩ := hx
    rw [List.getElem?_drop] at hj
    have hlt : l.length - 9 + j < l.length := (List.getElem?_eq_some.mp hj).1
    have := h (l.length - 9 + j) x hj (by omega)
    simp [this]

theorem runCycles_mem (ops : NvComputerOps) :
    ∀ (cycles : List (Cycle × NvComputer)) (polls : Int) (r : CycleResult),
      r ∈ runCycles ops polls cycles →
      ∃ cycle p m_Computer, r = runCycle ops cycle p m_Computer := by
  intro cycles
  induction cycles with
  | nil =>
    intro polls r hr
    simp [runCycles] at hr
  | cons x rest ih =>
    intro polls r hr
    unfold runCycles at hr
    simp only at hr
    split at hr
    · rw [List.mem_singleton] at hr
      exact ⟨x.1, polls, x.2, hr⟩
    · rcases List.mem_cons.mp hr with e | e
      · exact ⟨x.1, polls, x.2, e⟩
      · exact ih _ r e

theorem runCycles_getElem (ops : NvComputerOps) (cycles : List (Cycle × NvComputer))
    (polls : Int) (n : Nat) (r : CycleResult) (h : (runCycles ops polls cycles)[n]? = some r) :
    (r.returned = true → r.appListFetchAttempted = false) ∧
    (r.appListFetched = true → r.appListFetchAttempted = true) := by
  obtain ⟨cycle, p, m_Computer, rfl⟩ :=
    runCycles_mem ops cycles polls r (List.mem_iff_getElem?.mpr ⟨n, h⟩)
  have hs := runCycle_appList ops cycle p m_Computer
  refine ⟨fun hr => (hs.1 hr).1, fun hf => ?_⟩
  cases hret : (runCycle ops cycle p m_Computer).returned with
  | true =>
    rw [(hs.1 hret).2] at hf
    exact absurd hf (by decide)
  | false => exact (hs.2 hret).2.2 hf

/-- C27: in each polling cycle of `PcMonitorThread::run` (as long as the `int`
counter has not overflowed, that is for fewer than 2^31 - 11 cycles) the
application list fetch is attempted if and only if, after the probe phase, the
host is online and paired and either its cached application list is empty or
no fetch succeeded in the last nine cycles, so that at least
`POLLS_PER_APPLIST_FETCH = 10` cycles have passed since the last successful
fetch, the first cycle counting as due; a cycle cut off by an interruption
request attempts none. After a successful fetch no attempt is made in the
following 9 cycles in which the list is not empty, and in the 10th following
cycle the attempt is made exactly when the host is online and paired. A host
that is offline or unpaired is never asked for its application list. -/
theorem appList_fetch_iff_online_paired_and_due (ops : NvComputerOps)
    (cycles : List (Cycle × NvComputer)) (hlen : cycles.length + 11 < 2147483648) :
    (∀ (n : Nat) (r : CycleResult), (run ops cycles)[n]? = some r →
      (r.returned = true → r.appListFetchAttempted = false) ∧
      (r.returned = false →
        (r.appListFetchAttempted = true ↔
          r.hostAtCheck.state = .CS_ONLINE ∧ r.hostAtCheck.pairState = .PS_PAIRED ∧
            (r.hostAtCheck.appList = [] ∨ fetchDue ((run ops cycles).take n) = true))) ∧
      (r.appListFetchAttempted = true →
        r.hostAtCheck.state = .CS_ONLINE ∧ r.hostAtCheck.pairState = .PS_PAIRED)) ∧
    (∀ r : CycleResult, (run ops cycles)[0]? = some r → r.returned = false →
      (r.appListFetchAttempted = true ↔
        r.hostAtCheck.state = .CS_ONLINE ∧ r.hostAtCheck.pairState = .PS_PAIRED)) ∧
    (∀ (n : Nat) (fetch : CycleResult), (run ops cycles)[n]? = some fetch →
      fetch.appListFetched = true →
      (∀ (j : Nat) (r : CycleResult), 1 ≤ j → j ≤ 9 → (run ops cycles)[n + j]? = some r →
        r.hostAtCheck.appList ≠ [] → r.appListFetchAttempted = false) ∧
      (∀ r : CycleResult, (run ops cycles)[n + 10]? = some r → r.returned = false →
        (∀ (j : Nat) (r' : CycleResult), 1 ≤ j → j ≤ 9 →
          (run ops cycles)[n + j]? = some r' → r'.hostAtCheck.appList ≠ []) →
        (r.appListFetchAttempted = true ↔
          r.hostAtCheck.state = .CS_ONLINE ∧ r.hostAtCheck.pairState = .PS_PAIRED))) := by
  have hb : POLLS_PER_APPLIST_FETCH + (cycles.length : Int) < 2147483647 := by
    unfold POLLS_PER_APPLIST_FETCH
    omega
  have hdue : ∀ (n : Nat) (r : CycleResult), (run ops cycles)[n]? = some r →
      r.returned = false →
      (r.appListFetchAttempted = true ↔
        r.hostAtCheck.state = .CS_ONLINE ∧ r.hostAtCheck.pairState = .PS_PAIRED ∧
          (r.hostAtCheck.appList = [] ∨ fetchDue ((run ops cycles).take n) = true)) := by
    intro n r hget hret
    have := runCycles_fetch_due ops cycles POLLS_PER_APPLIST_FETCH [] counterTracks_start hb
      n r hget hret
    rw [List.nil_append] at this
    exact this
  have hel : ∀ (n : Nat) (r : CycleResult), (run ops cycles)[n]? = some r →
      (r.returned = true → r.appListFetchAttempted = false) ∧
      (r.appListFetched = true → r.appListFetchAttempted = true) :=
    fun n r h => runCycles_getElem ops cycles POLLS_PER_APPLIST_FETCH n r h
  have hquiet : ∀ (n : Nat) (fetch : CycleResult), (run ops cycles)[n]? = some fetch →
      fetch.appListFetched = true →
      ∀ (j : Nat) (r : CycleResult), 1 ≤ j → j ≤ 9 → (run ops cycles)[n + j]? = some r →
        r.hostAtCheck.appList ≠ [] → r.appListFetchAttempted = false := by
    intro n fetch hn hf j r hj1 hj9 hget hne
    cases hret : r.returned with
    | true => exact (hel _ r hget).1 hret
    | false =>
      by_contra hatt
      have hatt : r.appListFetchAttempted = true := by simpa using hatt
      rcases ((hdue _ r hget hret).mp hatt).2.2 with he | hd
      · exact hne he
      · rw [fetchDue_iff] at hd
        have hlt : n + j < (run ops cycles).length := (List.getElem?_eq_some.mp hget).1
        have h1 : ((run ops cycles).take (n + j))[n]? = some fetch := by
          rw [List.getElem?_take, if_pos (by omega)]
          exact hn
        have h2 := hd n fetch h1 (by rw [List.length_take]; omega)
        rw [hf] at h2
        exact absurd h2 (by decide)
  refine ⟨?_, ?_, ?_⟩
  · intro n r hget
    refine ⟨(hel n r hget).1, hdue n r hget, ?_⟩
    intro hatt
    cases hret : r.returned with
    | true =>
      rw [(hel n r hget).1 hret] at hatt
      exact absurd hatt (by decide)
    | false =>
      have := (hdue n r hget hret).mp hatt
      exact ⟨this.1, this.2.1⟩
  · intro r hget hret
    rw [hdue 0 r hget hret]
    have : fetchDue ((run ops cycles).take 0) = true := by
      rw [List.take_zero]
      rfl
    simp only [this, or_true, and_true]
  · intro n fetch hn hf
    refine ⟨hquiet n fetch hn hf, ?_⟩
    intro r hget hret hall
    rw [hdue _ r hget hret]
    have hlt : n + 10 < (run ops cycles).length := (List.getElem?_eq_some.mp hget).1
    have hd : fetchDue ((run ops cycles).take (n + 10)) = true := by
      rw [fetchDue_iff]
      intro i x hi hlen
      rw [List.length_take] at hlen
      rw [List.getElem?_take] at hi
      split at hi
      · next hlt2 =>
        have hi2 : (run ops cycles)[n + (i - n)]? = some x := by
          have : n + (i - n) = i := by omega
          rw [this]
          exact hi
        have hquietj := hquiet n fetch hn hf (i - n) x (by omega) (by omega) hi2
          (hall (i - n) x (by omega) (by omega) hi2)
        cases hfx : x.appListFetched with
        | false => rfl
        | true =>
          rw [(hel _ x hi2).2 hfx] at hquietj
          exact absurd hquietj (by decide)
      · exact absurd hi (by simp)
    simp only [hd, or_true, and_true]

theorem appList_fetch_iff_online_paired_and_due_witness :
    [(answeringCycle, pairedHost .CS_UNKNOWN)].length + 11 < 2147483648 ∧
    (run storingOps [(answeringCycle, pairedHost .CS_UNKNOWN)])[0]? =
      some (runCycle storingOps answeringCycle 10 (pairedHost .CS_UNKNOWN)) ∧
    (runCycle storingOps answeringCycle 10 (pairedHost .CS_UNKNOWN)).polled = [(0, 1), (0, 2)] ∧
    ((runCycle storingOps answeringCycle 10 (pairedHost .CS_UNKNOWN)).appListFetchAttempted
        = true ↔
      (runCycle storingOps answeringCycle 10 (pairedHost .CS_UNKNOWN)).hostAtCheck.state =
          .CS_ONLINE ∧
        (runCycle storingOps answeringCycle 10 (pairedHost .CS_UNKNOWN)).hostAtCheck.pairState
          = .PS_PAIRED) :=
  ⟨by decide, by decide, by decide,
    (appList_fetch_iff_online_paired_and_due storingOps
      [(answeringCycle, pairedHost .CS_UNKNOWN)] (by decide)).2.1
      (runCycle storingOps answeringCycle 10 (pairedHost .CS_UNKNOWN)) (by decide)
      (by decide)⟩

end PcMonitorThread

namespace PendingAddTask

theorem nextServerInfo_mem (l : List GetServerInfo) (s : String)
    (h : (nextServerInfo l).1 = .document s) :
    GetServerInfo.document s ∈ l ∧ ∀ x ∈ (nextServerInfo l).2, x ∈ l := by
  cases l with
  | nil => simp [nextServerInfo] at h
  | cons a rest =>
    simp only [nextServerInfo] at h ⊢
    rw [h]
    exact ⟨List.mem_cons_self _ _, fun x hx => List.mem_cons_of_mem _ hx⟩

theorem nextServerInfo_subset (l : List GetServerInfo) :
    ∀ x ∈ (nextServerInfo l).2, x ∈ l := by
  cases l with
  | nil => simp [nextServerInfo]
  | cons a rest =>
    intro x hx
    exact List.mem_cons_of_mem _ hx

/-- What one `fetchServerInfo` call does while the application is not
quitting: it returns a document of the list and emits nothing, or it ends in
its `catch (...)` and returns the empty string, having emitted
`computerAddCompleted(false, ...)` unless the task comes from mDNS. -/
theorem fetchServerInfo_outcome (task : Task) (env : Surroundings) (p : Progress)
    (hq : env.m_AboutToQuit p.fetches = false) :
    (fetchServerInfo task env p).2.fetches = p.fetches + 1 ∧
    (∀ x ∈ (fetchServerInfo task env p).2.getServerInfo, x ∈ p.getServerInfo) ∧
    ((GetServerInfo.document (fetchServerInfo task env p).1 ∈ p.getServerInfo ∧
        (fetchServerInfo task env p).2.signals = p.signals ∧
        (fetchServerInfo task env p).2.fetchFailed = p.fetchFailed) ∨
      ((fetchServerInfo task env p).1 = "" ∧
        (fetchServerInfo task env p).2.fetchFailed = true ∧
        (fetchServerInfo task env p).2.signals = p.signals ++
          (if task.m_Mdns then []
            else [Signal.computerAddCompleted false env.detectedPortBlocking]))) := by
  have hfail : ∀ q : Progress,
      (fetchFailure task env q).1 = "" ∧ (fetchFailure task env q).2.fetchFailed = true ∧
      (fetchFailure task env q).2.fetches = q.fetches ∧
      (fetchFailure task env q).2.getServerInfo = q.getServerInfo ∧
      (fetchFailure task env q).2.signals = q.signals ++
        (if task.m_Mdns then []
          else [Signal.computerAddCompleted false env.detectedPortBlocking]) := by
    intro q
    unfold fetchFailure
    cases task.m_Mdns <;> simp
  unfold fetchServerInfo
  simp only [hq, Bool.false_eq_true, if_false]
  cases h1 : (nextServerInfo p.getServerInfo).1 with
  | document s =>
    simp only
    exact ⟨by first | rfl | trivial, nextServerInfo_subset _,
      Or.inl ⟨(nextServerInfo_mem _ s h1).1, by first | rfl | trivial, by first | rfl | trivial⟩⟩
  | otherException =>
    simp only
    obtain ⟨f1, f2, f3, f4, f5⟩ := hfail
      { getServerInfo := (nextServerInfo p.getServerInfo).2, fetches := p.fetches + 1,
        signals := p.signals, fetchFailed := p.fetchFailed }
    refine ⟨f3, ?_, Or.inr ⟨f1, f2, f5⟩⟩
    rw [f4]
    exact nextServerInfo_subset _
  | serviceUnavailable =>
    simp only
    cases h2 : (nextServerInfo (nextServerInfo p.getServerInfo).2).1 with
    | document s =>
      simp only
      refine ⟨by first | rfl | trivial, ?_,
        Or.inl ⟨?_, by first | rfl | trivial, by first | rfl | trivial⟩⟩
      · intro x hx
        exact nextServerInfo_subset _ x (nextServerInfo_subset _ x hx)
      · exact nextServerInfo_subset _ _ (nextServerInfo_mem _ s h2).1
    | otherException =>
      simp only
      obtain ⟨f1, f2, f3, f4, f5⟩ := hfail
        { getServerInfo := (nextServerInfo (nextServerInfo p.getServerInfo).2).2,
          fetches := p.fetches + 1, signals := p.signals, fetchFailed := p.fetchFailed }
      refine ⟨f3, ?_, Or.inr ⟨f1, f2, f5⟩⟩
      rw [f4]
      intro x hx
      exact nextServerInfo_subset _ x (nextServerInfo_subset _ x hx)
    | serviceUnavailable =>
      simp only
      obtain ⟨f1, f2, f3, f4, f5⟩ := hfail
        { getServerInfo := (nextServerInfo (nextServerInfo p.getServerInfo).2).2,
          fetches := p.fetches + 1, signals := p.signals, fetchFailed := p.fetchFailed }
      refine ⟨f3, ?_, Or.inr ⟨f1, f2, f5⟩⟩
      rw [f4]
      intro x hx
      exact nextServerInfo_subset _ x (nextServerInfo_subset _ x hx)

theorem fetchServerInfo_mdns_signals (task : Task) (env : Surroundings) (p : Progress)
    (hm : task.m_Mdns = true) : (fetchServerInfo task env p).2.signals = p.signals := by
  have hfail : ∀ q : Progress, (fetchFailure task env q).2.signals = q.signals := by
    intro q
    unfold fetchFailure
    simp [hm]
  unfold fetchServerInfo
  simp only
  split
  · rfl
  · split
    · rfl
    · split
      · rfl
      · exact hfail _
    · exact hfail _

theorem store_mdns_filter (task : Task) (env : Surroundings) (newComputer : Nat)
    (p : Progress) (hm : task.m_Mdns = true) :
    (store task env newComputer p).signals.filter Signal.isAddCompleted =
      p.signals.filter Signal.isAddCompleted := by
  unfold store
  simp only [hm, Bool.not_true, Bool.false_eq_true, if_false, List.append_nil]
  split
  · cases env.changed <;> simp [List.filter_append, Signal.isAddCompleted]
  · simp [List.filter_append, Signal.isAddCompleted]

theorem store_manual (task : Task) (env : Surroundings) (newComputer : Nat) (p : Progress)
    (hm : task.m_Mdns = false) :
    (store task env newComputer p).registry ≠ .untouched ∧
    (store task env newComputer p).fetchFailed = p.fetchFailed ∧
    (store task env newComputer p).signals.filter Signal.isAddCompleted =
      p.signals.filter Signal.isAddCompleted ++ [.computerAddCompleted true false] := by
  unfold store
  simp only [hm, Bool.not_false, if_true]
  split
  · refine ⟨by simp, rfl, ?_⟩
    cases env.changed <;> simp [List.filter_append, Signal.isAddCompleted]
  · refine ⟨by simp, rfl, ?_⟩
    simp [List.filter_append, Signal.isAddCompleted]

theorem run_mdns_filter (task : Task) (env : Surroundings) (hm : task.m_Mdns = true) :
    (run task env).signals.filter Signal.isAddCompleted = [] := by
  unfold run
  simp only []
  split_ifs <;>
    simp only [giveUp, store_mdns_filter _ _ _ _ hm, fetchServerInfo_mdns_signals _ _ _ hm,
      List.filter_nil]

theorem fetchServerInfo_manual (task : Task) (env : Surroundings) (p : Progress)
    (hm : task.m_Mdns = false) (hq : env.m_AboutToQuit p.fetches = false)
    (hdoc : ∀ s, GetServerInfo.document s ∈ p.getServerInfo → s.isEmpty = false) :
    (fetchServerInfo task env p).2.fetches = p.fetches + 1 ∧
    (∀ s, GetServerInfo.document s ∈ (fetchServerInfo task env p).2.getServerInfo →
      s.isEmpty = false) ∧
    (((fetchServerInfo task env p).1.isEmpty = false ∧
        (fetchServerInfo task env p).2.signals = p.signals ∧
        (fetchServerInfo task env p).2.fetchFailed = p.fetchFailed) ∨
      ((fetchServerInfo task env p).1.isEmpty = true ∧
        (fetchServerInfo task env p).2.fetchFailed = true ∧
        (fetchServerInfo task env p).2.signals = p.signals ++
          [Signal.computerAddCompleted false env.detectedPortBlocking])) := by
  obtain ⟨h1, h2, h3⟩ := fetchServerInfo_outcome task env p hq
  refine ⟨h1, fun s hs => hdoc s (h2 _ hs), ?_⟩
  rcases h3 with ⟨hd, hs, hf⟩ | ⟨he, hf, hs⟩
  · left
    exact ⟨hdoc _ hd, hs, hf⟩
  · right
    refine ⟨?_, hf, ?_⟩
    · rw [he]
      rfl
    · rw [hs, hm]
      rfl

end PendingAddTask

namespace SessionExec

theorem step_generation (cfg : Config) (s : State) (e : Event) :
    ((step cfg s e).s_ResolutionDialogGeneration = s.s_ResolutionDialogGeneration ∧
      (step cfg s e).dialogs = s.dialogs) ∨
    ((step cfg s e).s_ResolutionDialogGeneration =
        PcMonitorThread.wrapInt32 (s.s_ResolutionDialogGeneration + 1) ∧
      ((step cfg s e).dialogs = s.dialogs ∨
        ∃ w h, (step cfg s e).dialogs = s.dialogs ++
          [{ generation := PcMonitorThread.wrapInt32 (s.s_ResolutionDialogGeneration + 1),
             width := w, height := h }])) := by
  cases e with
  | window event displayIndex mode =>
    simp only [step, handleWindowEvent]
    split
    · split
      · split
        · split
          · right
            exact ⟨rfl, Or.inl rfl⟩
          · split
            · split
              · right
                exact ⟨rfl, Or.inr ⟨_, _, rfl⟩⟩
              · right
                exact ⟨rfl, Or.inr ⟨_, _, rfl⟩⟩
            · left
              exact ⟨rfl, rfl⟩
        · left
          exact ⟨rfl, rfl⟩
      · left
        exact ⟨rfl, rfl⟩
    · left
      exact ⟨rfl, rfl⟩
  | dialogResult ctx buttonid =>
    left
    simp only [step, handleDialogResult]
    split
    · split
      · split <;> exact ⟨rfl, rfl⟩
      · exact ⟨rfl, rfl⟩
    · exact ⟨rfl, rfl⟩

theorem run_append (cfg : Config) (s : State) (pre post : List Event) :
    run cfg s (pre ++ post) = run cfg (run cfg s pre) post := by
  induction pre generalizing s with
  | nil => rfl
  | cons e es ih => exact ih (step cfg s e)

theorem run_generation (cfg : Config) (evs : List Event) :
    ∀ s : State, -2147483648 ≤ s.s_ResolutionDialogGeneration →
      s.s_ResolutionDialogGeneration + evs.length < 2147483648 →
      s.s_ResolutionDialogGeneration ≤ (run cfg s evs).s_ResolutionDialogGeneration ∧
      (run cfg s evs).s_ResolutionDialogGeneration ≤
        s.s_ResolutionDialogGeneration + evs.length ∧
      ∃ opened, (run cfg s evs).dialogs = s.dialogs ++ opened ∧
        opened.Pairwise (fun a b => a.generation < b.generation) ∧
        ∀ d ∈ opened, s.s_ResolutionDialogGeneration < d.generation ∧
          d.generation ≤ (run cfg s evs).s_ResolutionDialogGeneration := by
  induction evs with
  | nil =>
    intro s _ _
    refine ⟨le_refl _, by simp [run], [], by simp [run], List.Pairwise.nil, ?_⟩
    intro d hd
    simp at hd
  | cons e es ih =>
    intro s hlo hhi
    simp only [List.length_cons, Nat.cast_add, Nat.cast_one] at hhi
    have hw : PcMonitorThread.wrapInt32 (s.s_ResolutionDialogGeneration + 1) =
        s.s_ResolutionDialogGeneration + 1 := by
      unfold PcMonitorThread.wrapInt32
      omega
    have hstep := step_generation cfg s e
    rw [hw] at hstep
    simp only [run, List.length_cons, Nat.cast_add, Nat.cast_one]
    rcases hstep with ⟨hg, hd⟩ | ⟨hg, hd⟩
    · obtain ⟨h1, h2, opened, h3, h4, h5⟩ := ih (step cfg s e) (by omega) (by omega)
      refine ⟨by omega, by omega, opened, by rw [h3, hd], h4, ?_⟩
      intro d hdm
      have := h5 d hdm
      omega
    · obtain ⟨h1, h2, opened, h3, h4, h5⟩ := ih (step cfg s e) (by omega) (by omega)
      rcases hd with hd | ⟨w, h, hd⟩
      · refine ⟨by omega, by omega, opened, by rw [h3, hd], h4, ?_⟩
        intro d hdm
        have := h5 d hdm
        omega
      · refine ⟨by omega, by omega,
          { generation := s.s_ResolutionDialogGeneration + 1, width := w, height := h } ::
            opened, by rw [h3, hd]; simp, ?_, ?_⟩
        · refine List.Pairwise.cons ?_ h4
          intro d hdm
          have := h5 d hdm
          show s.s_ResolutionDialogGeneration + 1 < d.generation
          omega
        · intro d hdm
          rcases List.mem_cons.mp hdm with hd1 | hd1
          · subst hd1
            show s.s_ResolutionDialogGeneration < s.s_ResolutionDialogGeneration + 1 ∧
              s.s_ResolutionDialogGeneration + 1 ≤ _
            omega
          · have := h5 d hd1
            omega

/-- C23: over every sequence of window and dialog-result events (short enough for
the `int` counter not to overflow) `s_ResolutionDialogGeneration` never decreases,
the dialogs opened carry strictly increasing generations, all greater than the
counter at the start, and a dialog result whose generation differs from the counter
leaves the state as it is: `m_RestartRequest`, `m_ResolutionDialogPending` and the
number of `interrupt()` calls are unchanged whichever button it reports. -/
theorem resolution_dialog_generation_monotonic (cfg : Config) (s : State)
    (evs : List Event) (hlo : -2147483648 ≤ s.s_ResolutionDialogGeneration)
    (hhi : s.s_ResolutionDialogGeneration + evs.length < 2147483648) :
    (∀ pre post, evs = pre ++ post →
      s.s_ResolutionDialogGeneration ≤ (run cfg s pre).s_ResolutionDialogGeneration ∧
      (run cfg s pre).s_ResolutionDialogGeneration ≤
        (run cfg s evs).s_ResolutionDialogGeneration) ∧
    ((run cfg s evs).dialogs = s.dialogs ++ openedSince s (run cfg s evs) ∧
      (openedSince s (run cfg s evs)).Pairwise (fun a b => a.generation < b.generation) ∧
      ∀ d ∈ openedSince s (run cfg s evs), s.s_ResolutionDialogGeneration < d.generation) ∧
    (∀ (t : State) (ctxReceived : ResolutionDialogContext) (buttonid : Int),
      ctxReceived.generation ≠ t.s_ResolutionDialogGeneration →
      step cfg t (.dialogResult (some ctxReceived) buttonid) = t ∧
      (step cfg t (.dialogResult (some ctxReceived) buttonid)).m_RestartRequest =
        t.m_RestartRequest ∧
      (step cfg t (.dialogResult (some ctxReceived) buttonid)).m_ResolutionDialogPending =
        t.m_ResolutionDialogPending ∧
      (step cfg t (.dialogResult (some ctxReceived) buttonid)).interrupts =
        t.interrupts) := by
  refine ⟨?_, ?_, ?_⟩
  · intro pre post hevs
    subst hevs
    simp only [List.length_append, Nat.cast_add] at hhi
    obtain ⟨h1, h2, -⟩ := run_generation cfg pre s hlo (by omega)
    obtain ⟨h3, -, -⟩ := run_generation cfg post (run cfg s pre) (by omega) (by omega)
    rw [run_append]
    exact ⟨h1, h3⟩
  · obtain ⟨-, -, opened, h3, h4, h5⟩ := run_generation cfg evs s hlo hhi
    have ho : openedSince s (run cfg s evs) = opened := by
      unfold openedSince
      rw [h3]
      simp
    rw [ho]
    exact ⟨h3, h4, fun d hd => (h5 d hd).1⟩
  · intro t ctx buttonid hne
    have h : step cfg t (.dialogResult (some ctx) buttonid) = t := by
      simp only [step, handleDialogResult]
      rw [if_neg]
      simpa using hne
    rw [h]
    exact ⟨rfl, rfl, rfl, rfl⟩

theorem resolution_dialog_generation_monotonic_witness :
    -2147483648 ≤ (start 0 1920 1080).s_ResolutionDialogGeneration ∧
    (start 0 1920 1080).s_ResolutionDialogGeneration + twoChanges.length < 2147483648 ∧
    (run autoConfig (start 0 1920 1080) twoChanges).s_ResolutionDialogGeneration = 2 ∧
    (run autoConfig (start 0 1920 1080) twoChanges).interrupts = 1 ∧
    (openedSince (start 0 1920 1080)
      (run autoConfig (start 0 1920 1080) twoChanges)).Pairwise
        (fun a b => a.generation < b.generation) :=
  ⟨by decide, by decide, by decide, by decide,
    (resolution_dialog_generation_monotonic autoConfig (start 0 1920 1080) twoChanges
      (by decide) (by decide)).2.1.2.1⟩

end SessionExec

namespace Session

open SupportedVideoFormatList

theorem yuv444HdrLayout_limelight : Yuv444HdrLayout limelight where
  formats_nonzero := by decide
  yuv444_within_mask := by
    simp only [land_eq_landEval]
    decide
  av1High10_is_yuv444 := by decide
  av1High10_is_10bit := by decide
  av1High10_not_h265 := by decide
  av1High10_in_av1_or_h265 := by rw [land_eq_landEval, lor_eq_lorEval]; decide
  h265Rext10_is_yuv444 := by decide
  h265Rext10_is_10bit := by decide
  h265Rext10_in_h265 := by rw [land_eq_landEval]; decide
  h264_mask_not_10bit := by decide
  mask10bit_in_h265_or_av1 := by rw [land_eq_landEval, lor_eq_lorEval]; decide

theorem land_eq_zero_of_families {f h a m : Int} (hh : Int.land f (Int.land h m) = 0)
    (ha : Int.land f (Int.land a m) = 0) (hm : Int.land m (Int.lnot (Int.lor h a)) = 0) :
    Int.land f m = 0 := by
  by_contra hne
  obtain ⟨i, hf, hmi⟩ := (land_ne_zero_iff f m).mp hne
  have hw := (land_lnot_eq_zero_iff _ _).mp hm i hmi
  rw [Int.testBit_lor, Bool.or_eq_true] at hw
  rcases hw with hw | hw
  · have := (int_eq_zero_iff_testBit _).mp hh i
    rw [Int.testBit_land, Int.testBit_land, hf, hw, hmi] at this
    simp at this
  · have := (int_eq_zero_iff_testBit _).mp ha i
    rw [Int.testBit_land, Int.testBit_land, hf, hw, hmi] at this
    simp at this

theorem land_land_eq_zero {f h : Int} (m : Int) (hh : Int.land f h = 0) :
    Int.land f (Int.land h m) = 0 := by
  rw [int_eq_zero_iff_testBit] at hh ⊢
  intro i
  have := hh i
  rw [Int.testBit_land] at this
  rw [Int.testBit_land, Int.testBit_land, ← Bool.and_assoc, this, Bool.false_and]

theorem land_eq_zero_of_within_disjoint {f h m : Int} (hf : Int.land f (Int.lnot h) = 0)
    (hd : Int.land h m = 0) : Int.land f m = 0 := by
  by_contra hne
  obtain ⟨i, hfi, hmi⟩ := (land_ne_zero_iff f m).mp hne
  have hw := (land_lnot_eq_zero_iff _ _).mp hf i hfi
  have := (int_eq_zero_iff_testBit _).mp hd i
  rw [Int.testBit_land, hw, hmi] at this
  simp at this

theorem land_lnot_ne_zero_of_land_eq_zero {f m : Int} (hf : f ≠ 0) (h : Int.land f m = 0) :
    Int.land f (Int.lnot m) ≠ 0 := by
  intro h2
  apply hf
  rw [int_eq_zero_iff_testBit] at h h2 ⊢
  intro i
  have a := h i
  have b := h2 i
  rw [Int.testBit_land] at a b
  rw [Int.testBit_lnot] at b
  cases hfi : Int.testBit f i
  · rfl
  · rw [hfi] at a b
    cases hmi : Int.testBit m i
    · rw [hmi] at b
      simp at b
    · rw [hmi] at a
      simp at a

theorem applyAutoCodecPolicy_formats (K : Limelight) (prefs : Preferences) (env : Environment)
    (st : Launch) :
    ∃ c1 c2 c3 c4 c5 : Bool, (c2 = true → c1 = true) ∧
      (applyAutoCodecPolicy K prefs env st).m_SupportedVideoFormats =
        (fun l5 : List Int => if c5 then removeByMask K.VIDEO_FORMAT_MASK_H265 l5 else l5)
          ((fun l4 : List Int => if c4 then deprioritizeByMask K.VIDEO_FORMAT_MASK_AV1 l4 else l4)
            ((fun l3 : List Int =>
                if c3 then deprioritizeByMask K.VIDEO_FORMAT_MASK_H265 l3 else l3)
              ((fun l2 : List Int =>
                  if c2 then
                    removeByMask (Int.land K.VIDEO_FORMAT_MASK_AV1 K.VIDEO_FORMAT_MASK_10BIT) l2
                  else l2)
                (if c1 then
                  removeByMask (Int.land K.VIDEO_FORMAT_MASK_H265 K.VIDEO_FORMAT_MASK_10BIT)
                    st.m_SupportedVideoFormats
                else st.m_SupportedVideoFormats)))) := by
  unfold applyAutoCodecPolicy
  refine ⟨_, _, _, _, _, ?_, rfl⟩
  intro h
  rw [Bool.and_eq_true] at h
  exact h.1

theorem autoPolicy_mem {K : Limelight} {c1 c2 c3 c4 c5 : Bool} {l : List Int} {f : Int} :
    f ∈ (fun l5 : List Int => if c5 then removeByMask K.VIDEO_FORMAT_MASK_H265 l5 else l5)
          ((fun l4 : List Int => if c4 then deprioritizeByMask K.VIDEO_FORMAT_MASK_AV1 l4 else l4)
            ((fun l3 : List Int =>
                if c3 then deprioritizeByMask K.VIDEO_FORMAT_MASK_H265 l3 else l3)
              ((fun l2 : List Int =>
                  if c2 then
                    removeByMask (Int.land K.VIDEO_FORMAT_MASK_AV1 K.VIDEO_FORMAT_MASK_10BIT) l2
                  else l2)
                (if c1 then
                  removeByMask (Int.land K.VIDEO_FORMAT_MASK_H265 K.VIDEO_FORMAT_MASK_10BIT) l
                else l)))) ↔
      f ∈ l ∧
      (c1 = true → Int.land f (Int.land K.VIDEO_FORMAT_MASK_H265 K.VIDEO_FORMAT_MASK_10BIT) = 0) ∧
      (c2 = true → Int.land f (Int.land K.VIDEO_FORMAT_MASK_AV1 K.VIDEO_FORMAT_MASK_10BIT) = 0) ∧
      (c5 = true → Int.land f K.VIDEO_FORMAT_MASK_H265 = 0) := by
  cases c1 <;> cases c2 <;> cases c3 <;> cases c4 <;> cases c5 <;>
    simp only [if_true, if_false, Bool.false_eq_true, mem_removeByMask_iff,
      mem_deprioritizeByMask, true_implies, false_implies, and_true] <;>
    tauto

theorem candidatesAfterCodecPolicy_mem (K : Limelight) (prefs : Preferences)
    (env : Environment) (width height : Int) (f : Int)
    (h : f ∈ candidatesAfterCodecPolicy K prefs env width height) : f ∈ initialFormats K := by
  unfold candidatesAfterCodecPolicy applyCodecPolicy at h
  cases hcfg : prefs.videoCodecConfig <;> rw [hcfg] at h <;> simp only at h
  · obtain ⟨c1, c2, c3, c4, c5, -, hL⟩ := applyAutoCodecPolicy_formats K prefs env
      { m_SupportedVideoFormats := initialFormats K, m_LaunchWarnings := [],
        width := width, height := height }
    rw [hL] at h
    exact (autoPolicy_mem.mp h).1
  · exact (mem_removeByMask h).1
  · exact (mem_removeByMask h).1
  · exact (mem_removeByMask h).1
  · exact (mem_removeByMask h).1

theorem policy_without_both_has_no_10bit (K : Limelight) (prefs : Preferences)
    (env : Environment) (width height : Int) (hK : Yuv444HdrLayout K)
    (hnone : ∀ f ∈ candidatesAfterCodecPolicy K prefs env width height,
      ¬(Int.land f K.VIDEO_FORMAT_MASK_YUV444 ≠ 0 ∧ Int.land f K.VIDEO_FORMAT_MASK_10BIT ≠ 0)) :
    ∀ f ∈ candidatesAfterCodecPolicy K prefs env width height,
      Int.land f K.VIDEO_FORMAT_MASK_10BIT = 0 := by
  have hA : K.VIDEO_FORMAT_AV1_HIGH10_444 ∈ initialFormats K := by simp [initialFormats]
  have hH : K.VIDEO_FORMAT_H265_REXT10_444 ∈ initialFormats K := by simp [initialFormats]
  have hAbad := fun h => hnone K.VIDEO_FORMAT_AV1_HIGH10_444 h
    ⟨hK.av1High10_is_yuv444, hK.av1High10_is_10bit⟩
  have hHbad := fun h => hnone K.VIDEO_FORMAT_H265_REXT10_444 h
    ⟨hK.h265Rext10_is_yuv444, hK.h265Rext10_is_10bit⟩
  unfold candidatesAfterCodecPolicy applyCodecPolicy at hAbad hHbad ⊢
  intro f hf
  cases hcfg : prefs.videoCodecConfig <;> rw [hcfg] at hAbad hHbad hf <;>
    simp only at hAbad hHbad hf
  · obtain ⟨c1, c2, c3, c4, c5, h21, hL⟩ := applyAutoCodecPolicy_formats K prefs env
      { m_SupportedVideoFormats := initialFormats K, m_LaunchWarnings := [],
        width := width, height := height }
    rw [hL] at hAbad hf
    have hf2 := autoPolicy_mem.mp hf
    cases c2 with
    | false =>
      exact absurd (autoPolicy_mem.mpr ⟨hA, fun _ => land_land_eq_zero _ hK.av1High10_not_h265,
        fun h => absurd h (by simp), fun _ => hK.av1High10_not_h265⟩) hAbad
    | true =>
      exact land_eq_zero_of_families (hf2.2.1 (h21 rfl)) (hf2.2.2.1 rfl)
        hK.mask10bit_in_h265_or_av1
  · exact land_eq_zero_of_within_disjoint (mem_removeByMask hf).2 hK.h264_mask_not_10bit
  · exact absurd (mem_removeByMask_iff.mpr ⟨hH, hK.h265Rext10_in_h265⟩) hHbad
  · exact absurd (mem_removeByMask_iff.mpr ⟨hH, hK.h265Rext10_in_h265⟩) hHbad
  · exact absurd (mem_removeByMask_iff.mpr ⟨hA, hK.av1High10_in_av1_or_h265⟩) hAbad

theorem deprioritize_yuv444_then_10bit {m444 m10 : Int} {l : List Int}
    (hnz : ∀ v ∈ l, v ≠ 0) (h10 : ∀ v ∈ l, Int.land v m10 = 0)
    (hw : ∀ v ∈ l, Int.land v m444 ≠ 0 → Int.land v (Int.lnot m444) = 0)
    (hex : ∃ v ∈ l, Int.land v m444 ≠ 0) :
    deprioritizeByMask (Int.lnot m10) (deprioritizeByMask (Int.lnot m444) l) =
      deprioritizeByMask (Int.lnot m444) l ∧
    ∃ f rest, deprioritizeByMask (Int.lnot m444) l = f :: rest ∧ f ∈ l ∧
      Int.land f m444 ≠ 0 := by
  constructor
  · have hall : ∀ v ∈ deprioritizeByMask (Int.lnot m444) l, Int.land v (Int.lnot m10) ≠ 0 := by
      intro v hv
      have hvl := mem_deprioritizeByMask.mp hv
      exact land_lnot_ne_zero_of_land_eq_zero (hnz v hvl) (h10 v hvl)
    rw [deprioritizeByMask_eq_filter (Int.lnot m10)]
    have h1 : (deprioritizeByMask (Int.lnot m444) l).filter
        (fun v => decide (Int.land v (Int.lnot m10) = 0)) = [] := by
      rw [List.filter_eq_nil_iff]
      intro v hv
      simpa using hall v hv
    have h2 : (deprioritizeByMask (Int.lnot m444) l).filter
        (fun v => decide (Int.land v (Int.lnot m10) ≠ 0)) =
        deprioritizeByMask (Int.lnot m444) l := by
      rw [List.filter_eq_self]
      intro v hv
      simpa using hall v hv
    rw [h1, h2, List.nil_append]
  · obtain ⟨v, hv, hv444⟩ := hex
    rw [deprioritizeByMask_eq_filter]
    have hmem : v ∈ l.filter (fun v => decide (Int.land v (Int.lnot m444) = 0)) := by
      rw [List.mem_filter]
      exact ⟨hv, by simpa using hw v hv hv444⟩
    cases hX : l.filter (fun v => decide (Int.land v (Int.lnot m444) = 0)) with
    | nil =>
      rw [hX] at hmem
      simp at hmem
    | cons g rest =>
      have hg : g ∈ l.filter (fun v => decide (Int.land v (Int.lnot m444) = 0)) := by
        rw [hX]
        exact List.mem_cons_self _ _
      rw [List.mem_filter] at hg
      refine ⟨g, rest ++ l.filter (fun v => decide (Int.land v (Int.lnot m444) ≠ 0)),
        by simp, hg.1, ?_⟩
      intro h0
      exact land_lnot_ne_zero_of_land_eq_zero (hnz g hg.1) h0 (by simpa using hg.2)

/-- C29: with YUV 4:4:4 and HDR enabled, if no candidate left by the codec switch
is both a 4:4:4 and a 10-bit format and some candidate is a 4:4:4 format, then
the list handed to `validateLaunch` is the list after the two deprioritisation
steps and its first entry is a YUV 4:4:4 format that is not a 10-bit format.
Under this premise the codec switch has left no 10-bit format at all, so the
second step moves every candidate and keeps the order of the first step. -/
theorem yuv444_profile_first_when_no_candidate_has_both (K : Limelight)
    (prefs : Preferences) (env : Environment) (width height : Int)
    (hK : Yuv444HdrLayout K) (h444 : prefs.enableYUV444 = true)
    (hhdr : prefs.enableHdr = true)
    (hnone : ∀ f ∈ candidatesAfterCodecPolicy K prefs env width height,
      ¬(Int.land f K.VIDEO_FORMAT_MASK_YUV444 ≠ 0 ∧ Int.land f K.VIDEO_FORMAT_MASK_10BIT ≠ 0))
    (hex : ∃ f ∈ candidatesAfterCodecPolicy K prefs env width height,
      Int.land f K.VIDEO_FORMAT_MASK_YUV444 ≠ 0) :
    (candidatesBeforeValidation K prefs env width height).m_SupportedVideoFormats =
      deprioritizeByMask (Int.lnot K.VIDEO_FORMAT_MASK_10BIT)
        (deprioritizeByMask (Int.lnot K.VIDEO_FORMAT_MASK_YUV444)
          (candidatesAfterCodecPolicy K prefs env width height)) ∧
    (∃ f rest,
      (candidatesBeforeValidation K prefs env width height).m_SupportedVideoFormats =
        f :: rest ∧
      Int.land f K.VIDEO_FORMAT_MASK_YUV444 ≠ 0 ∧ Int.land f K.VIDEO_FORMAT_MASK_10BIT = 0) ∧
    (∀ f ∈ (candidatesBeforeValidation K prefs env width height).m_SupportedVideoFormats,
      Int.land f K.VIDEO_FORMAT_MASK_10BIT = 0) := by
  have h10 := policy_without_both_has_no_10bit K prefs env width height hK hnone
  have hin := candidatesAfterCodecPolicy_mem K prefs env width height
  have hfin : (candidatesBeforeValidation K prefs env width height).m_SupportedVideoFormats =
      deprioritizeByMask (Int.lnot K.VIDEO_FORMAT_MASK_10BIT)
        (deprioritizeByMask (Int.lnot K.VIDEO_FORMAT_MASK_YUV444)
          (candidatesAfterCodecPolicy K prefs env width height)) := by
    simp only [candidatesBeforeValidation, applyHdrPreference, applyYuv444Preference, h444,
      hhdr, Bool.not_true, Bool.false_eq_true, if_false, candidatesAfterCodecPolicy]
  obtain ⟨hsame, f, rest, hcons, hfl, hf444⟩ :=
    deprioritize_yuv444_then_10bit (fun v hv => hK.formats_nonzero v (hin v hv)) h10
      (fun v hv => hK.yuv444_within_mask v (hin v hv)) hex
  refine ⟨hfin, ⟨f, rest, ?_, hf444, h10 f hfl⟩, ?_⟩
  · rw [hfin, hsame, hcons]
  · intro v hv
    rw [hfin, hsame] at hv
    exact h10 v (mem_deprioritizeByMask.mp hv)

theorem yuv444_profile_first_when_no_candidate_has_both_witness :
    candidatesAfterCodecPolicy limelight (autoPreferences true true)
        (uniformEnvironment .None) 1920 1080 =
      [limelight.VIDEO_FORMAT_AV1_HIGH8_444, limelight.VIDEO_FORMAT_AV1_MAIN8,
       limelight.VIDEO_FORMAT_H264_HIGH8_444, limelight.VIDEO_FORMAT_H264,
       limelight.VIDEO_FORMAT_H265_REXT8_444, limelight.VIDEO_FORMAT_H265] ∧
    ∃ f rest,
      (candidatesBeforeValidation limelight (autoPreferences true true)
        (uniformEnvironment .None) 1920 1080).m_SupportedVideoFormats = f :: rest ∧
      Int.land f limelight.VIDEO_FORMAT_MASK_YUV444 ≠ 0 ∧
      Int.land f limelight.VIDEO_FORMAT_MASK_10BIT = 0 := by
  have hL : candidatesAfterCodecPolicy limelight (autoPreferences true true)
      (uniformEnvironment .None) 1920 1080 =
      [limelight.VIDEO_FORMAT_AV1_HIGH8_444, limelight.VIDEO_FORMAT_AV1_MAIN8,
       limelight.VIDEO_FORMAT_H264_HIGH8_444, limelight.VIDEO_FORMAT_H264,
       limelight.VIDEO_FORMAT_H265_REXT8_444, limelight.VIDEO_FORMAT_H265] := by
    simp only [candidatesAfterCodecPolicy, applyCodecPolicy, applyAutoCodecPolicy,
      removeByMask_eq_filter, deprioritizeByMask_eq_filter, land_eq_landEval, lor_eq_lorEval]
    decide
  exact ⟨hL,
    (yuv444_profile_first_when_no_candidate_has_both limelight (autoPreferences true true)
      (uniformEnvironment .None) 1920 1080 yuv444HdrLayout_limelight rfl rfl
      (by rw [hL]; decide) (by rw [hL]; decide)).2.1⟩

end Session

namespace PendingAddTask

theorem fetchServerInfo_eq (task : Task) (env : Surroundings) (p : Progress)
    (hm : task.m_Mdns = false) (hq : env.m_AboutToQuit p.fetches = false) :
    fetchServerInfo task env p =
      if fetchFails p.getServerInfo then
        ("", { getServerInfo := afterFetch p.getServerInfo, fetches := p.fetches + 1,
               signals := p.signals ++
                 [Signal.computerAddCompleted false env.detectedPortBlocking],
               fetchFailed := true })
      else
        (fetchedDocument p.getServerInfo,
          { getServerInfo := afterFetch p.getServerInfo, fetches := p.fetches + 1,
            signals := p.signals, fetchFailed := p.fetchFailed }) := by
  obtain ⟨l, f, sg, ff⟩ := p
  simp only at hq
  unfold fetchServerInfo
  simp only [hq, Bool.false_eq_true, if_false]
  match l with
  | [] => simp [nextServerInfo, fetchFailure, hm, fetchFails, afterFetch]
  | .document d :: rest =>
    simp [nextServerInfo, fetchFails, afterFetch, fetchedDocument]
  | .otherException :: rest =>
    simp [nextServerInfo, fetchFailure, hm, fetchFails, afterFetch]
  | .serviceUnavailable :: [] =>
    simp [nextServerInfo, fetchFailure, hm, fetchFails, afterFetch]
  | .serviceUnavailable :: .document d :: rest =>
    simp [nextServerInfo, fetchFails, afterFetch, fetchedDocument]
  | .serviceUnavailable :: .serviceUnavailable :: rest =>
    simp [nextServerInfo, fetchFailure, hm, fetchFails, afterFetch]
  | .serviceUnavailable :: .otherException :: rest =>
    simp [nextServerInfo, fetchFailure, hm, fetchFails, afterFetch]

theorem fetchedDocument_mem (l : List GetServerInfo) (h : fetchFails l = false) :
    GetServerInfo.document (fetchedDocument l) ∈ l := by
  match l with
  | [] => simp [fetchFails] at h
  | .document d :: rest => simp [fetchedDocument]
  | .otherException :: rest => simp [fetchFails] at h
  | .serviceUnavailable :: [] => simp [fetchFails] at h
  | .serviceUnavailable :: .document d :: rest => simp [fetchedDocument]
  | .serviceUnavailable :: .serviceUnavailable :: rest => simp [fetchFails] at h
  | .serviceUnavailable :: .otherException :: rest => simp [fetchFails] at h

theorem afterFetch_subset (l : List GetServerInfo) : ∀ x ∈ afterFetch l, x ∈ l := by
  intro x hx
  match l with
  | [] => simp [afterFetch] at hx
  | .document d :: rest =>
    simp only [afterFetch] at hx
    exact List.mem_cons_of_mem _ hx
  | .otherException :: rest =>
    simp only [afterFetch] at hx
    exact List.mem_cons_of_mem _ hx
  | .serviceUnavailable :: rest =>
    simp only [afterFetch] at hx
    exact List.mem_cons_of_mem _ (List.mem_of_mem_tail hx)

theorem store_manual_eq (task : Task) (env : Surroundings) (newComputer : Nat) (p : Progress)
    (hm : task.m_Mdns = false) :
    store task env newComputer p =
      { signals := p.signals ++ Signal.computerAddCompleted true false ::
          (if env.known 1 newComputer || env.known 2 newComputer then
            (if env.changed then [Signal.computerStateChanged newComputer] else [])
          else [Signal.computerStateChanged newComputer]),
        registry :=
          if env.known 1 newComputer || env.known 2 newComputer then .folded newComputer
          else .inserted newComputer,
        fetchFailed := p.fetchFailed,
        fetches := p.fetches } := by
  unfold store
  simp only [hm, Bool.not_false, if_true]
  split <;> simp

theorem run_manual_eq (address : NvAddress) (env : Surroundings)
    (hquit : ∀ k, env.m_AboutToQuit k = false)
    (hdoc : ∀ s, GetServerInfo.document s ∈ env.getServerInfo → s.isEmpty = false) :
    run (addNewHostManually address) env =
      if fetchFails env.getServerInfo then
        { signals := [Signal.computerAddCompleted false env.detectedPortBlocking],
          registry := .untouched, fetchFailed := true, fetches := 1 }
      else if env.known 0 (env.uuid (fetchedDocument env.getServerInfo)) then
        if fetchFails (afterFetch env.getServerInfo) then
          { signals := [Signal.computerAddCompleted false env.detectedPortBlocking],
            registry := .untouched, fetchFailed := true, fetches := 2 }
        else
          store (addNewHostManually address) env
            (env.uuid (fetchedDocument env.getServerInfo))
            { getServerInfo := afterFetch (afterFetch env.getServerInfo), fetches := 2,
              signals := [], fetchFailed := false }
      else
        store (addNewHostManually address) env
          (env.uuid (fetchedDocument env.getServerInfo))
          { getServerInfo := afterFetch env.getServerInfo, fetches := 1,
            signals := [], fetchFailed := false } := by
  have hm : (addNewHostManually address).m_Mdns = false := rfl
  have h6 : (addNewHostManually address).m_MdnsIpv6Address.isSome = false := rfl
  generalize addNewHostManually address = task at hm h6 ⊢
  unfold run
  simp only [h6, Bool.and_false, Bool.false_eq_true, if_false]
  rw [fetchServerInfo_eq task env _ hm (hquit _)]
  simp only
  by_cases h1 : fetchFails env.getServerInfo = true
  · simp only [h1, if_true, giveUp]
    have : ("" : String).isEmpty = true := by decide
    simp [this]
  · have h1f : fetchFails env.getServerInfo = false := by simpa using h1
    have hd1 := hdoc _ (fetchedDocument_mem _ h1f)
    simp only [h1f, Bool.false_eq_true, if_false, hd1]
    by_cases hk : env.known 0 (env.uuid (fetchedDocument env.getServerInfo)) = true
    · simp only [hk, if_true]
      rw [fetchServerInfo_eq task env _ hm (hquit _)]
      simp only
      by_cases h2 : fetchFails (afterFetch env.getServerInfo) = true
      · simp only [h2, if_true, giveUp]
        have : ("" : String).isEmpty = true := by decide
        simp [this]
      · have h2f : fetchFails (afterFetch env.getServerInfo) = false := by simpa using h2
        have hd2 := hdoc _ (afterFetch_subset _ _ (fetchedDocument_mem _ h2f))
        simp only [h2f, Bool.false_eq_true, if_false, hd2]
    · simp only [hk, Bool.false_eq_true, if_false, Nat.zero_add]

/-- C30: a task created by `addNewHostManually` that runs while the application
is not quitting, whose answered server-info requests return non-empty documents,
emits `computerAddCompleted` exactly once. What it emits follows from how the
requests end: if the HTTP fetch fails, or the host is known and the pinned HTTPS
re-fetch fails, the only signal is `computerAddCompleted(false, ...)` and the
registry is not touched; otherwise the host is folded into the registry or
inserted, `computerAddCompleted(true, false)` is emitted first and
`computerStateChanged` follows (for a folded host only when `update` reports a
change). So `success` is true exactly when the host was inserted or folded, and
false exactly when a fetch failed. A task with `m_Mdns` set never emits
`computerAddCompleted`. -/
theorem manual_add_emits_computerAddCompleted_once (address : NvAddress)
    (env : Surroundings) (hquit : ∀ k, env.m_AboutToQuit k = false)
    (hdoc : ∀ s, GetServerInfo.document s ∈ env.getServerInfo → s.isEmpty = false) :
    (∃ success detectedPortBlocking,
      (run (addNewHostManually address) env).signals.filter Signal.isAddCompleted =
        [Signal.computerAddCompleted success detectedPortBlocking] ∧
      (success = true ↔ (run (addNewHostManually address) env).registry ≠ .untouched) ∧
      (success = false ↔ (run (addNewHostManually address) env).fetchFailed = true)) ∧
    (fetchFails env.getServerInfo = true →
      run (addNewHostManually address) env =
        { signals := [Signal.computerAddCompleted false env.detectedPortBlocking],
          registry := .untouched, fetchFailed := true, fetches := 1 }) ∧
    (fetchFails env.getServerInfo = false →
      env.known 0 (env.uuid (fetchedDocument env.getServerInfo)) = true →
      fetchFails (afterFetch env.getServerInfo) = true →
      run (addNewHostManually address) env =
        { signals := [Signal.computerAddCompleted false env.detectedPortBlocking],
          registry := .untouched, fetchFailed := true, fetches := 2 }) ∧
    (fetchFails env.getServerInfo = false →
      (env.known 0 (env.uuid (fetchedDocument env.getServerInfo)) = true →
        fetchFails (afterFetch env.getServerInfo) = false) →
      run (addNewHostManually address) env =
        { signals := Signal.computerAddCompleted true false ::
            (if env.known 1 (env.uuid (fetchedDocument env.getServerInfo)) ||
                env.known 2 (env.uuid (fetchedDocument env.getServerInfo)) then
              (if env.changed then
                [Signal.computerStateChanged (env.uuid (fetchedDocument env.getServerInfo))]
              else [])
            else [Signal.computerStateChanged (env.uuid (fetchedDocument env.getServerInfo))]),
          registry :=
            if env.known 1 (env.uuid (fetchedDocument env.getServerInfo)) ||
                env.known 2 (env.uuid (fetchedDocument env.getServerInfo)) then
              .folded (env.uuid (fetchedDocument env.getServerInfo))
            else .inserted (env.uuid (fetchedDocument env.getServerInfo)),
          fetchFailed := false,
          fetches :=
            if env.known 0 (env.uuid (fetchedDocument env.getServerInfo)) then 2 else 1 }) ∧
    (∀ (task : Task) (env2 : Surroundings), task.m_Mdns = true →
      ∀ s ∈ (run task env2).signals, s.isAddCompleted = false) := by
  have hrun := run_manual_eq address env hquit hdoc
  have hst := store_manual_eq (addNewHostManually address) env
    (env.uuid (fetchedDocument env.getServerInfo))
  have hfail : ∀ n : Nat, ∃ success detectedPortBlocking,
      (({ signals := [Signal.computerAddCompleted false env.detectedPortBlocking],
          registry := .untouched, fetchFailed := true, fetches := n } : AddRun).signals.filter
          Signal.isAddCompleted = [Signal.computerAddCompleted success detectedPortBlocking]) ∧
      (success = true ↔
        ({ signals := [Signal.computerAddCompleted false env.detectedPortBlocking],
           registry := .untouched, fetchFailed := true, fetches := n } : AddRun).registry ≠
          .untouched) ∧
      (success = false ↔
        ({ signals := [Signal.computerAddCompleted false env.detectedPortBlocking],
           registry := .untouched, fetchFailed := true, fetches := n } : AddRun).fetchFailed =
          true) := by
    intro n
    exact ⟨false, env.detectedPortBlocking, by simp [Signal.isAddCompleted], by simp, by simp⟩
  have hok : ∀ p : Progress, p.signals = [] → p.fetchFailed = false →
      ∃ success detectedPortBlocking,
      ((store (addNewHostManually address) env
          (env.uuid (fetchedDocument env.getServerInfo)) p).signals.filter
          Signal.isAddCompleted = [Signal.computerAddCompleted success detectedPortBlocking]) ∧
      (success = true ↔
        (store (addNewHostManually address) env
          (env.uuid (fetchedDocument env.getServerInfo)) p).registry ≠ .untouched) ∧
      (success = false ↔
        (store (addNewHostManually address) env
          (env.uuid (fetchedDocument env.getServerInfo)) p).fetchFailed = true) := by
    intro p hp hf
    obtain ⟨h1, h2, h3⟩ := store_manual (addNewHostManually address) env
      (env.uuid (fetchedDocument env.getServerInfo)) p rfl
    refine ⟨true, false, ?_, ?_, ?_⟩
    · rw [h3, hp]
      rfl
    · simp [h1]
    · rw [h2, hf]
      simp
  refine ⟨?_, ?_, ?_, ?_, ?_⟩
  · rw [hrun]
    split
    · exact hfail 1
    · split
      · split
        · exact hfail 2
        · exact hok _ rfl rfl
      · exact hok _ rfl rfl
  · intro h1
    rw [hrun, if_pos h1]
  · intro h1 hk h2
    rw [hrun, if_neg (by simp [h1]), if_pos hk, if_pos h2]
  · intro h1 h2
    rw [hrun, if_neg (by simp [h1])]
    by_cases hk : env.known 0 (env.uuid (fetchedDocument env.getServerInfo)) = true
    · rw [if_pos hk, if_neg (by simp [h2 hk]), hst _ rfl]
      simp [hk]
    · rw [if_neg hk, hst _ rfl]
      simp [hk]
  · intro task env2 hm s hs
    have h := run_mdns_filter task env2 hm
    cases hE : s.isAddCompleted
    · rfl
    · have : s ∈ (run task env2).signals.filter Signal.isAddCompleted :=
        List.mem_filter.mpr ⟨hs, hE⟩
      rw [h] at this
      simp at this

theorem manual_add_emits_computerAddCompleted_once_witness :
    (∀ k, answeringAfterRetry.m_AboutToQuit k = false) ∧
    (∀ s, GetServerInfo.document s ∈ answeringAfterRetry.getServerInfo →
      s.isEmpty = false) ∧
    run (addNewHostManually 7) answeringAfterRetry =
      { signals := [Signal.computerAddCompleted true false, Signal.computerStateChanged 10],
        registry := .inserted 10, fetchFailed := false, fetches := 1 } ∧
    run (addNewHostManually 7) failingOnRefetch =
      { signals := [Signal.computerAddCompleted false true],
        registry := .untouched, fetchFailed := true, fetches := 2 } :=
  ⟨fun _ => rfl,
    fun s hs => by
      simp only [answeringAfterRetry, List.mem_cons, List.mem_singleton, reduceCtorEq,
        GetServerInfo.document.injEq, false_or, List.not_mem_nil, or_false] at hs
      subst hs
      decide,
    ((manual_add_emits_computerAddCompleted_once 7 answeringAfterRetry (fun _ => rfl)
      (fun s hs => by
        simp only [answeringAfterRetry, List.mem_cons, List.mem_singleton, reduceCtorEq,
          GetServerInfo.document.injEq, false_or, List.not_mem_nil, or_false] at hs
        subst hs
        decide)).2.2.2.1 (by decide) (fun h => absurd h (by decide))).trans (by decide),
    (manual_add_emits_computerAddCompleted_once 7 failingOnRefetch (fun _ => rfl)
      (fun s hs => by
        simp only [failingOnRefetch, List.mem_cons, List.mem_singleton, reduceCtorEq,
          GetServerInfo.document.injEq, false_or, List.not_mem_nil, or_false] at hs
        subst hs
        decide)).2.2.1 (by decide) (by decide) (by decide)⟩

end PendingAddTask

namespace PcMonitorThread

theorem earlierPasses_zero (m_Computer : NvComputer) : earlierPasses m_Computer 0 = [] := by
  simp [earlierPasses]

theorem earlierPasses_one (m_Computer : NvComputer) :
    earlierPasses m_Computer 1 = m_Computer.uniqueAddresses.map (fun a => (0, a)) := by
  simp [earlierPasses, List.range_succ]

theorem earlierPasses_two (m_Computer : NvComputer) :
    earlierPasses m_Computer 2 =
      m_Computer.uniqueAddresses.map (fun a => (0, a)) ++
        m_Computer.uniqueAddresses.map (fun a => (1, a)) := by
  simp [earlierPasses, List.range_succ]

theorem pollAddresses_skip_failures (ops : NvComputerOps) (cycle : Cycle) (i : Nat)
    (rest : List NvAddress) :
    ∀ (pre : List NvAddress) (s : Probing),
      (∀ b ∈ pre, cycle.isInterruptionRequested i b = false ∧
        probeFails cycle s.m_Computer.uuid i b = true) →
      pollAddresses ops cycle i (pre ++ rest) s =
        pollAddresses ops cycle i rest
          { s with polled := s.polled ++ pre.map (fun a => (i, a)) } := by
  intro pre
  induction pre with
  | nil =>
    intro s _
    simp
  | cons b pre ih =>
    intro s h
    have hb := h b (List.mem_cons_self _ _)
    rw [List.cons_append, pollAddresses]
    simp only [hb.1, Bool.false_eq_true, if_false]
    have ht := tryPollComputer_fails ops cycle i b
      { s with polled := s.polled ++ [(i, b)] } hb.2
    rw [ht]
    simp only [Bool.false_eq_true, if_false]
    rw [ih { s with polled := s.polled ++ [(i, b)] }
      (fun c hc => h c (List.mem_cons_of_mem _ hc))]
    simp

theorem pollAddresses_all_fail (ops : NvComputerOps) (cycle : Cycle) (i : Nat)
    (l : List NvAddress) (s : Probing)
    (h : ∀ b ∈ l, cycle.isInterruptionRequested i b = false ∧
      probeFails cycle s.m_Computer.uuid i b = true) :
    pollAddresses ops cycle i l s =
      { s with polled := s.polled ++ l.map (fun a => (i, a)) } := by
  have := pollAddresses_skip_failures ops cycle i [] l s h
  rw [List.append_nil] at this
  rw [this, pollAddresses]

theorem pollAddresses_interrupted (ops : NvComputerOps) (cycle : Cycle) (i : Nat)
    (pre : List NvAddress) (a : NvAddress) (post : List NvAddress) (s : Probing)
    (h : ∀ b ∈ pre, cycle.isInterruptionRequested i b = false ∧
      probeFails cycle s.m_Computer.uuid i b = true)
    (ha : cycle.isInterruptionRequested i a = true) :
    pollAddresses ops cycle i (pre ++ a :: post) s =
      { s with polled := s.polled ++ pre.map (fun a => (i, a)), returned := true } := by
  rw [pollAddresses_skip_failures ops cycle i (a :: post) pre s h, pollAddresses]
  simp only [ha, if_true]

theorem pollAddresses_first_success (ops : NvComputerOps) (cycle : Cycle) (i : Nat)
    (pre : List NvAddress) (a : NvAddress) (post : List NvAddress) (s : Probing)
    (h : ∀ b ∈ pre, cycle.isInterruptionRequested i b = false ∧
      probeFails cycle s.m_Computer.uuid i b = true)
    (ha : cycle.isInterruptionRequested i a = false)
    (hf : probeFails cycle s.m_Computer.uuid i a = false) :
    (pollAddresses ops cycle i (pre ++ a :: post) s).online = true ∧
    (pollAddresses ops cycle i (pre ++ a :: post) s).returned = s.returned ∧
    (pollAddresses ops cycle i (pre ++ a :: post) s).passes = s.passes ∧
    (pollAddresses ops cycle i (pre ++ a :: post) s).polled =
      s.polled ++ pre.map (fun a => (i, a)) ++ [(i, a)] ∧
    ∃ newState, cycle.getServerInfo i a = some newState ∧
      (pollAddresses ops cycle i (pre ++ a :: post) s).m_Computer =
        (ops.update s.m_Computer newState).1 := by
  rw [pollAddresses_skip_failures ops cycle i (a :: post) pre s h, pollAddresses]
  simp only [ha, Bool.false_eq_true, if_false]
  have ht := tryPollComputer_succeeds ops cycle i a
    { s with polled := s.polled ++ pre.map (fun a => (i, a)) ++ [(i, a)] } hf
  simp only at ht
  rw [if_pos ht.1]
  refine ⟨rfl, ht.2.2.2, ht.2.2.1, ht.2.1, ?_⟩
  unfold probeFails at hf
  cases hg : cycle.getServerInfo i a with
  | none =>
    rw [hg] at hf
    exact absurd hf (by simp)
  | some newState =>
    rw [hg] at hf
    simp only [decide_eq_false_iff_not, ne_eq, not_not] at hf
    refine ⟨newState, rfl, ?_⟩
    simp [tryPollComputer, hf]

theorem tries_cases (m_Computer : NvComputer) :
    (m_Computer.state = .CS_ONLINE ∧ tries m_Computer = 2) ∨
    (m_Computer.state ≠ .CS_ONLINE ∧ tries m_Computer = 1) := by
  unfold tries
  by_cases h : m_Computer.state = .CS_ONLINE
  · exact Or.inl ⟨h, by simp [h, TRIES_BEFORE_OFFLINING]⟩
  · exact Or.inr ⟨h, by simp [h]⟩

theorem firstPass_all_fail (ops : NvComputerOps) (cycle : Cycle) (m_Computer : NvComputer)
    (h : ∀ b ∈ m_Computer.uniqueAddresses, cycle.isInterruptionRequested 0 b = false ∧
      probeFails cycle m_Computer.uuid 0 b = true) :
    pollAddresses ops cycle 0 m_Computer.uniqueAddresses
        { m_Computer := m_Computer, stateChanged := false, online := false,
          returned := false, polled := [], passes := 1 } =
      { m_Computer := m_Computer, stateChanged := false, online := false,
        returned := false, polled := m_Computer.uniqueAddresses.map (fun a => (0, a)),
        passes := 1 } := by
  rw [pollAddresses_all_fail ops cycle 0 _ _ h]
  simp

theorem probeLoops_second_pass (ops : NvComputerOps) (cycle : Cycle) (m_Computer : NvComputer)
    (hst : m_Computer.state = .CS_ONLINE)
    (h : ∀ b ∈ m_Computer.uniqueAddresses, cycle.isInterruptionRequested 0 b = false ∧
      probeFails cycle m_Computer.uuid 0 b = true) :
    probeLoops ops cycle m_Computer =
      pollAddresses ops cycle 1 m_Computer.uniqueAddresses
        { m_Computer := m_Computer, stateChanged := false, online := false,
          returned := false, polled := m_Computer.uniqueAddresses.map (fun a => (0, a)),
          passes := 2 } := by
  rw [probeLoops_online ops cycle m_Computer hst, firstPass_all_fail ops cycle m_Computer h]
  simp only [Bool.or_self, Bool.false_eq_true, if_false]

theorem probeLoops_first_pass (ops : NvComputerOps) (cycle : Cycle) (m_Computer : NvComputer)
    (h : (pollAddresses ops cycle 0 m_Computer.uniqueAddresses
        { m_Computer := m_Computer, stateChanged := false, online := false,
          returned := false, polled := [], passes := 1 }).online = true ∨
      (pollAddresses ops cycle 0 m_Computer.uniqueAddresses
        { m_Computer := m_Computer, stateChanged := false, online := false,
          returned := false, polled := [], passes := 1 }).returned = true ∨
      m_Computer.state ≠ .CS_ONLINE) :
    probeLoops ops cycle m_Computer =
      pollAddresses ops cycle 0 m_Computer.uniqueAddresses
        { m_Computer := m_Computer, stateChanged := false, online := false,
          returned := false, polled := [], passes := 1 } := by
  by_cases hst : m_Computer.state = .CS_ONLINE
  · rw [probeLoops_online ops cycle m_Computer hst]
    rcases h with h | h | h
    · rw [h]
      simp
    · rw [h]
      simp
    · exact absurd hst h
  · exact probeLoops_not_online ops cycle m_Computer hst

/-- A probe that succeeds after failures only ends the probe loops. -/
theorem probeLoops_first_success (ops : NvComputerOps) (cycle : Cycle)
    (m_Computer : NvComputer) (i : Nat) (pre : List NvAddress) (a : NvAddress)
    (post : List NvAddress) (hi : i < tries m_Computer)
    (hA : m_Computer.uniqueAddresses = pre ++ a :: post)
    (hearlier : ∀ j < i, ∀ b ∈ m_Computer.uniqueAddresses,
      cycle.isInterruptionRequested j b = false ∧
      probeFails cycle m_Computer.uuid j b = true)
    (hpre : ∀ b ∈ pre, cycle.isInterruptionRequested i b = false ∧
      probeFails cycle m_Computer.uuid i b = true)
    (ha : cycle.isInterruptionRequested i a = false)
    (hf : probeFails cycle m_Computer.uuid i a = false) :
    (probeLoops ops cycle m_Computer).online = true ∧
    (probeLoops ops cycle m_Computer).returned = false ∧
    (probeLoops ops cycle m_Computer).passes = i + 1 ∧
    (probeLoops ops cycle m_Computer).polled =
      earlierPasses m_Computer i ++ pre.map (fun a => (i, a)) ++ [(i, a)] ∧
    ∃ newState, cycle.getServerInfo i a = some newState ∧
      (probeLoops ops cycle m_Computer).m_Computer =
        (ops.update m_Computer newState).1 := by
  have hi2 : i = 0 ∨ (i = 1 ∧ m_Computer.state = .CS_ONLINE) := by
    rcases tries_cases m_Computer with ⟨h1, h2⟩ | ⟨h1, h2⟩
    · rcases Nat.lt_or_ge i 1 with h | h
      · exact Or.inl (by omega)
      · exact Or.inr ⟨by omega, h1⟩
    · exact Or.inl (by omega)
  rcases hi2 with rfl | ⟨rfl, hst⟩
  · have h1 := pollAddresses_first_success ops cycle 0 pre a post
      { m_Computer := m_Computer, stateChanged := false, online := false,
        returned := false, polled := [], passes := 1 } hpre ha hf
    rw [← hA] at h1
    rw [probeLoops_first_pass ops cycle m_Computer (Or.inl h1.1), earlierPasses_zero]
    exact ⟨h1.1, h1.2.1, h1.2.2.1, h1.2.2.2.1, h1.2.2.2.2⟩
  · have h1 := pollAddresses_first_success ops cycle 1 pre a post
      { m_Computer := m_Computer, stateChanged := false, online := false,
        returned := false, polled := m_Computer.uniqueAddresses.map (fun a => (0, a)),
        passes := 2 } hpre ha hf
    rw [← hA] at h1
    rw [probeLoops_second_pass ops cycle m_Computer hst (hearlier 0 (by omega)),
      earlierPasses_one]
    exact ⟨h1.1, h1.2.1, h1.2.2.1, h1.2.2.2.1, h1.2.2.2.2⟩

/-- An interruption request after failures only ends the probe loops, and
`run` returns. -/
theorem probeLoops_interrupted (ops : NvComputerOps) (cycle : Cycle)
    (m_Computer : NvComputer) (i : Nat) (pre : List NvAddress) (a : NvAddress)
    (post : List NvAddress) (hi : i < tries m_Computer)
    (hA : m_Computer.uniqueAddresses = pre ++ a :: post)
    (hearlier : ∀ j < i, ∀ b ∈ m_Computer.uniqueAddresses,
      cycle.isInterruptionRequested j b = false ∧
      probeFails cycle m_Computer.uuid j b = true)
    (hpre : ∀ b ∈ pre, cycle.isInterruptionRequested i b = false ∧
      probeFails cycle m_Computer.uuid i b = true)
    (ha : cycle.isInterruptionRequested i a = true) :
    (probeLoops ops cycle m_Computer).online = false ∧
    (probeLoops ops cycle m_Computer).returned = true ∧
    (probeLoops ops cycle m_Computer).passes = i + 1 ∧
    (probeLoops ops cycle m_Computer).polled =
      earlierPasses m_Computer i ++ pre.map (fun a => (i, a)) := by
  have hi2 : i = 0 ∨ (i = 1 ∧ m_Computer.state = .CS_ONLINE) := by
    rcases tries_cases m_Computer with ⟨h1, h2⟩ | ⟨h1, h2⟩
    · rcases Nat.lt_or_ge i 1 with h | h
      · exact Or.inl (by omega)
      · exact Or.inr ⟨by omega, h1⟩
    · exact Or.inl (by omega)
  rcases hi2 with rfl | ⟨rfl, hst⟩
  · have h1 := pollAddresses_interrupted ops cycle 0 pre a post
      { m_Computer := m_Computer, stateChanged := false, online := false,
        returned := false, polled := [], passes := 1 } hpre ha
    rw [← hA] at h1
    rw [probeLoops_first_pass ops cycle m_Computer (Or.inr (Or.inl (by rw [h1]))),
      earlierPasses_zero, h1]
    exact ⟨rfl, rfl, rfl, rfl⟩
  · have h1 := pollAddresses_interrupted ops cycle 1 pre a post
      { m_Computer := m_Computer, stateChanged := false, online := false,
        returned := false, polled := m_Computer.uniqueAddresses.map (fun a => (0, a)),
        passes := 2 } hpre ha
    rw [← hA] at h1
    rw [probeLoops_second_pass ops cycle m_Computer hst (hearlier 0 (by omega)),
      earlierPasses_one, h1]
    exact ⟨rfl, rfl, rfl, rfl⟩

/-- When every probe of every pass fails and no interruption is requested, the
probe loops make all their passes and leave the record as it was. -/
theorem probeLoops_all_fail (ops : NvComputerOps) (cycle : Cycle) (m_Computer : NvComputer)
    (h : ∀ j < tries m_Computer, ∀ b ∈ m_Computer.uniqueAddresses,
      cycle.isInterruptionRequested j b = false ∧
      probeFails cycle m_Computer.uuid j b = true) :
    probeLoops ops cycle m_Computer =
      { m_Computer := m_Computer, stateChanged := false, online := false,
        returned := false, polled := earlierPasses m_Computer (tries m_Computer),
        passes := tries m_Computer } := by
  rcases tries_cases m_Computer with ⟨hst, ht⟩ | ⟨hst, ht⟩
  · rw [ht] at h ⊢
    rw [probeLoops_second_pass ops cycle m_Computer hst (h 0 (by omega)),
      pollAddresses_all_fail ops cycle 1 _ _ (h 1 (by omega)), earlierPasses_two]
  · rw [ht] at h ⊢
    rw [probeLoops_first_pass ops cycle m_Computer (Or.inr (Or.inr hst)),
      firstPass_all_fail ops cycle m_Computer (h 0 (by omega)), earlierPasses_one]

theorem runCycle_hostAtCheck (ops : NvComputerOps) (cycle : Cycle) (polls : Int)
    (m_Computer : NvComputer) (h : (probeLoops ops cycle m_Computer).returned = false) :
    (runCycle ops cycle polls m_Computer).hostAtCheck =
      hostAfterProbes (probeLoops ops cycle m_Computer) := by
  unfold runCycle
  simp only [h, Bool.false_eq_true, if_false]
  split <;> rfl

theorem runCycle_all_fail (ops : NvComputerOps) (cycle : Cycle) (polls : Int)
    (m_Computer : NvComputer) (l : List (Nat × NvAddress)) (n : Nat)
    (h : probeLoops ops cycle m_Computer =
      { m_Computer := m_Computer, stateChanged := false, online := false,
        returned := false, polled := l, passes := n }) :
    (runCycle ops cycle polls m_Computer).m_Computer =
      { m_Computer with state := .CS_OFFLINE } ∧
    (runCycle ops cycle polls m_Computer).appListFetchAttempted = false ∧
    ((runCycle ops cycle polls m_Computer).markedOffline = true ↔
      m_Computer.state ≠ .CS_OFFLINE) ∧
    (runCycle ops cycle polls m_Computer).computerStateChanged =
      (if m_Computer.state = .CS_OFFLINE then 0 else 1) := by
  unfold runCycle
  simp only [h, Bool.false_eq_true, if_false]
  obtain ⟨uuid, state, pairState, appList, uniqueAddresses⟩ := m_Computer
  cases state <;> simp [hostAfterProbes, markOffline, appListDue]

/-- C26: in one polling cycle, a host that is online at the start of the cycle
is marked offline only after `TRIES_BEFORE_OFFLINING = 2` passes over all of its
unique addresses in which every probe failed; a host that is not online gets
exactly one pass, which goes over all addresses when no probe succeeds; and in
either case a probe that succeeds is the last probe of the cycle, comes after
failed probes only, and the host is not marked offline in that cycle.

The last three parts say what the cycle does for given answers of the host. A
probe that succeeds (in a pass `i` below `wasOnline ? TRIES_BEFORE_OFFLINING : 1`,
after complete failed passes and failed probes of the addresses before it) sets
`online`, is the last probe, and the host is not marked offline: the record is
what `update` made of it. An interruption request at that point makes `run`
return without marking the host offline. When every probe of every pass fails,
all passes are made over all addresses (two for a host that was online, one
otherwise) and the host ends the cycle in `CS_OFFLINE`, the assignment being
made unless it was in that state already. -/
theorem offline_only_after_every_pass_failed (ops : NvComputerOps) (cycle : Cycle)
    (polls : Int) (m_Computer : NvComputer) :
    (m_Computer.state = .CS_ONLINE →
      (runCycle ops cycle polls m_Computer).markedOffline = true →
      (runCycle ops cycle polls m_Computer).passes = TRIES_BEFORE_OFFLINING ∧
      (runCycle ops cycle polls m_Computer).polled =
        m_Computer.uniqueAddresses.map (fun a => (0, a)) ++
          m_Computer.uniqueAddresses.map (fun a => (1, a)) ∧
      ∀ a ∈ m_Computer.uniqueAddresses,
        probeFails cycle m_Computer.uuid 0 a = true ∧
        probeFails cycle m_Computer.uuid 1 a = true) ∧
    (m_Computer.state ≠ .CS_ONLINE →
      (runCycle ops cycle polls m_Computer).passes = 1 ∧
      (runCycle ops cycle polls m_Computer).polled <+:
        m_Computer.uniqueAddresses.map (fun a => (0, a)) ∧
      ((∀ b ∈ m_Computer.uniqueAddresses, cycle.isInterruptionRequested 0 b = false ∧
          probeFails cycle m_Computer.uuid 0 b = true) →
        (runCycle ops cycle polls m_Computer).polled =
          m_Computer.uniqueAddresses.map (fun a => (0, a)) ∧
        (runCycle ops cycle polls m_Computer).online = false)) ∧
    ((runCycle ops cycle polls m_Computer).online = true →
      (runCycle ops cycle polls m_Computer).markedOffline = false ∧
      ∃ earlier i a, (runCycle ops cycle polls m_Computer).polled = earlier ++ [(i, a)] ∧
        probeFails cycle m_Computer.uuid i a = false ∧
        ∀ p ∈ earlier, probeFails cycle m_Computer.uuid p.1 p.2 = true) ∧
    ((runCycle ops cycle polls m_Computer).markedOffline = true →
      (runCycle ops cycle polls m_Computer).online = false ∧
      (runCycle ops cycle polls m_Computer).returned = false ∧
      ∀ p ∈ (runCycle ops cycle polls m_Computer).polled,
        probeFails cycle m_Computer.uuid p.1 p.2 = true) ∧
    (∀ (i : Nat) (pre : List NvAddress) (a : NvAddress) (post : List NvAddress),
      i < tries m_Computer → m_Computer.uniqueAddresses = pre ++ a :: post →
      (∀ j < i, ∀ b ∈ m_Computer.uniqueAddresses,
        cycle.isInterruptionRequested j b = false ∧
        probeFails cycle m_Computer.uuid j b = true) →
      (∀ b ∈ pre, cycle.isInterruptionRequested i b = false ∧
        probeFails cycle m_Computer.uuid i b = true) →
      cycle.isInterruptionRequested i a = false →
      probeFails cycle m_Computer.uuid i a = false →
      (runCycle ops cycle polls m_Computer).online = true ∧
      (runCycle ops cycle polls m_Computer).returned = false ∧
      (runCycle ops cycle polls m_Computer).markedOffline = false ∧
      (runCycle ops cycle polls m_Computer).passes = i + 1 ∧
      (runCycle ops cycle polls m_Computer).polled =
        earlierPasses m_Computer i ++ pre.map (fun b => (i, b)) ++ [(i, a)] ∧
      ∃ newState, cycle.getServerInfo i a = some newState ∧
        (runCycle ops cycle polls m_Computer).hostAtCheck =
          (ops.update m_Computer newState).1) ∧
    (∀ (i : Nat) (pre : List NvAddress) (a : NvAddress) (post : List NvAddress),
      i < tries m_Computer → m_Computer.uniqueAddresses = pre ++ a :: post →
      (∀ j < i, ∀ b ∈ m_Computer.uniqueAddresses,
        cycle.isInterruptionRequested j b = false ∧
        probeFails cycle m_Computer.uuid j b = true) →
      (∀ b ∈ pre, cycle.isInterruptionRequested i b = false ∧
        probeFails cycle m_Computer.uuid i b = true) →
      cycle.isInterruptionRequested i a = true →
      (runCycle ops cycle polls m_Computer).returned = true ∧
      (runCycle ops cycle polls m_Computer).online = false ∧
      (runCycle ops cycle polls m_Computer).markedOffline = false ∧
      (runCycle ops cycle polls m_Computer).passes = i + 1 ∧
      (runCycle ops cycle polls m_Computer).polled =
        earlierPasses m_Computer i ++ pre.map (fun b => (i, b))) ∧
    ((∀ j < tries m_Computer, ∀ b ∈ m_Computer.uniqueAddresses,
        cycle.isInterruptionRequested j b = false ∧
        probeFails cycle m_Computer.uuid j b = true) →
      (runCycle ops cycle polls m_Computer).returned = false ∧
      (runCycle ops cycle polls m_Computer).online = false ∧
      (runCycle ops cycle polls m_Computer).passes = tries m_Computer ∧
      (runCycle ops cycle polls m_Computer).polled =
        earlierPasses m_Computer (tries m_Computer) ∧
      ((runCycle ops cycle polls m_Computer).markedOffline = true ↔
        m_Computer.state ≠ .CS_OFFLINE) ∧
      (runCycle ops cycle polls m_Computer).m_Computer =
        { m_Computer with state := .CS_OFFLINE } ∧
      (runCycle ops cycle polls m_Computer).appListFetchAttempted = false) := by
  have hfields := runCycle_probe_fields ops cycle polls m_Computer
  have hallfail := runCycle_all_fail ops cycle polls m_Computer
  obtain ⟨hret, hon, hpol, hpas, hmark⟩ := runCycle_probe_fields ops cycle polls m_Computer
  obtain ⟨hpasses, hprefix, hcases⟩ := probeLoops_outcome ops cycle m_Computer
  rw [hon, hpol, hpas, hmark, hret]
  have hmo : ∀ h : (!(probeLoops ops cycle m_Computer).returned &&
      markOffline (probeLoops ops cycle m_Computer)) = true,
      (probeLoops ops cycle m_Computer).online = false ∧
      (probeLoops ops cycle m_Computer).returned = false := by
    intro h
    unfold markOffline at h
    simp only [Bool.and_eq_true, Bool.not_eq_true'] at h
    exact ⟨h.2.1, h.1⟩
  refine ⟨?_, ?_, ?_, ?_, ?_, ?_, ?_⟩
  · intro hst hm
    obtain ⟨ho, hr⟩ := hmo hm
    rcases hcases with ⟨h1, h2, h3, h4, h5, h6⟩ | ⟨h1, _⟩ | ⟨_, h2, _⟩
    · rw [if_pos hst] at h4 h5
      refine ⟨h4, h5, ?_⟩
      intro a ha
      constructor
      · exact h6 (0, a) (by rw [h5]; simp [ha])
      · exact h6 (1, a) (by rw [h5]; simp [ha])
    · rw [h1] at ho
      exact absurd ho (by decide)
    · rw [h2] at hr
      exact absurd hr (by decide)
  · intro hst
    have hp := hpasses
    rw [if_neg hst] at hp
    refine ⟨by omega, hprefix hst, ?_⟩
    intro hall
    rw [probeLoops_first_pass ops cycle m_Computer (Or.inr (Or.inr hst)),
      firstPass_all_fail ops cycle m_Computer hall]
    exact ⟨rfl, rfl⟩
  · intro ho
    rcases hcases with ⟨h1, _⟩ | ⟨h1, h2, h3⟩ | ⟨h1, _⟩
    · rw [h1] at ho
      exact absurd ho (by decide)
    · refine ⟨?_, h3⟩
      unfold markOffline
      simp [h1]
    · rw [h1] at ho
      exact absurd ho (by decide)
  · intro hm
    obtain ⟨ho, hr⟩ := hmo hm
    refine ⟨ho, hr, ?_⟩
    rcases hcases with ⟨_, _, _, _, _, h6⟩ | ⟨h1, _⟩ | ⟨_, h2, _⟩
    · exact h6
    · rw [h1] at ho
      exact absurd ho (by decide)
    · rw [h2] at hr
      exact absurd hr (by decide)
  · intro i pre a post hi hA hearlier hpre ha hf
    obtain ⟨h1, h2, h3, h4, newState, h5, h6⟩ := probeLoops_first_success ops cycle
      m_Computer i pre a post hi hA hearlier hpre ha hf
    have hmo : markOffline (probeLoops ops cycle m_Computer) = false := by
      unfold markOffline
      simp [h1]
    refine ⟨h1, h2, by simp [hmo], h3, h4, newState, h5, ?_⟩
    rw [runCycle_hostAtCheck ops cycle polls m_Computer h2, hostAfterProbes, hmo]
    simpa using h6
  · intro i pre a post hi hA hearlier hpre ha
    obtain ⟨h1, h2, h3, h4⟩ := probeLoops_interrupted ops cycle m_Computer i pre a post hi
      hA hearlier hpre ha
    refine ⟨h2, h1, ?_, h3, h4⟩
    simp [h2]
  · intro hall
    have hP := probeLoops_all_fail ops cycle m_Computer hall
    obtain ⟨g1, g2, g3, _⟩ := hallfail _ _ hP
    rw [hP]
    rw [hfields.2.2.2.2, hP] at g3
    exact ⟨rfl, rfl, rfl, rfl, g3, g1, g2⟩

theorem offline_only_after_every_pass_failed_witness :
    ((runCycle storingOps answeringCycle 10 (pairedHost .CS_OFFLINE)).online = true ∧
      (runCycle storingOps answeringCycle 10 (pairedHost .CS_OFFLINE)).markedOffline =
        false ∧
      (runCycle storingOps answeringCycle 10 (pairedHost .CS_OFFLINE)).passes = 1 ∧
      (runCycle storingOps answeringCycle 10 (pairedHost .CS_OFFLINE)).polled =
        [(0, 1), (0, 2)]) ∧
    ((runCycle storingOps answeringOnSecondPass 10 (pairedHost .CS_ONLINE)).online = true ∧
      (runCycle storingOps answeringOnSecondPass 10 (pairedHost .CS_ONLINE)).markedOffline =
        false ∧
      (runCycle storingOps answeringOnSecondPass 10 (pairedHost .CS_ONLINE)).passes = 2 ∧
      (runCycle storingOps answeringOnSecondPass 10 (pairedHost .CS_ONLINE)).polled =
        [(0, 1), (0, 2), (1, 1)]) ∧
    ((runCycle storingOps silentCycle 10 (pairedHost .CS_ONLINE)).markedOffline = true ∧
      (runCycle storingOps silentCycle 10 (pairedHost .CS_ONLINE)).passes = 2 ∧
      (runCycle storingOps silentCycle 10 (pairedHost .CS_ONLINE)).polled =
        [(0, 1), (0, 2), (1, 1), (1, 2)] ∧
      (runCycle storingOps silentCycle 10 (pairedHost .CS_ONLINE)).m_Computer.state =
        .CS_OFFLINE) ∧
    ((runCycle storingOps silentCycle 10 (pairedHost .CS_UNKNOWN)).markedOffline = true ∧
      (runCycle storingOps silentCycle 10 (pairedHost .CS_UNKNOWN)).passes = 1 ∧
      (runCycle storingOps silentCycle 10 (pairedHost .CS_UNKNOWN)).polled =
        [(0, 1), (0, 2)]) := by
  have w1 := (offline_only_after_every_pass_failed storingOps answeringCycle 10
    (pairedHost .CS_OFFLINE)).2.2.2.2.1 0 [1] 2 [] (by decide) rfl (by decide) (by decide)
    (by decide) (by decide)
  have w2 := (offline_only_after_every_pass_failed storingOps answeringOnSecondPass 10
    (pairedHost .CS_ONLINE)).2.2.2.2.1 1 [] 1 [2] (by decide) rfl (by decide) (by decide)
    (by decide) (by decide)
  have w3 := (offline_only_after_every_pass_failed storingOps silentCycle 10
    (pairedHost .CS_ONLINE)).2.2.2.2.2.2 (by decide)
  have w4 := (offline_only_after_every_pass_failed storingOps silentCycle 10
    (pairedHost .CS_UNKNOWN)).2.2.2.2.2.2 (by decide)
  refine ⟨⟨w1.1, w1.2.2.1, w1.2.2.2.1, ?_⟩, ⟨w2.1, w2.2.2.1, w2.2.2.2.1, ?_⟩,
    ⟨w3.2.2.2.2.1.mpr (by decide), w3.2.2.1, ?_, ?_⟩,
    ⟨w4.2.2.2.2.1.mpr (by decide), w4.2.2.1, ?_⟩⟩
  · rw [w1.2.2.2.2.1]
    decide
  · rw [w2.2.2.2.2.1]
    decide
  · rw [w3.2.2.2.1]
    decide
  · rw [w3.2.2.2.2.2.1]
  · rw [w4.2.2.2.1]
    decide

end PcMonitorThread

end DancherLink
